import Mathlib

/-!
# A node of the hash ring: wire codec and owned-range table

A shallow embedding of `node.c` (the wire codec) and `hash_table.c` (the
owned-range table) of the p2p-network node, with the properties of the
specification proved about it.

Conventions of the embedding.

* A `char` buffer is a `List Nat`; every cell holds one byte (a value below 256).
  A pointer `bytes + k` is the pair of the buffer and the offset `k`.
  Storing into a cell narrows the value to 8 bits; reading a cell outside of the
  list yields 0 (the callers are responsible for the buffer being long enough).
* Machine integers are natural numbers; the width of a field is stated by the
  well-formedness predicate of its structure.
* A function that writes through a pointer returns the new content of what it
  points to.
-/

namespace P2P

/-! ## Constants of `pdu.h` -/

/-- Modelled from the spec: `pdu.h` is not among the sources; the ssn is
"exactly 12 bytes". -/
def SSN_LENGTH : Nat := 12

/-- Modelled from the spec: `pdu.h` is not among the sources; a NET_JOIN frame is 14 bytes. -/
def NET_JOIN_BASE_LENGTH : Nat := 14

/-- Modelled from the spec: `pdu.h` is not among the sources; a NET_JOIN_RESPONSE frame is 9 bytes. -/
def NET_JOIN_RESPONSE_BASE_LENGTH : Nat := 9

/-- Modelled from the spec: `pdu.h` is not among the sources; a NET_LEAVING frame is 7 bytes. -/
def NET_LEAVING_BASE_LENGTH : Nat := 7

/-- Modelled from the spec: `pdu.h` is not among the sources; a NET_NEW_RANGE frame is 3 bytes. -/
def NET_NEW_RANGE_BASE_LENGTH : Nat := 3

/-! ## Frames (`pdu.h`)

The field widths are the ones of the wire table of the specification: addresses
are `uint32_t`, ports `uint16_t`, everything else `uint8_t`. -/

/-- Modelled from the spec: `struct NET_JOIN_PDU` (u8 type, u32 src_address,
u16 src_port, u8 max_span, u32 max_address, u16 max_port). -/
structure NET_JOIN_PDU where
  type : Nat
  src_address : Nat
  src_port : Nat
  max_span : Nat
  max_address : Nat
  max_port : Nat
deriving DecidableEq, Repr

/-- Modelled from the spec: `struct NET_JOIN_RESPONSE_PDU` (u8 type, u32
next_address, u16 next_port, u8 range_start, u8 range_end). -/
structure NET_JOIN_RESPONSE_PDU where
  type : Nat
  next_address : Nat
  next_port : Nat
  range_start : Nat
  range_end : Nat
deriving DecidableEq, Repr

/-- Modelled from the spec: `struct NET_LEAVING_PDU` (u8 type, u32 new_address,
u16 new_port). -/
structure NET_LEAVING_PDU where
  type : Nat
  new_address : Nat
  new_port : Nat
deriving DecidableEq, Repr

/-- Modelled from the spec: `struct NET_NEW_RANGE_PDU` (u8 type, u8 range_start,
u8 range_end). -/
structure NET_NEW_RANGE_PDU where
  type : Nat
  range_start : Nat
  range_end : Nat
deriving DecidableEq, Repr

/-- Modelled from the spec: `struct VAL_LOOKUP_PDU` (u8 type, 12 bytes of ssn,
u32 sender_address, u16 sender_port). -/
structure VAL_LOOKUP_PDU where
  type : Nat
  ssn : List Nat
  sender_address : Nat
  sender_port : Nat
deriving DecidableEq, Repr

/-- Modelled from the spec: `struct VAL_REMOVE_PDU` (u8 type, 12 bytes of ssn). -/
structure VAL_REMOVE_PDU where
  type : Nat
  ssn : List Nat
deriving DecidableEq, Repr

/-- Modelled from the spec: `struct VAL_INSERT_PDU` (u8 type, 12 bytes of ssn,
u8 name_length, the name, u8 email_length, the email). `name` and `email` are the
`name_length` and `email_length` bytes the pointers of the structure point to. -/
structure VAL_INSERT_PDU where
  type : Nat
  ssn : List Nat
  name_length : Nat
  name : List Nat
  email_length : Nat
  email : List Nat
deriving DecidableEq, Repr

/-- The values of a byte string fit their cells. -/
def is_bytes (l : List Nat) : Prop := ∀ x ∈ l, x < 256

instance (l : List Nat) : Decidable (is_bytes l) := by
  unfold is_bytes; infer_instance

/-- Field widths of `struct NET_JOIN_PDU`. -/
def NET_JOIN_PDU.wf (s : NET_JOIN_PDU) : Prop :=
  s.type < 2 ^ 8 ∧ s.src_address < 2 ^ 32 ∧ s.src_port < 2 ^ 16 ∧ s.max_span < 2 ^ 8 ∧
    s.max_address < 2 ^ 32 ∧ s.max_port < 2 ^ 16

/-- Field widths of `struct NET_JOIN_RESPONSE_PDU`. -/
def NET_JOIN_RESPONSE_PDU.wf (s : NET_JOIN_RESPONSE_PDU) : Prop :=
  s.type < 2 ^ 8 ∧ s.next_address < 2 ^ 32 ∧ s.next_port < 2 ^ 16 ∧ s.range_start < 2 ^ 8 ∧
    s.range_end < 2 ^ 8

/-- Field widths of `struct NET_LEAVING_PDU`. -/
def NET_LEAVING_PDU.wf (s : NET_LEAVING_PDU) : Prop :=
  s.type < 2 ^ 8 ∧ s.new_address < 2 ^ 32 ∧ s.new_port < 2 ^ 16

/-- Field widths of `struct NET_NEW_RANGE_PDU`. -/
def NET_NEW_RANGE_PDU.wf (s : NET_NEW_RANGE_PDU) : Prop :=
  s.type < 2 ^ 8 ∧ s.range_start < 2 ^ 8 ∧ s.range_end < 2 ^ 8

/-- Field widths of `struct VAL_LOOKUP_PDU`; the ssn is an array of 12 bytes. -/
def VAL_LOOKUP_PDU.wf (s : VAL_LOOKUP_PDU) : Prop :=
  s.type < 2 ^ 8 ∧ s.ssn.length = 12 ∧ is_bytes s.ssn ∧ s.sender_address < 2 ^ 32 ∧
    s.sender_port < 2 ^ 16

/-- Field widths of `struct VAL_REMOVE_PDU`; the ssn is an array of 12 bytes. -/
def VAL_REMOVE_PDU.wf (s : VAL_REMOVE_PDU) : Prop :=
  s.type < 2 ^ 8 ∧ s.ssn.length = 12 ∧ is_bytes s.ssn

/-- Field widths of `struct VAL_INSERT_PDU`, with `name_length` and `email_length`
the lengths of the two strings (so both are at most 255 bytes long). -/
def VAL_INSERT_PDU.wf (s : VAL_INSERT_PDU) : Prop :=
  s.type < 2 ^ 8 ∧ s.ssn.length = 12 ∧ is_bytes s.ssn ∧
    s.name_length < 2 ^ 8 ∧ s.name.length = s.name_length ∧ is_bytes s.name ∧
    s.email_length < 2 ^ 8 ∧ s.email.length = s.email_length ∧ is_bytes s.email

instance (s : NET_JOIN_PDU) : Decidable s.wf := by
  unfold NET_JOIN_PDU.wf; infer_instance

instance (s : NET_JOIN_RESPONSE_PDU) : Decidable s.wf := by
  unfold NET_JOIN_RESPONSE_PDU.wf; infer_instance

instance (s : NET_LEAVING_PDU) : Decidable s.wf := by
  unfold NET_LEAVING_PDU.wf; infer_instance

instance (s : NET_NEW_RANGE_PDU) : Decidable s.wf := by
  unfold NET_NEW_RANGE_PDU.wf; infer_instance

instance (s : VAL_LOOKUP_PDU) : Decidable s.wf := by
  unfold VAL_LOOKUP_PDU.wf; infer_instance

instance (s : VAL_REMOVE_PDU) : Decidable s.wf := by
  unfold VAL_REMOVE_PDU.wf; infer_instance

instance (s : VAL_INSERT_PDU) : Decidable s.wf := by
  unfold VAL_INSERT_PDU.wf; infer_instance

/-! ## Buffer cells -/

/-- The assignment `bytes[i] = v` into a `char` buffer: the value is narrowed to one byte. -/
def store (bytes : List Nat) (i v : Nat) : List Nat :=
  bytes.set i (v % 256)

/-- The read `*(uint8_t*)(bytes + i)` (also `bytes[i]` copied into a `uint8_t`). -/
def load_uint8 (bytes : List Nat) (i : Nat) : Nat :=
  bytes.getD i 0 % 256

/-- The read `*(uint16_t*)(bytes + i)`, on a little-endian host: the byte at the
lower address is the least significant one. -/
def load_uint16 (bytes : List Nat) (i : Nat) : Nat :=
  load_uint8 bytes i + load_uint8 bytes (i + 1) * 2 ^ 8

/-- The read `*(uint32_t*)(bytes + i)`, on a little-endian host. -/
def load_uint32 (bytes : List Nat) (i : Nat) : Nat :=
  load_uint8 bytes i + load_uint8 bytes (i + 1) * 2 ^ 8 + load_uint8 bytes (i + 2) * 2 ^ 16 +
    load_uint8 bytes (i + 3) * 2 ^ 24

/-- The loop `for (i = 0; i < n; i++) dst[i] = pdu[offset + i]` into a fresh array
of byte cells. -/
def load_bytes (pdu : List Nat) (offset n : Nat) : List Nat :=
  (List.range n).map (fun i => load_uint8 pdu (offset + i))

/-! ## `node.c`: serialization helpers -/

/-- The function `serialize_string(bytes + off, s, len)`: `bytes[i] = s[i]` for `i < len`. -/
def serialize_string (bytes : List Nat) (off : Nat) (s : List Nat) (len : Nat) : List Nat :=
  (List.range len).foldl (fun b i => store b (off + i) (s.getD i 0)) bytes

/-- The function `serialize_uint32(bytes + off, s)`. -/
def serialize_uint32 (bytes : List Nat) (off : Nat) (s : Nat) : List Nat :=
  let bytes := store bytes (off + 0) (s &&& 0xFF)
  let bytes := store bytes (off + 1) ((s >>> 8) &&& 0xFF)
  let bytes := store bytes (off + 2) ((s >>> 16) &&& 0xFF)
  store bytes (off + 3) ((s >>> 24) &&& 0xFF)

/-- The function `serialize_uint16(bytes + off, s)`. -/
def serialize_uint16 (bytes : List Nat) (off : Nat) (s : Nat) : List Nat :=
  let bytes := store bytes (off + 0) (s &&& 0xFF)
  store bytes (off + 1) ((s >>> 8) &&& 0xFF)

/-! ## `node.c`: parsing -/

/-- The function `parse_pdu_type`. -/
def parse_pdu_type (bytes : List Nat) : Nat :=
  load_uint8 bytes 0

/-- The function `parse_net_join_response`: the frame and the length of the packet. -/
def parse_net_join_response (type : Nat) (pdu : List Nat) : NET_JOIN_RESPONSE_PDU × Nat :=
  ({ type := type % 256
     next_address := load_uint32 pdu 1
     next_port := load_uint16 pdu 5
     range_start := load_uint8 pdu 7
     range_end := load_uint8 pdu 8 },
   NET_JOIN_RESPONSE_BASE_LENGTH)

/-- The function `parse_net_join`. -/
def parse_net_join (type : Nat) (pdu : List Nat) : NET_JOIN_PDU × Nat :=
  ({ type := type % 256
     src_address := load_uint32 pdu 1
     src_port := load_uint16 pdu 5
     max_span := load_uint8 pdu 7
     max_address := load_uint32 pdu 8
     max_port := load_uint16 pdu 12 },
   NET_JOIN_BASE_LENGTH)

/-- The function `parse_net_leaving`. -/
def parse_net_leaving (type : Nat) (pdu : List Nat) : NET_LEAVING_PDU × Nat :=
  ({ type := type % 256
     new_address := load_uint32 pdu 1
     new_port := load_uint16 pdu 5 },
   NET_LEAVING_BASE_LENGTH)

/-- The function `parse_net_new_range`. -/
def parse_net_new_range (type : Nat) (pdu : List Nat) : NET_NEW_RANGE_PDU × Nat :=
  ({ type := type % 256
     range_start := load_uint8 pdu 1
     range_end := load_uint8 pdu 2 },
   NET_NEW_RANGE_BASE_LENGTH)

/-- The function `parse_val_lookup_pdu`; the returned length is the running `offset`. -/
def parse_val_lookup_pdu (type : Nat) (pdu : List Nat) : VAL_LOOKUP_PDU × Nat :=
  let offset := 1
  let ssn := load_bytes pdu offset SSN_LENGTH
  let offset := offset + SSN_LENGTH
  let sender_address := load_uint32 pdu offset
  let offset := offset + 4
  let sender_port := load_uint16 pdu offset
  let offset := offset + 2
  ({ type := type % 256, ssn := ssn, sender_address := sender_address,
     sender_port := sender_port }, offset)

/-- The function `parse_val_remove_pdu`. -/
def parse_val_remove_pdu (type : Nat) (pdu : List Nat) : VAL_REMOVE_PDU × Nat :=
  let offset := 1
  let ssn := load_bytes pdu offset SSN_LENGTH
  let offset := offset + SSN_LENGTH
  ({ type := type % 256, ssn := ssn }, offset)

/-- The function `parse_val_insert_pdu`. The two strings are allocated with one
more (zero) cell than their length; the frame holds the `name_length` and
`email_length` bytes copied from the buffer. -/
def parse_val_insert_pdu (type : Nat) (pdu : List Nat) : VAL_INSERT_PDU × Nat :=
  let offset := 1
  let ssn := load_bytes pdu offset SSN_LENGTH
  let offset := offset + SSN_LENGTH
  let name_length := load_uint8 pdu offset
  let offset := offset + 1
  let name := load_bytes pdu offset name_length
  let offset := offset + name_length
  let email_length := load_uint8 pdu offset
  let offset := offset + 1
  let email := load_bytes pdu offset email_length
  let offset := offset + email_length
  ({ type := type % 256, ssn := ssn, name_length := name_length, name := name,
     email_length := email_length, email := email }, offset)

/-! ## `node.c`: serialization -/

/-- The function `serialize_net_join_pdu`: the content of `bytes` after the call. -/
def serialize_net_join_pdu (bytes : List Nat) (s : NET_JOIN_PDU) : List Nat :=
  let bytes := store bytes 0 s.type
  let bytes := serialize_uint32 bytes 1 s.src_address
  let bytes := serialize_uint16 bytes 5 s.src_port
  let bytes := store bytes 7 s.max_span
  let bytes := serialize_uint32 bytes 8 s.max_address
  serialize_uint16 bytes 12 s.max_port

/-- The function `serialize_net_join_response_pdu`. -/
def serialize_net_join_response_pdu (bytes : List Nat) (s : NET_JOIN_RESPONSE_PDU) : List Nat :=
  let bytes := store bytes 0 s.type
  let bytes := serialize_uint32 bytes 1 s.next_address
  let bytes := serialize_uint16 bytes 5 s.next_port
  let bytes := store bytes 7 s.range_start
  store bytes 8 s.range_end

/-- The function `serialize_val_insert_pdu`: the content of `bytes` after the call
and the returned length. -/
def serialize_val_insert_pdu (bytes : List Nat) (s : VAL_INSERT_PDU) : List Nat × Nat :=
  let bytes := store bytes 0 s.type
  let offset := 1
  let bytes := serialize_string bytes offset s.ssn SSN_LENGTH
  let offset := offset + SSN_LENGTH
  let bytes := store bytes offset s.name_length
  let offset := offset + 1
  let bytes := serialize_string bytes offset s.name s.name_length
  let offset := offset + s.name_length
  let bytes := store bytes offset s.email_length
  let offset := offset + 1
  let bytes := serialize_string bytes offset s.email s.email_length
  let offset := offset + s.email_length
  (bytes, offset)

/-- The function `serialize_val_lookup_pdu`. -/
def serialize_val_lookup_pdu (bytes : List Nat) (s : VAL_LOOKUP_PDU) : List Nat :=
  let bytes := store bytes 0 s.type
  let bytes := serialize_string bytes 1 s.ssn SSN_LENGTH
  let bytes := serialize_uint32 bytes (SSN_LENGTH + 1) s.sender_address
  serialize_uint16 bytes (SSN_LENGTH + 5) s.sender_port

/-- The function `serialize_val_remove_pdu`. -/
def serialize_val_remove_pdu (bytes : List Nat) (s : VAL_REMOVE_PDU) : List Nat :=
  let bytes := store bytes 0 s.type
  serialize_string bytes 1 s.ssn SSN_LENGTH

/-- The function `serialize_net_leaving_pdu`: the buffer and the returned length. -/
def serialize_net_leaving_pdu (bytes : List Nat) (s : NET_LEAVING_PDU) : List Nat × Nat :=
  let bytes := store bytes 0 s.type
  let bytes := serialize_uint32 bytes 1 s.new_address
  let bytes := serialize_uint16 bytes 5 s.new_port
  (bytes, NET_LEAVING_BASE_LENGTH)

/-- The function `serialize_net_new_range_pdu`: the buffer and the returned length. -/
def serialize_net_new_range_pdu (bytes : List Nat) (s : NET_NEW_RANGE_PDU) : List Nat × Nat :=
  let bytes := store bytes 0 s.type
  let bytes := store bytes 1 s.range_start
  let bytes := store bytes 2 s.range_end
  (bytes, 3)

/-! ## Sample values -/

/-- The ssn "aaaaabbbbbcc" of the test program and of the scenarios of the specification. -/
def example_ssn : List Nat := [97, 97, 97, 97, 97, 98, 98, 98, 98, 98, 99, 99]

/-! ## `hash.h`, `string.h` -/

/-- Modelled from the spec: `hash.h` is not among the sources; the hash space is 8
bits wide ("hash_ssn(ssn) -> uint8"), so `hash_t` is `uint8_t` and this is the
narrowing of a value to `hash_t`. The function `hash_ssn` itself is a parameter of
everything that uses it. -/
def hash_t (x : Nat) : Nat := x % 256

/-- The C string a `char*` points to: the bytes before the first zero byte. This is
what `strcpy` copies (it adds the terminating zero), and `strlen` is its length. -/
def c_string (s : List Nat) : List Nat := s.takeWhile (fun c => c != 0)

/-- The library function `strlen`. -/
def strlen (s : List Nat) : Nat := (c_string s).length

/-! ## `hash_table.h` -/

/-- The structure `hash_table_entry`: `ssn` are the 12 cells allocated for it,
`name` and `email` the C strings held by the two allocations (their bytes before the
terminating zero). -/
structure hash_table_entry where
  ssn : List Nat
  name : List Nat
  email : List Nat
deriving DecidableEq, Repr

/-- The structure `bucket`: the `length` entries of `list`, in order. The field
`length` is kept equal to the number of entries by every function of `hash_table.c`,
so a bucket is the list of its entries. -/
abbrev bucket := List hash_table_entry

/-- The structure `hash_table`: the range and the array of buckets. -/
structure hash_table where
  minHash : Nat
  maxHash : Nat
  buckets : List bucket
deriving DecidableEq, Repr

/-! ## `hash_table.c` -/

/-- The function `hash_table_create` (`min` and `max` are `uint8_t`):
`max - min + 1` buckets, computed in `int`, each of length 0. -/
def hash_table_create (min max : Nat) : hash_table :=
  { minHash := min
    maxHash := max
    buckets := List.replicate ((max : Int) - (min : Int) + 1).toNat [] }

/-- The function `hash_table_create_entry`: the 12 bytes of the ssn and copies of
the two C strings. -/
def hash_table_create_entry (ssn name email : List Nat) : hash_table_entry :=
  { ssn := (List.range 12).map (fun i => ssn.getD i 0)
    name := c_string name
    email := c_string email }

/-- The body of the loop of `hash_table_resize` for the index `i`: when the hash
`newMin + i` is in the old range, bucket `i` of the new table receives copies (made
by `hash_table_create_entry`) of the entries of the old bucket of that hash. -/
def hash_table_resize_body (table : hash_table) (newMin : Nat) (newTable : hash_table)
    (i : Nat) : hash_table :=
  if newMin + i ≥ table.minHash ∧ newMin + i ≤ table.maxHash then
    let oldIndexMapped := newMin + i - table.minHash
    { newTable with
      buckets := newTable.buckets.set i
        ((table.buckets.getD oldIndexMapped []).map
          (fun e => hash_table_create_entry e.ssn e.name e.email)) }
  else newTable

/-- The function `hash_table_resize`: a new table created over the new range, and
the loop `for (i = 0; i < len; i++)` with `len = newMax - newMin`. -/
def hash_table_resize (table : hash_table) (newMin newMax : Nat) : hash_table :=
  let newTable := hash_table_create newMin newMax
  let len := ((newMax : Int) - (newMin : Int)).toNat
  (List.range len).foldl (hash_table_resize_body table newMin) newTable

/-- The function `hash_table_insert`: the status and the table after the call. The
list of the bucket is reallocated with room for one more pointer and the entry is
stored at its end. -/
def hash_table_insert (hash_ssn : List Nat → Nat) (table : hash_table)
    (entry : hash_table_entry) : Int × hash_table :=
  let hash := hash_t (hash_ssn entry.ssn)
  if hash < table.minHash ∨ hash > table.maxHash then
    (-1, table)
  else
    let index := hash_t (hash - table.minHash)
    (0, { table with
          buckets := table.buckets.set index (table.buckets.getD index [] ++ [entry]) })

/-- The inner loop of `hash_table_lookup_index`: `found` stays 0 when the 12 bytes
of `ssn` equal the 12 bytes of the ssn of the entry. -/
def ssn_found (ssn : List Nat) (e : hash_table_entry) : Bool :=
  (List.range 12).all (fun j => ssn.getD j 0 == e.ssn.getD j 0)

/-- The outer loop of `hash_table_lookup_index`, from the index `i` on, over the
entries that are left. -/
def hash_table_lookup_index_from (ssn : List Nat) : List hash_table_entry → Nat → Int
  | [], _ => -1
  | e :: rest, i =>
    if ssn_found ssn e then (i : Int) else hash_table_lookup_index_from ssn rest (i + 1)

/-- The function `hash_table_lookup_index`: the index of the first entry of the
bucket with the ssn, or -1. -/
def hash_table_lookup_index (b : bucket) (ssn : List Nat) : Int :=
  hash_table_lookup_index_from ssn b 0

/-- The loop `for (i = listIndex; i < length - 1; i++) list[i] = list[i + 1]` of
`hash_table_remove`. -/
def shift_entries (list : List hash_table_entry) (listIndex : Nat) : List hash_table_entry :=
  (List.range' listIndex (list.length - 1 - listIndex)).foldl
    (fun l i =>
      match l[i + 1]? with
      | some e => l.set i e
      | none => l)
    list

/-- The function `hash_table_remove`: the status and the table after the call. After
the shift the list is reallocated to `length - 1` entries. -/
def hash_table_remove (hash_ssn : List Nat → Nat) (table : hash_table) (ssn : List Nat) :
    Int × hash_table :=
  let hash := hash_t (hash_ssn ssn)
  if hash < table.minHash ∨ hash > table.maxHash then
    (-1, table)
  else
    let hashIndex := hash_t (hash - table.minHash)
    let list := table.buckets.getD hashIndex []
    let listIndex := hash_table_lookup_index list ssn
    if listIndex ≥ 0 then
      let shifted := shift_entries list listIndex.toNat
      (0, { table with
            buckets := table.buckets.set hashIndex (shifted.take (list.length - 1)) })
    else
      (0, table)

/-- The function `hash_table_lookup`: the status, the content of `*entry` after the
call and the table after the call. `none` stands for the entry `{NULL, NULL, NULL}`
a caller passes in. -/
def hash_table_lookup (hash_ssn : List Nat → Nat) (table : hash_table) (ssn : List Nat)
    (entry : Option hash_table_entry) : Int × Option hash_table_entry × hash_table :=
  let hash := hash_t (hash_ssn ssn)
  if hash < table.minHash ∨ hash > table.maxHash then
    (-1, entry, table)
  else
    let list := table.buckets.getD (hash - table.minHash) []
    let index := hash_table_lookup_index list ssn
    if index ≠ -1 then
      (0, list[index.toNat]?, table)
    else
      (0, entry, table)

/-- The function `hash_table_get_buckets_from`: the pointer `table->buckets + min`,
that is the array of buckets from the index `min` on. -/
def hash_table_get_buckets_from (table : hash_table) (min : Nat) : List bucket :=
  table.buckets.drop min

/-- The function `hash_table_get_span`. -/
def hash_table_get_span (table : hash_table) : Int :=
  ((table.maxHash : Int) - (table.minHash : Int)) + 1

/-! ## Notions used to state the properties of the table -/

/-- The bucket array has the shape `hash_table_create` gives it: `max - min + 1`
buckets. -/
def hash_table.allocated (t : hash_table) : Prop :=
  t.buckets.length = ((t.maxHash : Int) - (t.minHash : Int) + 1).toNat

instance (t : hash_table) : Decidable t.allocated := by
  unfold hash_table.allocated; infer_instance

/-- The bucket the table keeps for the hash value `h`: `buckets[h - minHash]`. -/
def hash_table.bucket_of (t : hash_table) (h : Nat) : bucket :=
  t.buckets.getD (h - t.minHash) []

/-- All records of the table, bucket after bucket. -/
def hash_table.records (t : hash_table) : List hash_table_entry :=
  t.buckets.flatten

/-- Every record sits in the bucket of its hash: the record at bucket index `i` has
the hash `minHash + i`. -/
def hash_table.owned (hash_ssn : List Nat → Nat) (t : hash_table) : Prop :=
  ∀ i e, e ∈ t.buckets.getD i [] → hash_t (hash_ssn e.ssn) = t.minHash + i

/-- The 12 ssn bytes of a query and of a record are equal. -/
def same_ssn (ssn : List Nat) (e : hash_table_entry) : Prop :=
  ∀ j, j < 12 → ssn.getD j 0 = e.ssn.getD j 0

instance (ssn : List Nat) (e : hash_table_entry) : Decidable (same_ssn ssn e) := by
  unfold same_ssn; infer_instance

/-- A stand-in for the external `hash_ssn`, used to evaluate the functions on
sample tables: the sum of the bytes. -/
def sum_hash (ssn : List Nat) : Nat := ssn.sum

/-- A sample record with the ssn "aaaaabbbbbcc" (its `sum_hash` is 149 modulo 256). -/
def example_entry : hash_table_entry :=
  { ssn := example_ssn, name := [82, 111, 108, 102], email := [114, 111, 108, 102, 64, 120] }

/-- A sample record whose `sum_hash` is 2. -/
def low_entry : hash_table_entry :=
  { ssn := [2, 0, 0, 0, 0, 0, 0, 0, 0, 0, 0, 0], name := [65, 100, 97], email := [97, 64, 98] }

/-- A sample table over [1, 3] that holds `low_entry`, built with the functions of
the table. -/
def low_table : hash_table :=
  (hash_table_insert sum_hash (hash_table_create 1 3) low_entry).2

/-- A sample table over [140, 150] that holds `example_entry` (hash 149), built with
the functions of the table. -/
def example_table : hash_table :=
  (hash_table_insert sum_hash (hash_table_create 140 150) example_entry).2

/-! ## Tables the functions of `hash_table.c` produce -/

/-- The tables that are reachable from `hash_table_create(min, max)` by any sequence
of `hash_table_insert`, `hash_table_remove` and `hash_table_resize`. The entries
handed to `hash_table_insert` have an ssn of 12 bytes, as those that
`hash_table_create_entry` allocates. -/
inductive hash_table.reachable (hash_ssn : List Nat → Nat) : hash_table → Prop
  | create (min max : Nat) : hash_table.reachable hash_ssn (hash_table_create min max)
  | insert (t : hash_table) (e : hash_table_entry) :
      hash_table.reachable hash_ssn t → e.ssn.length = 12 →
      hash_table.reachable hash_ssn (hash_table_insert hash_ssn t e).2
  | remove (t : hash_table) (ssn : List Nat) :
      hash_table.reachable hash_ssn t →
      hash_table.reachable hash_ssn (hash_table_remove hash_ssn t ssn).2
  | resize (t : hash_table) (newMin newMax : Nat) :
      hash_table.reachable hash_ssn t →
      hash_table.reachable hash_ssn (hash_table_resize t newMin newMax)

/-! ## `pdu.h`: frame types and the remaining frames -/

/-- Modelled from the spec: `pdu.h` is not among the sources and the specification
gives no value for the 1-byte type discriminants; they are a parameter of everything
that uses them. -/
structure pdu_types where
  NET_ALIVE : Nat
  NET_GET_NODE : Nat
  NET_GET_NODE_RESPONSE : Nat
  NET_JOIN : Nat
  NET_JOIN_RESPONSE : Nat
  NET_CLOSE_CONNECTION : Nat
  NET_NEW_RANGE : Nat
  NET_LEAVING : Nat
  NET_NEW_RANGE_RESPONSE : Nat
  VAL_INSERT : Nat
  VAL_REMOVE : Nat
  VAL_LOOKUP : Nat
  VAL_LOOKUP_RESPONSE : Nat
  STUN_LOOKUP : Nat
  STUN_RESPONSE : Nat
deriving DecidableEq, Repr

/-- All discriminants of a `pdu_types`, in the order of the fields. -/
def pdu_types.all (K : pdu_types) : List Nat :=
  [K.NET_ALIVE, K.NET_GET_NODE, K.NET_GET_NODE_RESPONSE, K.NET_JOIN, K.NET_JOIN_RESPONSE,
   K.NET_CLOSE_CONNECTION, K.NET_NEW_RANGE, K.NET_LEAVING, K.NET_NEW_RANGE_RESPONSE,
   K.VAL_INSERT, K.VAL_REMOVE, K.VAL_LOOKUP, K.VAL_LOOKUP_RESPONSE, K.STUN_LOOKUP,
   K.STUN_RESPONSE]

/-- The discriminants are bytes and no two frame types share one (the labels of a
`switch` are distinct). -/
def pdu_types.wf (K : pdu_types) : Prop :=
  (∀ x ∈ K.all, x < 256) ∧ K.all.Nodup

instance (K : pdu_types) : Decidable K.wf := by
  unfold pdu_types.wf; infer_instance

/-- The types the `switch` of `Q6_handler` has a case for. -/
def pdu_types.dispatched (K : pdu_types) : List Nat :=
  [K.VAL_INSERT, K.VAL_REMOVE, K.VAL_LOOKUP, K.NET_NEW_RANGE, K.NET_LEAVING,
   K.NET_CLOSE_CONNECTION, K.NET_JOIN]

/-- Sample discriminants, used to evaluate the handlers on sample nodes. -/
def sample_types : pdu_types :=
  { NET_ALIVE := 0, NET_GET_NODE := 1, NET_GET_NODE_RESPONSE := 2, NET_JOIN := 3,
    NET_JOIN_RESPONSE := 4, NET_CLOSE_CONNECTION := 5, NET_NEW_RANGE := 6, NET_LEAVING := 7,
    NET_NEW_RANGE_RESPONSE := 8, VAL_INSERT := 100, VAL_REMOVE := 101, VAL_LOOKUP := 102,
    VAL_LOOKUP_RESPONSE := 103, STUN_LOOKUP := 200, STUN_RESPONSE := 201 }

/-- Modelled from the spec: `pdu.h` is not among the sources; a VAL_INSERT frame is
15 bytes plus the two strings. -/
def VAL_INSERT_BASE_LENGTH : Nat := 15

/-- Modelled from the spec: `pdu.h` is not among the sources; a VAL_REMOVE frame is 13 bytes. -/
def VAL_REMOVE_BASE_LENGTH : Nat := 13

/-- Modelled from the spec: `pdu.h` is not among the sources; a VAL_LOOKUP frame is 19 bytes. -/
def VAL_LOOKUP_BASE_LENGTH : Nat := 19

/-- Modelled from the spec: `pdu.h` is not among the sources; a VAL_LOOKUP_RESPONSE
frame is 15 bytes plus the two strings. -/
def VAL_LOOKUP_RESPONSE_BASE_LENGTH : Nat := 15

/-- Modelled from the spec: `pdu.h` is not among the sources; a NET_CLOSE_CONNECTION
frame is 1 byte. -/
def NET_CLOSE_CONNECTION_BASE_LENGTH : Nat := 1

/-- Modelled from the spec: `pdu.h` is not among the sources; a NET_NEW_RANGE_RESPONSE
frame is 1 byte. -/
def NET_NEW_RANGE_RESPONSE_BASE_LENGTH : Nat := 1

/-- Modelled from the spec: `struct STUN_RESPONSE_PDU` (u8 type, u32 address). -/
structure STUN_RESPONSE_PDU where
  type : Nat
  address : Nat
deriving DecidableEq, Repr

/-- Modelled from the spec: `struct NET_GET_NODE_RESPONSE_PDU` (u8 type, u32 address,
u16 port). -/
structure NET_GET_NODE_RESPONSE_PDU where
  type : Nat
  address : Nat
  port : Nat
deriving DecidableEq, Repr

/-- Modelled from the spec: `struct VAL_LOOKUP_RESPONSE_PDU` (u8 type, 12 bytes of
ssn, u8 name_length, the name, u8 email_length, the email). -/
structure VAL_LOOKUP_RESPONSE_PDU where
  type : Nat
  ssn : List Nat
  name_length : Nat
  name : List Nat
  email_length : Nat
  email : List Nat
deriving DecidableEq, Repr

/-- The function `serialize_val_lookup_response_pdu` of `node.c`: the content of
`bytes` after the call and the returned length. -/
def serialize_val_lookup_response_pdu (bytes : List Nat) (s : VAL_LOOKUP_RESPONSE_PDU) :
    List Nat × Nat :=
  let bytes := store bytes 0 s.type
  let offset := 1
  let bytes := serialize_string bytes offset s.ssn SSN_LENGTH
  let offset := offset + SSN_LENGTH
  let bytes := store bytes offset s.name_length
  let offset := offset + 1
  let bytes := serialize_string bytes offset s.name s.name_length
  let offset := offset + s.name_length
  let bytes := store bytes offset s.email_length
  let offset := offset + 1
  let bytes := serialize_string bytes offset s.email s.email_length
  let offset := offset + s.email_length
  (bytes, offset)

/-! ## `node.h`, `node_states.h`: the node -/

/-- The enumeration `states`. -/
inductive states
  | Q1 | Q2 | Q3 | Q4 | Q5 | Q6 | Q7 | Q8 | Q9 | Q10 | Q11 | Q12 | Q13 | Q14 | Q15 | Q16
  | Q17 | Q18 | EXIT
deriving DecidableEq, Repr

/-- The capacity `BUFF_SIZE` of a socket buffer. -/
def BUFF_SIZE : Nat := 1024

/-- The fields of a `struct sockaddr_in` the node uses: `sin_addr.s_addr` and
`sin_port`. -/
structure sockaddr_in where
  s_addr : Nat
  sin_port : Nat
deriving DecidableEq, Repr

/-- The structure `socket_buffer`: the cells and the number `len` (an `int`) of bytes
that are buffered. -/
structure socket_buffer where
  buffer : List Nat
  len : Int
deriving DecidableEq, Repr

/-- What `lastPdu` points to: one of the frame structures. The first byte of each
is its `type` field. -/
inductive last_pdu
  | stun_response (p : STUN_RESPONSE_PDU)
  | net_get_node_response (p : NET_GET_NODE_RESPONSE_PDU)
  | net_join_response (p : NET_JOIN_RESPONSE_PDU)
  | net_join (p : NET_JOIN_PDU)
  | net_leaving (p : NET_LEAVING_PDU)
  | net_new_range (p : NET_NEW_RANGE_PDU)
  | val_insert (p : VAL_INSERT_PDU)
  | val_lookup (p : VAL_LOOKUP_PDU)
  | val_remove (p : VAL_REMOVE_PDU)
deriving DecidableEq, Repr

/-- The read `*(uint8_t *)args->lastPdu`: the `type` field of the stored frame. -/
def last_pdu.type : last_pdu → Nat
  | .stun_response p => p.type
  | .net_get_node_response p => p.type
  | .net_join_response p => p.type
  | .net_join p => p.type
  | .net_leaving p => p.type
  | .net_new_range p => p.type
  | .val_insert p => p.type
  | .val_lookup p => p.type
  | .val_remove p => p.type

/-- One call of `send` or `sendto`: the index of the socket in `sockets`, the
endpoint the bytes go to (the peer the socket is connected to, or the address given
to `sendto`) and the bytes. -/
structure packet where
  socket : Nat
  dest : Option sockaddr_in
  bytes : List Nat
deriving DecidableEq, Repr

/-- The structure `node`. Two fields stand for the world outside of the process:
`sockets` holds, for each of the four sockets, the peer it is connected to (`none`
for a socket that is not connected), and `sent` the packets handed to `send` and
`sendto` so far, oldest first. `table` and `lastPdu` are `none` for a null pointer. -/
structure node where
  successor : sockaddr_in
  predecessor : sockaddr_in
  tracker : sockaddr_in
  addr : sockaddr_in
  listeningPort : Nat
  sockets : List (Option sockaddr_in)
  table : Option hash_table
  lastPdu : Option last_pdu
  socketBuffers : List socket_buffer
  lastAlive : Int
  sent : List packet
deriving DecidableEq, Repr

instance : Inhabited socket_buffer := ⟨⟨[], 0⟩⟩

/-! ## `node_states.c`: sockets and buffers -/

/-- The library call `send(args->sockets[socket].fd, bytes, len, 0)`; a failure of
the call ends the process and is not part of the model. -/
def send (args : node) (socket : Nat) (bytes : List Nat) : node :=
  { args with sent := args.sent ++ [⟨socket, args.sockets.getD socket none, bytes⟩] }

/-- The library call `sendto(args->sockets[socket].fd, bytes, len, 0, dest, ..)`. -/
def sendto (args : node) (socket : Nat) (dest : sockaddr_in) (bytes : List Nat) : node :=
  { args with sent := args.sent ++ [⟨socket, some dest, bytes⟩] }

/-- The function `connect_socket` of `node.c` on `args->sockets[st]`. -/
def connect_socket (args : node) (st : Nat) (st_addr : sockaddr_in) : node :=
  { args with sockets := args.sockets.set st (some st_addr) }

/-- The assignment `args->sockets[st].fd = create_socket(..)` (after a `close`): a
fresh socket that is not connected. -/
def create_socket (args : node) (st : Nat) : node :=
  { args with sockets := args.sockets.set st none }

/-- The function `accept_predacessor`: `accept` fills `args->predecessor` with the
address of the peer and `sockets[3]` is the accepted connection. The peer is an
input. -/
def accept_predacessor (args : node) (peer : sockaddr_in) : node :=
  { args with predecessor := peer, sockets := args.sockets.set 3 (some peer) }

/-- The function `save_last_pdu` (the release of the previous frame is not part of
the model). -/
def save_last_pdu (n : node) (pdu : last_pdu) : node :=
  { n with lastPdu := some pdu }

/-- The body of the loop of `clear_buffer` for the index `i`. -/
def clear_buffer_body (len bytes : Int) (b : List Nat) (i : Nat) : List Nat :=
  if (i : Int) + bytes ≥ len then
    b.set i 0
  else
    b.set i (b.getD ((i : Int) + bytes).toNat 0)

/-- The function `clear_buffer`. -/
def clear_buffer (buffer : socket_buffer) (bytes : Int) : socket_buffer :=
  { buffer := (List.range buffer.len.toNat).foldl (clear_buffer_body buffer.len bytes)
      buffer.buffer
    len := buffer.len - bytes }

/-- The bytes a socket buffer holds: its first `len` cells. -/
def socket_buffer.content (b : socket_buffer) : List Nat :=
  b.buffer.take b.len.toNat

/-- The effect of a successful `recv` or `recvfrom` into `buff->buffer + buff->len`
followed by `buff->len += result`: the bytes received are stored behind the bytes
that are buffered. When `len` is negative (the state the reads of Q2, Q3 and Q7 can
leave) the C code writes in front of the array, which is undefined; here the bytes
are stored from cell 0 on. -/
def socket_append (buff : socket_buffer) (data : List Nat) : socket_buffer :=
  { buffer := serialize_string buff.buffer buff.len.toNat data data.length
    len := buff.len + data.length }

/-- The loop of `read_udp_pdu` over the datagrams that are waiting on the socket (an
input; an empty list when the socket is not readable): a datagram that would fill
the buffer, or an empty one, ends the loop, as does the end of the list
(`EWOULDBLOCK`). The peeking `recvfrom` stores the datagram behind the buffered bytes
before the test, so a datagram that would fill the buffer is left in the cells from
`len` on while `len` stays as it is. -/
def read_udp_pdu (buff : socket_buffer) : List (List Nat) → socket_buffer
  | [] => buff
  | d :: rest =>
    let readBytes : Int := min (d.length : Int) ((BUFF_SIZE : Int) - buff.len)
    if readBytes + buff.len ≥ BUFF_SIZE then
      { buff with buffer := (socket_append buff (d.take readBytes.toNat)).buffer }
    else if readBytes ≤ 0 then buff
    else read_udp_pdu (socket_append buff (d.take readBytes.toNat)) rest

/-- The loop of `read_pdu` for one socket over the chunks successive calls of `recv`
deliver (an input): each call delivers at most `BUFF_SIZE - len` bytes; a call that
delivers nothing, or the end of the list (`EWOULDBLOCK`), ends the loop. -/
def read_pdu (buff : socket_buffer) : List (List Nat) → socket_buffer
  | [] => buff
  | c :: rest =>
    let result := c.take ((BUFF_SIZE : Int) - buff.len).toNat
    if result.length = 0 then buff
    else read_pdu (socket_append buff result) rest

/-! ## `node_states.c`: the main loop Q6 -/

/-- Replaces the socket buffer `i` of the node. -/
def set_socket_buffer (args : node) (i : Nat) (b : socket_buffer) : node :=
  { args with socketBuffers := args.socketBuffers.set i b }

/-- The statements of `case NET_CLOSE_CONNECTION:` in `Q6_handler`, also reached from
`case NET_LEAVING:`, which has no `break`: one byte is cleared, and Q17 is returned
when `len`, read before the byte was cleared, is at least 1. `none` stands for the
`break` out of the `switch`. -/
def Q6_close_connection (args : node) (i : Nat) (len : Int) : Option states × node :=
  let args := set_socket_buffer args i
    (clear_buffer (args.socketBuffers.getD i default) NET_CLOSE_CONNECTION_BASE_LENGTH)
  if len ≥ NET_CLOSE_CONNECTION_BASE_LENGTH then (some states.Q17, args) else (none, args)

/-- One iteration of the loop `for (int i = 0; i < 4; i++)` of `Q6_handler`: the
state that is returned, or `none` when the loop goes on (`continue`, or `break` out
of the `switch`), and the node. -/
def Q6_slot (K : pdu_types) (args : node) (i : Nat) : Option states × node :=
  let buff := (args.socketBuffers.getD i default).buffer
  let len := (args.socketBuffers.getD i default).len
  if len = 0 then (none, args)
  else
    let type := parse_pdu_type buff
    if type = K.VAL_INSERT then
      if len ≥ VAL_INSERT_BASE_LENGTH then
        let nameLength := load_uint8 buff 13
        let expectedLength := VAL_INSERT_BASE_LENGTH + nameLength
        if len ≥ expectedLength then
          let expectedLength := expectedLength + load_uint8 buff (14 + nameLength)
          if len ≥ expectedLength then
            let resp := (parse_val_insert_pdu type buff).1
            let args := set_socket_buffer args i
              (clear_buffer (args.socketBuffers.getD i default) expectedLength)
            (some states.Q9, save_last_pdu args (.val_insert resp))
          else (none, args)
        else (none, args)
      else (none, args)
    else if type = K.VAL_REMOVE then
      if len ≥ VAL_REMOVE_BASE_LENGTH then
        let resp := (parse_val_remove_pdu type buff).1
        let args := set_socket_buffer args i
          (clear_buffer (args.socketBuffers.getD i default) VAL_REMOVE_BASE_LENGTH)
        (some states.Q9, save_last_pdu args (.val_remove resp))
      else (none, args)
    else if type = K.VAL_LOOKUP then
      if len ≥ VAL_LOOKUP_BASE_LENGTH then
        let resp := (parse_val_lookup_pdu type buff).1
        let args := set_socket_buffer args i
          (clear_buffer (args.socketBuffers.getD i default) VAL_LOOKUP_BASE_LENGTH)
        (some states.Q9, save_last_pdu args (.val_lookup resp))
      else (none, args)
    else if type = K.NET_NEW_RANGE then
      if len ≥ NET_NEW_RANGE_BASE_LENGTH then
        let resp := (parse_net_new_range type buff).1
        let args := set_socket_buffer args i
          (clear_buffer (args.socketBuffers.getD i default) NET_NEW_RANGE_BASE_LENGTH)
        (some states.Q15, save_last_pdu args (.net_new_range resp))
      else (none, args)
    else if type = K.NET_LEAVING then
      if len ≥ NET_LEAVING_BASE_LENGTH then
        let resp := (parse_net_leaving type buff).1
        let args := set_socket_buffer args i
          (clear_buffer (args.socketBuffers.getD i default) NET_LEAVING_BASE_LENGTH)
        (some states.Q16, save_last_pdu args (.net_leaving resp))
      else Q6_close_connection args i len
    else if type = K.NET_CLOSE_CONNECTION then
      Q6_close_connection args i len
    else if type = K.NET_JOIN then
      if len ≥ NET_JOIN_BASE_LENGTH then
        let response := parse_net_join type buff
        let args := save_last_pdu args (.net_join response.1)
        let args := set_socket_buffer args i
          (clear_buffer (args.socketBuffers.getD i default) response.2)
        (some states.Q12, args)
      else (none, args)
    else
      (none, set_socket_buffer args i (clear_buffer (args.socketBuffers.getD i default) 1))

/-- The loop `for (int i = 0; i < 4; i++)` of `Q6_handler` over the indices that are
left: the first iteration that returns a state ends it. -/
def Q6_slots (K : pdu_types) (args : node) : List Nat → Option states × node
  | [] => (none, args)
  | i :: rest =>
    match Q6_slot K args i with
    | (some s, args) => (some s, args)
    | (none, args) => Q6_slots K args rest

/-- The function `Q6_handler` from the loop over the four socket buffers on: the
loop, and the test of `shouldClose` behind it. -/
def Q6_dispatch (K : pdu_types) (shouldClose : Int) (args : node) : states × node :=
  match Q6_slots K args [0, 1, 2, 3] with
  | (some s, args) => (s, args)
  | (none, args) => if shouldClose = 1 then (states.Q10, args) else (states.Q6, args)

/-- The first part of `Q6_handler`: the keep-alive to the tracker when more than 5
seconds have passed, then `read_udp_pdu` on socket A and `read_pdu` on the sockets B,
C and D. The time and what the four sockets deliver are inputs. -/
def Q6_poll (K : pdu_types) (currentTime : Int) (incoming : List (List (List Nat)))
    (args : node) : node :=
  let args :=
    if currentTime - args.lastAlive > 5 then
      { sendto args 0 args.tracker [K.NET_ALIVE % 256] with lastAlive := currentTime }
    else args
  let args := set_socket_buffer args 0
    (read_udp_pdu (args.socketBuffers.getD 0 default) (incoming.getD 0 []))
  let args := set_socket_buffer args 1
    (read_pdu (args.socketBuffers.getD 1 default) (incoming.getD 1 []))
  let args := set_socket_buffer args 2
    (read_pdu (args.socketBuffers.getD 2 default) (incoming.getD 2 []))
  set_socket_buffer args 3
    (read_pdu (args.socketBuffers.getD 3 default) (incoming.getD 3 []))

/-- The function `Q6_handler`: the next state and the node. The value of
`shouldClose`, the time and what the sockets deliver are inputs. -/
def Q6_handler (K : pdu_types) (shouldClose : Int) (currentTime : Int)
    (incoming : List (List (List Nat))) (args : node) : states × node :=
  Q6_dispatch K shouldClose (Q6_poll K currentTime incoming args)

/-! ## `node_states.c`: the data operations Q9 -/

/-- The local `response` of `Q9_handler` as it is initialised: every field but the
type is zero. -/
def empty_lookup_response (K : pdu_types) : VAL_LOOKUP_RESPONSE_PDU :=
  { type := K.VAL_LOOKUP_RESPONSE, ssn := List.replicate 12 0, name_length := 0, name := [],
    email_length := 0, email := [] }

/-- The statements of `Q9_handler` under `if (entry.ssn != NULL)`: the response
receives the two lengths (narrowed to `uint8_t`), the 12 ssn bytes and copies of the
two C strings of the entry. -/
def fill_lookup_response (response : VAL_LOOKUP_RESPONSE_PDU) (entry : hash_table_entry) :
    VAL_LOOKUP_RESPONSE_PDU :=
  { response with
    name_length := strlen entry.name % 256
    email_length := strlen entry.email % 256
    ssn := (List.range 12).map (fun i => entry.ssn.getD i 0)
    email := c_string entry.email
    name := c_string entry.name }

/-- The function `Q9_handler`: the next state and the node, or `none` when a null
pointer is dereferenced (no table, no stored frame) or the stored frame is not of the
structure its type byte announces. The local arrays are not initialised by the code;
every cell that is sent is written by the serializer. -/
def Q9_handler (K : pdu_types) (hash_ssn : List Nat → Nat) (args : node) :
    Option (states × node) :=
  match args.lastPdu with
  | none => none
  | some lastPdu =>
    let type := lastPdu.type
    if type = K.VAL_INSERT then
      match lastPdu, args.table with
      | .val_insert pdu, some table =>
        let entry := hash_table_create_entry pdu.ssn pdu.name pdu.email
        let r := hash_table_insert hash_ssn table entry
        let args := { args with table := some r.2 }
        if r.1 ≠ 0 then
          let packetLen := VAL_INSERT_BASE_LENGTH + pdu.name_length + pdu.email_length
          let bytes := (serialize_val_insert_pdu (List.replicate packetLen 0) pdu).1
          some (states.Q6, send args 1 (bytes.take packetLen))
        else
          some (states.Q6, args)
      | _, _ => none
    else if type = K.VAL_LOOKUP then
      match lastPdu, args.table with
      | .val_lookup pdu, some table =>
        let response := empty_lookup_response K
        let r := hash_table_lookup hash_ssn table pdu.ssn none
        let args := { args with table := some r.2.2 }
        if r.1 < 0 then
          let buff := serialize_val_lookup_pdu (List.replicate VAL_LOOKUP_BASE_LENGTH 0) pdu
          some (states.Q6, send args 1 (buff.take VAL_LOOKUP_BASE_LENGTH))
        else
          let response :=
            match r.2.1 with
            | some entry => fill_lookup_response response entry
            | none => response
          let r := serialize_val_lookup_response_pdu
            (List.replicate
              (VAL_LOOKUP_RESPONSE_BASE_LENGTH + response.email_length + response.name_length)
              0)
            response
          some (states.Q6,
            sendto args 0 ⟨pdu.sender_address, pdu.sender_port⟩ (r.1.take r.2))
      | _, _ => none
    else if type = K.VAL_REMOVE then
      match lastPdu, args.table with
      | .val_remove pdu, some table =>
        let r := hash_table_remove hash_ssn table pdu.ssn
        let args := { args with table := some r.2 }
        if r.1 ≠ 0 then
          let buff := serialize_val_remove_pdu (List.replicate VAL_REMOVE_BASE_LENGTH 0) pdu
          some (states.Q6, send args 1 (buff.take VAL_REMOVE_BASE_LENGTH))
        else
          some (states.Q6, args)
      | _, _ => none
    else
      some (states.Q6, args)

/-! ## `node_states.c`: the hand-over of a range and the join handlers -/

/-- The frame `transfer_entry_range` builds and serializes for one entry: the
lengths are `strlen` narrowed to `uint8_t`, the ssn and the two strings are copied
byte by byte, and `len` bytes are sent. -/
def transfer_frame (K : pdu_types) (e : hash_table_entry) : List Nat :=
  let nameLen := strlen e.name % 256
  let emailLength := strlen e.email % 256
  let pdu : VAL_INSERT_PDU :=
    { type := K.VAL_INSERT
      ssn := (List.range SSN_LENGTH).map (fun k => e.ssn.getD k 0)
      name_length := nameLen
      name := (List.range nameLen).map (fun k => e.name.getD k 0)
      email_length := emailLength
      email := (List.range emailLength).map (fun k => e.email.getD k 0) }
  let r := serialize_val_insert_pdu
    (List.replicate (VAL_INSERT_BASE_LENGTH + nameLen + emailLength) 0) pdu
  r.1.take r.2

/-- The inner loop `for (int j = 0; j < buckets[i].length; j++)` of
`transfer_entry_range`, from `j` on, where `buckets` is
`hash_table_get_buckets_from(table, off)`: the entry at `j` is sent and then removed
from the table by its ssn, which shortens the very list the loop runs over. The
result is the table and the frames sent, in order. `fuel` bounds the number of
iterations; the length of the bucket when the loop starts is enough. -/
def transfer_bucket (K : pdu_types) (hash_ssn : List Nat → Nat) (off i : Nat) :
    Nat → Nat → hash_table × List (List Nat) → hash_table × List (List Nat)
  | 0, _, s => s
  | fuel + 1, j, (table, frames) =>
    if j < ((hash_table_get_buckets_from table off).getD i []).length then
      match ((hash_table_get_buckets_from table off).getD i [])[j]? with
      | some e =>
        transfer_bucket K hash_ssn off i fuel (j + 1)
          ((hash_table_remove hash_ssn table e.ssn).2, frames ++ [transfer_frame K e])
      | none => (table, frames)
    else (table, frames)

/-- The body of the outer loop `for (int i = 0; i < bucketsLength; i++)` of
`transfer_entry_range`. -/
def transfer_range_body (K : pdu_types) (hash_ssn : List Nat → Nat) (off : Nat)
    (s : hash_table × List (List Nat)) (i : Nat) : hash_table × List (List Nat) :=
  transfer_bucket K hash_ssn off i ((hash_table_get_buckets_from s.1 off).getD i []).length 0 s

/-- The function `transfer_entry_range(args, args->sockets[fd].fd, rangeMin)`: the
node after the call, or `none` when the node has no table. The argument of
`hash_table_get_buckets_from` and the new maximum given to `hash_table_resize` are
narrowed to `uint8_t`. For `rangeMin < table->minHash` the narrowed offset points
behind the array of buckets and the C code reads bucket lengths outside of it, which
is undefined; here those buckets are empty. Q5 on a table over [0, 255], Q13 on a
table with min ≤ max and Q18 call the function with `rangeMin ≥ table->minHash`. -/
def transfer_entry_range (K : pdu_types) (hash_ssn : List Nat → Nat) (args : node) (fd : Nat)
    (rangeMin : Int) : Option node :=
  match args.table with
  | none => none
  | some table =>
    let bucketsLength : Int := ((table.maxHash : Int) - rangeMin) + 1
    let off := ((rangeMin - (table.minHash : Int)) % 256).toNat
    let r := (List.range bucketsLength.toNat).foldl (transfer_range_body K hash_ssn off)
      (table, [])
    let args := r.2.foldl (fun a bytes => send a fd bytes) args
    if rangeMin > r.1.minHash then
      some { args with
             table := some (hash_table_resize r.1 r.1.minHash ((rangeMin - 1) % 256).toNat) }
    else
      some { args with table := none }

/-- The function `Q5_handler`; the peer `accept` returns is an input. -/
def Q5_handler (K : pdu_types) (hash_ssn : List Nat → Nat) (accepted : sockaddr_in)
    (args : node) : Option (states × node) :=
  match args.lastPdu with
  | some (.net_join lastPdu) =>
    let args := { args with successor := ⟨lastPdu.src_address, lastPdu.src_port⟩ }
    let args := connect_socket args 1 args.successor
    match args.table with
    | none => none
    | some table =>
      let package : NET_JOIN_RESPONSE_PDU :=
        { type := K.NET_JOIN_RESPONSE
          next_address := args.addr.s_addr
          next_port := args.listeningPort % 2 ^ 16
          range_start := (table.minHash + table.maxHash / 2) % 2 ^ 8
          range_end := table.maxHash }
      let buff := serialize_net_join_response_pdu
        (List.replicate NET_JOIN_RESPONSE_BASE_LENGTH 0) package
      let args := send args 1 (buff.take NET_JOIN_RESPONSE_BASE_LENGTH)
      match transfer_entry_range K hash_ssn args 1 ((table.maxHash / 2 : Nat) : Int) with
      | none => none
      | some args => some (states.Q6, accept_predacessor args accepted)
  | _ => none

/-- The function `Q12_handler`. -/
def Q12_handler (args : node) : Option (states × node) :=
  match args.table with
  | none => none
  | some table =>
    if table.minHash = 0 ∧ table.maxHash = 255 then some (states.Q5, args)
    else
      match args.lastPdu with
      | some (.net_join resp) =>
        if resp.max_address = args.addr.s_addr ∧ resp.max_port = args.listeningPort then
          some (states.Q13, args)
        else some (states.Q14, args)
      | _ => none

/-- The function `Q13_handler`; `min` is computed in `int` (the division truncates)
and narrowed to `uint8_t` in the response. -/
def Q13_handler (K : pdu_types) (hash_ssn : List Nat → Nat) (args : node) :
    Option (states × node) :=
  match args.lastPdu with
  | some (.net_join lastPdu) =>
    let succ_add : sockaddr_in := ⟨args.successor.s_addr, args.successor.sin_port⟩
    let args := send args 1 [K.NET_CLOSE_CONNECTION % 256]
    let args := create_socket args 1
    let args := { args with successor := ⟨lastPdu.src_address, lastPdu.src_port⟩ }
    let args := connect_socket args 1 args.successor
    match args.table with
    | none => none
    | some table =>
      let min : Int :=
        Int.tdiv ((table.maxHash : Int) - (table.minHash : Int)) 2 + (table.minHash : Int)
      let respPdu : NET_JOIN_RESPONSE_PDU :=
        { type := K.NET_JOIN_RESPONSE
          next_address := succ_add.s_addr
          next_port := succ_add.sin_port
          range_start := (min % 2 ^ 8).toNat
          range_end := table.maxHash }
      let bytes := serialize_net_join_response_pdu
        (List.replicate NET_JOIN_RESPONSE_BASE_LENGTH 0) respPdu
      let args := send args 1 (bytes.take NET_JOIN_RESPONSE_BASE_LENGTH)
      match transfer_entry_range K hash_ssn args 1 min with
      | none => none
      | some args => some (states.Q6, args)
  | _ => none

/-! ## Notions used to state the properties of the handlers -/

/-- The node after `clear_buffer(&args->socketBuffers[i], n)`. -/
def consume_frame (args : node) (i : Nat) (n : Int) : node :=
  set_socket_buffer args i (clear_buffer (args.socketBuffers.getD i default) n)

/-! ## Sample nodes -/

/-- An empty socket buffer as `main` allocates it: `BUFF_SIZE` zero cells. -/
def empty_socket_buffer : socket_buffer :=
  { buffer := List.replicate BUFF_SIZE 0, len := 0 }

/-- A socket buffer as `main` allocates it that has received the bytes `data`. -/
def socket_buffer_with (data : List Nat) : socket_buffer :=
  read_pdu empty_socket_buffer [data]

/-- A sample solitary node as Q4 leaves it: address 127.0.0.1, listening port 4000,
the table over [0, 255], empty buffers. -/
def sample_node : node :=
  { successor := ⟨0, 0⟩
    predecessor := ⟨0, 0⟩
    tracker := ⟨0x0100007F, 8080⟩
    addr := ⟨0x0100007F, 0⟩
    listeningPort := 4000
    sockets := [none, none, none, none]
    table := some (hash_table_create 0 255)
    lastPdu := none
    socketBuffers := [empty_socket_buffer, empty_socket_buffer, empty_socket_buffer,
      empty_socket_buffer]
    lastAlive := 0
    sent := [] }

/-- A second sample record with the hash 149 of `example_entry` (the ssn
"ccbbbbbaaaaa"). -/
def example_entry2 : hash_table_entry :=
  { ssn := [99, 99, 98, 98, 98, 98, 98, 97, 97, 97, 97, 97], name := [65, 100, 97],
    email := [97, 64, 98] }

/-- A sample table over [140, 150] that holds two records of the hash 149,
`example_entry` and `example_entry2`, built with the functions of the table. -/
def crowded_table : hash_table :=
  (hash_table_insert sum_hash example_table example_entry2).2

/-! ## `node_states.c`: the remaining handlers -/

/-- Modelled from the spec: `pdu.h` is not among the sources; a STUN_RESPONSE frame
is the type byte and a u32 address, 5 bytes. -/
def STUN_RESPONSE_BASE_LENGTH : Nat := 5

/-- Modelled from the spec: `pdu.h` is not among the sources; a NET_GET_NODE_RESPONSE
frame is the type byte, a u32 address and a u16 port, 7 bytes. -/
def GET_NODE_RESPONSE_BASE_LENGTH : Nat := 7

/-- The constant `UDP` of `node_states.h`. -/
def UDP : Nat := 100

/-- The constant `TCP` of `node_states.h`. -/
def TCP : Nat := 101

/-- The function `parse_stun_response`: the frame and the length of the packet. -/
def parse_stun_response (type : Nat) (bytes : List Nat) : STUN_RESPONSE_PDU × Nat :=
  ({ type := type % 256, address := load_uint32 bytes 1 }, STUN_RESPONSE_BASE_LENGTH)

/-- The function `parse_get_node_response`: the frame and the length of the packet. -/
def parse_get_node_response (type : Nat) (bytes : List Nat) :
    NET_GET_NODE_RESPONSE_PDU × Nat :=
  ({ type := type % 256, address := load_uint32 bytes 1, port := load_uint16 bytes 5 },
   GET_NODE_RESPONSE_BASE_LENGTH)

/-- The function `read_pdu_type`: the loop `do { read; type = parse_pdu_type } while
(type != expectedType)`. Every call of `read_pdu` or `read_udp_pdu` blocks until the
socket is readable; what the successive calls deliver is an input, one list of chunks
(or datagrams) for each call. The result is the type and the buffer, or `none` when
the input ends before the first byte of the buffer is the expected type: the function
then blocks for ever. -/
def read_pdu_type (expectedType : Nat) (pdu : socket_buffer) (protocol : Nat) :
    List (List (List Nat)) → Option (Nat × socket_buffer)
  | [] => none
  | r :: rest =>
    let pdu := if protocol = TCP then read_pdu pdu r else read_udp_pdu pdu r
    let type := parse_pdu_type pdu.buffer
    if type ≠ expectedType then read_pdu_type expectedType pdu protocol rest
    else some (type, pdu)

/-- The function `Q1_handler`; the port `listen_socket` returns is an input. The
frame `struct STUN_LOOKUP_PDU` is its type byte. -/
def Q1_handler (K : pdu_types) (port : Nat) (args : node) : states × node :=
  let args := create_socket args 0
  let args := sendto args 0 args.tracker [K.STUN_LOOKUP % 256]
  let args := create_socket args 1
  let args := create_socket args 2
  let args := { args with listeningPort := port }
  let args := create_socket args 3
  (states.Q2, args)

/-- The function `Q2_handler`; what the reads of socket A deliver is an input. -/
def Q2_handler (K : pdu_types) (rounds : List (List (List Nat))) (args : node) :
    Option (states × node) :=
  match read_pdu_type K.STUN_RESPONSE (args.socketBuffers.getD 0 default) UDP rounds with
  | none => none
  | some (type, buff) =>
    let args := set_socket_buffer args 0 buff
    let resp := parse_stun_response type (args.socketBuffers.getD 0 default).buffer
    let args := save_last_pdu args (.stun_response resp.1)
    let args := set_socket_buffer args 0
      (clear_buffer (args.socketBuffers.getD 0 default) resp.2)
    some (states.Q3, { args with addr := { args.addr with s_addr := resp.1.address } })

/-- The function `Q3_handler`; what the reads of socket A deliver is an input. The
frame `struct NET_GET_NODE_PDU` is its type byte. -/
def Q3_handler (K : pdu_types) (rounds : List (List (List Nat))) (args : node) :
    Option (states × node) :=
  let args := sendto args 0 args.tracker [K.NET_GET_NODE % 256]
  match read_pdu_type K.NET_GET_NODE_RESPONSE (args.socketBuffers.getD 0 default) UDP
      rounds with
  | none => none
  | some (type, buff) =>
    let args := set_socket_buffer args 0 buff
    let response := parse_get_node_response type (args.socketBuffers.getD 0 default).buffer
    let args := save_last_pdu args (.net_get_node_response response.1)
    let args := set_socket_buffer args 0
      (clear_buffer (args.socketBuffers.getD 0 default) response.2)
    if response.1.address = 0 ∧ response.1.port = 0 then some (states.Q4, args)
    else some (states.Q7, args)

/-- The function `Q4_handler`. -/
def Q4_handler (args : node) : states × node :=
  (states.Q6, { args with table := some (hash_table_create 0 255) })

/-- The function `Q7_handler`; the peer `accept` returns and what the reads of socket
D deliver are inputs. The initializer of `pkt` lists the fields of
`struct NET_JOIN_PDU` in their order: type, src_address, src_port, max_span,
max_address, max_port; the port is narrowed to the `uint16_t` field. -/
def Q7_handler (K : pdu_types) (accepted : sockaddr_in) (rounds : List (List (List Nat)))
    (args : node) : Option (states × node) :=
  match args.lastPdu with
  | some (.net_get_node_response response) =>
    let pkt : NET_JOIN_PDU :=
      { type := K.NET_JOIN
        src_address := response.address
        src_port := args.listeningPort % 2 ^ 16
        max_span := 0
        max_address := 0
        max_port := 0 }
    let add : sockaddr_in := ⟨response.address, response.port⟩
    let bytes := serialize_net_join_pdu (List.replicate 14 0) pkt
    let args := sendto args 0 add (bytes.take 14)
    let args := accept_predacessor args accepted
    match read_pdu_type K.NET_JOIN_RESPONSE (args.socketBuffers.getD 3 default) TCP
        rounds with
    | none => none
    | some (type, buff) =>
      let args := set_socket_buffer args 3 buff
      let resp := parse_net_join_response type (args.socketBuffers.getD 3 default).buffer
      let args := save_last_pdu args (.net_join_response resp.1)
      let args := set_socket_buffer args 3
        (clear_buffer (args.socketBuffers.getD 3 default) resp.2)
      some (states.Q8, args)
  | _ => none

/-- The function `Q8_handler`. -/
def Q8_handler (args : node) : Option (states × node) :=
  match args.lastPdu with
  | some (.net_join_response resp) =>
    let args := { args with table := some (hash_table_create resp.range_start resp.range_end) }
    let args := { args with successor := ⟨resp.next_address, resp.next_port⟩ }
    some (states.Q6, connect_socket args 1 args.successor)
  | _ => none

/-- The function `Q10_handler`. -/
def Q10_handler (args : node) : Option (states × node) :=
  match args.table with
  | none => none
  | some table =>
    if table.minHash = 0 ∧ table.maxHash = 255 then some (states.EXIT, args)
    else some (states.Q11, args)

/-- The function `Q11_handler`; what the reads of the chosen socket deliver is an
input. -/
def Q11_handler (K : pdu_types) (rounds : List (List (List Nat))) (args : node) :
    Option (states × node) :=
  match args.table with
  | none => none
  | some table =>
    let pdu : NET_NEW_RANGE_PDU :=
      { type := K.NET_NEW_RANGE, range_start := table.minHash, range_end := table.maxHash }
    let buff := (serialize_net_new_range_pdu (List.replicate NET_NEW_RANGE_BASE_LENGTH 0) pdu).1
    let socket := if table.minHash ≠ 0 then 3 else 1
    let args := send args socket (buff.take NET_NEW_RANGE_BASE_LENGTH)
    let args := set_socket_buffer args socket
      (clear_buffer (args.socketBuffers.getD socket default)
        (args.socketBuffers.getD socket default).len)
    match read_pdu_type K.NET_NEW_RANGE_RESPONSE (args.socketBuffers.getD socket default) TCP
        rounds with
    | none => none
    | some (_, buff) => some (states.Q18, set_socket_buffer args socket buff)

/-- The function `Q14_handler`. The frame `lastPdu` points to is updated in place;
the span, an `int`, is narrowed to the `uint8_t` field `max_span` and the port to the
`uint16_t` field `max_port`. -/
def Q14_handler (args : node) : Option (states × node) :=
  match args.lastPdu, args.table with
  | some (.net_join lastPdu), some table =>
    let lastPdu :=
      if hash_table_get_span table > (lastPdu.max_span : Int) then
        { lastPdu with
          max_span := (hash_table_get_span table % 256).toNat
          max_address := args.addr.s_addr
          max_port := args.listeningPort % 2 ^ 16 }
      else lastPdu
    let args := { args with lastPdu := some (.net_join lastPdu) }
    let bytes := serialize_net_join_pdu (List.replicate NET_JOIN_BASE_LENGTH 0) lastPdu
    some (states.Q6, send args 1 (bytes.take NET_JOIN_BASE_LENGTH))
  | _, _ => none

/-- The function `Q15_handler`. `min` and `max` are `int`s, narrowed to `uint8_t` by
the call of `hash_table_resize`; the frame `struct NET_NEW_RANGE_RESPONSE_PDU` is its
type byte. -/
def Q15_handler (K : pdu_types) (args : node) : Option (states × node) :=
  match args.lastPdu, args.table with
  | some (.net_new_range lastPdu), some table =>
    let min := lastPdu.range_start
    let min := if table.minHash < min then table.minHash else min
    let max := lastPdu.range_end
    let max := if table.maxHash > max then table.maxHash else max
    let args :=
      if table.maxHash ≠ 255 ∧ lastPdu.range_start = table.maxHash + 1 then
        send args 1 [K.NET_NEW_RANGE_RESPONSE % 256]
      else
        send args 3 [K.NET_NEW_RANGE_RESPONSE % 256]
    some (states.Q6,
      { args with table := some (hash_table_resize table (min % 256) (max % 256)) })
  | _, _ => none

/-- The function `Q16_handler`. -/
def Q16_handler (args : node) : Option (states × node) :=
  match args.lastPdu, args.table with
  | some (.net_leaving lastPdu), some table =>
    let args := create_socket args 1
    if table.minHash ≠ 0 ∨ table.maxHash ≠ 255 then
      let args := { args with successor := ⟨lastPdu.new_address, lastPdu.new_port⟩ }
      some (states.Q6, connect_socket args 1 args.successor)
    else some (states.Q6, args)
  | _, _ => none

/-- The function `Q17_handler`; the peer `accept` returns is an input. -/
def Q17_handler (accepted : sockaddr_in) (args : node) : Option (states × node) :=
  match args.table with
  | none => none
  | some table =>
    let args := create_socket args 3
    if table.minHash = 0 ∧ table.maxHash = 255 then
      some (states.Q6, { args with predecessor := ⟨0, 0⟩ })
    else
      some (states.Q6, accept_predacessor args accepted)

/-- The function `Q18_handler`. The initializer of `netLeavingPdu` lists the fields
of `struct NET_LEAVING_PDU` in their order: type, new_address, new_port. -/
def Q18_handler (K : pdu_types) (hash_ssn : List Nat → Nat) (args : node) :
    Option (states × node) :=
  match args.table with
  | none => none
  | some table =>
    match
      (if table.minHash ≠ 0 then transfer_entry_range K hash_ssn args 3 table.minHash
       else transfer_entry_range K hash_ssn args 1 table.minHash) with
    | none => none
    | some args =>
      let args := send args 1 [K.NET_CLOSE_CONNECTION % 256]
      let netLeavingPdu : NET_LEAVING_PDU :=
        { type := K.NET_LEAVING
          new_address := args.successor.s_addr
          new_port := args.successor.sin_port }
      let bytes := (serialize_net_leaving_pdu (List.replicate NET_LEAVING_BASE_LENGTH 0)
        netLeavingPdu).1
      some (states.EXIT, send args 3 (bytes.take NET_LEAVING_BASE_LENGTH))

/-- What the world outside of the process gives to one call of a handler: the time,
what the four sockets deliver to the reads of `Q6_handler`, what the blocking reads
of `read_pdu_type` deliver, the peer `accept` returns and the port `listen_socket`
returns. -/
structure inputs where
  currentTime : Int
  incoming : List (List (List Nat))
  rounds : List (List (List Nat))
  accepted : sockaddr_in
  port : Nat

/-- The call `stateMachine[currentState].handler(&n)` of `main`: the table
`stateMachine` lists the handlers Q1 to Q18. The static variable `shouldClose` is read
by `Q6_handler` only. `none` stands for a call that does not return (a blocking read
that is never satisfied, a null pointer) and for the state EXIT, which has no
handler. -/
def handler (K : pdu_types) (hash_ssn : List Nat → Nat) (shouldClose : Int) (env : inputs) :
    states → node → Option (states × node)
  | .Q1, args => some (Q1_handler K env.port args)
  | .Q2, args => Q2_handler K env.rounds args
  | .Q3, args => Q3_handler K env.rounds args
  | .Q4, args => some (Q4_handler args)
  | .Q5, args => Q5_handler K hash_ssn env.accepted args
  | .Q6, args => some (Q6_handler K shouldClose env.currentTime env.incoming args)
  | .Q7, args => Q7_handler K env.accepted env.rounds args
  | .Q8, args => Q8_handler args
  | .Q9, args => Q9_handler K hash_ssn args
  | .Q10, args => Q10_handler args
  | .Q11, args => Q11_handler K env.rounds args
  | .Q12, args => Q12_handler args
  | .Q13, args => Q13_handler K hash_ssn args
  | .Q14, args => Q14_handler args
  | .Q15, args => Q15_handler K args
  | .Q16, args => Q16_handler args
  | .Q17, args => Q17_handler env.accepted args
  | .Q18, args => Q18_handler K hash_ssn args
  | .EXIT, _ => none

/-! ## More sample tables -/

/-- A sample table over [140, 149] that holds `example_entry`, whose hash 149 is the
maximum of the range, built with the functions of the table. -/
def edge_table : hash_table :=
  (hash_table_insert sum_hash (hash_table_create 140 149) example_entry).2

/-- A record as a node stores it: an ssn of 12 bytes, and a name and an email that are
C strings (bytes, none of them zero) of at most 255 bytes. -/
def hash_table_entry.stored (e : hash_table_entry) : Prop :=
  e.ssn.length = 12 ∧ is_bytes e.ssn ∧
    e.name.length ≤ 255 ∧ is_bytes e.name ∧ (∀ x ∈ e.name, x ≠ 0) ∧
    e.email.length ≤ 255 ∧ is_bytes e.email ∧ (∀ x ∈ e.email, x ≠ 0)

instance (e : hash_table_entry) : Decidable e.stored := by
  unfold hash_table_entry.stored; infer_instance

/-! # Properties

## Buffer cells and the serializers: what a cell holds after a call -/

theorem and_255 (x : Nat) : x &&& 0xFF = x % 256 :=
  Nat.and_pow_two_sub_one_eq_mod x 8

theorem length_store (b : List Nat) (i v : Nat) : (store b i v).length = b.length := by
  simp [store]

theorem getD_store (b : List Nat) (i v k d : Nat) :
    (store b i v).getD k d = if k = i ∧ i < b.length then v % 256 else b.getD k d := by
  unfold store
  simp only [List.getD_eq_getElem?_getD, List.getElem?_set]
  by_cases hk : i = k
  · subst hk
    by_cases hi : i < b.length
    · simp [hi]
    · simp [hi, List.getElem?_eq_none (Nat.le_of_not_lt hi)]
  · have : ¬ k = i := fun h => hk h.symm
    simp [hk, this]

theorem length_serialize_string (b : List Nat) (off : Nat) (s : List Nat) (len : Nat) :
    (serialize_string b off s len).length = b.length := by
  induction len with
  | zero => simp [serialize_string]
  | succ n ih =>
    simp only [serialize_string, List.range_succ, List.foldl_append, List.foldl_cons,
      List.foldl_nil, length_store] at ih ⊢
    exact ih

theorem getD_serialize_string (b : List Nat) (off : Nat) (s : List Nat) (len k d : Nat) :
    (serialize_string b off s len).getD k d =
      if off ≤ k ∧ k < off + len ∧ k < b.length then s.getD (k - off) 0 % 256
      else b.getD k d := by
  induction len with
  | zero =>
    simp only [serialize_string, List.range_zero, List.foldl_nil]
    rw [if_neg (by omega)]
  | succ n ih =>
    have hl := length_serialize_string b off s n
    simp only [serialize_string, List.range_succ, List.foldl_append, List.foldl_cons,
      List.foldl_nil] at ih hl ⊢
    rw [getD_store, ih, hl]
    by_cases h1 : k = off + n
    · subst h1
      by_cases h2 : off + n < b.length
      · simp [h2]
      · simp [h2]
    · have h3 : (k < off + (n + 1)) = (k < off + n) := by
        apply propext; omega
      simp only [h1, false_and, if_false, h3]

theorem ext_getD {l₁ l₂ : List Nat} (hl : l₁.length = l₂.length)
    (h : ∀ k, k < l₁.length → l₁.getD k 0 = l₂.getD k 0) : l₁ = l₂ := by
  apply List.ext_getElem hl
  intro n h1 h2
  have := h n h1
  simpa [List.getD_eq_getElem?_getD, List.getElem?_eq_getElem h1,
    List.getElem?_eq_getElem h2] using this

theorem getD_take (l : List Nat) (n k d : Nat) (h : k < n) :
    (l.take n).getD k d = l.getD k d := by
  simp [List.getD_eq_getElem?_getD, List.getElem?_take, h]

theorem length_serialize_uint16 (b : List Nat) (off s : Nat) :
    (serialize_uint16 b off s).length = b.length := by
  simp [serialize_uint16, length_store]

theorem length_serialize_uint32 (b : List Nat) (off s : Nat) :
    (serialize_uint32 b off s).length = b.length := by
  simp [serialize_uint32, length_store]

theorem getD_serialize_uint16 (b : List Nat) (off s k d : Nat) :
    (serialize_uint16 b off s).getD k d =
      if k = off + 1 ∧ off + 1 < b.length then (s >>> 8) % 256
      else if k = off ∧ off < b.length then s % 256
      else b.getD k d := by
  simp only [serialize_uint16, getD_store, length_store, and_255, Nat.mod_mod, Nat.add_zero]

theorem getD_serialize_uint32 (b : List Nat) (off s k d : Nat) :
    (serialize_uint32 b off s).getD k d =
      if k = off + 3 ∧ off + 3 < b.length then (s >>> 24) % 256
      else if k = off + 2 ∧ off + 2 < b.length then (s >>> 16) % 256
      else if k = off + 1 ∧ off + 1 < b.length then (s >>> 8) % 256
      else if k = off ∧ off < b.length then s % 256
      else b.getD k d := by
  simp only [serialize_uint32, getD_store, length_store, and_255, Nat.mod_mod, Nat.add_zero]

theorem serialize_net_join_pdu_take (bytes : List Nat) (s : NET_JOIN_PDU)
    (h : 14 ≤ bytes.length) :
    (serialize_net_join_pdu bytes s).take 14 =
      [s.type % 256,
       s.src_address % 256, (s.src_address >>> 8) % 256, (s.src_address >>> 16) % 256,
       (s.src_address >>> 24) % 256,
       s.src_port % 256, (s.src_port >>> 8) % 256,
       s.max_span % 256,
       s.max_address % 256, (s.max_address >>> 8) % 256, (s.max_address >>> 16) % 256,
       (s.max_address >>> 24) % 256,
       s.max_port % 256, (s.max_port >>> 8) % 256] := by
  have hne : bytes ≠ [] := by
    intro h0; simp [h0] at h
  apply ext_getD
  · simp [serialize_net_join_pdu, length_store, length_serialize_uint16,
      length_serialize_uint32, h]
  · intro k hk
    simp only [List.length_take, serialize_net_join_pdu, length_store, length_serialize_uint16,
      length_serialize_uint32] at hk
    have hk14 : k < 14 := by omega
    rw [getD_take _ _ _ _ hk14]
    interval_cases k <;>
      simp only [serialize_net_join_pdu, getD_store, length_store, length_serialize_uint16,
        length_serialize_uint32, getD_serialize_uint16, getD_serialize_uint32] <;>
      simp <;> intro hc <;> first | omega | exact absurd hc hne

theorem getD_cons_ite (a : Nat) (l : List Nat) (k d : Nat) :
    (a :: l).getD k d = if k = 0 then a else l.getD (k - 1) d := by
  cases k <;> simp

theorem getD_append_ite (l₁ l₂ : List Nat) (k d : Nat) :
    (l₁ ++ l₂).getD k d = if k < l₁.length then l₁.getD k d else l₂.getD (k - l₁.length) d := by
  by_cases h : k < l₁.length
  · rw [if_pos h, List.getD_append _ _ _ _ h]
  · rw [if_neg h, List.getD_append_right _ _ _ _ (Nat.le_of_not_lt h)]

theorem is_bytes_getD {l : List Nat} (h : is_bytes l) (k : Nat) :
    l.getD k 0 % 256 = l.getD k 0 := by
  apply Nat.mod_eq_of_lt
  by_cases hk : k < l.length
  · rw [List.getD_eq_getElem _ _ hk]
    exact h _ (List.getElem_mem _)
  · rw [List.getD_eq_default _ _ (Nat.le_of_not_lt hk)]
    decide

theorem serialize_val_remove_pdu_take (bytes : List Nat) (s : VAL_REMOVE_PDU)
    (h : 13 ≤ bytes.length) (hs : s.wf) :
    (serialize_val_remove_pdu bytes s).take 13 = s.type :: s.ssn := by
  obtain ⟨ht, hl, hb⟩ := hs
  apply ext_getD
  · simp [serialize_val_remove_pdu, length_store, length_serialize_string, h, hl]
  · intro k hk
    simp only [List.length_take, serialize_val_remove_pdu, length_store,
      length_serialize_string] at hk
    have hk13 : k < 13 := by omega
    rw [getD_take _ _ _ _ hk13]
    simp only [serialize_val_remove_pdu, getD_serialize_string, getD_store, length_store,
      getD_cons_ite, SSN_LENGTH, is_bytes_getD hb]
    split_ifs <;> first | rfl | omega

theorem serialize_val_lookup_pdu_take (bytes : List Nat) (s : VAL_LOOKUP_PDU)
    (h : 19 ≤ bytes.length) (hs : s.wf) :
    (serialize_val_lookup_pdu bytes s).take 19 =
      s.type :: s.ssn ++
        [s.sender_address % 256, (s.sender_address >>> 8) % 256,
         (s.sender_address >>> 16) % 256, (s.sender_address >>> 24) % 256,
         s.sender_port % 256, (s.sender_port >>> 8) % 256] := by
  obtain ⟨ht, hl, hb, -, -⟩ := hs
  apply ext_getD
  · simp [serialize_val_lookup_pdu, length_store, length_serialize_string,
      length_serialize_uint16, length_serialize_uint32, h, hl]
  · intro k hk
    simp only [List.length_take, serialize_val_lookup_pdu, length_store,
      length_serialize_string, length_serialize_uint16, length_serialize_uint32] at hk
    have hk19 : k < 19 := by omega
    rw [getD_take _ _ _ _ hk19]
    simp only [serialize_val_lookup_pdu, getD_serialize_string, getD_store, length_store,
      length_serialize_string, length_serialize_uint16, length_serialize_uint32,
      getD_serialize_uint16, getD_serialize_uint32,
      getD_cons_ite, getD_append_ite, List.length_cons, hl, SSN_LENGTH, is_bytes_getD hb]
    by_cases h13 : k < 13
    · split_ifs <;> first | rfl | omega
    · obtain ⟨j, rfl⟩ : ∃ j, k = 13 + j := ⟨k - 13, by omega⟩
      have hj : j < 6 := by omega
      interval_cases j <;> simp <;> intro hc <;> omega

theorem serialize_val_insert_pdu_take (bytes : List Nat) (s : VAL_INSERT_PDU)
    (h : 15 + s.name_length + s.email_length ≤ bytes.length) (hs : s.wf) :
    (serialize_val_insert_pdu bytes s).1.take (15 + s.name_length + s.email_length) =
      s.type :: s.ssn ++ s.name_length :: s.name ++ s.email_length :: s.email := by
  obtain ⟨ht, hl, hb, hn, hnl, hnb, he, hel, heb⟩ := hs
  apply ext_getD
  · simp [serialize_val_insert_pdu, length_store, length_serialize_string, h, hl, hnl, hel]
    omega
  · intro k hk
    simp only [List.length_take, serialize_val_insert_pdu, length_store,
      length_serialize_string] at hk
    have hk' : k < 15 + s.name_length + s.email_length := by omega
    rw [getD_take _ _ _ _ hk']
    simp only [serialize_val_insert_pdu, getD_serialize_string, getD_store, length_store,
      length_serialize_string, getD_cons_ite, getD_append_ite, List.length_cons,
      List.length_append, hl, hnl, hel, SSN_LENGTH, is_bytes_getD hb, is_bytes_getD hnb,
      is_bytes_getD heb]
    split_ifs <;> first | rfl | omega | (congr 1; omega)

theorem load_bytes_eq (pdu l : List Nat) (off : Nat) (hb : is_bytes l)
    (h : ∀ i, i < l.length → pdu.getD (off + i) 0 = l.getD i 0) :
    load_bytes pdu off l.length = l := by
  apply ext_getD
  · simp [load_bytes]
  · intro k hk
    simp only [load_bytes, List.length_map, List.length_range] at hk
    rw [← is_bytes_getD hb k, ← h k hk]
    simp [load_bytes, load_uint8, List.getD_eq_getElem?_getD, List.getElem?_map,
      List.getElem?_range hk]

theorem le16 (x : Nat) (h : x < 2 ^ 16) : x % 256 + (x >>> 8) % 256 * 256 = x := by
  simp only [Nat.shiftRight_eq_div_pow]
  omega

theorem le32 (x : Nat) (h : x < 2 ^ 32) :
    x % 256 + (x >>> 8) % 256 * 256 + (x >>> 16) % 256 * 65536 +
      (x >>> 24) % 256 * 16777216 = x := by
  simp only [Nat.shiftRight_eq_div_pow]
  omega

theorem parse_net_join_take (bytes : List Nat) (s : NET_JOIN_PDU)
    (h : 14 ≤ bytes.length) (hs : s.wf) :
    parse_net_join (parse_pdu_type ((serialize_net_join_pdu bytes s).take 14))
      ((serialize_net_join_pdu bytes s).take 14) = (s, 14) := by
  obtain ⟨h1, h2, h3, h4, h5, h6⟩ := hs
  rw [serialize_net_join_pdu_take bytes s h]
  have e1 := le32 _ h2
  have e2 := le16 _ h3
  have e3 := le32 _ h5
  have e4 := le16 _ h6
  have e5 : s.type % 256 = s.type := Nat.mod_eq_of_lt h1
  have e6 : s.max_span % 256 = s.max_span := Nat.mod_eq_of_lt h4
  simp [parse_net_join, parse_pdu_type, load_uint32, load_uint16, load_uint8,
    NET_JOIN_BASE_LENGTH, e1, e2, e3, e4, e5, e6]

theorem parse_val_remove_take (bytes : List Nat) (s : VAL_REMOVE_PDU)
    (h : 13 ≤ bytes.length) (hs : s.wf) :
    parse_val_remove_pdu (parse_pdu_type ((serialize_val_remove_pdu bytes s).take 13))
      ((serialize_val_remove_pdu bytes s).take 13) = (s, 13) := by
  rw [serialize_val_remove_pdu_take bytes s h hs]
  obtain ⟨ht, hl, hb⟩ := hs
  have e1 : load_bytes (s.type :: s.ssn) 1 12 = s.ssn := by
    rw [← hl]
    apply load_bytes_eq _ _ _ hb
    intro i hi
    simp only [getD_cons_ite]
    split_ifs <;> first | rfl | omega | (congr 1; omega)
  have e2 : s.type % 256 = s.type := Nat.mod_eq_of_lt ht
  simp [parse_val_remove_pdu, parse_pdu_type, load_uint8, SSN_LENGTH, e1, e2]

theorem serialize_net_join_response_pdu_take (bytes : List Nat) (s : NET_JOIN_RESPONSE_PDU)
    (h : 9 ≤ bytes.length) :
    (serialize_net_join_response_pdu bytes s).take 9 =
      [s.type % 256,
       s.next_address % 256, (s.next_address >>> 8) % 256, (s.next_address >>> 16) % 256,
       (s.next_address >>> 24) % 256,
       s.next_port % 256, (s.next_port >>> 8) % 256,
       s.range_start % 256, s.range_end % 256] := by
  have hne : bytes ≠ [] := by
    intro h0; simp [h0] at h
  apply ext_getD
  · simp [serialize_net_join_response_pdu, length_store, length_serialize_uint16,
      length_serialize_uint32, h]
  · intro k hk
    simp only [List.length_take, serialize_net_join_response_pdu, length_store,
      length_serialize_uint16, length_serialize_uint32] at hk
    have hk9 : k < 9 := by omega
    rw [getD_take _ _ _ _ hk9]
    interval_cases k <;>
      simp only [serialize_net_join_response_pdu, getD_store, length_store,
        length_serialize_uint16, length_serialize_uint32, getD_serialize_uint16,
        getD_serialize_uint32] <;>
      simp <;> intro hc <;> first | omega | exact absurd hc hne

theorem serialize_net_leaving_pdu_take (bytes : List Nat) (s : NET_LEAVING_PDU)
    (h : 7 ≤ bytes.length) :
    (serialize_net_leaving_pdu bytes s).1.take 7 =
      [s.type % 256,
       s.new_address % 256, (s.new_address >>> 8) % 256, (s.new_address >>> 16) % 256,
       (s.new_address >>> 24) % 256,
       s.new_port % 256, (s.new_port >>> 8) % 256] := by
  have hne : bytes ≠ [] := by
    intro h0; simp [h0] at h
  apply ext_getD
  · simp [serialize_net_leaving_pdu, length_store, length_serialize_uint16,
      length_serialize_uint32, h]
  · intro k hk
    simp only [List.length_take, serialize_net_leaving_pdu, length_store,
      length_serialize_uint16, length_serialize_uint32] at hk
    have hk7 : k < 7 := by omega
    rw [getD_take _ _ _ _ hk7]
    interval_cases k <;>
      simp only [serialize_net_leaving_pdu, getD_store, length_store,
        length_serialize_uint16, length_serialize_uint32, getD_serialize_uint16,
        getD_serialize_uint32] <;>
      simp <;> intro hc <;> first | omega | exact absurd hc hne

theorem serialize_net_new_range_pdu_take (bytes : List Nat) (s : NET_NEW_RANGE_PDU)
    (h : 3 ≤ bytes.length) :
    (serialize_net_new_range_pdu bytes s).1.take 3 =
      [s.type % 256, s.range_start % 256, s.range_end % 256] := by
  have hne : bytes ≠ [] := by
    intro h0; simp [h0] at h
  apply ext_getD
  · simp [serialize_net_new_range_pdu, length_store, h]
  · intro k hk
    simp only [List.length_take, serialize_net_new_range_pdu, length_store] at hk
    have hk3 : k < 3 := by omega
    rw [getD_take _ _ _ _ hk3]
    interval_cases k <;>
      simp only [serialize_net_new_range_pdu, getD_store, length_store] <;>
      simp <;> intro hc <;> first | omega | exact absurd hc hne

theorem parse_net_join_response_take (bytes : List Nat) (s : NET_JOIN_RESPONSE_PDU)
    (h : 9 ≤ bytes.length) (hs : s.wf) :
    parse_net_join_response
      (parse_pdu_type ((serialize_net_join_response_pdu bytes s).take 9))
      ((serialize_net_join_response_pdu bytes s).take 9) = (s, 9) := by
  obtain ⟨h1, h2, h3, h4, h5⟩ := hs
  rw [serialize_net_join_response_pdu_take bytes s h]
  have e1 := le32 _ h2
  have e2 := le16 _ h3
  have e5 : s.type % 256 = s.type := Nat.mod_eq_of_lt h1
  have e6 : s.range_start % 256 = s.range_start := Nat.mod_eq_of_lt h4
  have e7 : s.range_end % 256 = s.range_end := Nat.mod_eq_of_lt h5
  simp [parse_net_join_response, parse_pdu_type, load_uint32, load_uint16, load_uint8,
    NET_JOIN_RESPONSE_BASE_LENGTH, e1, e2, e5, e6, e7]

theorem parse_net_leaving_take (bytes : List Nat) (s : NET_LEAVING_PDU)
    (h : 7 ≤ bytes.length) (hs : s.wf) :
    parse_net_leaving (parse_pdu_type ((serialize_net_leaving_pdu bytes s).1.take 7))
      ((serialize_net_leaving_pdu bytes s).1.take 7) = (s, 7) := by
  obtain ⟨h1, h2, h3⟩ := hs
  rw [serialize_net_leaving_pdu_take bytes s h]
  have e1 := le32 _ h2
  have e2 := le16 _ h3
  have e5 : s.type % 256 = s.type := Nat.mod_eq_of_lt h1
  simp [parse_net_leaving, parse_pdu_type, load_uint32, load_uint16, load_uint8,
    NET_LEAVING_BASE_LENGTH, e1, e2, e5]

theorem parse_net_new_range_take (bytes : List Nat) (s : NET_NEW_RANGE_PDU)
    (h : 3 ≤ bytes.length) (hs : s.wf) :
    parse_net_new_range (parse_pdu_type ((serialize_net_new_range_pdu bytes s).1.take 3))
      ((serialize_net_new_range_pdu bytes s).1.take 3) = (s, 3) := by
  obtain ⟨h1, h2, h3⟩ := hs
  rw [serialize_net_new_range_pdu_take bytes s h]
  have e5 : s.type % 256 = s.type := Nat.mod_eq_of_lt h1
  have e6 : s.range_start % 256 = s.range_start := Nat.mod_eq_of_lt h2
  have e7 : s.range_end % 256 = s.range_end := Nat.mod_eq_of_lt h3
  simp [parse_net_new_range, parse_pdu_type, load_uint8,
    NET_NEW_RANGE_BASE_LENGTH, e5, e6, e7]

theorem parse_val_lookup_take (bytes : List Nat) (s : VAL_LOOKUP_PDU)
    (h : 19 ≤ bytes.length) (hs : s.wf) :
    parse_val_lookup_pdu (parse_pdu_type ((serialize_val_lookup_pdu bytes s).take 19))
      ((serialize_val_lookup_pdu bytes s).take 19) = (s, 19) := by
  rw [serialize_val_lookup_pdu_take bytes s h hs]
  obtain ⟨ht, hl, hb, ha, hp⟩ := hs
  generalize hL : (s.type :: s.ssn ++
        [s.sender_address % 256, (s.sender_address >>> 8) % 256,
         (s.sender_address >>> 16) % 256, (s.sender_address >>> 24) % 256,
         s.sender_port % 256, (s.sender_port >>> 8) % 256]) = L
  have g : ∀ k, L.getD k 0 = if k = 0 then s.type else if k < 13 then s.ssn.getD (k - 1) 0
      else [s.sender_address % 256, (s.sender_address >>> 8) % 256,
         (s.sender_address >>> 16) % 256, (s.sender_address >>> 24) % 256,
         s.sender_port % 256, (s.sender_port >>> 8) % 256].getD (k - 13) 0 := by
    intro k
    rw [← hL]
    simp only [getD_cons_ite, getD_append_ite, List.length_cons, hl]
    split_ifs <;> first | rfl | omega
  have e1 : load_bytes L 1 12 = s.ssn := by
    rw [← hl]
    apply load_bytes_eq _ _ _ hb
    intro i hi
    rw [g]
    split_ifs <;> first | rfl | omega | (congr 1; omega)
  have e2 : s.type % 256 = s.type := Nat.mod_eq_of_lt ht
  have e3 := le32 _ ha
  have e4 := le16 _ hp
  simp only [parse_val_lookup_pdu, parse_pdu_type, load_uint8, load_uint16, load_uint32,
    SSN_LENGTH, e1, g]
  simp [e2, e3, e4]

theorem parse_val_insert_frame (s : VAL_INSERT_PDU) (hs : s.wf) :
    parse_val_insert_pdu
      (parse_pdu_type (s.type :: s.ssn ++ s.name_length :: s.name ++ s.email_length :: s.email))
      (s.type :: s.ssn ++ s.name_length :: s.name ++ s.email_length :: s.email) =
      (s, 15 + s.name_length + s.email_length) := by
  obtain ⟨ht, hl, hb, hn, hnl, hnb, he, hel, heb⟩ := hs
  generalize hL : (s.type :: s.ssn ++ s.name_length :: s.name ++ s.email_length :: s.email) = L
  have g : ∀ k, L.getD k 0 =
      if k = 0 then s.type else if k < 13 then s.ssn.getD (k - 1) 0
      else if k = 13 then s.name_length
      else if k < 14 + s.name_length then s.name.getD (k - 14) 0
      else if k = 14 + s.name_length then s.email_length
      else s.email.getD (k - 15 - s.name_length) 0 := by
    intro k
    rw [← hL]
    simp only [getD_cons_ite, getD_append_ite, List.length_cons, List.length_append, hl, hnl]
    split_ifs <;> first | rfl | omega | (congr 1; omega)
  have e0 : load_uint8 L 0 = s.type := by
    simp only [load_uint8, g]
    simp; omega
  have e1 : load_bytes L 1 12 = s.ssn := by
    rw [← hl]
    apply load_bytes_eq _ _ _ hb
    intro i hi
    rw [g]
    split_ifs <;> first | rfl | omega | (congr 1; omega)
  have e2 : load_uint8 L 13 = s.name_length := by
    simp only [load_uint8, g]
    simp; omega
  have e3 : load_bytes L 14 s.name_length = s.name := by
    rw [← hnl]
    apply load_bytes_eq _ _ _ hnb
    intro i hi
    rw [g]
    split_ifs <;> first | rfl | omega | (congr 1; omega)
  have e4 : load_uint8 L (14 + s.name_length) = s.email_length := by
    simp only [load_uint8, g]
    rw [if_neg (by omega), if_neg (by omega), if_neg (by omega), if_neg (by omega)]
    simp only [if_true]
    omega
  have e5 : load_bytes L (15 + s.name_length) s.email_length = s.email := by
    rw [← hel]
    apply load_bytes_eq _ _ _ heb
    intro i hi
    rw [g]
    split_ifs <;> first | rfl | omega | (congr 1; omega)
  have e6 : 14 + s.name_length + 1 = 15 + s.name_length := by omega
  have e7 : s.type % 256 = s.type := Nat.mod_eq_of_lt ht
  simp only [parse_val_insert_pdu, parse_pdu_type, SSN_LENGTH, Nat.reduceAdd, e0, e1, e2, e3,
    e4, e6, e5, e7]

/-! ## The serializers leave the cells beyond the frame as they were -/

theorem drop_eq_of_getD {l₁ l₂ : List Nat} (n : Nat) (hl : l₁.length = l₂.length)
    (h : ∀ k, n ≤ k → l₁.getD k 0 = l₂.getD k 0) : l₁.drop n = l₂.drop n := by
  apply ext_getD
  · simp [hl]
  · intro k _
    have := h (n + k) (by omega)
    simpa [List.getD_eq_getElem?_getD, List.getElem?_drop] using this

theorem store_keeps (b : List Nat) (i v n k d : Nat) (h1 : i < n) (h2 : n ≤ k) :
    (store b i v).getD k d = b.getD k d := by
  rw [getD_store, if_neg (by omega)]

theorem serialize_uint16_keeps (b : List Nat) (off s n k d : Nat) (h1 : off + 1 < n)
    (h2 : n ≤ k) : (serialize_uint16 b off s).getD k d = b.getD k d := by
  rw [getD_serialize_uint16, if_neg (by omega), if_neg (by omega)]

theorem serialize_uint32_keeps (b : List Nat) (off s n k d : Nat) (h1 : off + 3 < n)
    (h2 : n ≤ k) : (serialize_uint32 b off s).getD k d = b.getD k d := by
  rw [getD_serialize_uint32, if_neg (by omega), if_neg (by omega), if_neg (by omega),
    if_neg (by omega)]

theorem serialize_string_keeps (b : List Nat) (off : Nat) (s : List Nat) (len n k d : Nat)
    (h1 : off + len ≤ n) (h2 : n ≤ k) : (serialize_string b off s len).getD k d = b.getD k d := by
  rw [getD_serialize_string, if_neg (by omega)]

theorem serialize_net_join_pdu_rest (bytes : List Nat) (s : NET_JOIN_PDU) :
    (serialize_net_join_pdu bytes s).length = bytes.length ∧
      (serialize_net_join_pdu bytes s).drop 14 = bytes.drop 14 := by
  have hl : (serialize_net_join_pdu bytes s).length = bytes.length := by
    simp [serialize_net_join_pdu, length_store, length_serialize_uint16,
      length_serialize_uint32]
  refine ⟨hl, drop_eq_of_getD 14 hl ?_⟩
  intro k hk
  simp only [serialize_net_join_pdu]
  rw [serialize_uint16_keeps _ _ _ 14 _ _ (by omega) hk,
    serialize_uint32_keeps _ _ _ 14 _ _ (by omega) hk,
    store_keeps _ _ _ 14 _ _ (by omega) hk,
    serialize_uint16_keeps _ _ _ 14 _ _ (by omega) hk,
    serialize_uint32_keeps _ _ _ 14 _ _ (by omega) hk,
    store_keeps _ _ _ 14 _ _ (by omega) hk]

theorem serialize_net_join_response_pdu_rest (bytes : List Nat) (s : NET_JOIN_RESPONSE_PDU) :
    (serialize_net_join_response_pdu bytes s).length = bytes.length ∧
      (serialize_net_join_response_pdu bytes s).drop 9 = bytes.drop 9 := by
  have hl : (serialize_net_join_response_pdu bytes s).length = bytes.length := by
    simp [serialize_net_join_response_pdu, length_store, length_serialize_uint16,
      length_serialize_uint32]
  refine ⟨hl, drop_eq_of_getD 9 hl ?_⟩
  intro k hk
  simp only [serialize_net_join_response_pdu]
  rw [store_keeps _ _ _ 9 _ _ (by omega) hk, store_keeps _ _ _ 9 _ _ (by omega) hk,
    serialize_uint16_keeps _ _ _ 9 _ _ (by omega) hk,
    serialize_uint32_keeps _ _ _ 9 _ _ (by omega) hk,
    store_keeps _ _ _ 9 _ _ (by omega) hk]

theorem serialize_net_leaving_pdu_rest (bytes : List Nat) (s : NET_LEAVING_PDU) :
    (serialize_net_leaving_pdu bytes s).1.length = bytes.length ∧
      (serialize_net_leaving_pdu bytes s).1.drop 7 = bytes.drop 7 := by
  have hl : (serialize_net_leaving_pdu bytes s).1.length = bytes.length := by
    simp [serialize_net_leaving_pdu, length_store, length_serialize_uint16,
      length_serialize_uint32]
  refine ⟨hl, drop_eq_of_getD 7 hl ?_⟩
  intro k hk
  simp only [serialize_net_leaving_pdu]
  rw [serialize_uint16_keeps _ _ _ 7 _ _ (by omega) hk,
    serialize_uint32_keeps _ _ _ 7 _ _ (by omega) hk,
    store_keeps _ _ _ 7 _ _ (by omega) hk]

theorem serialize_net_new_range_pdu_rest (bytes : List Nat) (s : NET_NEW_RANGE_PDU) :
    (serialize_net_new_range_pdu bytes s).1.length = bytes.length ∧
      (serialize_net_new_range_pdu bytes s).1.drop 3 = bytes.drop 3 := by
  have hl : (serialize_net_new_range_pdu bytes s).1.length = bytes.length := by
    simp [serialize_net_new_range_pdu, length_store]
  refine ⟨hl, drop_eq_of_getD 3 hl ?_⟩
  intro k hk
  simp only [serialize_net_new_range_pdu]
  rw [store_keeps _ _ _ 3 _ _ (by omega) hk, store_keeps _ _ _ 3 _ _ (by omega) hk,
    store_keeps _ _ _ 3 _ _ (by omega) hk]

theorem serialize_val_lookup_pdu_rest (bytes : List Nat) (s : VAL_LOOKUP_PDU) :
    (serialize_val_lookup_pdu bytes s).length = bytes.length ∧
      (serialize_val_lookup_pdu bytes s).drop 19 = bytes.drop 19 := by
  have hl : (serialize_val_lookup_pdu bytes s).length = bytes.length := by
    simp [serialize_val_lookup_pdu, length_store, length_serialize_uint16,
      length_serialize_uint32, length_serialize_string]
  refine ⟨hl, drop_eq_of_getD 19 hl ?_⟩
  intro k hk
  simp only [serialize_val_lookup_pdu, SSN_LENGTH]
  rw [serialize_uint16_keeps _ _ _ 19 _ _ (by omega) hk,
    serialize_uint32_keeps _ _ _ 19 _ _ (by omega) hk,
    serialize_string_keeps _ _ _ _ 19 _ _ (by omega) hk,
    store_keeps _ _ _ 19 _ _ (by omega) hk]

theorem serialize_val_remove_pdu_rest (bytes : List Nat) (s : VAL_REMOVE_PDU) :
    (serialize_val_remove_pdu bytes s).length = bytes.length ∧
      (serialize_val_remove_pdu bytes s).drop 13 = bytes.drop 13 := by
  have hl : (serialize_val_remove_pdu bytes s).length = bytes.length := by
    simp [serialize_val_remove_pdu, length_store, length_serialize_string]
  refine ⟨hl, drop_eq_of_getD 13 hl ?_⟩
  intro k hk
  simp only [serialize_val_remove_pdu, SSN_LENGTH]
  rw [serialize_string_keeps _ _ _ _ 13 _ _ (by omega) hk,
    store_keeps _ _ _ 13 _ _ (by omega) hk]

theorem serialize_val_insert_pdu_rest (bytes : List Nat) (s : VAL_INSERT_PDU) :
    (serialize_val_insert_pdu bytes s).2 = 15 + s.name_length + s.email_length ∧
    (serialize_val_insert_pdu bytes s).1.length = bytes.length ∧
      (serialize_val_insert_pdu bytes s).1.drop (15 + s.name_length + s.email_length) =
        bytes.drop (15 + s.name_length + s.email_length) := by
  have hl : (serialize_val_insert_pdu bytes s).1.length = bytes.length := by
    simp [serialize_val_insert_pdu, length_store, length_serialize_string]
  refine ⟨?_, hl, drop_eq_of_getD _ hl ?_⟩
  · simp only [serialize_val_insert_pdu, SSN_LENGTH]
    omega
  · intro k hk
    simp only [serialize_val_insert_pdu, SSN_LENGTH]
    rw [serialize_string_keeps _ _ _ _ _ _ _ (by omega) hk,
      store_keeps _ _ _ _ _ _ (by omega) hk,
      serialize_string_keeps _ _ _ _ _ _ _ (by omega) hk,
      store_keeps _ _ _ _ _ _ (by omega) hk,
      serialize_string_keeps _ _ _ _ _ _ _ (by omega) hk,
      store_keeps _ _ _ _ _ _ (by omega) hk]

/-! ## The owned-range table: buckets, the ssn search and the shift of `hash_table_remove` -/

theorem getD_set_ite {α : Type} (l : List α) (i j : Nat) (x d : α) :
    (l.set i x).getD j d = if j = i ∧ i < l.length then x else l.getD j d := by
  simp only [List.getD_eq_getElem?_getD, List.getElem?_set]
  by_cases hk : i = j
  · subst hk
    by_cases hi : i < l.length
    · simp [hi]
    · simp [hi, List.getElem?_eq_none (Nat.le_of_not_lt hi)]
  · have : ¬ j = i := fun h => hk h.symm
    simp [hk, this]

theorem flatten_set_append {α : Type} (l : List (List α)) (i : Nat) (x : α)
    (h : i < l.length) :
    ((l.set i (l.getD i [] ++ [x])).flatten).length = l.flatten.length + 1 ∧
    ∀ p : α → Bool, ((l.set i (l.getD i [] ++ [x])).flatten).countP p =
      l.flatten.countP p + (if p x then 1 else 0) := by
  induction l generalizing i with
  | nil => simp at h
  | cons a t ih =>
    cases i with
    | zero =>
      refine ⟨by simp; omega, fun p => ?_⟩
      simp [List.countP_append, List.countP_cons]
      omega
    | succ n =>
      have hn : n < t.length := by simpa using h
      obtain ⟨h1, h2⟩ := ih n hn
      refine ⟨?_, fun p => ?_⟩
      · simp only [List.set_cons_succ, List.flatten_cons, List.length_append,
          List.getD_cons_succ] at h1 ⊢
        omega
      · have := h2 p
        simp only [List.set_cons_succ, List.flatten_cons, List.countP_append,
          List.getD_cons_succ] at this ⊢
        omega

theorem ssn_found_iff (ssn : List Nat) (e : hash_table_entry) :
    ssn_found ssn e = true ↔ same_ssn ssn e := by
  simp [ssn_found, same_ssn, List.all_eq_true]

theorem lookup_index_from_none (ssn : List Nat) (l : List hash_table_entry) (i : Nat)
    (h : ∀ e ∈ l, ¬ same_ssn ssn e) : hash_table_lookup_index_from ssn l i = -1 := by
  induction l generalizing i with
  | nil => rfl
  | cons a t ih =>
    have ha : ssn_found ssn a = false := by
      have := h a (List.mem_cons_self _ _)
      rw [← ssn_found_iff] at this
      simpa using this
    simp only [hash_table_lookup_index_from, ha]
    exact ih (i + 1) (fun e he => h e (List.mem_cons_of_mem _ he))

theorem lookup_index_from_first (ssn : List Nat) (pre : List hash_table_entry)
    (r : hash_table_entry) (post : List hash_table_entry) (i : Nat)
    (hpre : ∀ e ∈ pre, ¬ same_ssn ssn e) (hr : same_ssn ssn r) :
    hash_table_lookup_index_from ssn (pre ++ r :: post) i = ((i + pre.length : Nat) : Int) := by
  induction pre generalizing i with
  | nil =>
    have : ssn_found ssn r = true := (ssn_found_iff ssn r).2 hr
    simp [hash_table_lookup_index_from, this]
  | cons a t ih =>
    have ha : ssn_found ssn a = false := by
      have := hpre a (List.mem_cons_self _ _)
      rw [← ssn_found_iff] at this
      simpa using this
    have e : hash_table_lookup_index_from ssn (a :: (t ++ r :: post)) i =
        hash_table_lookup_index_from ssn (t ++ r :: post) (i + 1) := by
      simp [hash_table_lookup_index_from, ha]
    rw [List.cons_append, e, ih (i + 1) (fun e he => hpre e (List.mem_cons_of_mem _ he))]
    simp only [List.length_cons]
    congr 1
    omega

theorem lookup_index_from_cases (ssn : List Nat) (l : List hash_table_entry) :
    (∀ e ∈ l, ¬ same_ssn ssn e) ∨
      ∃ pre r post, l = pre ++ r :: post ∧ (∀ e ∈ pre, ¬ same_ssn ssn e) ∧ same_ssn ssn r := by
  induction l with
  | nil => left; simp
  | cons a t ih =>
    by_cases ha : same_ssn ssn a
    · right
      exact ⟨[], a, t, rfl, by simp, ha⟩
    · rcases ih with h | ⟨pre, r, post, h1, h2, h3⟩
      · left
        intro e he
        rcases List.mem_cons.1 he with rfl | he
        · exact ha
        · exact h e he
      · right
        refine ⟨a :: pre, r, post, by simp [h1], ?_, h3⟩
        intro e he
        rcases List.mem_cons.1 he with rfl | he
        · exact ha
        · exact h2 e he

theorem shift_steps (l : List hash_table_entry) (k n : Nat) (h : k + n < l.length) :
    ((List.range' k n).foldl
        (fun (l : List hash_table_entry) i =>
          match l[i + 1]? with
          | some e => l.set i e
          | none => l) l).length = l.length ∧
    ∀ j, ((List.range' k n).foldl
        (fun (l : List hash_table_entry) i =>
          match l[i + 1]? with
          | some e => l.set i e
          | none => l) l)[j]? =
      if k ≤ j ∧ j < k + n then l[j + 1]? else l[j]? := by
  induction n with
  | zero =>
    refine ⟨rfl, fun j => ?_⟩
    rw [if_neg (by omega)]
    rfl
  | succ m ih =>
    obtain ⟨h1, h2⟩ := ih (by omega)
    rw [List.range'_concat, List.foldl_append]
    simp only [List.foldl_cons, List.foldl_nil, Nat.one_mul]
    have hnext := h2 (k + m + 1)
    rw [if_neg (by omega)] at hnext
    have hlt : k + m + 1 < l.length := by omega
    rw [hnext, List.getElem?_eq_getElem hlt]
    simp only []
    refine ⟨by simp [h1], fun j => ?_⟩
    simp only [List.getElem?_set]
    by_cases hj : k + m = j
    · subst hj
      rw [if_pos rfl, if_pos (by omega), if_pos (by omega)]
      simp [List.getElem?_eq_getElem hlt]
    · rw [if_neg hj, h2 j]
      by_cases hj2 : k ≤ j ∧ j < k + m
      · rw [if_pos hj2, if_pos (by omega)]
      · rw [if_neg hj2, if_neg (by omega)]

theorem shift_entries_take (l : List hash_table_entry) (k : Nat) (h : k < l.length) :
    (shift_entries l k).take (l.length - 1) = l.eraseIdx k := by
  obtain ⟨h1, h2⟩ := shift_steps l k (l.length - 1 - k) (by omega)
  apply List.ext_getElem?
  intro j
  have := h2 j
  simp only [shift_entries, List.getElem?_take, List.getElem?_eraseIdx, this]
  by_cases hj : j < l.length - 1
  · rw [if_pos hj]
    by_cases hjk : j < k
    · rw [if_neg (by omega), if_pos hjk]
    · rw [if_pos (by omega), if_neg hjk]
  · rw [if_neg hj]
    by_cases hjk : j < k
    · omega
    · rw [if_neg hjk]
      exact (List.getElem?_eq_none (by omega)).symm

theorem eraseIdx_append_cons {α : Type} (pre : List α) (r : α) (post : List α) :
    (pre ++ r :: post).eraseIdx pre.length = pre ++ post := by
  induction pre with
  | nil => rfl
  | cons a t ih => simp [ih]

/-! ## The three cases of `hash_table_remove` and `hash_table_lookup` -/

theorem hash_index_eq (hash_ssn : List Nat → Nat) (table : hash_table) (ssn : List Nat) :
    hash_t (hash_t (hash_ssn ssn) - table.minHash) = hash_t (hash_ssn ssn) - table.minHash := by
  have hlt : hash_t (hash_ssn ssn) < 256 := Nat.mod_lt _ (by decide)
  unfold hash_t at hlt ⊢
  exact Nat.mod_eq_of_lt (by omega)

theorem hash_table_remove_out (hash_ssn : List Nat → Nat) (table : hash_table) (ssn : List Nat)
    (h : hash_t (hash_ssn ssn) < table.minHash ∨ hash_t (hash_ssn ssn) > table.maxHash) :
    hash_table_remove hash_ssn table ssn = (-1, table) := by
  unfold hash_table_remove
  simp only []
  rw [if_pos h]

theorem hash_table_remove_absent (hash_ssn : List Nat → Nat) (table : hash_table)
    (ssn : List Nat)
    (h : ¬ (hash_t (hash_ssn ssn) < table.minHash ∨ hash_t (hash_ssn ssn) > table.maxHash))
    (hno : ∀ e ∈ table.bucket_of (hash_t (hash_ssn ssn)), ¬ same_ssn ssn e) :
    hash_table_remove hash_ssn table ssn = (0, table) := by
  unfold hash_table_remove
  simp only [hash_index_eq]
  rw [if_neg h]
  have : hash_table_lookup_index
      (table.buckets.getD (hash_t (hash_ssn ssn) - table.minHash) []) ssn = -1 :=
    lookup_index_from_none ssn _ 0 hno
  rw [this]
  rfl

theorem hash_table_remove_present (hash_ssn : List Nat → Nat) (table : hash_table)
    (ssn : List Nat)
    (h : ¬ (hash_t (hash_ssn ssn) < table.minHash ∨ hash_t (hash_ssn ssn) > table.maxHash))
    (pre : List hash_table_entry) (r : hash_table_entry) (post : List hash_table_entry)
    (hb : table.bucket_of (hash_t (hash_ssn ssn)) = pre ++ r :: post)
    (hpre : ∀ e ∈ pre, ¬ same_ssn ssn e) (hr : same_ssn ssn r) :
    hash_table_remove hash_ssn table ssn =
      (0, { table with
            buckets := (table.buckets.set (hash_t (hash_ssn ssn) - table.minHash)
              (pre ++ post)) }) := by
  unfold hash_table_remove
  simp only [hash_index_eq]
  rw [if_neg h]
  have hb' : table.buckets.getD (hash_t (hash_ssn ssn) - table.minHash) [] =
      pre ++ r :: post := hb
  have hi : hash_table_lookup_index (pre ++ r :: post) ssn = ((pre.length : Nat) : Int) := by
    have := lookup_index_from_first ssn pre r post 0 hpre hr
    simpa [hash_table_lookup_index] using this
  rw [hb', hi]
  have hge : ((pre.length : Nat) : Int) ≥ 0 := Int.ofNat_nonneg _
  rw [if_pos hge]
  have hlen : pre.length < (pre ++ r :: post).length := by simp
  rw [Int.toNat_ofNat, shift_entries_take _ _ hlen, eraseIdx_append_cons]

theorem hash_table_lookup_out (hash_ssn : List Nat → Nat) (table : hash_table) (ssn : List Nat)
    (entry : Option hash_table_entry)
    (h : hash_t (hash_ssn ssn) < table.minHash ∨ hash_t (hash_ssn ssn) > table.maxHash) :
    hash_table_lookup hash_ssn table ssn entry = (-1, entry, table) := by
  unfold hash_table_lookup
  simp only []
  rw [if_pos h]

theorem hash_table_lookup_absent (hash_ssn : List Nat → Nat) (table : hash_table)
    (ssn : List Nat) (entry : Option hash_table_entry)
    (h : ¬ (hash_t (hash_ssn ssn) < table.minHash ∨ hash_t (hash_ssn ssn) > table.maxHash))
    (hno : ∀ e ∈ table.bucket_of (hash_t (hash_ssn ssn)), ¬ same_ssn ssn e) :
    hash_table_lookup hash_ssn table ssn entry = (0, entry, table) := by
  unfold hash_table_lookup
  simp only []
  rw [if_neg h]
  have : hash_table_lookup_index
      (table.buckets.getD (hash_t (hash_ssn ssn) - table.minHash) []) ssn = -1 :=
    lookup_index_from_none ssn _ 0 hno
  rw [this]
  simp

theorem hash_table_lookup_present (hash_ssn : List Nat → Nat) (table : hash_table)
    (ssn : List Nat) (entry : Option hash_table_entry)
    (h : ¬ (hash_t (hash_ssn ssn) < table.minHash ∨ hash_t (hash_ssn ssn) > table.maxHash))
    (pre : List hash_table_entry) (r : hash_table_entry) (post : List hash_table_entry)
    (hb : table.bucket_of (hash_t (hash_ssn ssn)) = pre ++ r :: post)
    (hpre : ∀ e ∈ pre, ¬ same_ssn ssn e) (hr : same_ssn ssn r) :
    hash_table_lookup hash_ssn table ssn entry = (0, some r, table) := by
  unfold hash_table_lookup
  simp only []
  rw [if_neg h]
  have hb' : table.buckets.getD (hash_t (hash_ssn ssn) - table.minHash) [] =
      pre ++ r :: post := hb
  have hi : hash_table_lookup_index (pre ++ r :: post) ssn = ((pre.length : Nat) : Int) := by
    have := lookup_index_from_first ssn pre r post 0 hpre hr
    simpa [hash_table_lookup_index] using this
  rw [hb', hi]
  have hne : ((pre.length : Nat) : Int) ≠ -1 := by omega
  rw [if_pos hne, Int.toNat_ofNat, List.getElem?_append_right (Nat.le_refl _)]
  simp

theorem getD_mem_of_mem {α : Type} (L : List (List α)) (i : Nat) (x : α)
    (h : x ∈ L.getD i []) : L.getD i [] ∈ L := by
  by_cases hi : i < L.length
  · rw [List.getD_eq_getElem _ _ hi]
    exact List.getElem_mem _
  · rw [List.getD_eq_default _ _ (Nat.le_of_not_lt hi)] at h
    simp at h

theorem same_ssn_iff_eq (ssn : List Nat) (e : hash_table_entry) (h1 : ssn.length = 12)
    (h2 : e.ssn.length = 12) : same_ssn ssn e ↔ e.ssn = ssn := by
  constructor
  · intro h
    apply ext_getD (by omega)
    intro k hk
    exact (h k (by omega)).symm
  · intro h j _
    rw [h]

theorem find?_flatten_bucket {α : Type} (L : List (List α)) (p : α → Bool) (i : Nat)
    (h : ∀ j, j ≠ i → ∀ x ∈ L.getD j [], p x = false) :
    L.flatten.find? p = (L.getD i []).find? p := by
  induction L generalizing i with
  | nil => simp
  | cons a t ih =>
    cases i with
    | zero =>
      have hnone : t.flatten.find? p = none := by
        rw [List.find?_eq_none]
        intro x hx
        obtain ⟨l, hl, hxl⟩ := List.mem_flatten.1 hx
        obtain ⟨k, hk, rfl⟩ := List.getElem_of_mem hl
        have := h (k + 1) (by omega) x (by
          simpa [List.getD_eq_getElem?_getD, List.getElem?_eq_getElem hk] using hxl)
        simp [this]
      simp [List.find?_append, hnone]
    | succ n =>
      have ha : a.find? p = none := by
        rw [List.find?_eq_none]
        intro x hx
        have := h 0 (by omega) x (by simpa using hx)
        simp [this]
      have := ih n (fun j hj x hx => h (j + 1) (by omega) x (by simpa using hx))
      simp [List.find?_append, ha, this]

/-! ## The buckets of a resized table -/

theorem getD_replicate_nil {α : Type} (n i : Nat) :
    (List.replicate n ([] : List α)).getD i [] = [] := by
  by_cases h : i < n
  · simp [List.getD_eq_getElem?_getD, List.getElem?_replicate, h]
  · simp [List.getD_eq_getElem?_getD, List.getElem?_replicate, h]

theorem resize_fold (table : hash_table) (newMin newMax n : Nat) :
    ((List.range n).foldl (hash_table_resize_body table newMin)
      (hash_table_create newMin newMax)).minHash = newMin ∧
    ((List.range n).foldl (hash_table_resize_body table newMin)
      (hash_table_create newMin newMax)).maxHash = newMax ∧
    ((List.range n).foldl (hash_table_resize_body table newMin)
      (hash_table_create newMin newMax)).buckets.length =
        ((newMax : Int) - (newMin : Int) + 1).toNat ∧
    ∀ i, ((List.range n).foldl (hash_table_resize_body table newMin)
      (hash_table_create newMin newMax)).buckets.getD i [] =
        if i < n ∧ i < ((newMax : Int) - (newMin : Int) + 1).toNat ∧
            table.minHash ≤ newMin + i ∧ newMin + i ≤ table.maxHash then
          (table.buckets.getD (newMin + i - table.minHash) []).map
            (fun e => hash_table_create_entry e.ssn e.name e.email)
        else [] := by
  induction n with
  | zero =>
    refine ⟨rfl, rfl, by simp [hash_table_create], fun i => ?_⟩
    rw [if_neg (by omega)]
    simp only [List.range_zero, List.foldl_nil, hash_table_create]
    exact getD_replicate_nil _ _
  | succ m ih =>
    obtain ⟨h1, h2, h3, h4⟩ := ih
    simp only [List.range_succ, List.foldl_append, List.foldl_cons, List.foldl_nil]
    generalize ((List.range m).foldl (hash_table_resize_body table newMin)
      (hash_table_create newMin newMax)) = acc at h1 h2 h3 h4 ⊢
    unfold hash_table_resize_body
    by_cases hc : newMin + m ≥ table.minHash ∧ newMin + m ≤ table.maxHash
    · rw [if_pos hc]
      refine ⟨h1, h2, by simp only [List.length_set]; exact h3, fun i => ?_⟩
      simp only [getD_set_ite, h3, h4]
      by_cases hi : i = m
      · subst hi
        by_cases hl : i < ((newMax : Int) - (newMin : Int) + 1).toNat
        · rw [if_pos ⟨rfl, hl⟩, if_pos ⟨by omega, hl, hc.1, hc.2⟩]
        · rw [if_neg (fun h => hl h.2), if_neg (fun h => hl h.2.1), if_neg (fun h => hl h.2.1)]
      · rw [if_neg (fun h => hi h.1)]
        by_cases hr : i < m ∧ i < ((newMax : Int) - (newMin : Int) + 1).toNat ∧
            table.minHash ≤ newMin + i ∧ newMin + i ≤ table.maxHash
        · rw [if_pos hr, if_pos ⟨by omega, hr.2⟩]
        · rw [if_neg hr, if_neg (fun h => hr ⟨by omega, h.2⟩)]
    · rw [if_neg hc]
      refine ⟨h1, h2, h3, fun i => ?_⟩
      rw [h4]
      by_cases hi : i = m
      · subst hi
        rw [if_neg (by omega), if_neg (fun h => hc ⟨h.2.2.1, h.2.2.2⟩)]
      · by_cases hr : i < m ∧ i < ((newMax : Int) - (newMin : Int) + 1).toNat ∧
            table.minHash ≤ newMin + i ∧ newMin + i ≤ table.maxHash
        · rw [if_pos hr, if_pos ⟨by omega, hr.2⟩]
        · rw [if_neg hr, if_neg (fun h => hr ⟨by omega, h.2⟩)]

theorem hash_table_resize_buckets (table : hash_table) (newMin newMax : Nat) :
    (hash_table_resize table newMin newMax).minHash = newMin ∧
    (hash_table_resize table newMin newMax).maxHash = newMax ∧
    (hash_table_resize table newMin newMax).allocated ∧
    ∀ i, (hash_table_resize table newMin newMax).buckets.getD i [] =
      if i + newMin < newMax ∧ table.minHash ≤ newMin + i ∧ newMin + i ≤ table.maxHash then
        (table.buckets.getD (newMin + i - table.minHash) []).map
          (fun e => hash_table_create_entry e.ssn e.name e.email)
      else [] := by
  obtain ⟨h1, h2, h3, h4⟩ := resize_fold table newMin newMax
    ((newMax : Int) - (newMin : Int)).toNat
  refine ⟨h1, h2, ?_, fun i => ?_⟩
  · unfold hash_table.allocated hash_table_resize
    rw [h1, h2]
    exact h3
  · have := h4 i
    unfold hash_table_resize
    rw [this]
    by_cases hc : i + newMin < newMax ∧ table.minHash ≤ newMin + i ∧ newMin + i ≤ table.maxHash
    · rw [if_pos hc, if_pos ⟨by omega, by omega, hc.2⟩]
    · rw [if_neg hc, if_neg (fun h => hc ⟨by omega, h.2.2⟩)]

theorem hash_table_resize_last_bucket (table : hash_table) (newMin newMax : Nat) :
    (hash_table_resize table newMin newMax).bucket_of newMax = [] := by
  obtain ⟨h1, -, -, h4⟩ := hash_table_resize_buckets table newMin newMax
  unfold hash_table.bucket_of
  rw [h1, h4, if_neg (by omega)]

/-! ## Enumerating the buckets from an offset -/

theorem getD_drop_add {α : Type} (L : List α) (k i : Nat) (d : α) :
    (L.drop k).getD i d = L.getD (k + i) d := by
  simp only [List.getD_eq_getElem?_getD, List.getElem?_drop]

theorem mem_flatten_iff_getD {α : Type} (L : List (List α)) (x : α) :
    x ∈ L.flatten ↔ ∃ j, x ∈ L.getD j [] := by
  constructor
  · intro h
    obtain ⟨l, hl, hx⟩ := List.mem_flatten.1 h
    obtain ⟨j, hj, rfl⟩ := List.getElem_of_mem hl
    exact ⟨j, by rw [List.getD_eq_getElem _ _ hj]; exact hx⟩
  · rintro ⟨j, hj⟩
    exact List.mem_flatten.2 ⟨_, getD_mem_of_mem L j x hj, hj⟩

theorem pairwise_flatten_of_index {α : Type} (f : α → Nat) (L : List (List α)) (c : Nat)
    (h : ∀ i x, x ∈ L.getD i [] → f x = c + i) :
    List.Pairwise (fun x y => f x ≤ f y) L.flatten := by
  induction L generalizing c with
  | nil => simp
  | cons a t ih =>
    rw [List.flatten_cons, List.pairwise_append]
    refine ⟨?_, ?_, ?_⟩
    · apply List.pairwise_of_forall_mem_list
      intro x hx y hy
      have e1 := h 0 x (by simpa using hx)
      have e2 := h 0 y (by simpa using hy)
      omega
    · apply ih (c + 1)
      intro i x hx
      have := h (i + 1) x (by simpa using hx)
      omega
    · intro x hx y hy
      obtain ⟨j, hj⟩ := (mem_flatten_iff_getD t y).1 hy
      have e1 := h 0 x (by simpa using hx)
      have e2 := h (j + 1) y (by simpa using hj)
      omega

/-! ## The wire codec (C1 to C4) -/

/-- C1. Codec round trip for the fixed-length frames: for every NET_JOIN,
NET_JOIN_RESPONSE, NET_LEAVING, NET_NEW_RANGE, VAL_LOOKUP and VAL_REMOVE frame whose
fields fit their widths (12-byte ssn), and every buffer that is long enough,
parsing the bytes written by the matching serialize function returns exactly the
frame, the parse function returns the length 14, 9, 7, 3, 19 and 13 respectively,
and this is the number of bytes serialized: the buffer keeps its length and every
cell from that offset on is left as it was. -/
theorem codec_round_trip_fixed
    (j : NET_JOIN_PDU) (r : NET_JOIN_RESPONSE_PDU) (l : NET_LEAVING_PDU)
    (n : NET_NEW_RANGE_PDU) (vl : VAL_LOOKUP_PDU) (vr : VAL_REMOVE_PDU)
    (bj br bl bn bvl bvr : List Nat)
    (hj : j.wf) (hr : r.wf) (hl : l.wf) (hn : n.wf) (hvl : vl.wf) (hvr : vr.wf)
    (hbj : 14 ≤ bj.length) (hbr : 9 ≤ br.length) (hbl : 7 ≤ bl.length)
    (hbn : 3 ≤ bn.length) (hbvl : 19 ≤ bvl.length) (hbvr : 13 ≤ bvr.length) :
    (parse_net_join (parse_pdu_type ((serialize_net_join_pdu bj j).take 14))
        ((serialize_net_join_pdu bj j).take 14) = (j, 14) ∧
      (serialize_net_join_pdu bj j).length = bj.length ∧
      (serialize_net_join_pdu bj j).drop 14 = bj.drop 14) ∧
    (parse_net_join_response (parse_pdu_type ((serialize_net_join_response_pdu br r).take 9))
        ((serialize_net_join_response_pdu br r).take 9) = (r, 9) ∧
      (serialize_net_join_response_pdu br r).length = br.length ∧
      (serialize_net_join_response_pdu br r).drop 9 = br.drop 9) ∧
    (parse_net_leaving (parse_pdu_type ((serialize_net_leaving_pdu bl l).1.take 7))
        ((serialize_net_leaving_pdu bl l).1.take 7) = (l, 7) ∧
      (serialize_net_leaving_pdu bl l).2 = 7 ∧
      (serialize_net_leaving_pdu bl l).1.length = bl.length ∧
      (serialize_net_leaving_pdu bl l).1.drop 7 = bl.drop 7) ∧
    (parse_net_new_range (parse_pdu_type ((serialize_net_new_range_pdu bn n).1.take 3))
        ((serialize_net_new_range_pdu bn n).1.take 3) = (n, 3) ∧
      (serialize_net_new_range_pdu bn n).2 = 3 ∧
      (serialize_net_new_range_pdu bn n).1.length = bn.length ∧
      (serialize_net_new_range_pdu bn n).1.drop 3 = bn.drop 3) ∧
    (parse_val_lookup_pdu (parse_pdu_type ((serialize_val_lookup_pdu bvl vl).take 19))
        ((serialize_val_lookup_pdu bvl vl).take 19) = (vl, 19) ∧
      (serialize_val_lookup_pdu bvl vl).length = bvl.length ∧
      (serialize_val_lookup_pdu bvl vl).drop 19 = bvl.drop 19) ∧
    (parse_val_remove_pdu (parse_pdu_type ((serialize_val_remove_pdu bvr vr).take 13))
        ((serialize_val_remove_pdu bvr vr).take 13) = (vr, 13) ∧
      (serialize_val_remove_pdu bvr vr).length = bvr.length ∧
      (serialize_val_remove_pdu bvr vr).drop 13 = bvr.drop 13) :=
  ⟨⟨parse_net_join_take bj j hbj hj, serialize_net_join_pdu_rest bj j⟩,
   ⟨parse_net_join_response_take br r hbr hr, serialize_net_join_response_pdu_rest br r⟩,
   ⟨parse_net_leaving_take bl l hbl hl, rfl, serialize_net_leaving_pdu_rest bl l⟩,
   ⟨parse_net_new_range_take bn n hbn hn, rfl, serialize_net_new_range_pdu_rest bn n⟩,
   ⟨parse_val_lookup_take bvl vl hbvl hvl, serialize_val_lookup_pdu_rest bvl vl⟩,
   ⟨parse_val_remove_take bvr vr hbvr hvr, serialize_val_remove_pdu_rest bvr vr⟩⟩

/-- Witness of C1: one frame of each of the six types, serialized into a zeroed
buffer of the length of the frame, parses back to itself. -/
theorem codec_round_trip_fixed_witness :
    parse_net_join
        (parse_pdu_type ((serialize_net_join_pdu (List.replicate 14 0)
          ⟨3, 0x0100007F, 8080, 7, 0xC0A80001, 65535⟩).take 14))
        ((serialize_net_join_pdu (List.replicate 14 0)
          ⟨3, 0x0100007F, 8080, 7, 0xC0A80001, 65535⟩).take 14) =
      (⟨3, 0x0100007F, 8080, 7, 0xC0A80001, 65535⟩, 14) ∧
    parse_net_join_response
        (parse_pdu_type ((serialize_net_join_response_pdu (List.replicate 9 0)
          ⟨4, 0x0100007F, 8080, 128, 255⟩).take 9))
        ((serialize_net_join_response_pdu (List.replicate 9 0)
          ⟨4, 0x0100007F, 8080, 128, 255⟩).take 9) = (⟨4, 0x0100007F, 8080, 128, 255⟩, 9) ∧
    parse_net_leaving
        (parse_pdu_type ((serialize_net_leaving_pdu (List.replicate 7 0)
          ⟨11, 0x0100007F, 8080⟩).1.take 7))
        ((serialize_net_leaving_pdu (List.replicate 7 0) ⟨11, 0x0100007F, 8080⟩).1.take 7) =
      (⟨11, 0x0100007F, 8080⟩, 7) ∧
    parse_net_new_range
        (parse_pdu_type ((serialize_net_new_range_pdu (List.replicate 3 0) ⟨9, 128, 255⟩).1.take 3))
        ((serialize_net_new_range_pdu (List.replicate 3 0) ⟨9, 128, 255⟩).1.take 3) =
      (⟨9, 128, 255⟩, 3) ∧
    parse_val_lookup_pdu
        (parse_pdu_type ((serialize_val_lookup_pdu (List.replicate 19 0)
          ⟨102, example_ssn, 0x0100007F, 4711⟩).take 19))
        ((serialize_val_lookup_pdu (List.replicate 19 0)
          ⟨102, example_ssn, 0x0100007F, 4711⟩).take 19) =
      (⟨102, example_ssn, 0x0100007F, 4711⟩, 19) ∧
    parse_val_remove_pdu
        (parse_pdu_type ((serialize_val_remove_pdu (List.replicate 13 0)
          ⟨101, example_ssn⟩).take 13))
        ((serialize_val_remove_pdu (List.replicate 13 0) ⟨101, example_ssn⟩).take 13) =
      (⟨101, example_ssn⟩, 13) := by
  have h := codec_round_trip_fixed
    ⟨3, 0x0100007F, 8080, 7, 0xC0A80001, 65535⟩ ⟨4, 0x0100007F, 8080, 128, 255⟩
    ⟨11, 0x0100007F, 8080⟩ ⟨9, 128, 255⟩ ⟨102, example_ssn, 0x0100007F, 4711⟩
    ⟨101, example_ssn⟩
    (List.replicate 14 0) (List.replicate 9 0) (List.replicate 7 0) (List.replicate 3 0)
    (List.replicate 19 0) (List.replicate 13 0)
    (by decide) (by decide) (by decide) (by decide) (by decide) (by decide)
    (by decide) (by decide) (by decide) (by decide) (by decide) (by decide)
  exact ⟨h.1.1, h.2.1.1, h.2.2.1.1, h.2.2.2.1.1, h.2.2.2.2.1.1, h.2.2.2.2.2.1⟩

/-- C2. Codec round trip of VAL_INSERT: for every 12-byte ssn and every name and
email of at most 255 bytes, with `name_length` and `email_length` their lengths,
`parse_val_insert_pdu` applied to the bytes written by `serialize_val_insert_pdu`
returns the same frame (ssn, name_length, name, email_length, email), and both
functions return the length `15 + name_length + email_length`; the serializer
leaves the buffer beyond that length as it was. -/
theorem codec_round_trip_val_insert (s : VAL_INSERT_PDU) (bytes : List Nat) (hs : s.wf)
    (hb : 15 + s.name_length + s.email_length ≤ bytes.length) :
    (serialize_val_insert_pdu bytes s).2 = 15 + s.name_length + s.email_length ∧
    parse_val_insert_pdu
        (parse_pdu_type ((serialize_val_insert_pdu bytes s).1.take
          (serialize_val_insert_pdu bytes s).2))
        ((serialize_val_insert_pdu bytes s).1.take (serialize_val_insert_pdu bytes s).2) =
      (s, 15 + s.name_length + s.email_length) ∧
    (serialize_val_insert_pdu bytes s).1.length = bytes.length ∧
    (serialize_val_insert_pdu bytes s).1.drop (serialize_val_insert_pdu bytes s).2 =
      bytes.drop (serialize_val_insert_pdu bytes s).2 := by
  obtain ⟨h1, h2, h3⟩ := serialize_val_insert_pdu_rest bytes s
  rw [h1]
  refine ⟨rfl, ?_, h2, h3⟩
  rw [serialize_val_insert_pdu_take bytes s hb hs]
  exact parse_val_insert_frame s hs

/-- Witness of C2: the frame of scenario S1 (name "Rolf", email "rolf@x"). -/
theorem codec_round_trip_val_insert_witness :
    parse_val_insert_pdu
        (parse_pdu_type ((serialize_val_insert_pdu (List.replicate 25 0)
          ⟨100, example_ssn, 4, [82, 111, 108, 102], 6, [114, 111, 108, 102, 64, 120]⟩).1.take
          (serialize_val_insert_pdu (List.replicate 25 0)
          ⟨100, example_ssn, 4, [82, 111, 108, 102], 6, [114, 111, 108, 102, 64, 120]⟩).2))
        ((serialize_val_insert_pdu (List.replicate 25 0)
          ⟨100, example_ssn, 4, [82, 111, 108, 102], 6, [114, 111, 108, 102, 64, 120]⟩).1.take
          (serialize_val_insert_pdu (List.replicate 25 0)
          ⟨100, example_ssn, 4, [82, 111, 108, 102], 6, [114, 111, 108, 102, 64, 120]⟩).2) =
      (⟨100, example_ssn, 4, [82, 111, 108, 102], 6, [114, 111, 108, 102, 64, 120]⟩,
        15 + 4 + 6) :=
  (codec_round_trip_val_insert
    ⟨100, example_ssn, 4, [82, 111, 108, 102], 6, [114, 111, 108, 102, 64, 120]⟩
    (List.replicate 25 0) (by decide) (by decide)).2.1

/-- C3. Wire layout of VAL_INSERT: for every VAL_INSERT frame with a name of n
bytes and an email of e bytes, `serialize_val_insert_pdu` writes exactly
`15 + n + e` bytes (it returns that length and leaves the rest of the buffer as it
was): the type byte, the 12 ssn bytes, the byte n, the n name bytes, the byte e and
the e email bytes, in this order. For ssn "aaaaabbbbbcc", name "Ada" and email
"a@b" these are 21 bytes, whatever the type byte is. -/
theorem val_insert_wire_layout (s : VAL_INSERT_PDU) (bytes : List Nat) (hs : s.wf)
    (hb : 15 + s.name_length + s.email_length ≤ bytes.length) :
    (serialize_val_insert_pdu bytes s).2 = 15 + s.name.length + s.email.length ∧
    (serialize_val_insert_pdu bytes s).1.take (15 + s.name.length + s.email.length) =
      [s.type] ++ s.ssn ++ [s.name.length] ++ s.name ++ [s.email.length] ++ s.email ∧
    (serialize_val_insert_pdu bytes s).1.drop (15 + s.name.length + s.email.length) =
      bytes.drop (15 + s.name.length + s.email.length) ∧
    (serialize_val_insert_pdu bytes s).1.length = bytes.length ∧
    (∀ ty, ty < 256 →
      serialize_val_insert_pdu (List.replicate 21 0)
          ⟨ty, example_ssn, 3, [65, 100, 97], 3, [97, 64, 98]⟩ =
        ([ty, 97, 97, 97, 97, 97, 98, 98, 98, 98, 98, 99, 99, 3, 65, 100, 97, 3, 97, 64, 98],
          21)) := by
  obtain ⟨h1, h2, h3⟩ := serialize_val_insert_pdu_rest bytes s
  have ht := serialize_val_insert_pdu_take bytes s hb hs
  have hn : s.name.length = s.name_length := hs.2.2.2.2.1
  have he : s.email.length = s.email_length := hs.2.2.2.2.2.2.2.1
  rw [hn, he]
  refine ⟨h1, ?_, h3, h2, ?_⟩
  · rw [ht]
    simp
  · intro ty hty
    have hw : (⟨ty, example_ssn, 3, [65, 100, 97], 3, [97, 64, 98]⟩ : VAL_INSERT_PDU).wf := by
      refine ⟨hty, ?_⟩
      show example_ssn.length = 12 ∧ is_bytes example_ssn ∧ 3 < 2 ^ 8 ∧
        [65, 100, 97].length = 3 ∧ is_bytes [65, 100, 97] ∧ 3 < 2 ^ 8 ∧
        [97, 64, 98].length = 3 ∧ is_bytes [97, 64, 98]
      decide
    have hlen : 15 + 3 + 3 ≤ (List.replicate 21 0).length := by decide
    have e1 := serialize_val_insert_pdu_take (List.replicate 21 0) _ hlen hw
    obtain ⟨e2, e3, -⟩ := serialize_val_insert_pdu_rest (List.replicate 21 0)
      ⟨ty, example_ssn, 3, [65, 100, 97], 3, [97, 64, 98]⟩
    have e4 : (serialize_val_insert_pdu (List.replicate 21 0)
        ⟨ty, example_ssn, 3, [65, 100, 97], 3, [97, 64, 98]⟩).1.take (15 + 3 + 3) =
        (serialize_val_insert_pdu (List.replicate 21 0)
        ⟨ty, example_ssn, 3, [65, 100, 97], 3, [97, 64, 98]⟩).1 :=
      List.take_of_length_le (by rw [e3]; decide)
    apply Prod.ext
    · rw [← e4, e1]
      rfl
    · exact e2

/-- Witness of C3: the frame of scenario S5 with the type byte 100 in a buffer of
32 cells. -/
theorem val_insert_wire_layout_witness :
    (serialize_val_insert_pdu (List.replicate 32 0)
        ⟨100, example_ssn, 3, [65, 100, 97], 3, [97, 64, 98]⟩).1.take (15 + 3 + 3) =
      [100] ++ example_ssn ++ [3] ++ [65, 100, 97] ++ [3] ++ [97, 64, 98] :=
  (val_insert_wire_layout ⟨100, example_ssn, 3, [65, 100, 97], 3, [97, 64, 98]⟩
    (List.replicate 32 0) (by decide) (by decide)).2.1

theorem shift_bytes32 (b0 b1 b2 b3 : Nat) (h0 : b0 < 256) (h1 : b1 < 256) (h2 : b2 < 256)
    (h3 : b3 < 256) (k : Nat) (hk : k < 4) :
    ((b0 + b1 * 2 ^ 8 + b2 * 2 ^ 16 + b3 * 2 ^ 24) >>> (8 * k)) % 256 = [b0, b1, b2, b3].getD k 0 := by
  interval_cases k <;> simp [Nat.shiftRight_eq_div_pow] <;> omega

theorem shift_bytes16 (b0 b1 : Nat) (h0 : b0 < 256) (h1 : b1 < 256) (k : Nat) (hk : k < 2) :
    ((b0 + b1 * 2 ^ 8) >>> (8 * k)) % 256 = [b0, b1].getD k 0 := by
  interval_cases k <;> simp [Nat.shiftRight_eq_div_pow] <;> omega

theorem load_uint8_lt (pdu : List Nat) (i : Nat) : load_uint8 pdu i < 256 :=
  Nat.mod_lt _ (by decide)

theorem load_uint8_of_bytes (pdu : List Nat) (hp : is_bytes pdu) (i : Nat) :
    load_uint8 pdu i = pdu.getD i 0 :=
  is_bytes_getD hp i

/-- C4. Little-endian integers on the wire: for every NET_JOIN frame,
`serialize_net_join_pdu` writes the type at offset 0, src_address at offsets 1..4,
src_port at 5..6, max_span at 7, max_address at 8..11 and max_port at 12..13,
every multi-byte field least-significant byte first (byte k of a field is
`(value >> 8k) mod 256`), and `parse_net_join` reads the same offsets with the same
byte order: byte k of each parsed field is the buffer byte at the offset of the
field plus k. -/
theorem net_join_little_endian (s : NET_JOIN_PDU) (bytes pdu : List Nat) (type : Nat)
    (hs : s.wf) (hb : 14 ≤ bytes.length) (hp : is_bytes pdu) :
    ((serialize_net_join_pdu bytes s).getD 0 0 = s.type ∧
      (∀ k, k < 4 →
        (serialize_net_join_pdu bytes s).getD (1 + k) 0 = (s.src_address >>> (8 * k)) % 256) ∧
      (∀ k, k < 2 →
        (serialize_net_join_pdu bytes s).getD (5 + k) 0 = (s.src_port >>> (8 * k)) % 256) ∧
      (serialize_net_join_pdu bytes s).getD 7 0 = s.max_span ∧
      (∀ k, k < 4 →
        (serialize_net_join_pdu bytes s).getD (8 + k) 0 = (s.max_address >>> (8 * k)) % 256) ∧
      (∀ k, k < 2 →
        (serialize_net_join_pdu bytes s).getD (12 + k) 0 = (s.max_port >>> (8 * k)) % 256)) ∧
    ((parse_net_join type pdu).1.type = type % 256 ∧
      (∀ k, k < 4 →
        ((parse_net_join type pdu).1.src_address >>> (8 * k)) % 256 = pdu.getD (1 + k) 0) ∧
      (∀ k, k < 2 →
        ((parse_net_join type pdu).1.src_port >>> (8 * k)) % 256 = pdu.getD (5 + k) 0) ∧
      (parse_net_join type pdu).1.max_span = pdu.getD 7 0 ∧
      (∀ k, k < 4 →
        ((parse_net_join type pdu).1.max_address >>> (8 * k)) % 256 = pdu.getD (8 + k) 0) ∧
      (∀ k, k < 2 →
        ((parse_net_join type pdu).1.max_port >>> (8 * k)) % 256 = pdu.getD (12 + k) 0)) := by
  obtain ⟨h1, h2, h3, h4, h5, h6⟩ := hs
  have ht := serialize_net_join_pdu_take bytes s hb
  have hg : ∀ i, i < 14 → (serialize_net_join_pdu bytes s).getD i 0 =
      [s.type % 256,
       s.src_address % 256, (s.src_address >>> 8) % 256, (s.src_address >>> 16) % 256,
       (s.src_address >>> 24) % 256,
       s.src_port % 256, (s.src_port >>> 8) % 256,
       s.max_span % 256,
       s.max_address % 256, (s.max_address >>> 8) % 256, (s.max_address >>> 16) % 256,
       (s.max_address >>> 24) % 256,
       s.max_port % 256, (s.max_port >>> 8) % 256].getD i 0 := by
    intro i hi
    rw [← ht, getD_take _ _ _ _ hi]
  have e1 : s.type % 256 = s.type := Nat.mod_eq_of_lt h1
  have e2 : s.max_span % 256 = s.max_span := Nat.mod_eq_of_lt h4
  refine ⟨⟨?_, ?_, ?_, ?_, ?_, ?_⟩, ⟨rfl, ?_, ?_, ?_, ?_, ?_⟩⟩
  · rw [hg 0 (by omega)]; simpa using e1
  · intro k hk
    rw [hg (1 + k) (by omega)]
    interval_cases k <;> simp
  · intro k hk
    rw [hg (5 + k) (by omega)]
    interval_cases k <;> simp
  · rw [hg 7 (by omega)]; simpa using e2
  · intro k hk
    rw [hg (8 + k) (by omega)]
    interval_cases k <;> simp
  · intro k hk
    rw [hg (12 + k) (by omega)]
    interval_cases k <;> simp
  · intro k hk
    show (load_uint32 pdu 1 >>> (8 * k)) % 256 = _
    unfold load_uint32
    rw [shift_bytes32 _ _ _ _ (load_uint8_lt _ _) (load_uint8_lt _ _) (load_uint8_lt _ _)
      (load_uint8_lt _ _) k hk]
    simp only [load_uint8_of_bytes pdu hp]
    interval_cases k <;> simp
  · intro k hk
    show (load_uint16 pdu 5 >>> (8 * k)) % 256 = _
    unfold load_uint16
    rw [shift_bytes16 _ _ (load_uint8_lt _ _) (load_uint8_lt _ _) k hk]
    simp only [load_uint8_of_bytes pdu hp]
    interval_cases k <;> simp
  · exact load_uint8_of_bytes pdu hp 7
  · intro k hk
    show (load_uint32 pdu 8 >>> (8 * k)) % 256 = _
    unfold load_uint32
    rw [shift_bytes32 _ _ _ _ (load_uint8_lt _ _) (load_uint8_lt _ _) (load_uint8_lt _ _)
      (load_uint8_lt _ _) k hk]
    simp only [load_uint8_of_bytes pdu hp]
    interval_cases k <;> simp
  · intro k hk
    show (load_uint16 pdu 12 >>> (8 * k)) % 256 = _
    unfold load_uint16
    rw [shift_bytes16 _ _ (load_uint8_lt _ _) (load_uint8_lt _ _) k hk]
    simp only [load_uint8_of_bytes pdu hp]
    interval_cases k <;> simp

/-- Witness of C4: a NET_JOIN frame with distinct bytes in every field, written
into a zeroed buffer, and a received buffer of 14 distinct bytes. -/
theorem net_join_little_endian_witness :
    (serialize_net_join_pdu (List.replicate 14 0)
        ⟨3, 0x04030201, 0x0605, 7, 0x0B0A0908, 0x0D0C⟩).getD 0 0 = 3 ∧
      ((parse_net_join 3 [3, 1, 2, 3, 4, 5, 6, 7, 8, 9, 10, 11, 12, 13]).1.src_address >>>
        (8 * 3)) % 256 = [3, 1, 2, 3, 4, 5, 6, 7, 8, 9, 10, 11, 12, 13].getD (1 + 3) 0 :=
  have h := net_join_little_endian ⟨3, 0x04030201, 0x0605, 7, 0x0B0A0908, 0x0D0C⟩
    (List.replicate 14 0) [3, 1, 2, 3, 4, 5, 6, 7, 8, 9, 10, 11, 12, 13] 3
    (by decide) (by decide) (by decide)
  ⟨h.1.1, h.2.2.1 3 (by decide)⟩

/-! ## The owned-range table (C5 to C10) -/

/-- C5. `hash_table_insert` fails exactly when the hash is out of range: for every
table over [min, max] and every entry, insert returns -1 if and only if
`hash_ssn(entry.ssn) < min` or `hash_ssn(entry.ssn) > max`, and in that case the
table is unchanged; otherwise it returns 0. In particular inserting into a table
whose range is [0, 255], such as the one `hash_table_create(0, 255)` returns, never
fails. -/
theorem hash_table_insert_fails_iff (hash_ssn : List Nat → Nat) (table : hash_table)
    (entry : hash_table_entry) :
    ((hash_table_insert hash_ssn table entry).1 = -1 ↔
      (hash_t (hash_ssn entry.ssn) < table.minHash ∨
        hash_t (hash_ssn entry.ssn) > table.maxHash)) ∧
    ((hash_table_insert hash_ssn table entry).1 = -1 →
      (hash_table_insert hash_ssn table entry).2 = table) ∧
    ((hash_table_insert hash_ssn table entry).1 ≠ -1 →
      (hash_table_insert hash_ssn table entry).1 = 0) ∧
    (table.minHash = 0 → table.maxHash = 255 →
      (hash_table_insert hash_ssn table entry).1 = 0) ∧
    (hash_table_insert hash_ssn (hash_table_create 0 255) entry).1 = 0 := by
  have key : ∀ t : hash_table, t.minHash = 0 → t.maxHash = 255 →
      (hash_table_insert hash_ssn t entry).1 = 0 := by
    intro t h0 h255
    have hlt : hash_t (hash_ssn entry.ssn) < 256 := Nat.mod_lt _ (by decide)
    unfold hash_table_insert
    simp only [h0, h255]
    rw [if_neg (by omega)]
  refine ⟨?_, ?_, ?_, key table, key _ rfl rfl⟩
  · unfold hash_table_insert
    simp only []
    split_ifs with h
    · simp [h]
    · simp [h]
  · unfold hash_table_insert
    simp only []
    split_ifs with h
    · simp
    · simp
  · unfold hash_table_insert
    simp only []
    split_ifs with h
    · simp
    · simp

/-- Witness of C5: with the stand-in hash, the sample record (hash 149) is refused by
a table over [150, 160] and accepted by a table over [0, 255]. -/
theorem hash_table_insert_fails_iff_witness :
    (hash_table_insert sum_hash (hash_table_create 150 160) example_entry).2 =
        hash_table_create 150 160 ∧
      (hash_table_insert sum_hash (hash_table_create 0 255) example_entry).1 = 0 :=
  have h1 := hash_table_insert_fails_iff sum_hash (hash_table_create 150 160) example_entry
  have h2 := hash_table_insert_fails_iff sum_hash (hash_table_create 0 255) example_entry
  ⟨h1.2.1 (h1.1.2 (by decide)), h2.2.2.2.1 rfl rfl⟩

/-- C6. `hash_table_insert` has append semantics: for every table and every
in-range entry e, after insert the bucket for `hash_ssn(e.ssn)` is the old bucket
followed by e, every other bucket and the range are unchanged, and the record is
added also when its ssn is already stored: the number of records grows by exactly one,
and so does the number of records with the ssn of e (no de-duplication). -/
theorem hash_table_insert_appends (hash_ssn : List Nat → Nat) (table : hash_table)
    (entry : hash_table_entry) (hal : table.allocated)
    (hmin : table.minHash ≤ hash_t (hash_ssn entry.ssn))
    (hmax : hash_t (hash_ssn entry.ssn) ≤ table.maxHash) :
    (hash_table_insert hash_ssn table entry).1 = 0 ∧
    (hash_table_insert hash_ssn table entry).2.minHash = table.minHash ∧
    (hash_table_insert hash_ssn table entry).2.maxHash = table.maxHash ∧
    (hash_table_insert hash_ssn table entry).2.buckets.length = table.buckets.length ∧
    (hash_table_insert hash_ssn table entry).2.bucket_of (hash_t (hash_ssn entry.ssn)) =
      table.bucket_of (hash_t (hash_ssn entry.ssn)) ++ [entry] ∧
    (∀ h, h ≠ hash_t (hash_ssn entry.ssn) → table.minHash ≤ h →
      (hash_table_insert hash_ssn table entry).2.bucket_of h = table.bucket_of h) ∧
    (hash_table_insert hash_ssn table entry).2.records.length = table.records.length + 1 ∧
    ((hash_table_insert hash_ssn table entry).2.records.countP (fun r => r.ssn = entry.ssn) =
      table.records.countP (fun r => r.ssn = entry.ssn) + 1) := by
  have hlt : hash_t (hash_ssn entry.ssn) < 256 := Nat.mod_lt _ (by decide)
  have hidx : hash_t (hash_t (hash_ssn entry.ssn) - table.minHash) =
      hash_t (hash_ssn entry.ssn) - table.minHash := by
    unfold hash_t at hlt ⊢
    exact Nat.mod_eq_of_lt (by omega)
  have hin : hash_t (hash_ssn entry.ssn) - table.minHash < table.buckets.length := by
    rw [hal]; omega
  have hnot : ¬ (hash_t (hash_ssn entry.ssn) < table.minHash ∨
      hash_t (hash_ssn entry.ssn) > table.maxHash) := by omega
  have hdef : hash_table_insert hash_ssn table entry =
      (0, { table with
            buckets := (table.buckets.set (hash_t (hash_ssn entry.ssn) - table.minHash)
              (table.buckets.getD (hash_t (hash_ssn entry.ssn) - table.minHash) [] ++
                [entry])) }) := by
    unfold hash_table_insert
    simp only [hidx]
    rw [if_neg hnot]
  rw [hdef]
  obtain ⟨f1, f2⟩ := flatten_set_append table.buckets _ entry hin
  refine ⟨rfl, rfl, rfl, by simp, ?_, ?_, f1, ?_⟩
  · simp only [hash_table.bucket_of, getD_set_ite]
    rw [if_pos ⟨trivial, hin⟩]
  · intro h hne hle
    simp only [hash_table.bucket_of, getD_set_ite]
    rw [if_neg (by omega)]
  · have := f2 (fun r => decide (r.ssn = entry.ssn))
    simpa [hash_table.records] using this

/-- Witness of C6: the sample record is inserted twice into a table over [140, 150]. -/
theorem hash_table_insert_appends_witness :
    (hash_table_insert sum_hash
        (hash_table_insert sum_hash (hash_table_create 140 150) example_entry).2
        example_entry).2.bucket_of (hash_t (sum_hash example_entry.ssn)) =
      (hash_table_insert sum_hash (hash_table_create 140 150) example_entry).2.bucket_of
        (hash_t (sum_hash example_entry.ssn)) ++ [example_entry] :=
  (hash_table_insert_appends sum_hash
    (hash_table_insert sum_hash (hash_table_create 140 150) example_entry).2 example_entry
    (by decide) (by decide) (by decide)).2.2.2.2.1

/-- C7. The function `hash_table_remove`: for every table over [min, max] and every
ssn, remove returns -1 if and only if `hash_ssn(ssn)` is outside [min, max], and then
the table is unchanged; otherwise it returns 0 and deletes exactly the first record of
the bucket of the ssn whose 12 ssn bytes are equal, keeping all other records in
their order (the range and every other bucket are untouched), and leaves the table
unchanged when no record matches. -/
theorem hash_table_remove_first_match (hash_ssn : List Nat → Nat) (table : hash_table)
    (ssn : List Nat) (hal : table.allocated) :
    ((hash_table_remove hash_ssn table ssn).1 = -1 ↔
      (hash_t (hash_ssn ssn) < table.minHash ∨ hash_t (hash_ssn ssn) > table.maxHash)) ∧
    ((hash_t (hash_ssn ssn) < table.minHash ∨ hash_t (hash_ssn ssn) > table.maxHash) →
      (hash_table_remove hash_ssn table ssn).2 = table) ∧
    (¬ (hash_t (hash_ssn ssn) < table.minHash ∨ hash_t (hash_ssn ssn) > table.maxHash) →
      (hash_table_remove hash_ssn table ssn).1 = 0 ∧
      (hash_table_remove hash_ssn table ssn).2.minHash = table.minHash ∧
      (hash_table_remove hash_ssn table ssn).2.maxHash = table.maxHash ∧
      (hash_table_remove hash_ssn table ssn).2.buckets.length = table.buckets.length ∧
      (∀ h, h ≠ hash_t (hash_ssn ssn) → table.minHash ≤ h →
        (hash_table_remove hash_ssn table ssn).2.bucket_of h = table.bucket_of h) ∧
      ((∀ e ∈ table.bucket_of (hash_t (hash_ssn ssn)), ¬ same_ssn ssn e) →
        (hash_table_remove hash_ssn table ssn).2 = table) ∧
      (∀ pre r post, table.bucket_of (hash_t (hash_ssn ssn)) = pre ++ r :: post →
        (∀ e ∈ pre, ¬ same_ssn ssn e) → same_ssn ssn r →
        (hash_table_remove hash_ssn table ssn).2.bucket_of (hash_t (hash_ssn ssn)) =
          pre ++ post)) := by
  by_cases hout : hash_t (hash_ssn ssn) < table.minHash ∨ hash_t (hash_ssn ssn) > table.maxHash
  · rw [hash_table_remove_out hash_ssn table ssn hout]
    exact ⟨⟨fun _ => hout, fun _ => rfl⟩, fun _ => rfl, fun h => absurd hout h⟩
  · have hlt : hash_t (hash_ssn ssn) < 256 := Nat.mod_lt _ (by decide)
    have hin : hash_t (hash_ssn ssn) - table.minHash < table.buckets.length := by
      rw [hal]; omega
    have present : ∀ pre r post, table.bucket_of (hash_t (hash_ssn ssn)) = pre ++ r :: post →
        (∀ e ∈ pre, ¬ same_ssn ssn e) → same_ssn ssn r →
        (hash_table_remove hash_ssn table ssn).2.bucket_of (hash_t (hash_ssn ssn)) =
          pre ++ post := by
      intro pre r post hb hpre hr
      rw [hash_table_remove_present hash_ssn table ssn hout pre r post hb hpre hr]
      simp only [hash_table.bucket_of, getD_set_ite]
      rw [if_pos ⟨trivial, hin⟩]
    rcases lookup_index_from_cases ssn (table.bucket_of (hash_t (hash_ssn ssn))) with
      hno | ⟨pre, r, post, hb, hpre, hr⟩
    · have e := hash_table_remove_absent hash_ssn table ssn hout hno
      refine ⟨?_, fun h => absurd h hout, fun _ => ?_⟩
      · rw [e]
        exact ⟨fun h => absurd (show (0 : Int) = -1 from h) (by decide), fun h => absurd h hout⟩
      · refine ⟨?_, ?_, ?_, ?_, ?_, ?_, present⟩ <;> rw [e] <;> intros <;> rfl
    · have e := hash_table_remove_present hash_ssn table ssn hout pre r post hb hpre hr
      refine ⟨?_, fun h => absurd h hout, fun _ => ?_⟩
      · rw [e]
        exact ⟨fun h => absurd (show (0 : Int) = -1 from h) (by decide), fun h => absurd h hout⟩
      · refine ⟨?_, ?_, ?_, ?_, ?_, ?_, present⟩
        · rw [e]
        · rw [e]
        · rw [e]
        · rw [e]; simp
        · intro h hne hle
          rw [e]
          simp only [hash_table.bucket_of, getD_set_ite]
          rw [if_neg (by omega)]
        · intro hno
          exact absurd hr (hno r (by rw [hb]; simp))

/-- Witness of C7: removing the ssn of the only record of the sample table over
[140, 150] empties the bucket of its hash. -/
theorem hash_table_remove_first_match_witness :
    example_table.allocated ∧
    example_table.bucket_of (hash_t (sum_hash example_ssn)) = [] ++ example_entry :: [] ∧
    (hash_table_remove sum_hash example_table example_ssn).2.bucket_of
      (hash_t (sum_hash example_ssn)) = [] ++ [] :=
  ⟨by decide, by decide,
    ((hash_table_remove_first_match sum_hash example_table example_ssn (by decide)).2.2
      (by decide)).2.2.2.2.2.2 [] example_entry [] (by decide) (by simp) (by decide)⟩

/-- C8. The function `hash_table_lookup`: for every table over [min, max] and every
ssn, lookup returns -1 if and only if `hash_ssn(ssn)` is outside [min, max] (the
output entry is then left untouched); otherwise it returns 0 and yields the first
record of the bucket of the ssn whose 12 ssn bytes equal ssn, or no record (the
output entry is left untouched) when none matches; the table is never modified. In
a table in which every record sits in the bucket of its hash and every ssn has 12
bytes, that record is the first stored record with this ssn. -/
theorem hash_table_lookup_first_match (hash_ssn : List Nat → Nat) (table : hash_table)
    (ssn : List Nat) (entry : Option hash_table_entry) :
    ((hash_table_lookup hash_ssn table ssn entry).1 = -1 ↔
      (hash_t (hash_ssn ssn) < table.minHash ∨ hash_t (hash_ssn ssn) > table.maxHash)) ∧
    (hash_table_lookup hash_ssn table ssn entry).2.2 = table ∧
    ((hash_t (hash_ssn ssn) < table.minHash ∨ hash_t (hash_ssn ssn) > table.maxHash) →
      (hash_table_lookup hash_ssn table ssn entry).2.1 = entry) ∧
    (¬ (hash_t (hash_ssn ssn) < table.minHash ∨ hash_t (hash_ssn ssn) > table.maxHash) →
      (hash_table_lookup hash_ssn table ssn entry).1 = 0 ∧
      ((∀ e ∈ table.bucket_of (hash_t (hash_ssn ssn)), ¬ same_ssn ssn e) →
        (hash_table_lookup hash_ssn table ssn entry).2.1 = entry) ∧
      (∀ pre r post, table.bucket_of (hash_t (hash_ssn ssn)) = pre ++ r :: post →
        (∀ e ∈ pre, ¬ same_ssn ssn e) → same_ssn ssn r →
        (hash_table_lookup hash_ssn table ssn entry).2.1 = some r) ∧
      (table.owned hash_ssn → ssn.length = 12 → (∀ r ∈ table.records, r.ssn.length = 12) →
        (hash_table_lookup hash_ssn table ssn entry).2.1 =
          match table.records.find? (fun r => decide (r.ssn = ssn)) with
          | some r => some r
          | none => entry)) := by
  by_cases hout : hash_t (hash_ssn ssn) < table.minHash ∨ hash_t (hash_ssn ssn) > table.maxHash
  · rw [hash_table_lookup_out hash_ssn table ssn entry hout]
    exact ⟨⟨fun _ => hout, fun _ => rfl⟩, rfl, fun _ => rfl, fun h => absurd hout h⟩
  · have absent := hash_table_lookup_absent hash_ssn table ssn entry hout
    have present := hash_table_lookup_present hash_ssn table ssn entry hout
    have hst : (hash_table_lookup hash_ssn table ssn entry).1 = 0 ∧
        (hash_table_lookup hash_ssn table ssn entry).2.2 = table := by
      rcases lookup_index_from_cases ssn (table.bucket_of (hash_t (hash_ssn ssn))) with
        hno | ⟨pre, r, post, hb, hpre, hr⟩
      · rw [absent hno]; exact ⟨rfl, rfl⟩
      · rw [present pre r post hb hpre hr]; exact ⟨rfl, rfl⟩
    refine ⟨⟨fun h => ?_, fun h => absurd h hout⟩, hst.2, fun h => absurd h hout, fun _ =>
      ⟨hst.1, fun hno => ?_, fun pre r post hb hpre hr => ?_, fun hown hlen hall => ?_⟩⟩
    · rw [hst.1] at h
      exact absurd h (by decide)
    · rw [absent hno]
    · rw [present pre r post hb hpre hr]
    · have hfl : table.records.find? (fun r => decide (r.ssn = ssn)) =
          (table.bucket_of (hash_t (hash_ssn ssn))).find? (fun r => decide (r.ssn = ssn)) := by
        apply find?_flatten_bucket
        intro j hj x hx
        have hx' := hown j x hx
        simp only [decide_eq_false_iff_not]
        intro hxs
        rw [hxs] at hx'
        omega
      have hmem : ∀ e ∈ table.bucket_of (hash_t (hash_ssn ssn)), e.ssn.length = 12 := by
        intro e he
        apply hall
        unfold hash_table.records
        rw [List.mem_flatten]
        exact ⟨_, getD_mem_of_mem _ _ _ he, he⟩
      rw [hfl]
      rcases lookup_index_from_cases ssn (table.bucket_of (hash_t (hash_ssn ssn))) with
        hno | ⟨pre, r, post, hb, hpre, hr⟩
      · rw [absent hno]
        have : (table.bucket_of (hash_t (hash_ssn ssn))).find?
            (fun r => decide (r.ssn = ssn)) = none := by
          rw [List.find?_eq_none]
          intro x hx
          have := hno x hx
          rw [same_ssn_iff_eq ssn x hlen (hmem x hx)] at this
          simpa using this
        rw [this]
      · rw [present pre r post hb hpre hr, hb]
        have hmem' : ∀ e ∈ pre ++ r :: post, e.ssn.length = 12 := by
          rw [← hb]; exact hmem
        have h1 : pre.find? (fun r => decide (r.ssn = ssn)) = none := by
          rw [List.find?_eq_none]
          intro x hx
          have := hpre x hx
          rw [same_ssn_iff_eq ssn x hlen (hmem' x (by simp [hx]))] at this
          simpa using this
        have h2 : r.ssn = ssn := (same_ssn_iff_eq ssn r hlen (hmem' r (by simp))).1 hr
        simp [List.find?_append, h1, h2]

/-- Witness of C8: looking up the ssn of the only record of the sample table over
[140, 150] yields that record. -/
theorem hash_table_lookup_first_match_witness :
    example_table.bucket_of (hash_t (sum_hash example_ssn)) = [] ++ example_entry :: [] ∧
    (hash_table_lookup sum_hash example_table example_ssn none).2.1 = some example_entry :=
  ⟨by decide,
    ((hash_table_lookup_first_match sum_hash example_table example_ssn none).2.2.2
      (by decide)).2.2.1 [] example_entry [] (by decide) (by simp) (by decide)⟩

/-- C9, at the failing input: the sample table over [140, 150] holds one record,
whose hash 149 lies in [140, 149] ∩ [140, 150], and `hash_table_resize(t, 140, 149)`
holds no record, while `hash_table_resize(t, 140, 150)` keeps it: the records whose
hash equals the new maximum are dropped. This is so for every table and every new
range: the loop of `hash_table_resize` stops one bucket short and the bucket of the
hash `newMax` stays empty. -/
theorem hash_table_resize_drops_new_max :
    example_table.records = [example_entry] ∧
    hash_t (sum_hash example_entry.ssn) = 149 ∧
    (hash_table_resize example_table 140 149).records = [] ∧
    (hash_table_resize example_table 140 150).records = [example_entry] ∧
    ∀ (table : hash_table) (newMin newMax : Nat),
      (hash_table_resize table newMin newMax).bucket_of newMax = [] :=
  ⟨by decide, by decide, by decide, by decide, hash_table_resize_last_bucket⟩

/-- C10, as the claim states it, fails: the sample table over [1, 3] holds a record
whose hash 2 lies in [2, 3], and `hash_table_get_buckets_from(table, 2)` does not
enumerate it: the buckets it returns are the single bucket of the hash 3. -/
theorem hash_table_get_buckets_from_not_by_hash :
    low_table.minHash = 1 ∧ low_table.maxHash = 3 ∧
    low_entry ∈ low_table.records ∧
    2 ≤ hash_t (sum_hash low_entry.ssn) ∧ hash_t (sum_hash low_entry.ssn) ≤ 3 ∧
    low_entry ∉ (hash_table_get_buckets_from low_table 2).flatten ∧
    hash_table_get_buckets_from low_table 2 = [low_table.bucket_of 3] := by
  decide

/-- C10, amended: the argument of `hash_table_get_buckets_from` is an offset into the
bucket array, not a hash. For every table over [min, max] in which every record sits
in the bucket of its hash, and every k, `hash_table_get_buckets_from(table, k)` is the
sequence of the buckets of the hashes min + k, min + k + 1, ..., max; it enumerates, in
increasing hash order, the records whose hash lies in [min + k, max], and only those. -/
theorem hash_table_get_buckets_from_offset (hash_ssn : List Nat → Nat) (table : hash_table)
    (k : Nat) (hal : table.allocated) (hown : table.owned hash_ssn) :
    (hash_table_get_buckets_from table k).length =
      ((table.maxHash : Int) - (table.minHash : Int) + 1).toNat - k ∧
    (∀ i, (hash_table_get_buckets_from table k).getD i [] =
      table.bucket_of (table.minHash + k + i)) ∧
    (∀ i e, e ∈ (hash_table_get_buckets_from table k).getD i [] →
      hash_t (hash_ssn e.ssn) = table.minHash + k + i) ∧
    (∀ e, e ∈ (hash_table_get_buckets_from table k).flatten ↔
      (e ∈ table.records ∧ table.minHash + k ≤ hash_t (hash_ssn e.ssn) ∧
        hash_t (hash_ssn e.ssn) ≤ table.maxHash)) ∧
    List.Pairwise (fun x y => hash_t (hash_ssn x.ssn) ≤ hash_t (hash_ssn y.ssn))
      (hash_table_get_buckets_from table k).flatten := by
  have hmax : ∀ j e, e ∈ table.buckets.getD j [] → hash_t (hash_ssn e.ssn) ≤ table.maxHash := by
    intro j e he
    have hj : j < table.buckets.length := by
      by_contra hc
      rw [List.getD_eq_default _ _ (Nat.le_of_not_lt hc)] at he
      simp at he
    have := hown j e he
    rw [hal] at hj
    omega
  refine ⟨?_, ?_, ?_, ?_, ?_⟩
  · simp only [hash_table_get_buckets_from, List.length_drop]
    rw [hal]
  · intro i
    simp only [hash_table_get_buckets_from, hash_table.bucket_of, getD_drop_add]
    congr 1
    omega
  · intro i e he
    simp only [hash_table_get_buckets_from, getD_drop_add] at he
    have := hown (k + i) e he
    omega
  · intro e
    simp only [hash_table_get_buckets_from, hash_table.records, mem_flatten_iff_getD,
      getD_drop_add]
    constructor
    · rintro ⟨i, hi⟩
      have := hown (k + i) e hi
      exact ⟨⟨k + i, hi⟩, by omega, hmax _ e hi⟩
    · rintro ⟨⟨j, hj⟩, h1, -⟩
      have := hown j e hj
      refine ⟨j - k, ?_⟩
      have e1 : k + (j - k) = j := by omega
      rw [e1]
      exact hj
  · apply pairwise_flatten_of_index (fun (e : hash_table_entry) => hash_t (hash_ssn e.ssn)) _
      (table.minHash + k)
    intro i x hx
    simp only [hash_table_get_buckets_from, getD_drop_add] at hx
    have := hown (k + i) x hx
    omega

/-- Witness of the amended C10: the sample table over [1, 3] and the offset 1, that
is the buckets of the hashes 2 and 3. -/
theorem hash_table_get_buckets_from_offset_witness :
    low_table.allocated ∧ low_table.owned sum_hash ∧
    (∀ e, e ∈ (hash_table_get_buckets_from low_table 1).flatten ↔
      (e ∈ low_table.records ∧ low_table.minHash + 1 ≤ hash_t (sum_hash e.ssn) ∧
        hash_t (sum_hash e.ssn) ≤ low_table.maxHash)) := by
  have hal : low_table.allocated := by decide
  have hown : low_table.owned sum_hash := by
    intro i e he
    have hi : i < 3 := by
      by_contra hc
      have : low_table.buckets.getD i [] = [] :=
        List.getD_eq_default _ _ (by
          have : low_table.buckets.length = 3 := by decide
          omega)
      rw [this] at he
      simp at he
    interval_cases i
    · have : low_table.buckets.getD 0 [] = [] := by decide
      rw [this] at he
      simp at he
    · have : low_table.buckets.getD 1 [] = [low_entry] := by decide
      rw [this] at he
      have : e = low_entry := by simpa using he
      subst this
      decide
    · have : low_table.buckets.getD 2 [] = [] := by decide
      rw [this] at he
      simp at he
  exact ⟨hal, hown, (hash_table_get_buckets_from_offset sum_hash low_table 1 hal hown).2.2.2.1⟩

/-! ## The ownership invariant (C11) -/

theorem create_entry_ssn_length (ssn name email : List Nat) :
    (hash_table_create_entry ssn name email).ssn.length = 12 := by
  simp [hash_table_create_entry]

theorem create_entry_ssn_copy (ssn name email : List Nat) (h : ssn.length = 12) :
    (hash_table_create_entry ssn name email).ssn = ssn := by
  apply ext_getD
  · simp [hash_table_create_entry, h]
  · intro k hk
    simp only [hash_table_create_entry, List.length_map, List.length_range] at hk
    simp [hash_table_create_entry, List.getD_eq_getElem?_getD, List.getElem?_map,
      List.getElem?_range hk]

/-- The invariant of the reachable tables: the shape of the bucket array, every
record in the bucket of its hash, every ssn of 12 bytes. -/
theorem reachable_invariant (hash_ssn : List Nat → Nat) (t : hash_table)
    (h : t.reachable hash_ssn) :
    t.allocated ∧ t.owned hash_ssn ∧
      ∀ i e, e ∈ t.buckets.getD i [] → e.ssn.length = 12 := by
  induction h with
  | create min max =>
    refine ⟨by simp [hash_table.allocated, hash_table_create], ?_, ?_⟩
    · intro i e he
      simp only [hash_table_create, getD_replicate_nil] at he
      simp at he
    · intro i e he
      simp only [hash_table_create, getD_replicate_nil] at he
      simp at he
  | insert t e _ hlen ih =>
    obtain ⟨hal, hown, hssn⟩ := ih
    by_cases hout : hash_t (hash_ssn e.ssn) < t.minHash ∨ hash_t (hash_ssn e.ssn) > t.maxHash
    · have : hash_table_insert hash_ssn t e = (-1, t) := by
        unfold hash_table_insert
        simp only []
        rw [if_pos hout]
      rw [this]
      exact ⟨hal, hown, hssn⟩
    · have hdef : hash_table_insert hash_ssn t e =
          (0, { t with
                buckets := (t.buckets.set (hash_t (hash_ssn e.ssn) - t.minHash)
                  (t.buckets.getD (hash_t (hash_ssn e.ssn) - t.minHash) [] ++ [e])) }) := by
        unfold hash_table_insert
        simp only [hash_index_eq]
        rw [if_neg hout]
      rw [hdef]
      refine ⟨?_, ?_, ?_⟩
      · unfold hash_table.allocated at hal ⊢
        simp only [List.length_set]
        exact hal
      · intro i x hx
        simp only [getD_set_ite] at hx
        split_ifs at hx with hc
        · rcases List.mem_append.1 hx with hx | hx
          · exact hown i x (by rw [hc.1]; exact hx)
          · have : x = e := by simpa using hx
            subst this
            show hash_t (hash_ssn x.ssn) = t.minHash + i
            omega
        · exact hown i x hx
      · intro i x hx
        simp only [getD_set_ite] at hx
        split_ifs at hx with hc
        · rcases List.mem_append.1 hx with hx | hx
          · exact hssn _ x hx
          · have : x = e := by simpa using hx
            subst this
            exact hlen
        · exact hssn i x hx
  | remove t ssn _ ih =>
    obtain ⟨hal, hown, hssn⟩ := ih
    by_cases hout : hash_t (hash_ssn ssn) < t.minHash ∨ hash_t (hash_ssn ssn) > t.maxHash
    · rw [hash_table_remove_out hash_ssn t ssn hout]
      exact ⟨hal, hown, hssn⟩
    · rcases lookup_index_from_cases ssn (t.bucket_of (hash_t (hash_ssn ssn))) with
        hno | ⟨pre, r, post, hb, hpre, hr⟩
      · rw [hash_table_remove_absent hash_ssn t ssn hout hno]
        exact ⟨hal, hown, hssn⟩
      · rw [hash_table_remove_present hash_ssn t ssn hout pre r post hb hpre hr]
        have hb' : t.buckets.getD (hash_t (hash_ssn ssn) - t.minHash) [] = pre ++ r :: post := hb
        have hsub : ∀ x, x ∈ pre ++ post →
            x ∈ t.buckets.getD (hash_t (hash_ssn ssn) - t.minHash) [] := by
          intro x hx
          rw [hb']
          rcases List.mem_append.1 hx with hx | hx
          · exact List.mem_append_left _ hx
          · exact List.mem_append_right _ (List.mem_cons_of_mem _ hx)
        refine ⟨?_, ?_, ?_⟩
        · unfold hash_table.allocated at hal ⊢
          simp only [List.length_set]
          exact hal
        · intro i x hx
          simp only [getD_set_ite] at hx
          split_ifs at hx with hc
          · exact hown i x (by rw [hc.1]; exact hsub x hx)
          · exact hown i x hx
        · intro i x hx
          simp only [getD_set_ite] at hx
          split_ifs at hx with hc
          · exact hssn _ x (hsub x hx)
          · exact hssn i x hx
  | resize t newMin newMax _ ih =>
    obtain ⟨hal, hown, hssn⟩ := ih
    obtain ⟨h1, h2, h3, h4⟩ := hash_table_resize_buckets t newMin newMax
    have hcopy : ∀ i x, x ∈ (hash_table_resize t newMin newMax).buckets.getD i [] →
        ∃ e, e ∈ t.buckets.getD (newMin + i - t.minHash) [] ∧ t.minHash ≤ newMin + i ∧
          x.ssn = e.ssn := by
      intro i x hx
      rw [h4] at hx
      split_ifs at hx with hc
      · obtain ⟨e, he, rfl⟩ := List.mem_map.1 hx
        exact ⟨e, he, hc.2.1, create_entry_ssn_copy _ _ _ (hssn _ e he)⟩
      · simp at hx
    refine ⟨h3, ?_, ?_⟩
    · intro i x hx
      obtain ⟨e, he, hle, hs⟩ := hcopy i x hx
      have := hown _ e he
      rw [h1, hs, this]
      omega
    · intro i x hx
      obtain ⟨e, he, _, hs⟩ := hcopy i x hx
      rw [hs]
      exact hssn _ e he

/-- C11. Ownership invariant: in every table reachable from
`hash_table_create(min, max)` by any sequence of `hash_table_insert`,
`hash_table_remove` and `hash_table_resize`, every stored record r satisfies
`min ≤ hash_ssn(r.ssn) ≤ max` for the current range of the table, and r sits in the
bucket with index `hash_ssn(r.ssn) − min`. -/
theorem ownership_invariant (hash_ssn : List Nat → Nat) (t : hash_table)
    (h : t.reachable hash_ssn) :
    ∀ r, r ∈ t.records →
      t.minHash ≤ hash_t (hash_ssn r.ssn) ∧ hash_t (hash_ssn r.ssn) ≤ t.maxHash ∧
      r ∈ t.buckets.getD (hash_t (hash_ssn r.ssn) - t.minHash) [] ∧
      ∀ i, r ∈ t.buckets.getD i [] → i = hash_t (hash_ssn r.ssn) - t.minHash := by
  obtain ⟨hal, hown, -⟩ := reachable_invariant hash_ssn t h
  intro r hr
  obtain ⟨j, hj⟩ := (mem_flatten_iff_getD t.buckets r).1 hr
  have hh := hown j r hj
  have hjlt : j < t.buckets.length := by
    by_contra hc
    rw [List.getD_eq_default _ _ (Nat.le_of_not_lt hc)] at hj
    simp at hj
  rw [hal] at hjlt
  have e1 : hash_t (hash_ssn r.ssn) - t.minHash = j := by omega
  refine ⟨by omega, by omega, by rw [e1]; exact hj, ?_⟩
  intro i hi
  have := hown i r hi
  omega

/-- Witness of C11: the sample table over [140, 150], resized to [100, 200], holds
the sample record in the bucket of its hash 149. -/
theorem ownership_invariant_witness :
    example_entry ∈ (hash_table_resize example_table 100 200).records ∧
    (hash_table_resize example_table 100 200).minHash ≤ hash_t (sum_hash example_entry.ssn) ∧
    hash_t (sum_hash example_entry.ssn) ≤ (hash_table_resize example_table 100 200).maxHash :=
  have hr : (hash_table_resize example_table 100 200).reachable sum_hash :=
    hash_table.reachable.resize _ 100 200
      (hash_table.reachable.insert _ example_entry (hash_table.reachable.create 140 150)
        (by decide))
  have hm : example_entry ∈ (hash_table_resize example_table 100 200).records := by decide
  ⟨hm, (ownership_invariant sum_hash _ hr example_entry hm).1,
    (ownership_invariant sum_hash _ hr example_entry hm).2.1⟩
/-! ## `clear_buffer` -/

theorem clear_buffer_fold (len bytes : Int) (b : List Nat) (m : Nat) (hb : 0 ≤ bytes) :
    ((List.range m).foldl (clear_buffer_body len bytes) b).length = b.length ∧
    ∀ k, ((List.range m).foldl (clear_buffer_body len bytes) b).getD k 0 =
      if k < m ∧ k < b.length then
        (if (k : Int) + bytes ≥ len then 0 else b.getD (k + bytes.toNat) 0)
      else b.getD k 0 := by
  induction m with
  | zero =>
    refine ⟨rfl, fun k => ?_⟩
    rw [if_neg (by omega)]
    rfl
  | succ m ih =>
    obtain ⟨h1, h2⟩ := ih
    simp only [List.range_succ, List.foldl_append, List.foldl_cons, List.foldl_nil]
    generalize (List.range m).foldl (clear_buffer_body len bytes) b = acc at h1 h2 ⊢
    have hidx : ((m : Int) + bytes).toNat = m + bytes.toNat := by omega
    have hread : acc.getD ((m : Int) + bytes).toNat 0 = b.getD (m + bytes.toNat) 0 := by
      rw [hidx, h2, if_neg (by omega)]
    unfold clear_buffer_body
    by_cases hc : (m : Int) + bytes ≥ len
    · rw [if_pos hc]
      refine ⟨by simp only [List.length_set]; exact h1, fun k => ?_⟩
      rw [getD_set_ite, h1, h2]
      by_cases hk : k = m
      · subst hk
        by_cases hl : k < b.length
        · have hl' : k < k + 1 ∧ k < b.length := ⟨by omega, hl⟩
          rw [if_pos ⟨rfl, hl⟩, if_pos hl', if_pos hc]
        · have hl1 : ¬ (k = k ∧ k < b.length) := fun h => hl h.2
          have hl2 : ¬ (k < k ∧ k < b.length) := fun h => hl h.2
          have hl3 : ¬ (k < k + 1 ∧ k < b.length) := fun h => hl h.2
          rw [if_neg hl1, if_neg hl2, if_neg hl3]
      · rw [if_neg (fun h => hk h.1)]
        by_cases hr : k < m ∧ k < b.length
        · have hr' : k < m + 1 ∧ k < b.length := ⟨by omega, hr.2⟩
          rw [if_pos hr, if_pos hr']
        · have hr' : ¬ (k < m + 1 ∧ k < b.length) := fun h => hr ⟨by omega, h.2⟩
          rw [if_neg hr, if_neg hr']
    · rw [if_neg hc, hread]
      refine ⟨by simp only [List.length_set]; exact h1, fun k => ?_⟩
      rw [getD_set_ite, h1, h2]
      by_cases hk : k = m
      · subst hk
        by_cases hl : k < b.length
        · have hl' : k < k + 1 ∧ k < b.length := ⟨by omega, hl⟩
          rw [if_pos ⟨rfl, hl⟩, if_pos hl', if_neg hc]
        · have hl1 : ¬ (k = k ∧ k < b.length) := fun h => hl h.2
          have hl2 : ¬ (k < k ∧ k < b.length) := fun h => hl h.2
          have hl3 : ¬ (k < k + 1 ∧ k < b.length) := fun h => hl h.2
          rw [if_neg hl1, if_neg hl2, if_neg hl3]
      · rw [if_neg (fun h => hk h.1)]
        by_cases hr : k < m ∧ k < b.length
        · have hr' : k < m + 1 ∧ k < b.length := ⟨by omega, hr.2⟩
          rw [if_pos hr, if_pos hr']
        · have hr' : ¬ (k < m + 1 ∧ k < b.length) := fun h => hr ⟨by omega, h.2⟩
          rw [if_neg hr, if_neg hr']

theorem clear_buffer_spec (buf : socket_buffer) (n : Nat) (hn : (n : Int) ≤ buf.len)
    (hcap : buf.len ≤ buf.buffer.length) :
    (clear_buffer buf n).len = buf.len - n ∧
    (clear_buffer buf n).buffer.length = buf.buffer.length ∧
    (clear_buffer buf n).content = buf.content.drop n := by
  obtain ⟨h1, h2⟩ := clear_buffer_fold buf.len n buf.buffer buf.len.toNat (by omega)
  refine ⟨rfl, h1, ?_⟩
  unfold socket_buffer.content
  apply ext_getD
  · simp only [clear_buffer, List.length_take, List.length_drop, h1]
    omega
  · intro k hk
    simp only [clear_buffer, List.length_take, h1] at hk
    have hk1 : k < (buf.len - (n : Int)).toNat := by omega
    rw [getD_take _ _ _ _ (by simpa [clear_buffer] using hk1)]
    simp only [clear_buffer]
    rw [h2, if_pos ⟨by omega, by omega⟩, if_neg (by omega), getD_drop_add,
      getD_take _ _ _ _ (by omega)]
    congr 1
    omega
/-! ## The dispatch of Q6 -/

theorem nodup_getElem_ne {l : List Nat} (h : l.Nodup) (p q : Nat) (hp : p < l.length)
    (hq : q < l.length) (hpq : p ≠ q) : l[p] ≠ l[q] :=
  fun e => hpq ((List.Nodup.getElem_inj_iff h).1 e)

theorem pdu_types.dispatched_distinct (K : pdu_types) (hK : K.wf) :
    K.VAL_REMOVE ≠ K.VAL_INSERT ∧ K.VAL_LOOKUP ≠ K.VAL_INSERT ∧
    K.NET_NEW_RANGE ≠ K.VAL_INSERT ∧ K.NET_LEAVING ≠ K.VAL_INSERT ∧
    K.NET_CLOSE_CONNECTION ≠ K.VAL_INSERT ∧ K.NET_JOIN ≠ K.VAL_INSERT ∧
    K.VAL_LOOKUP ≠ K.VAL_REMOVE ∧ K.NET_NEW_RANGE ≠ K.VAL_REMOVE ∧
    K.NET_LEAVING ≠ K.VAL_REMOVE ∧ K.NET_CLOSE_CONNECTION ≠ K.VAL_REMOVE ∧
    K.NET_JOIN ≠ K.VAL_REMOVE ∧ K.NET_NEW_RANGE ≠ K.VAL_LOOKUP ∧
    K.NET_LEAVING ≠ K.VAL_LOOKUP ∧ K.NET_CLOSE_CONNECTION ≠ K.VAL_LOOKUP ∧
    K.NET_JOIN ≠ K.VAL_LOOKUP ∧ K.NET_LEAVING ≠ K.NET_NEW_RANGE ∧
    K.NET_CLOSE_CONNECTION ≠ K.NET_NEW_RANGE ∧ K.NET_JOIN ≠ K.NET_NEW_RANGE ∧
    K.NET_CLOSE_CONNECTION ≠ K.NET_LEAVING ∧ K.NET_JOIN ≠ K.NET_LEAVING ∧
    K.NET_JOIN ≠ K.NET_CLOSE_CONNECTION := by
  have h := hK.2
  have hl : K.all.length = 15 := rfl
  have f := fun (p q : Nat) (hp : p < 15) (hq : q < 15) (hpq : p ≠ q) =>
    nodup_getElem_ne h p q (by omega) (by omega) hpq
  exact ⟨f 10 9 (by omega) (by omega) (by omega), f 11 9 (by omega) (by omega) (by omega),
    f 6 9 (by omega) (by omega) (by omega), f 7 9 (by omega) (by omega) (by omega),
    f 5 9 (by omega) (by omega) (by omega), f 3 9 (by omega) (by omega) (by omega),
    f 11 10 (by omega) (by omega) (by omega), f 6 10 (by omega) (by omega) (by omega),
    f 7 10 (by omega) (by omega) (by omega), f 5 10 (by omega) (by omega) (by omega),
    f 3 10 (by omega) (by omega) (by omega), f 6 11 (by omega) (by omega) (by omega),
    f 7 11 (by omega) (by omega) (by omega), f 5 11 (by omega) (by omega) (by omega),
    f 3 11 (by omega) (by omega) (by omega), f 7 6 (by omega) (by omega) (by omega),
    f 5 6 (by omega) (by omega) (by omega), f 3 6 (by omega) (by omega) (by omega),
    f 5 7 (by omega) (by omega) (by omega), f 3 7 (by omega) (by omega) (by omega),
    f 3 5 (by omega) (by omega) (by omega)⟩

theorem Q6_slot_empty (K : pdu_types) (args : node) (j : Nat)
    (h : (args.socketBuffers.getD j default).len = 0) : Q6_slot K args j = (none, args) := by
  unfold Q6_slot
  simp only [h, if_true]

theorem Q6_dispatch_of_slot (K : pdu_types) (shouldClose : Int) (args : node) (i : Nat)
    (hi : i < 4) (hempty : ∀ j, j < i → (args.socketBuffers.getD j default).len = 0)
    (s : states) (a : node) (h : Q6_slot K args i = (some s, a)) :
    Q6_dispatch K shouldClose args = (s, a) := by
  have e0 := fun (h0 : 0 < i) => Q6_slot_empty K args 0 (hempty 0 h0)
  have e1 := fun (h0 : 1 < i) => Q6_slot_empty K args 1 (hempty 1 h0)
  have e2 := fun (h0 : 2 < i) => Q6_slot_empty K args 2 (hempty 2 h0)
  unfold Q6_dispatch
  interval_cases i
  · simp only [Q6_slots, h]
  · simp only [Q6_slots, e0 (by omega), h]
  · simp only [Q6_slots, e0 (by omega), e1 (by omega), h]
  · simp only [Q6_slots, e0 (by omega), e1 (by omega), e2 (by omega), h]

theorem Q6_slot_val_insert (K : pdu_types) (args : node) (i : Nat)
    (ht : parse_pdu_type (args.socketBuffers.getD i default).buffer = K.VAL_INSERT)
    (hlen : (args.socketBuffers.getD i default).len ≥
      ((15 + load_uint8 (args.socketBuffers.getD i default).buffer 13 +
        load_uint8 (args.socketBuffers.getD i default).buffer
          (14 + load_uint8 (args.socketBuffers.getD i default).buffer 13) : Nat) : Int)) :
    Q6_slot K args i =
      (some states.Q9,
        save_last_pdu
          (consume_frame args i
            ((15 + load_uint8 (args.socketBuffers.getD i default).buffer 13 +
              load_uint8 (args.socketBuffers.getD i default).buffer
                (14 + load_uint8 (args.socketBuffers.getD i default).buffer 13) : Nat) : Int))
          (.val_insert
            (parse_val_insert_pdu K.VAL_INSERT (args.socketBuffers.getD i default).buffer).1)) := by
  unfold Q6_slot
  simp only [ht, if_true, VAL_INSERT_BASE_LENGTH]
  rw [if_neg (by omega), if_pos (by omega), if_pos (by push_cast; omega),
    if_pos (by push_cast; omega)]
  simp only [consume_frame]

theorem Q6_slot_val_remove (K : pdu_types) (hK : K.wf) (args : node) (i : Nat)
    (ht : parse_pdu_type (args.socketBuffers.getD i default).buffer = K.VAL_REMOVE)
    (hlen : (args.socketBuffers.getD i default).len ≥ 13) :
    Q6_slot K args i =
      (some states.Q9,
        save_last_pdu (consume_frame args i 13)
          (.val_remove
            (parse_val_remove_pdu K.VAL_REMOVE (args.socketBuffers.getD i default).buffer).1)) := by
  obtain ⟨h1, -⟩ := pdu_types.dispatched_distinct K hK
  unfold Q6_slot
  simp only [ht, if_true, VAL_REMOVE_BASE_LENGTH, h1, if_false]
  rw [if_neg (by omega), if_pos (by omega)]
  simp only [consume_frame]
  rfl

theorem Q6_slot_val_lookup (K : pdu_types) (hK : K.wf) (args : node) (i : Nat)
    (ht : parse_pdu_type (args.socketBuffers.getD i default).buffer = K.VAL_LOOKUP)
    (hlen : (args.socketBuffers.getD i default).len ≥ 19) :
    Q6_slot K args i =
      (some states.Q9,
        save_last_pdu (consume_frame args i 19)
          (.val_lookup
            (parse_val_lookup_pdu K.VAL_LOOKUP (args.socketBuffers.getD i default).buffer).1)) := by
  obtain ⟨-, h1, -, -, -, -, h2, -⟩ := pdu_types.dispatched_distinct K hK
  unfold Q6_slot
  simp only [ht, if_true, VAL_LOOKUP_BASE_LENGTH, h1, h2, if_false]
  rw [if_neg (by omega), if_pos (by omega)]
  simp only [consume_frame]
  rfl

theorem Q6_slot_net_new_range (K : pdu_types) (hK : K.wf) (args : node) (i : Nat)
    (ht : parse_pdu_type (args.socketBuffers.getD i default).buffer = K.NET_NEW_RANGE)
    (hlen : (args.socketBuffers.getD i default).len ≥ 3) :
    Q6_slot K args i =
      (some states.Q15,
        save_last_pdu (consume_frame args i 3)
          (.net_new_range
            (parse_net_new_range K.NET_NEW_RANGE (args.socketBuffers.getD i default).buffer).1)) := by
  obtain ⟨-, -, h1, -, -, -, -, h2, -, -, -, h3, -⟩ := pdu_types.dispatched_distinct K hK
  unfold Q6_slot
  simp only [ht, if_true, NET_NEW_RANGE_BASE_LENGTH, h1, h2, h3, if_false]
  rw [if_neg (by omega), if_pos (by omega)]
  simp only [consume_frame]
  rfl

theorem Q6_slot_net_leaving (K : pdu_types) (hK : K.wf) (args : node) (i : Nat)
    (ht : parse_pdu_type (args.socketBuffers.getD i default).buffer = K.NET_LEAVING)
    (hlen : (args.socketBuffers.getD i default).len ≥ 7) :
    Q6_slot K args i =
      (some states.Q16,
        save_last_pdu (consume_frame args i 7)
          (.net_leaving
            (parse_net_leaving K.NET_LEAVING (args.socketBuffers.getD i default).buffer).1)) := by
  obtain ⟨-, -, -, h1, -, -, -, -, h2, -, -, -, h3, -, -, h4, -⟩ :=
    pdu_types.dispatched_distinct K hK
  unfold Q6_slot
  simp only [ht, if_true, NET_LEAVING_BASE_LENGTH, h1, h2, h3, h4, if_false]
  rw [if_neg (by omega), if_pos (by omega)]
  simp only [consume_frame]
  rfl

theorem Q6_slot_net_leaving_short (K : pdu_types) (hK : K.wf) (args : node) (i : Nat)
    (ht : parse_pdu_type (args.socketBuffers.getD i default).buffer = K.NET_LEAVING)
    (hlen1 : (args.socketBuffers.getD i default).len ≥ 1)
    (hlen : (args.socketBuffers.getD i default).len < 7) :
    Q6_slot K args i = (some states.Q17, consume_frame args i 1) := by
  obtain ⟨-, -, -, h1, -, -, -, -, h2, -, -, -, h3, -, -, h4, -⟩ :=
    pdu_types.dispatched_distinct K hK
  unfold Q6_slot
  simp only [ht, if_true, NET_LEAVING_BASE_LENGTH, h1, h2, h3, h4, if_false]
  rw [if_neg (by omega), if_neg (by omega)]
  unfold Q6_close_connection
  simp only [NET_CLOSE_CONNECTION_BASE_LENGTH]
  rw [if_pos (by omega)]
  rfl

theorem Q6_slot_net_close_connection (K : pdu_types) (hK : K.wf) (args : node) (i : Nat)
    (ht : parse_pdu_type (args.socketBuffers.getD i default).buffer = K.NET_CLOSE_CONNECTION)
    (hlen : (args.socketBuffers.getD i default).len ≥ 1) :
    Q6_slot K args i = (some states.Q17, consume_frame args i 1) := by
  obtain ⟨-, -, -, -, h1, -, -, -, -, h2, -, -, -, h3, -, -, h4, -, h5, -⟩ :=
    pdu_types.dispatched_distinct K hK
  unfold Q6_slot
  simp only [ht, if_true, h1, h2, h3, h4, h5, if_false]
  rw [if_neg (by omega)]
  unfold Q6_close_connection
  simp only [NET_CLOSE_CONNECTION_BASE_LENGTH]
  rw [if_pos (by omega)]
  rfl

theorem Q6_slot_net_join (K : pdu_types) (hK : K.wf) (args : node) (i : Nat)
    (ht : parse_pdu_type (args.socketBuffers.getD i default).buffer = K.NET_JOIN)
    (hlen : (args.socketBuffers.getD i default).len ≥ 14) :
    Q6_slot K args i =
      (some states.Q12,
        save_last_pdu (consume_frame args i 14)
          (.net_join
            (parse_net_join K.NET_JOIN (args.socketBuffers.getD i default).buffer).1)) := by
  obtain ⟨-, -, -, -, -, h1, -, -, -, -, h2, -, -, -, h3, -, -, h4, -, h5, h6⟩ :=
    pdu_types.dispatched_distinct K hK
  unfold Q6_slot
  simp only [ht, if_true, NET_JOIN_BASE_LENGTH, h1, h2, h3, h4, h5, h6, if_false]
  rw [if_neg (by omega), if_pos (by omega)]
  rfl

theorem Q6_slot_unknown (K : pdu_types) (args : node) (i : Nat)
    (ht : parse_pdu_type (args.socketBuffers.getD i default).buffer ∉ K.dispatched)
    (hlen : (args.socketBuffers.getD i default).len ≠ 0) :
    Q6_slot K args i = (none, consume_frame args i 1) := by
  simp only [pdu_types.dispatched, List.mem_cons, List.mem_singleton, not_or,
    List.not_mem_nil, not_false_eq_true, and_true] at ht
  obtain ⟨h1, h2, h3, h4, h5, h6, h7⟩ := ht
  unfold Q6_slot
  simp only [h1, h2, h3, h4, h5, h6, h7, hlen, if_false]
  rfl
theorem consume_frame_buffers (args : node) (i : Nat) (n : Int)
    (hi : i < args.socketBuffers.length) :
    (consume_frame args i n).socketBuffers.getD i default =
      clear_buffer (args.socketBuffers.getD i default) n ∧
    (∀ j, j ≠ i → (consume_frame args i n).socketBuffers.getD j default =
      args.socketBuffers.getD j default) ∧
    (consume_frame args i n).socketBuffers.length = args.socketBuffers.length := by
  refine ⟨?_, ?_, ?_⟩
  · have hc : True ∧ i < args.socketBuffers.length := ⟨trivial, hi⟩
    simp only [consume_frame, set_socket_buffer, getD_set_ite]
    rw [if_pos hc]
  · intro j hj
    simp only [consume_frame, set_socket_buffer, getD_set_ite]
    rw [if_neg (fun h => hj h.1)]
  · simp only [consume_frame, set_socket_buffer, List.length_set]

/-- C12. Dispatch of Q6: whenever, after the reads of `Q6_handler`, the buffer of a
slot begins with a complete frame of type VAL_INSERT, VAL_REMOVE, VAL_LOOKUP,
NET_NEW_RANGE, NET_LEAVING, NET_CLOSE_CONNECTION or NET_JOIN and all earlier slots
(order A, B, C, D) are empty, Q6 returns Q9, Q9, Q9, Q15, Q16, Q17, Q12 respectively,
stores the decoded frame in `lastPdu` (for every type that has a payload) and clears
the bytes of that one frame from the buffer of that slot: the length drops by the
length of the frame, the bytes behind the frame are kept in order, and the buffers of
the other slots are unchanged. -/
theorem Q6_dispatches_first_frame (K : pdu_types) (shouldClose currentTime : Int)
    (incoming : List (List (List Nat))) (args0 args : node) (i : Nat)
    (hK : K.wf) (hpoll : Q6_poll K currentTime incoming args0 = args)
    (hfour : args.socketBuffers.length = 4) (hi : i < 4)
    (hempty : ∀ j, j < i → (args.socketBuffers.getD j default).len = 0)
    (hcap : (args.socketBuffers.getD i default).len ≤
      (args.socketBuffers.getD i default).buffer.length) :
    (parse_pdu_type (args.socketBuffers.getD i default).buffer = K.VAL_INSERT →
      (args.socketBuffers.getD i default).len ≥
        ((15 + load_uint8 (args.socketBuffers.getD i default).buffer 13 +
          load_uint8 (args.socketBuffers.getD i default).buffer
            (14 + load_uint8 (args.socketBuffers.getD i default).buffer 13) : Nat) : Int) →
      Q6_handler K shouldClose currentTime incoming args0 =
        (states.Q9,
          save_last_pdu
            (consume_frame args i
              ((15 + load_uint8 (args.socketBuffers.getD i default).buffer 13 +
                load_uint8 (args.socketBuffers.getD i default).buffer
                  (14 + load_uint8 (args.socketBuffers.getD i default).buffer 13) : Nat) : Int))
            (.val_insert (parse_val_insert_pdu K.VAL_INSERT
              (args.socketBuffers.getD i default).buffer).1))) ∧
    (parse_pdu_type (args.socketBuffers.getD i default).buffer = K.VAL_REMOVE →
      (args.socketBuffers.getD i default).len ≥ 13 →
      Q6_handler K shouldClose currentTime incoming args0 =
        (states.Q9,
          save_last_pdu (consume_frame args i 13)
            (.val_remove (parse_val_remove_pdu K.VAL_REMOVE
              (args.socketBuffers.getD i default).buffer).1))) ∧
    (parse_pdu_type (args.socketBuffers.getD i default).buffer = K.VAL_LOOKUP →
      (args.socketBuffers.getD i default).len ≥ 19 →
      Q6_handler K shouldClose currentTime incoming args0 =
        (states.Q9,
          save_last_pdu (consume_frame args i 19)
            (.val_lookup (parse_val_lookup_pdu K.VAL_LOOKUP
              (args.socketBuffers.getD i default).buffer).1))) ∧
    (parse_pdu_type (args.socketBuffers.getD i default).buffer = K.NET_NEW_RANGE →
      (args.socketBuffers.getD i default).len ≥ 3 →
      Q6_handler K shouldClose currentTime incoming args0 =
        (states.Q15,
          save_last_pdu (consume_frame args i 3)
            (.net_new_range (parse_net_new_range K.NET_NEW_RANGE
              (args.socketBuffers.getD i default).buffer).1))) ∧
    (parse_pdu_type (args.socketBuffers.getD i default).buffer = K.NET_LEAVING →
      (args.socketBuffers.getD i default).len ≥ 7 →
      Q6_handler K shouldClose currentTime incoming args0 =
        (states.Q16,
          save_last_pdu (consume_frame args i 7)
            (.net_leaving (parse_net_leaving K.NET_LEAVING
              (args.socketBuffers.getD i default).buffer).1))) ∧
    (parse_pdu_type (args.socketBuffers.getD i default).buffer = K.NET_CLOSE_CONNECTION →
      (args.socketBuffers.getD i default).len ≥ 1 →
      Q6_handler K shouldClose currentTime incoming args0 =
        (states.Q17, consume_frame args i 1)) ∧
    (parse_pdu_type (args.socketBuffers.getD i default).buffer = K.NET_JOIN →
      (args.socketBuffers.getD i default).len ≥ 14 →
      Q6_handler K shouldClose currentTime incoming args0 =
        (states.Q12,
          save_last_pdu (consume_frame args i 14)
            (.net_join (parse_net_join K.NET_JOIN
              (args.socketBuffers.getD i default).buffer).1))) ∧
    (∀ (n : Nat) (p : last_pdu), (n : Int) ≤ (args.socketBuffers.getD i default).len →
      (save_last_pdu (consume_frame args i n) p).lastPdu = some p ∧
      (save_last_pdu (consume_frame args i n) p).socketBuffers =
        (consume_frame args i n).socketBuffers ∧
      (consume_frame args i n).lastPdu = args.lastPdu ∧
      ((consume_frame args i n).socketBuffers.getD i default).len =
        (args.socketBuffers.getD i default).len - n ∧
      ((consume_frame args i n).socketBuffers.getD i default).content =
        (args.socketBuffers.getD i default).content.drop n ∧
      (∀ j, j ≠ i → (consume_frame args i n).socketBuffers.getD j default =
        args.socketBuffers.getD j default)) := by
  have hd : ∀ s a, Q6_slot K args i = (some s, a) →
      Q6_handler K shouldClose currentTime incoming args0 = (s, a) := by
    intro s a h
    unfold Q6_handler
    rw [hpoll]
    exact Q6_dispatch_of_slot K shouldClose args i hi hempty s a h
  refine ⟨fun ht hl => hd _ _ (Q6_slot_val_insert K args i ht hl),
    fun ht hl => hd _ _ (Q6_slot_val_remove K hK args i ht hl),
    fun ht hl => hd _ _ (Q6_slot_val_lookup K hK args i ht hl),
    fun ht hl => hd _ _ (Q6_slot_net_new_range K hK args i ht hl),
    fun ht hl => hd _ _ (Q6_slot_net_leaving K hK args i ht hl),
    fun ht hl => hd _ _ (Q6_slot_net_close_connection K hK args i ht hl),
    fun ht hl => hd _ _ (Q6_slot_net_join K hK args i ht hl), ?_⟩
  intro n p hn
  obtain ⟨b1, b2, -⟩ := consume_frame_buffers args i n (by omega)
  obtain ⟨c1, -, c3⟩ := clear_buffer_spec (args.socketBuffers.getD i default) n hn hcap
  refine ⟨rfl, rfl, rfl, ?_, ?_, b2⟩
  · rw [b1, c1]
  · rw [b1, c3]

set_option maxRecDepth 100000 in
/-- Witness of C12: the sample node receives on socket B a VAL_REMOVE frame followed
by one more byte; Q6 returns Q9 and the byte stays in the buffer. -/
theorem Q6_dispatches_first_frame_witness :
    (Q6_handler sample_types 0 0 [[], [101 :: example_ssn ++ [7]], [], []] sample_node).1 =
      states.Q9 ∧
    (Q6_handler sample_types 0 0 [[], [101 :: example_ssn ++ [7]], [], []] sample_node).2.lastPdu =
      some (.val_remove ⟨101, example_ssn⟩) ∧
    (((Q6_handler sample_types 0 0 [[], [101 :: example_ssn ++ [7]], [], []]
      sample_node).2.socketBuffers.getD 1 default).content = [7]) := by
  have h := (Q6_dispatches_first_frame sample_types 0 0 [[], [101 :: example_ssn ++ [7]], [], []]
    sample_node (Q6_poll sample_types 0 [[], [101 :: example_ssn ++ [7]], [], []] sample_node) 1
    (by decide) rfl (by decide) (by decide) (by decide) (by decide)).2.1 (by decide) (by decide)
  rw [h]
  decide
/-- A short buffer whose first byte is VAL_INSERT, VAL_REMOVE, VAL_LOOKUP,
NET_NEW_RANGE or NET_JOIN is left as it is, and the loop goes on to the next slot. -/
theorem Q6_slot_short_kept (K : pdu_types) (hK : K.wf) (args : node) (i : Nat) :
    (parse_pdu_type (args.socketBuffers.getD i default).buffer = K.VAL_INSERT →
      ((args.socketBuffers.getD i default).len < 15 ∨
        (args.socketBuffers.getD i default).len <
          ((15 + load_uint8 (args.socketBuffers.getD i default).buffer 13 : Nat) : Int) ∨
        (args.socketBuffers.getD i default).len <
          ((15 + load_uint8 (args.socketBuffers.getD i default).buffer 13 +
            load_uint8 (args.socketBuffers.getD i default).buffer
              (14 + load_uint8 (args.socketBuffers.getD i default).buffer 13) : Nat) : Int)) →
      Q6_slot K args i = (none, args)) ∧
    (parse_pdu_type (args.socketBuffers.getD i default).buffer = K.VAL_REMOVE →
      (args.socketBuffers.getD i default).len < 13 → Q6_slot K args i = (none, args)) ∧
    (parse_pdu_type (args.socketBuffers.getD i default).buffer = K.VAL_LOOKUP →
      (args.socketBuffers.getD i default).len < 19 → Q6_slot K args i = (none, args)) ∧
    (parse_pdu_type (args.socketBuffers.getD i default).buffer = K.NET_NEW_RANGE →
      (args.socketBuffers.getD i default).len < 3 → Q6_slot K args i = (none, args)) ∧
    (parse_pdu_type (args.socketBuffers.getD i default).buffer = K.NET_JOIN →
      (args.socketBuffers.getD i default).len < 14 → Q6_slot K args i = (none, args)) := by
  obtain ⟨d1, d2, d3, -, -, d6, d7, d8, -, -, d11, d12, -, -, d15, -, -, d18, -, d20, d21⟩ :=
    pdu_types.dispatched_distinct K hK
  refine ⟨?_, ?_, ?_, ?_, ?_⟩
  · intro ht hl
    unfold Q6_slot
    simp only [ht, if_true, VAL_INSERT_BASE_LENGTH]
    split_ifs <;> first | rfl | (exfalso; push_cast at *; omega)
  · intro ht hl
    unfold Q6_slot
    simp only [ht, if_true, VAL_REMOVE_BASE_LENGTH, d1, if_false]
    split_ifs <;> first | rfl | (exfalso; push_cast at *; omega)
  · intro ht hl
    unfold Q6_slot
    simp only [ht, if_true, VAL_LOOKUP_BASE_LENGTH, d2, d7, if_false]
    split_ifs <;> first | rfl | (exfalso; push_cast at *; omega)
  · intro ht hl
    unfold Q6_slot
    simp only [ht, if_true, NET_NEW_RANGE_BASE_LENGTH, d3, d8, d12, if_false]
    split_ifs <;> first | rfl | (exfalso; push_cast at *; omega)
  · intro ht hl
    unfold Q6_slot
    simp only [ht, if_true, NET_JOIN_BASE_LENGTH, d6, d11, d15, d18, d20, d21, if_false]
    split_ifs <;> first | rfl | (exfalso; push_cast at *; omega)

set_option maxRecDepth 100000 in
/-- C13. A short buffer is partially consumed when its first byte is NET_LEAVING: the
sample node receives on socket B the three bytes NET_LEAVING, 1, 2, fewer than the 7
bytes of a NET_LEAVING frame. `case NET_LEAVING:` has no `break`, so the statements of
`case NET_CLOSE_CONNECTION:` run: Q6 removes the first byte from the buffer, whose
length drops from 3 to 2, and returns Q17. -/
theorem Q6_short_net_leaving_consumed :
    sample_types.NET_LEAVING = 7 ∧
    ((Q6_poll sample_types 0 [[], [[7, 1, 2]], [], []] sample_node).socketBuffers.getD 1
      default).content = [7, 1, 2] ∧
    ((Q6_poll sample_types 0 [[], [[7, 1, 2]], [], []] sample_node).socketBuffers.getD 1
      default).len = 3 ∧
    (Q6_handler sample_types 0 0 [[], [[7, 1, 2]], [], []] sample_node).1 = states.Q17 ∧
    ((Q6_handler sample_types 0 0 [[], [[7, 1, 2]], [], []] sample_node).2.socketBuffers.getD 1
      default).content = [1, 2] ∧
    ((Q6_handler sample_types 0 0 [[], [[7, 1, 2]], [], []] sample_node).2.socketBuffers.getD 1
      default).len = 2 := by
  decide

theorem set_getD_self {α : Type} (l : List α) (k : Nat) (d : α) : l.set k (l.getD k d) = l := by
  induction l generalizing k with
  | nil => rfl
  | cons a l ih =>
    cases k with
    | zero => rfl
    | succ k => simp only [List.set_cons_succ, List.getD_cons_succ, ih]

theorem Q6_poll_idle (K : pdu_types) (currentTime : Int) (args : node) :
    (Q6_poll K currentTime [] args).socketBuffers = args.socketBuffers ∧
    (Q6_poll K currentTime [] args).lastPdu = args.lastPdu := by
  unfold Q6_poll
  by_cases h : currentTime - args.lastAlive > 5
  · simp only [if_pos h, set_socket_buffer, List.getD_nil, read_udp_pdu, read_pdu, sendto,
      set_getD_self, and_self]
  · simp only [if_neg h, set_socket_buffer, List.getD_nil, read_udp_pdu, read_pdu,
      set_getD_self, and_self]

theorem Q6_dispatch_skip (K : pdu_types) (args : node) (i : Nat) (hi : i < 4)
    (hothers : ∀ j, j < 4 → j ≠ i → (args.socketBuffers.getD j default).len = 0)
    (a : node) (h : Q6_slot K args i = (none, a))
    (ha : ∀ j, j ≠ i → a.socketBuffers.getD j default = args.socketBuffers.getD j default) :
    Q6_dispatch K 0 args = (states.Q6, a) := by
  have e : ∀ j, j < 4 → j ≠ i → Q6_slot K args j = (none, args) :=
    fun j h1 h2 => Q6_slot_empty K args j (hothers j h1 h2)
  have f : ∀ j, j < 4 → j ≠ i → Q6_slot K a j = (none, a) := by
    intro j h1 h2
    apply Q6_slot_empty
    rw [ha j h2]
    exact hothers j h1 h2
  have h01 : ¬ ((0 : Int) = 1) := by decide
  unfold Q6_dispatch
  interval_cases i
  · simp only [Q6_slots, h, f 1 (by omega) (by omega), f 2 (by omega) (by omega),
      f 3 (by omega) (by omega), if_neg h01]
  · simp only [Q6_slots, h, e 0 (by omega) (by omega), f 2 (by omega) (by omega),
      f 3 (by omega) (by omega), if_neg h01]
  · simp only [Q6_slots, h, e 0 (by omega) (by omega), e 1 (by omega) (by omega),
      f 3 (by omega) (by omega), if_neg h01]
  · simp only [Q6_slots, h, e 0 (by omega) (by omega), e 1 (by omega) (by omega),
      e 2 (by omega) (by omega), if_neg h01]

theorem content_getD (b : socket_buffer) (k : Nat) (h : (k : Int) < b.len) :
    b.buffer.getD k 0 = b.content.getD k 0 := by
  unfold socket_buffer.content
  rw [getD_take _ _ _ _ (by omega)]

/-- C14. Resynchronisation on an unknown type: when the buffer of a slot is not empty
and its first byte is not a type Q6 dispatches, the iteration of Q6 for that slot
removes exactly that first byte (the bytes behind it move one position to the left,
the length drops by one), leaves the other buffers and `lastPdu` as they are and
dispatches nothing. Hence, when the slot holds the 14 bytes 0xFF, VAL_REMOVE and an
ssn, and the other slots are empty and nothing more arrives, the first call of
`Q6_handler` returns Q6 without a dispatch and the second returns Q9 with
`lastPdu` the VAL_REMOVE frame of that ssn and with the buffer empty. -/
theorem Q6_unknown_type_resync (K : pdu_types) (args : node) (i : Nat)
    (hK : K.wf) (hfour : args.socketBuffers.length = 4) (hi : i < 4)
    (hcap : (args.socketBuffers.getD i default).len ≤
      (args.socketBuffers.getD i default).buffer.length) :
    (parse_pdu_type (args.socketBuffers.getD i default).buffer ∉ K.dispatched →
      1 ≤ (args.socketBuffers.getD i default).len →
      Q6_slot K args i = (none, consume_frame args i 1) ∧
      ((consume_frame args i 1).socketBuffers.getD i default).len =
        (args.socketBuffers.getD i default).len - 1 ∧
      ((consume_frame args i 1).socketBuffers.getD i default).content =
        (args.socketBuffers.getD i default).content.drop 1 ∧
      (∀ j, j ≠ i → (consume_frame args i 1).socketBuffers.getD j default =
        args.socketBuffers.getD j default) ∧
      (consume_frame args i 1).lastPdu = args.lastPdu) ∧
    (∀ (ssn : List Nat) (t1 t2 : Int), 255 ∉ K.dispatched → ssn.length = 12 → is_bytes ssn →
      (∀ j, j < 4 → j ≠ i → (args.socketBuffers.getD j default).len = 0) →
      (args.socketBuffers.getD i default).len = 14 →
      (args.socketBuffers.getD i default).content = 255 :: K.VAL_REMOVE :: ssn →
      (Q6_handler K 0 t1 [] args).1 = states.Q6 ∧
      (Q6_handler K 0 t1 [] args).2.lastPdu = args.lastPdu ∧
      ((Q6_handler K 0 t1 [] args).2.socketBuffers.getD i default).content =
        K.VAL_REMOVE :: ssn ∧
      (Q6_handler K 0 t2 [] (Q6_handler K 0 t1 [] args).2).1 = states.Q9 ∧
      (Q6_handler K 0 t2 [] (Q6_handler K 0 t1 [] args).2).2.lastPdu =
        some (.val_remove ⟨K.VAL_REMOVE, ssn⟩) ∧
      ((Q6_handler K 0 t2 [] (Q6_handler K 0 t1 [] args).2).2.socketBuffers.getD i
        default).len = 0 ∧
      ((Q6_handler K 0 t2 [] (Q6_handler K 0 t1 [] args).2).2.socketBuffers.getD i
        default).content = []) := by
  constructor
  · intro ht hl
    obtain ⟨b1, b2, -⟩ := consume_frame_buffers args i 1 (by omega)
    obtain ⟨c1, -, c3⟩ := clear_buffer_spec (args.socketBuffers.getD i default) 1 hl hcap
    refine ⟨Q6_slot_unknown K args i ht (by omega), ?_, ?_, b2, rfl⟩
    · rw [b1]; exact c1
    · rw [b1]; exact c3
  · intro ssn t1 t2 hff hs hb hothers hlen hcontent
    have hvr : K.VAL_REMOVE < 256 := hK.1 K.VAL_REMOVE (by simp [pdu_types.all])
    -- the first iteration
    obtain ⟨p1, p2⟩ := Q6_poll_idle K t1 args
    have ht1 : parse_pdu_type ((Q6_poll K t1 [] args).socketBuffers.getD i default).buffer =
        255 := by
      rw [p1]
      unfold parse_pdu_type load_uint8
      rw [content_getD _ 0 (by rw [hlen]; decide), hcontent]
      rfl
    have hs1 := Q6_slot_unknown K (Q6_poll K t1 [] args) i (by rw [ht1]; exact hff)
      (by rw [p1, hlen]; decide)
    obtain ⟨b1, b2, b3⟩ := consume_frame_buffers (Q6_poll K t1 [] args) i 1
      (by rw [p1]; omega)
    have hd1 : Q6_handler K 0 t1 [] args = (states.Q6, consume_frame (Q6_poll K t1 [] args) i 1) := by
      unfold Q6_handler
      exact Q6_dispatch_skip K _ i hi (by rw [p1]; exact hothers) _ hs1 b2
    obtain ⟨c1, c2, c3⟩ := clear_buffer_spec (args.socketBuffers.getD i default) 1
      (by rw [hlen]; decide) hcap
    simp only [Nat.cast_one] at c1 c2 c3
    rw [p1] at b1 b2 b3
    have hl1 : ((consume_frame (Q6_poll K t1 [] args) i 1).socketBuffers.getD i default).len =
        13 := by
      rw [b1, c1, hlen]; rfl
    have hc1 : ((consume_frame (Q6_poll K t1 [] args) i 1).socketBuffers.getD i
        default).content = K.VAL_REMOVE :: ssn := by
      rw [b1, c3, hcontent]; rfl
    have hcap1 : ((consume_frame (Q6_poll K t1 [] args) i 1).socketBuffers.getD i default).len ≤
        ((consume_frame (Q6_poll K t1 [] args) i 1).socketBuffers.getD i
          default).buffer.length := by
      rw [b1, c1, c2]; omega
    have hp1 : (consume_frame (Q6_poll K t1 [] args) i 1).lastPdu = args.lastPdu := p2
    -- the second iteration
    generalize consume_frame (Q6_poll K t1 [] args) i 1 = a1 at *
    obtain ⟨q1, q2⟩ := Q6_poll_idle K t2 a1
    have ht2 : parse_pdu_type ((Q6_poll K t2 [] a1).socketBuffers.getD i default).buffer =
        K.VAL_REMOVE := by
      rw [q1]
      unfold parse_pdu_type load_uint8
      rw [content_getD _ 0 (by rw [hl1]; decide), hc1]
      exact Nat.mod_eq_of_lt hvr
    have hs2 := Q6_slot_val_remove K hK (Q6_poll K t2 [] a1) i ht2 (by rw [q1, hl1])
    have hd2 : Q6_handler K 0 t2 [] a1 =
        (states.Q9, save_last_pdu (consume_frame (Q6_poll K t2 [] a1) i 13)
          (last_pdu.val_remove (parse_val_remove_pdu K.VAL_REMOVE
            ((Q6_poll K t2 [] a1).socketBuffers.getD i default).buffer).1)) :=
      Q6_dispatch_of_slot K 0 _ i hi
        (by
          intro j hj
          rw [q1, b2 j (by omega)]
          exact hothers j (by omega) (by omega)) _ _ hs2
    have hparse : (parse_val_remove_pdu K.VAL_REMOVE
        ((Q6_poll K t2 [] a1).socketBuffers.getD i default).buffer).1 =
        ⟨K.VAL_REMOVE, ssn⟩ := by
      unfold parse_val_remove_pdu
      simp only [Nat.mod_eq_of_lt hvr, SSN_LENGTH]
      rw [← hs, load_bytes_eq _ ssn 1 hb]
      intro k hk
      rw [q1, content_getD _ (1 + k) (by rw [hl1]; omega), hc1, getD_cons_ite,
        if_neg (by omega)]
      congr 1
      omega
    obtain ⟨d1, -, -⟩ := consume_frame_buffers (Q6_poll K t2 [] a1) i 13
      (by rw [q1, b3]; omega)
    obtain ⟨e1, -, -⟩ := clear_buffer_spec (a1.socketBuffers.getD i default) 13
      (by rw [hl1]; decide) hcap1
    simp only [Nat.cast_ofNat] at e1
    rw [q1] at d1
    have hl2 : ((consume_frame (Q6_poll K t2 [] a1) i 13).socketBuffers.getD i default).len =
        0 := by
      rw [d1, e1, hl1]; rfl
    rw [hd1]
    refine ⟨rfl, hp1, hc1, ?_⟩
    dsimp only
    rw [hd2, hparse]
    refine ⟨rfl, rfl, hl2, ?_⟩
    show socket_buffer.content _ = []
    unfold socket_buffer.content
    have hl2' : ((save_last_pdu (consume_frame (Q6_poll K t2 [] a1) i 13)
        (last_pdu.val_remove ⟨K.VAL_REMOVE, ssn⟩)).socketBuffers.getD i default).len = 0 := hl2
    rw [hl2']
    rfl

set_option maxRecDepth 100000 in
/-- Witness of C14: socket B of the sample node holds 0xFF, VAL_REMOVE and the sample
ssn. -/
theorem Q6_unknown_type_resync_witness :
    (Q6_handler sample_types 0 1 [] (Q6_handler sample_types 0 0 []
      { sample_node with
        socketBuffers := [empty_socket_buffer,
          socket_buffer_with (255 :: 101 :: example_ssn), empty_socket_buffer,
          empty_socket_buffer] }).2).1 = states.Q9 :=
  ((Q6_unknown_type_resync sample_types
      { sample_node with
        socketBuffers := [empty_socket_buffer,
          socket_buffer_with (255 :: 101 :: example_ssn), empty_socket_buffer,
          empty_socket_buffer] } 1 (by decide) (by decide) (by decide) (by decide)).2
    example_ssn 0 1 (by decide) (by decide) (by decide) (by decide) (by decide)
    (by decide)).2.2.2.1
/-! ## Q9: the data operations -/

theorem length_load_bytes (pdu : List Nat) (off n : Nat) : (load_bytes pdu off n).length = n := by
  simp [load_bytes]

theorem getD_load_bytes (pdu : List Nat) (off n k : Nat) (hk : k < n) :
    (load_bytes pdu off n).getD k 0 = load_uint8 pdu (off + k) := by
  simp [load_bytes, List.getD_eq_getElem?_getD, List.getElem?_map, List.getElem?_range hk]

theorem is_bytes_load_bytes (pdu : List Nat) (off n : Nat) : is_bytes (load_bytes pdu off n) := by
  intro x hx
  simp only [load_bytes, List.mem_map] at hx
  obtain ⟨i, -, rfl⟩ := hx
  exact load_uint8_lt _ _

theorem load_uint8_take (pdu : List Nat) (n k : Nat) (hb : is_bytes (pdu.take n)) (hk : k < n) :
    load_uint8 pdu k = pdu.getD k 0 := by
  have := is_bytes_getD hb k
  rw [getD_take _ _ _ _ hk] at this
  exact this

theorem node_table_eta (a : node) (table : hash_table) (h : a.table = some table) :
    { a with table := some table } = a := by
  cases a
  simp only at h
  subst h
  rfl

theorem val_remove_frame_eq (pdu : List Nat) (hb : is_bytes (pdu.take 13))
    (hl : 13 ≤ pdu.length) :
    parse_pdu_type pdu :: load_bytes pdu 1 12 = pdu.take 13 := by
  apply ext_getD
  · simp [length_load_bytes, hl]
  · intro k hk
    simp only [List.length_cons, length_load_bytes] at hk
    rw [getD_take _ _ _ _ (by omega), getD_cons_ite]
    split_ifs with h0
    · subst h0; exact load_uint8_take pdu 13 0 hb (by omega)
    · rw [getD_load_bytes _ _ _ _ (by omega), load_uint8_take pdu 13 _ hb (by omega)]
      congr 1; omega

theorem serialize_parse_val_remove (pdu : List Nat) (hb : is_bytes (pdu.take 13))
    (hl : 13 ≤ pdu.length) :
    (serialize_val_remove_pdu (List.replicate 13 0)
      (parse_val_remove_pdu (parse_pdu_type pdu) pdu).1).take 13 = pdu.take 13 := by
  have hlt : parse_pdu_type pdu < 256 := load_uint8_lt _ _
  rw [serialize_val_remove_pdu_take _ _ (by simp)
    ⟨Nat.mod_lt _ (by decide), length_load_bytes _ _ _, is_bytes_load_bytes _ _ _⟩]
  rw [← val_remove_frame_eq pdu hb hl]
  simp only [parse_val_remove_pdu, SSN_LENGTH, Nat.mod_eq_of_lt hlt]

theorem Q9_forward_val_remove (K : pdu_types) (hash_ssn : List Nat → Nat) (a : node)
    (pdu : VAL_REMOVE_PDU) (table : hash_table) (hK : K.wf)
    (hlast : a.lastPdu = some (.val_remove pdu)) (ht : pdu.type = K.VAL_REMOVE)
    (htab : a.table = some table)
    (hout : hash_t (hash_ssn pdu.ssn) < table.minHash ∨
      hash_t (hash_ssn pdu.ssn) > table.maxHash) :
    Q9_handler K hash_ssn a =
      some (states.Q6, send a 1 ((serialize_val_remove_pdu (List.replicate 13 0) pdu).take 13)) := by
  obtain ⟨h1, -, -, -, -, -, h2, -⟩ := pdu_types.dispatched_distinct K hK
  have hne : ((-1 : Int) ≠ 0) = True := by decide
  cases a
  simp only at hlast htab
  subst hlast htab
  unfold Q9_handler
  simp only [last_pdu.type, ht, h1, Ne.symm h2, if_false, if_true,
    hash_table_remove_out _ _ _ hout, VAL_REMOVE_BASE_LENGTH, hne]

theorem load_uint32_bytes (pdu : List Nat) (i : Nat) :
    load_uint32 pdu i < 2 ^ 32 ∧
    load_uint32 pdu i % 256 = load_uint8 pdu i ∧
    (load_uint32 pdu i >>> 8) % 256 = load_uint8 pdu (i + 1) ∧
    (load_uint32 pdu i >>> 16) % 256 = load_uint8 pdu (i + 2) ∧
    (load_uint32 pdu i >>> 24) % 256 = load_uint8 pdu (i + 3) := by
  have h0 := load_uint8_lt pdu i
  have h1 := load_uint8_lt pdu (i + 1)
  have h2 := load_uint8_lt pdu (i + 2)
  have h3 := load_uint8_lt pdu (i + 3)
  unfold load_uint32
  generalize load_uint8 pdu i = b0 at *
  generalize load_uint8 pdu (i + 1) = b1 at *
  generalize load_uint8 pdu (i + 2) = b2 at *
  generalize load_uint8 pdu (i + 3) = b3 at *
  simp only [Nat.shiftRight_eq_div_pow]
  norm_num
  omega

theorem load_uint16_bytes (pdu : List Nat) (i : Nat) :
    load_uint16 pdu i < 2 ^ 16 ∧
    load_uint16 pdu i % 256 = load_uint8 pdu i ∧
    (load_uint16 pdu i >>> 8) % 256 = load_uint8 pdu (i + 1) := by
  have h0 := load_uint8_lt pdu i
  have h1 := load_uint8_lt pdu (i + 1)
  unfold load_uint16
  generalize load_uint8 pdu i = b0 at *
  generalize load_uint8 pdu (i + 1) = b1 at *
  simp only [Nat.shiftRight_eq_div_pow]
  norm_num
  omega

theorem val_lookup_frame_eq (pdu : List Nat) (hb : is_bytes (pdu.take 19))
    (hl : 19 ≤ pdu.length) :
    parse_pdu_type pdu :: load_bytes pdu 1 12 ++
      [load_uint32 pdu 13 % 256, (load_uint32 pdu 13 >>> 8) % 256,
        (load_uint32 pdu 13 >>> 16) % 256, (load_uint32 pdu 13 >>> 24) % 256,
        load_uint16 pdu 17 % 256, (load_uint16 pdu 17 >>> 8) % 256] = pdu.take 19 := by
  obtain ⟨-, a0, a1, a2, a3⟩ := load_uint32_bytes pdu 13
  obtain ⟨-, p0, p1⟩ := load_uint16_bytes pdu 17
  rw [a0, a1, a2, a3, p0, p1]
  apply ext_getD
  · simp [length_load_bytes, hl]
  · intro k hk
    simp only [List.length_cons, List.length_append, length_load_bytes, List.length_nil] at hk
    rw [getD_take _ _ _ _ (by omega), ← load_uint8_take pdu 19 k hb (by omega)]
    by_cases h0 : k = 0
    · subst h0; rfl
    · by_cases h13 : k < 13
      · simp only [getD_cons_ite, getD_append_ite, List.length_cons, length_load_bytes]
        rw [if_pos h13, if_neg h0, getD_load_bytes _ _ _ _ (by omega)]
        congr 1; omega
      · obtain ⟨j, rfl⟩ : ∃ j, k = 13 + j := ⟨k - 13, by omega⟩
        simp only [getD_append_ite, List.length_cons, length_load_bytes]
        rw [if_neg (by omega)]
        have hj : j < 6 := by omega
        interval_cases j <;> rfl

theorem serialize_parse_val_lookup (pdu : List Nat) (hb : is_bytes (pdu.take 19))
    (hl : 19 ≤ pdu.length) :
    (serialize_val_lookup_pdu (List.replicate 19 0)
      (parse_val_lookup_pdu (parse_pdu_type pdu) pdu).1).take 19 = pdu.take 19 := by
  have hlt : parse_pdu_type pdu < 256 := load_uint8_lt _ _
  rw [serialize_val_lookup_pdu_take _ _ (by simp)
    ⟨Nat.mod_lt _ (by decide), length_load_bytes _ _ _, is_bytes_load_bytes _ _ _,
      (load_uint32_bytes _ _).1, (load_uint16_bytes _ _).1⟩]
  rw [← val_lookup_frame_eq pdu hb hl]
  simp only [parse_val_lookup_pdu, SSN_LENGTH, Nat.mod_eq_of_lt hlt]

theorem val_insert_frame_eq (pdu : List Nat)
    (hb : is_bytes (pdu.take
      (15 + load_uint8 pdu 13 + load_uint8 pdu (14 + load_uint8 pdu 13))))
    (hl : 15 + load_uint8 pdu 13 + load_uint8 pdu (14 + load_uint8 pdu 13) ≤ pdu.length) :
    parse_pdu_type pdu :: load_bytes pdu 1 12 ++
      load_uint8 pdu 13 :: load_bytes pdu 14 (load_uint8 pdu 13) ++
      load_uint8 pdu (14 + load_uint8 pdu 13) ::
        load_bytes pdu (15 + load_uint8 pdu 13) (load_uint8 pdu (14 + load_uint8 pdu 13)) =
      pdu.take (15 + load_uint8 pdu 13 + load_uint8 pdu (14 + load_uint8 pdu 13)) := by
  generalize hnl : load_uint8 pdu 13 = nl at *
  generalize hel : load_uint8 pdu (14 + nl) = el at *
  apply ext_getD
  · simp [length_load_bytes, hl]; omega
  · intro k hk
    simp only [List.length_cons, List.length_append, length_load_bytes] at hk
    rw [getD_take _ _ _ _ (by omega), ← load_uint8_take pdu _ k hb (by omega)]
    simp only [getD_cons_ite, getD_append_ite, List.length_cons, List.length_append,
      length_load_bytes]
    by_cases h0 : k = 0
    · subst h0
      rw [if_pos (by omega), if_pos (by omega), if_pos rfl]
      rfl
    · by_cases h13 : k < 13
      · rw [if_pos (by omega), if_pos (by omega), if_neg h0,
          getD_load_bytes _ _ _ _ (by omega)]
        congr 1; omega
      · by_cases h13' : k = 13
        · subst h13'
          rw [if_pos (by omega), if_neg (by omega), if_pos (by omega)]
          exact hnl.symm
        · by_cases hn : k < 14 + nl
          · rw [if_pos (by omega), if_neg (by omega), if_neg (by omega),
              getD_load_bytes _ _ _ _ (by omega)]
            congr 1; omega
          · by_cases hn' : k = 14 + nl
            · subst hn'
              rw [if_neg (by omega), if_pos (by omega)]
              exact hel.symm
            · rw [if_neg (by omega), if_neg (by omega),
                getD_load_bytes _ _ _ _ (by omega)]
              congr 1; omega

theorem serialize_parse_val_insert (pdu : List Nat)
    (hb : is_bytes (pdu.take
      (15 + load_uint8 pdu 13 + load_uint8 pdu (14 + load_uint8 pdu 13))))
    (hl : 15 + load_uint8 pdu 13 + load_uint8 pdu (14 + load_uint8 pdu 13) ≤ pdu.length) :
    (serialize_val_insert_pdu
      (List.replicate
        (15 + (parse_val_insert_pdu (parse_pdu_type pdu) pdu).1.name_length +
          (parse_val_insert_pdu (parse_pdu_type pdu) pdu).1.email_length) 0)
      (parse_val_insert_pdu (parse_pdu_type pdu) pdu).1).1.take
        (15 + (parse_val_insert_pdu (parse_pdu_type pdu) pdu).1.name_length +
          (parse_val_insert_pdu (parse_pdu_type pdu) pdu).1.email_length) =
      pdu.take (15 + load_uint8 pdu 13 + load_uint8 pdu (14 + load_uint8 pdu 13)) := by
  have hlt : parse_pdu_type pdu < 256 := load_uint8_lt _ _
  rw [serialize_val_insert_pdu_take _ _ (by simp)
    ⟨Nat.mod_lt _ (by decide), length_load_bytes _ _ _, is_bytes_load_bytes _ _ _,
      load_uint8_lt _ _, length_load_bytes _ _ _, is_bytes_load_bytes _ _ _,
      load_uint8_lt _ _, length_load_bytes _ _ _, is_bytes_load_bytes _ _ _⟩]
  rw [← val_insert_frame_eq pdu hb hl]
  simp only [parse_val_insert_pdu, SSN_LENGTH, Nat.mod_eq_of_lt hlt, Nat.reduceAdd]
  have e : 14 + load_uint8 pdu 13 + 1 = 15 + load_uint8 pdu 13 := by omega
  rw [e]

theorem hash_table_insert_out (hash_ssn : List Nat → Nat) (table : hash_table)
    (entry : hash_table_entry)
    (h : hash_t (hash_ssn entry.ssn) < table.minHash ∨
      hash_t (hash_ssn entry.ssn) > table.maxHash) :
    hash_table_insert hash_ssn table entry = (-1, table) := by
  unfold hash_table_insert
  simp only []
  rw [if_pos h]

theorem Q9_forward_val_lookup (K : pdu_types) (hash_ssn : List Nat → Nat) (a : node)
    (pdu : VAL_LOOKUP_PDU) (table : hash_table) (hK : K.wf)
    (hlast : a.lastPdu = some (.val_lookup pdu)) (ht : pdu.type = K.VAL_LOOKUP)
    (htab : a.table = some table)
    (hout : hash_t (hash_ssn pdu.ssn) < table.minHash ∨
      hash_t (hash_ssn pdu.ssn) > table.maxHash) :
    Q9_handler K hash_ssn a =
      some (states.Q6, send a 1 ((serialize_val_lookup_pdu (List.replicate 19 0) pdu).take 19)) := by
  obtain ⟨-, h1, -⟩ := pdu_types.dispatched_distinct K hK
  have hne : ((-1 : Int) < 0) = True := by decide
  cases a
  simp only at hlast htab
  subst hlast htab
  unfold Q9_handler
  simp only [last_pdu.type, ht, h1, if_false, if_true,
    hash_table_lookup_out _ _ _ _ hout, VAL_LOOKUP_BASE_LENGTH, hne]

theorem Q9_forward_val_insert (K : pdu_types) (hash_ssn : List Nat → Nat) (a : node)
    (pdu : VAL_INSERT_PDU) (table : hash_table)
    (hlast : a.lastPdu = some (.val_insert pdu)) (ht : pdu.type = K.VAL_INSERT)
    (htab : a.table = some table) (hs : pdu.ssn.length = 12)
    (hout : hash_t (hash_ssn pdu.ssn) < table.minHash ∨
      hash_t (hash_ssn pdu.ssn) > table.maxHash) :
    Q9_handler K hash_ssn a =
      some (states.Q6, send a 1
        ((serialize_val_insert_pdu
          (List.replicate (15 + pdu.name_length + pdu.email_length) 0) pdu).1.take
            (15 + pdu.name_length + pdu.email_length))) := by
  have hne : ((-1 : Int) ≠ 0) = True := by decide
  have hout' : hash_t (hash_ssn (hash_table_create_entry pdu.ssn pdu.name pdu.email).ssn) <
      table.minHash ∨
      hash_t (hash_ssn (hash_table_create_entry pdu.ssn pdu.name pdu.email).ssn) >
        table.maxHash := by
    rw [create_entry_ssn_copy _ _ _ hs]; exact hout
  cases a
  simp only at hlast htab
  subst hlast htab
  unfold Q9_handler
  simp only [last_pdu.type, ht, if_true,
    hash_table_insert_out _ _ _ hout', VAL_INSERT_BASE_LENGTH, hne]

theorem is_bytes_take (l : List Nat) (n : Nat) (h : is_bytes l) : is_bytes (l.take n) :=
  fun x hx => h x (List.mem_of_mem_take hx)

theorem content_take (b : socket_buffer) (n : Nat) (h : (n : Int) ≤ b.len) :
    b.content.take n = b.buffer.take n := by
  unfold socket_buffer.content
  rw [List.take_take, Nat.min_eq_left (by omega)]

/-- C15. Forward unchanged on out-of-range: when, after the reads of `Q6_handler`, the
buffer of a slot begins with a complete VAL_INSERT, VAL_REMOVE or VAL_LOOKUP frame, the
earlier slots are empty and the ssn of the frame hashes outside the range of the table
of the node, Q6 returns Q9 and `Q9_handler` on the node Q6 leaves returns Q6 with the
node changed by one `send` on socket B only, of exactly the bytes of the received
frame; `send` adds one packet to what was sent and changes neither the table nor
anything else, so nothing is sent on socket A and the table is unchanged. -/
theorem Q9_forwards_out_of_range (K : pdu_types) (hash_ssn : List Nat → Nat)
    (shouldClose currentTime : Int) (incoming : List (List (List Nat))) (args0 args : node)
    (i : Nat) (table : hash_table)
    (hK : K.wf) (hpoll : Q6_poll K currentTime incoming args0 = args) (hi : i < 4)
    (hempty : ∀ j, j < i → (args.socketBuffers.getD j default).len = 0)
    (hcap : (args.socketBuffers.getD i default).len ≤
      (args.socketBuffers.getD i default).buffer.length)
    (hbytes : is_bytes (args.socketBuffers.getD i default).content)
    (htab : args.table = some table)
    (hout :
      hash_t (hash_ssn (load_bytes (args.socketBuffers.getD i default).buffer 1 12)) <
        table.minHash ∨
      hash_t (hash_ssn (load_bytes (args.socketBuffers.getD i default).buffer 1 12)) >
        table.maxHash) :
    (parse_pdu_type (args.socketBuffers.getD i default).buffer = K.VAL_INSERT →
      (args.socketBuffers.getD i default).len ≥
        ((15 + load_uint8 (args.socketBuffers.getD i default).buffer 13 +
          load_uint8 (args.socketBuffers.getD i default).buffer
            (14 + load_uint8 (args.socketBuffers.getD i default).buffer 13) : Nat) : Int) →
      (Q6_handler K shouldClose currentTime incoming args0).1 = states.Q9 ∧
      (Q6_handler K shouldClose currentTime incoming args0).2.table = some table ∧
      Q9_handler K hash_ssn (Q6_handler K shouldClose currentTime incoming args0).2 =
        some (states.Q6, send (Q6_handler K shouldClose currentTime incoming args0).2 1
          ((args.socketBuffers.getD i default).content.take
            (15 + load_uint8 (args.socketBuffers.getD i default).buffer 13 +
              load_uint8 (args.socketBuffers.getD i default).buffer
                (14 + load_uint8 (args.socketBuffers.getD i default).buffer 13))))) ∧
    (parse_pdu_type (args.socketBuffers.getD i default).buffer = K.VAL_REMOVE →
      (args.socketBuffers.getD i default).len ≥ 13 →
      (Q6_handler K shouldClose currentTime incoming args0).1 = states.Q9 ∧
      (Q6_handler K shouldClose currentTime incoming args0).2.table = some table ∧
      Q9_handler K hash_ssn (Q6_handler K shouldClose currentTime incoming args0).2 =
        some (states.Q6, send (Q6_handler K shouldClose currentTime incoming args0).2 1
          ((args.socketBuffers.getD i default).content.take 13))) ∧
    (parse_pdu_type (args.socketBuffers.getD i default).buffer = K.VAL_LOOKUP →
      (args.socketBuffers.getD i default).len ≥ 19 →
      (Q6_handler K shouldClose currentTime incoming args0).1 = states.Q9 ∧
      (Q6_handler K shouldClose currentTime incoming args0).2.table = some table ∧
      Q9_handler K hash_ssn (Q6_handler K shouldClose currentTime incoming args0).2 =
        some (states.Q6, send (Q6_handler K shouldClose currentTime incoming args0).2 1
          ((args.socketBuffers.getD i default).content.take 19))) ∧
    (∀ (a : node) (bytes : List Nat),
      (send a 1 bytes).sent = a.sent ++ [⟨1, a.sockets.getD 1 none, bytes⟩] ∧
      (send a 1 bytes).table = a.table ∧
      (send a 1 bytes).socketBuffers = a.socketBuffers ∧
      (send a 1 bytes).sockets = a.sockets) := by
  have hd : ∀ s a, Q6_slot K args i = (some s, a) →
      Q6_handler K shouldClose currentTime incoming args0 = (s, a) := by
    intro s a h
    unfold Q6_handler
    rw [hpoll]
    exact Q6_dispatch_of_slot K shouldClose args i hi hempty s a h
  have hvi : K.VAL_INSERT < 256 := hK.1 K.VAL_INSERT (by simp [pdu_types.all])
  have hvr : K.VAL_REMOVE < 256 := hK.1 K.VAL_REMOVE (by simp [pdu_types.all])
  have hvl : K.VAL_LOOKUP < 256 := hK.1 K.VAL_LOOKUP (by simp [pdu_types.all])
  refine ⟨?_, ?_, ?_, fun a bytes => ⟨rfl, rfl, rfl, rfl⟩⟩
  · intro ht hl
    rw [hd _ _ (Q6_slot_val_insert K args i ht hl)]
    refine ⟨rfl, htab, ?_⟩
    dsimp only
    refine Eq.trans (Q9_forward_val_insert K hash_ssn _
      (parse_val_insert_pdu K.VAL_INSERT (args.socketBuffers.getD i default).buffer).1 table ?_ ?_ ?_ ?_ ?_) ?_
    · rfl
    · simp only [parse_val_insert_pdu]; exact Nat.mod_eq_of_lt hvi
    · exact htab
    · exact length_load_bytes _ _ _
    · exact hout
    rw [← ht, serialize_parse_val_insert _
      (by rw [← content_take _ _ hl]; exact is_bytes_take _ _ hbytes) (by omega),
      content_take _ _ hl]
  · intro ht hl
    rw [hd _ _ (Q6_slot_val_remove K hK args i ht hl)]
    refine ⟨rfl, htab, ?_⟩
    dsimp only
    refine Eq.trans (Q9_forward_val_remove K hash_ssn _
      (parse_val_remove_pdu K.VAL_REMOVE (args.socketBuffers.getD i default).buffer).1 table hK ?_ ?_ ?_ ?_) ?_
    · rfl
    · simp only [parse_val_remove_pdu]; exact Nat.mod_eq_of_lt hvr
    · exact htab
    · exact hout
    rw [← ht, serialize_parse_val_remove _
      (by rw [← content_take _ 13 hl]; exact is_bytes_take _ _ hbytes) (by omega),
      content_take _ 13 hl]
  · intro ht hl
    rw [hd _ _ (Q6_slot_val_lookup K hK args i ht hl)]
    refine ⟨rfl, htab, ?_⟩
    dsimp only
    refine Eq.trans (Q9_forward_val_lookup K hash_ssn _
      (parse_val_lookup_pdu K.VAL_LOOKUP (args.socketBuffers.getD i default).buffer).1 table hK ?_ ?_ ?_ ?_) ?_
    · rfl
    · simp only [parse_val_lookup_pdu]; exact Nat.mod_eq_of_lt hvl
    · exact htab
    · exact hout
    rw [← ht, serialize_parse_val_lookup _
      (by rw [← content_take _ 19 hl]; exact is_bytes_take _ _ hbytes) (by omega),
      content_take _ 19 hl]
set_option maxRecDepth 100000 in
/-- Witness of C15: a node over [140, 150] receives on socket B a VAL_REMOVE frame
whose ssn hashes to 2. -/
theorem Q9_forwards_out_of_range_witness :
    (Q6_handler sample_types 0 0 [[], [101 :: low_entry.ssn], [], []]
      { sample_node with table := some example_table }).1 = states.Q9 ∧
    (Q6_handler sample_types 0 0 [[], [101 :: low_entry.ssn], [], []]
      { sample_node with table := some example_table }).2.table = some example_table ∧
    Q9_handler sample_types sum_hash
      (Q6_handler sample_types 0 0 [[], [101 :: low_entry.ssn], [], []]
        { sample_node with table := some example_table }).2 =
      some (states.Q6,
        send (Q6_handler sample_types 0 0 [[], [101 :: low_entry.ssn], [], []]
          { sample_node with table := some example_table }).2 1 (101 :: low_entry.ssn)) :=
  (Q9_forwards_out_of_range sample_types sum_hash 0 0 [[], [101 :: low_entry.ssn], [], []]
    { sample_node with table := some example_table }
    (Q6_poll sample_types 0 [[], [101 :: low_entry.ssn], [], []]
      { sample_node with table := some example_table }) 1 example_table
    (by decide) rfl (by decide) (by decide) (by decide) (by decide) rfl (by decide)).2.1
    (by decide) (by decide)
theorem c_string_of_no_zero (l : List Nat) (h : ∀ x ∈ l, x ≠ 0) : c_string l = l := by
  unfold c_string
  rw [List.takeWhile_eq_self_iff]
  intro x hx
  simpa using h x hx

theorem hash_table_insert_in (hash_ssn : List Nat → Nat) (table : hash_table)
    (entry : hash_table_entry)
    (h : ¬ (hash_t (hash_ssn entry.ssn) < table.minHash ∨
      hash_t (hash_ssn entry.ssn) > table.maxHash)) :
    hash_table_insert hash_ssn table entry =
      (0, { table with
            buckets := table.buckets.set (hash_t (hash_ssn entry.ssn) - table.minHash)
              (table.buckets.getD (hash_t (hash_ssn entry.ssn) - table.minHash) [] ++
                [entry]) }) := by
  unfold hash_table_insert
  simp only []
  rw [if_neg h, hash_index_eq]

theorem serialize_val_lookup_response_pdu_take (bytes : List Nat)
    (s : VAL_LOOKUP_RESPONSE_PDU)
    (h : 15 + s.name_length + s.email_length ≤ bytes.length)
    (ht : s.type < 2 ^ 8) (hl : s.ssn.length = 12) (hb : is_bytes s.ssn)
    (hn : s.name_length < 2 ^ 8) (hnl : s.name.length = s.name_length) (hnb : is_bytes s.name)
    (he : s.email_length < 2 ^ 8) (hel : s.email.length = s.email_length)
    (heb : is_bytes s.email) :
    (serialize_val_lookup_response_pdu bytes s).1.take
        (serialize_val_lookup_response_pdu bytes s).2 =
      s.type :: s.ssn ++ s.name_length :: s.name ++ s.email_length :: s.email := by
  have e1 : serialize_val_lookup_response_pdu bytes s =
      serialize_val_insert_pdu bytes ⟨s.type, s.ssn, s.name_length, s.name, s.email_length,
        s.email⟩ := rfl
  have e2 : (serialize_val_insert_pdu bytes ⟨s.type, s.ssn, s.name_length, s.name,
      s.email_length, s.email⟩).2 = 15 + s.name_length + s.email_length := by
    simp only [serialize_val_insert_pdu, SSN_LENGTH]
    omega
  rw [e1, e2]
  exact serialize_val_insert_pdu_take bytes ⟨s.type, s.ssn, s.name_length, s.name,
    s.email_length, s.email⟩ h ⟨ht, hl, hb, hn, hnl, hnb, he, hel, heb⟩

theorem Q9_insert_local (K : pdu_types) (hash_ssn : List Nat → Nat) (a : node)
    (pdu : VAL_INSERT_PDU) (table : hash_table)
    (hlast : a.lastPdu = some (.val_insert pdu)) (ht : pdu.type = K.VAL_INSERT)
    (htab : a.table = some table) (hs : pdu.ssn.length = 12)
    (hin : ¬ (hash_t (hash_ssn pdu.ssn) < table.minHash ∨
      hash_t (hash_ssn pdu.ssn) > table.maxHash)) :
    Q9_handler K hash_ssn a =
      some (states.Q6,
        { a with
          table := some (hash_table_insert hash_ssn table
            (hash_table_create_entry pdu.ssn pdu.name pdu.email)).2 }) := by
  have hne : ((0 : Int) ≠ 0) = False := by decide
  have hin' : ¬ (hash_t (hash_ssn (hash_table_create_entry pdu.ssn pdu.name pdu.email).ssn) <
      table.minHash ∨
      hash_t (hash_ssn (hash_table_create_entry pdu.ssn pdu.name pdu.email).ssn) >
        table.maxHash) := by
    rw [create_entry_ssn_copy _ _ _ hs]; exact hin
  cases a
  simp only at hlast htab
  subst hlast htab
  unfold Q9_handler
  simp only [last_pdu.type, ht, if_true, hash_table_insert_in _ _ _ hin', hne, if_false]

theorem Q9_lookup_miss (K : pdu_types) (hash_ssn : List Nat → Nat) (a : node)
    (pdu : VAL_LOOKUP_PDU) (table : hash_table) (hK : K.wf)
    (hlast : a.lastPdu = some (.val_lookup pdu)) (ht : pdu.type = K.VAL_LOOKUP)
    (htab : a.table = some table)
    (hlook : hash_table_lookup hash_ssn table pdu.ssn none = (0, none, table)) :
    Q9_handler K hash_ssn a =
      some (states.Q6, sendto a 0 ⟨pdu.sender_address, pdu.sender_port⟩
        (K.VAL_LOOKUP_RESPONSE :: List.replicate 14 0)) := by
  obtain ⟨-, h1, -⟩ := pdu_types.dispatched_distinct K hK
  have hne : ((0 : Int) < 0) = False := by decide
  have hlt : K.VAL_LOOKUP_RESPONSE < 2 ^ 8 :=
    hK.1 K.VAL_LOOKUP_RESPONSE (by simp [pdu_types.all])
  have hser := serialize_val_lookup_response_pdu_take (List.replicate 15 0)
    (empty_lookup_response K) (by simp [empty_lookup_response]) hlt rfl
    (show is_bytes (List.replicate 12 0) by decide) (show 0 < 2 ^ 8 by decide) rfl
    (show is_bytes [] by decide) (show 0 < 2 ^ 8 by decide) rfl
    (show is_bytes [] by decide)
  cases a
  simp only at hlast htab
  subst hlast htab
  unfold Q9_handler
  simp only [last_pdu.type, ht, h1, if_false, if_true, hlook, hne]
  have e : VAL_LOOKUP_RESPONSE_BASE_LENGTH + (empty_lookup_response K).email_length +
      (empty_lookup_response K).name_length = 15 := rfl
  rw [e, hser]
  rfl

theorem Q9_lookup_hit (K : pdu_types) (hash_ssn : List Nat → Nat) (a : node)
    (pdu : VAL_LOOKUP_PDU) (table : hash_table) (hK : K.wf)
    (hlast : a.lastPdu = some (.val_lookup pdu)) (ht : pdu.type = K.VAL_LOOKUP)
    (htab : a.table = some table) (entry : hash_table_entry)
    (hlook : hash_table_lookup hash_ssn table pdu.ssn none = (0, some entry, table))
    (hs : entry.ssn.length = 12) (hsb : is_bytes entry.ssn)
    (hn : strlen entry.name < 256) (hnb : is_bytes entry.name)
    (he : strlen entry.email < 256) (heb : is_bytes entry.email) :
    Q9_handler K hash_ssn a =
      some (states.Q6, sendto a 0 ⟨pdu.sender_address, pdu.sender_port⟩
        (K.VAL_LOOKUP_RESPONSE :: entry.ssn ++ strlen entry.name :: c_string entry.name ++
          strlen entry.email :: c_string entry.email)) := by
  obtain ⟨-, h1, -⟩ := pdu_types.dispatched_distinct K hK
  have hne : ((0 : Int) < 0) = False := by decide
  have hlt : K.VAL_LOOKUP_RESPONSE < 2 ^ 8 :=
    hK.1 K.VAL_LOOKUP_RESPONSE (by simp [pdu_types.all])
  have hssn : (List.range 12).map (fun i => entry.ssn.getD i 0) = entry.ssn :=
    create_entry_ssn_copy entry.ssn [] [] hs
  have hfill : fill_lookup_response (empty_lookup_response K) entry =
      ⟨K.VAL_LOOKUP_RESPONSE, entry.ssn, strlen entry.name, c_string entry.name,
        strlen entry.email, c_string entry.email⟩ := by
    simp only [fill_lookup_response, empty_lookup_response, hssn, Nat.mod_eq_of_lt hn,
      Nat.mod_eq_of_lt he]
  have hcb : ∀ l, is_bytes l → is_bytes (c_string l) :=
    fun l hl x hx => hl x ((List.takeWhile_sublist _).subset hx)
  have hser := serialize_val_lookup_response_pdu_take
    (List.replicate (15 + strlen entry.email + strlen entry.name) 0)
    ⟨K.VAL_LOOKUP_RESPONSE, entry.ssn, strlen entry.name, c_string entry.name,
        strlen entry.email, c_string entry.email⟩ (by simp; omega) hlt hs hsb
    hn rfl (hcb _ hnb) he rfl (hcb _ heb)
  cases a
  simp only at hlast htab
  subst hlast htab
  unfold Q9_handler
  simp only [last_pdu.type, ht, h1, if_false, if_true, hlook, hne, hfill,
    VAL_LOOKUP_RESPONSE_BASE_LENGTH, hser]
/-- C16. Solitary insert then lookup: a node whose table is over [0, 255] and holds no
record with the ssn of a well-formed VAL_INSERT frame, whose name and email hold no
zero byte, handles the frame in Q9: Q9 returns Q6 and only the table changes (nothing
is sent). When Q9 then handles a VAL_LOOKUP for the same ssn, on any node with the
table the insert left, it returns Q6 with one `sendto` on socket A, addressed to
(sender_address, sender_port), of exactly the VAL_LOOKUP_RESPONSE frame: the type,
the ssn, the length of the name, the name, the length of the email, the email. -/
theorem Q9_insert_then_lookup (K : pdu_types) (hash_ssn : List Nat → Nat) (a : node)
    (table : hash_table) (pi : VAL_INSERT_PDU) (pl : VAL_LOOKUP_PDU)
    (hK : K.wf) (htab : a.table = some table) (hmin : table.minHash = 0)
    (hmax : table.maxHash = 255) (halloc : table.allocated)
    (hfresh : ∀ e ∈ table.records, ¬ same_ssn pi.ssn e)
    (hlast : a.lastPdu = some (.val_insert pi)) (hti : pi.type = K.VAL_INSERT) (hwf : pi.wf)
    (hname : ∀ x ∈ pi.name, x ≠ 0) (hemail : ∀ x ∈ pi.email, x ≠ 0)
    (htl : pl.type = K.VAL_LOOKUP) (hssn : pl.ssn = pi.ssn) :
    Q9_handler K hash_ssn a =
      some (states.Q6,
        { a with
          table := some (hash_table_insert hash_ssn table
            (hash_table_create_entry pi.ssn pi.name pi.email)).2 }) ∧
    (∀ a2 : node,
      a2.table = some (hash_table_insert hash_ssn table
        (hash_table_create_entry pi.ssn pi.name pi.email)).2 →
      a2.lastPdu = some (.val_lookup pl) →
      Q9_handler K hash_ssn a2 =
        some (states.Q6, sendto a2 0 ⟨pl.sender_address, pl.sender_port⟩
          (K.VAL_LOOKUP_RESPONSE :: pi.ssn ++ pi.name.length :: pi.name ++
            pi.email.length :: pi.email)) ∧
      (sendto a2 0 ⟨pl.sender_address, pl.sender_port⟩
          (K.VAL_LOOKUP_RESPONSE :: pi.ssn ++ pi.name.length :: pi.name ++
            pi.email.length :: pi.email)).sent =
        a2.sent ++ [⟨0, some ⟨pl.sender_address, pl.sender_port⟩,
          K.VAL_LOOKUP_RESPONSE :: pi.ssn ++ pi.name.length :: pi.name ++
            pi.email.length :: pi.email⟩]) := by
  obtain ⟨-, hl, hb, hn, hnl, hnb, he, hel, heb⟩ := hwf
  have hlt : hash_t (hash_ssn pi.ssn) < 256 := Nat.mod_lt _ (by decide)
  have hin : ¬ (hash_t (hash_ssn pi.ssn) < table.minHash ∨
      hash_t (hash_ssn pi.ssn) > table.maxHash) := by
    rw [hmin, hmax]; omega
  have hes : (hash_table_create_entry pi.ssn pi.name pi.email).ssn = pi.ssn :=
    create_entry_ssn_copy _ _ _ hl
  have hen : (hash_table_create_entry pi.ssn pi.name pi.email).name = pi.name :=
    c_string_of_no_zero _ hname
  have hee : (hash_table_create_entry pi.ssn pi.name pi.email).email = pi.email :=
    c_string_of_no_zero _ hemail
  refine ⟨Q9_insert_local K hash_ssn a pi table hlast hti htab hl hin, ?_⟩
  intro a2 htab2 hlast2
  refine ⟨?_, rfl⟩
  have hin' : ¬ (hash_t (hash_ssn (hash_table_create_entry pi.ssn pi.name pi.email).ssn) <
      table.minHash ∨
      hash_t (hash_ssn (hash_table_create_entry pi.ssn pi.name pi.email).ssn) >
        table.maxHash) := by
    rw [hes]; exact hin
  have hidx : hash_t (hash_ssn (hash_table_create_entry pi.ssn pi.name pi.email).ssn) -
      table.minHash = hash_t (hash_ssn pi.ssn) := by
    rw [hes, hmin, Nat.sub_zero]
  rw [hash_table_insert_in _ _ _ hin', hidx] at htab2
  dsimp only at htab2
  have hlen : table.buckets.length = 256 := by
    have := halloc
    unfold hash_table.allocated at this
    rw [this, hmin, hmax]
    rfl
  have hlook := hash_table_lookup_present hash_ssn
    { table with
      buckets := table.buckets.set (hash_t (hash_ssn pi.ssn))
        (table.buckets.getD (hash_t (hash_ssn pi.ssn)) [] ++
          [hash_table_create_entry pi.ssn pi.name pi.email]) }
    pl.ssn none (by rw [hssn]; exact hin)
    (table.buckets.getD (hash_t (hash_ssn pi.ssn)) [])
    (hash_table_create_entry pi.ssn pi.name pi.email) []
    (by
      rw [hssn]
      have hc : hash_t (hash_ssn pi.ssn) = hash_t (hash_ssn pi.ssn) ∧
          hash_t (hash_ssn pi.ssn) < table.buckets.length := ⟨rfl, by omega⟩
      simp only [hash_table.bucket_of, hmin, Nat.sub_zero]
      rw [getD_set_ite, if_pos hc])
    (by
      rw [hssn]
      intro e hmem
      apply hfresh
      unfold hash_table.records
      exact List.mem_flatten.mpr ⟨_, getD_mem_of_mem _ _ _ hmem, hmem⟩)
    (by
      rw [hssn]
      intro j _
      rw [hes])
  have h9 := Q9_lookup_hit K hash_ssn a2 pl _ hK hlast2 htl htab2
    (hash_table_create_entry pi.ssn pi.name pi.email) hlook
    (by rw [hes]; exact hl) (by rw [hes]; exact hb)
    (by rw [hen]; unfold strlen; rw [c_string_of_no_zero _ hname, hnl]; exact hn)
    (by rw [hen]; exact hnb)
    (by rw [hee]; unfold strlen; rw [c_string_of_no_zero _ hemail, hel]; exact he)
    (by rw [hee]; exact heb)
  rw [h9, hes, hen, hee]
  unfold strlen
  rw [c_string_of_no_zero _ hname, c_string_of_no_zero _ hemail]

set_option maxRecDepth 100000 in
/-- Witness of C16: the sample node inserts the record of "aaaaabbbbbcc", Rolf,
rolf@x and is then asked for it by 127.0.0.1, port 5000. -/
theorem Q9_insert_then_lookup_witness :
    Q9_handler sample_types sum_hash
      { sample_node with
        table := some (hash_table_insert sum_hash (hash_table_create 0 255)
          (hash_table_create_entry example_ssn [82, 111, 108, 102]
            [114, 111, 108, 102, 64, 120])).2
        lastPdu := some (.val_lookup ⟨102, example_ssn, 0x0100007F, 5000⟩) } =
      some (states.Q6,
        sendto
          { sample_node with
            table := some (hash_table_insert sum_hash (hash_table_create 0 255)
              (hash_table_create_entry example_ssn [82, 111, 108, 102]
                [114, 111, 108, 102, 64, 120])).2
            lastPdu := some (.val_lookup ⟨102, example_ssn, 0x0100007F, 5000⟩) }
          0 ⟨0x0100007F, 5000⟩
          (103 :: example_ssn ++ 4 :: [82, 111, 108, 102] ++
            6 :: [114, 111, 108, 102, 64, 120])) :=
  ((Q9_insert_then_lookup sample_types sum_hash
    { sample_node with
      lastPdu := some (.val_insert ⟨100, example_ssn, 4, [82, 111, 108, 102], 6,
        [114, 111, 108, 102, 64, 120]⟩) }
    (hash_table_create 0 255)
    ⟨100, example_ssn, 4, [82, 111, 108, 102], 6, [114, 111, 108, 102, 64, 120]⟩
    ⟨102, example_ssn, 0x0100007F, 5000⟩
    (by decide) rfl rfl rfl (by decide) (by decide) rfl rfl (by decide) (by decide)
    (by decide) rfl rfl).2 _ rfl rfl).1

/-- C17. Lookup miss inside the range: when the ssn of a VAL_LOOKUP hashes inside the
range of the table but no stored record has that ssn, Q9 returns Q6 with one `sendto`
on socket A, addressed to (sender_address, sender_port), of exactly 15 bytes: the
type VAL_LOOKUP_RESPONSE followed by 14 zero bytes. Nothing else is sent and the table
is unchanged. -/
theorem Q9_lookup_miss_in_range (K : pdu_types) (hash_ssn : List Nat → Nat) (a : node)
    (pdu : VAL_LOOKUP_PDU) (table : hash_table) (hK : K.wf)
    (hlast : a.lastPdu = some (.val_lookup pdu)) (ht : pdu.type = K.VAL_LOOKUP)
    (htab : a.table = some table)
    (hin : table.minHash ≤ hash_t (hash_ssn pdu.ssn) ∧
      hash_t (hash_ssn pdu.ssn) ≤ table.maxHash)
    (hno : ∀ e ∈ table.records, ¬ same_ssn pdu.ssn e) :
    Q9_handler K hash_ssn a =
      some (states.Q6, sendto a 0 ⟨pdu.sender_address, pdu.sender_port⟩
        (K.VAL_LOOKUP_RESPONSE :: List.replicate 14 0)) ∧
    (sendto a 0 ⟨pdu.sender_address, pdu.sender_port⟩
        (K.VAL_LOOKUP_RESPONSE :: List.replicate 14 0)).sent =
      a.sent ++ [⟨0, some ⟨pdu.sender_address, pdu.sender_port⟩,
        K.VAL_LOOKUP_RESPONSE :: List.replicate 14 0⟩] ∧
    (sendto a 0 ⟨pdu.sender_address, pdu.sender_port⟩
        (K.VAL_LOOKUP_RESPONSE :: List.replicate 14 0)).table = some table ∧
    (K.VAL_LOOKUP_RESPONSE :: List.replicate 14 0).length = 15 := by
  refine ⟨?_, rfl, htab, rfl⟩
  apply Q9_lookup_miss K hash_ssn a pdu table hK hlast ht htab
  apply hash_table_lookup_absent hash_ssn table pdu.ssn none (by omega)
  intro e hmem
  apply hno
  unfold hash_table.records
  exact List.mem_flatten.mpr ⟨_, getD_mem_of_mem _ _ _ hmem, hmem⟩

set_option maxRecDepth 100000 in
/-- Witness of C17: the sample node, whose table is empty, is asked for
"aaaaabbbbbcc". -/
theorem Q9_lookup_miss_in_range_witness :
    Q9_handler sample_types sum_hash
      { sample_node with lastPdu := some (.val_lookup ⟨102, example_ssn, 0x0100007F, 5000⟩) } =
      some (states.Q6,
        sendto
          { sample_node with
            lastPdu := some (.val_lookup ⟨102, example_ssn, 0x0100007F, 5000⟩) }
          0 ⟨0x0100007F, 5000⟩ (103 :: List.replicate 14 0)) :=
  (Q9_lookup_miss_in_range sample_types sum_hash
    { sample_node with lastPdu := some (.val_lookup ⟨102, example_ssn, 0x0100007F, 5000⟩) }
    ⟨102, example_ssn, 0x0100007F, 5000⟩ (hash_table_create 0 255) (by decide) rfl rfl rfl
    (by decide) (by decide)).1
/-! ## The hand-over of a range -/

theorem hash_table_remove_range (hash_ssn : List Nat → Nat) (table : hash_table)
    (ssn : List Nat) :
    (hash_table_remove hash_ssn table ssn).2.minHash = table.minHash ∧
    (hash_table_remove hash_ssn table ssn).2.maxHash = table.maxHash := by
  unfold hash_table_remove
  simp only []
  split_ifs <;> exact ⟨rfl, rfl⟩

theorem transfer_bucket_range (K : pdu_types) (hash_ssn : List Nat → Nat) (off i : Nat)
    (fuel j : Nat) (s : hash_table × List (List Nat)) :
    (transfer_bucket K hash_ssn off i fuel j s).1.minHash = s.1.minHash ∧
    (transfer_bucket K hash_ssn off i fuel j s).1.maxHash = s.1.maxHash := by
  induction fuel generalizing j s with
  | zero =>
    unfold transfer_bucket
    exact ⟨rfl, rfl⟩
  | succ n ih =>
    obtain ⟨table, frames⟩ := s
    unfold transfer_bucket
    split_ifs
    · split
      · rename_i e _
        obtain ⟨h1, h2⟩ := ih (j + 1)
          ((hash_table_remove hash_ssn table e.ssn).2, frames ++ [transfer_frame K e])
        obtain ⟨h3, h4⟩ := hash_table_remove_range hash_ssn table e.ssn
        exact ⟨h1.trans h3, h2.trans h4⟩
      · exact ⟨rfl, rfl⟩
    · exact ⟨rfl, rfl⟩

theorem transfer_range_fold (K : pdu_types) (hash_ssn : List Nat → Nat) (off : Nat)
    (l : List Nat) (s : hash_table × List (List Nat)) :
    (l.foldl (transfer_range_body K hash_ssn off) s).1.minHash = s.1.minHash ∧
    (l.foldl (transfer_range_body K hash_ssn off) s).1.maxHash = s.1.maxHash := by
  induction l generalizing s with
  | nil => exact ⟨rfl, rfl⟩
  | cons i l ih =>
    rw [List.foldl_cons]
    obtain ⟨h1, h2⟩ := ih (transfer_range_body K hash_ssn off s i)
    obtain ⟨h3, h4⟩ := transfer_bucket_range K hash_ssn off i
      ((hash_table_get_buckets_from s.1 off).getD i []).length 0 s
    exact ⟨h1.trans h3, h2.trans h4⟩

theorem foldl_send (fd : Nat) (frames : List (List Nat)) (args : node) :
    frames.foldl (fun a bytes => send a fd bytes) args =
      { args with
        sent := args.sent ++ frames.map (fun b => ⟨fd, args.sockets.getD fd none, b⟩) } := by
  induction frames generalizing args with
  | nil => simp
  | cons b l ih =>
    rw [List.foldl_cons, ih]
    simp [send]

theorem transfer_entry_range_spec (K : pdu_types) (hash_ssn : List Nat → Nat) (args : node)
    (fd : Nat) (rangeMin : Int) (table : hash_table) (htab : args.table = some table) :
    ∃ (a : node) (frames : List (List Nat)),
      transfer_entry_range K hash_ssn args fd rangeMin = some a ∧
      a.successor = args.successor ∧ a.predecessor = args.predecessor ∧
      a.sockets = args.sockets ∧ a.addr = args.addr ∧
      a.sent = args.sent ++ frames.map (fun b => ⟨fd, args.sockets.getD fd none, b⟩) ∧
      (rangeMin > table.minHash →
        ∃ t, a.table = some t ∧ t.minHash = table.minHash ∧
          t.maxHash = ((rangeMin - 1) % 256).toNat) ∧
      (¬ rangeMin > table.minHash → a.table = none) := by
  obtain ⟨h1, -⟩ := transfer_range_fold K hash_ssn
    (((rangeMin - (table.minHash : Int)) % 256).toNat)
    (List.range ((table.maxHash : Int) - rangeMin + 1).toNat) (table, [])
  unfold transfer_entry_range
  simp only [htab, foldl_send, h1]
  by_cases h : rangeMin > (table.minHash : Int)
  · rw [if_pos h]
    refine ⟨_, _, rfl, rfl, rfl, rfl, rfl, rfl, fun _ => ⟨_, rfl, ?_, ?_⟩, fun hn => absurd h hn⟩
    · exact (hash_table_resize_buckets _ _ _).1
    · exact (hash_table_resize_buckets _ _ _).2.1
  · rw [if_neg h]
    exact ⟨_, _, rfl, rfl, rfl, rfl, rfl, rfl, fun hp => absurd hp h, fun _ => rfl⟩
theorem hash_table_remove_bucket_length (hash_ssn : List Nat → Nat) (table : hash_table)
    (ssn : List Nat) (k : Nat) :
    ((hash_table_remove hash_ssn table ssn).2.buckets.getD k []).length ≤
      (table.buckets.getD k []).length := by
  unfold hash_table_remove
  simp only []
  split_ifs with h1 h2
  · exact Nat.le_refl _
  · simp only [getD_set_ite]
    split_ifs with h3
    · rw [h3.1]
      exact Nat.le_trans (List.length_take_le _ _) (Nat.sub_le _ _)
    · exact Nat.le_refl _
  · exact Nat.le_refl _

/-- The fuel of the inner loop of `transfer_entry_range` is enough: the loop ends by
its own test, and more fuel gives the same result. -/
theorem transfer_bucket_fuel (K : pdu_types) (hash_ssn : List Nat → Nat) (off i : Nat)
    (fuel extra j : Nat) (s : hash_table × List (List Nat))
    (h : ((hash_table_get_buckets_from s.1 off).getD i []).length ≤ j + fuel) :
    transfer_bucket K hash_ssn off i (fuel + extra) j s =
      transfer_bucket K hash_ssn off i fuel j s := by
  induction fuel generalizing j s with
  | zero =>
    obtain ⟨table, frames⟩ := s
    cases extra with
    | zero => rfl
    | succ n =>
      rw [Nat.zero_add]
      unfold transfer_bucket
      rw [if_neg (by simp only [Nat.add_zero] at h; omega)]
  | succ n ih =>
    obtain ⟨table, frames⟩ := s
    have e : n + 1 + extra = (n + extra) + 1 := by omega
    rw [e]
    unfold transfer_bucket
    split_ifs with hj
    · split
      · rename_i e' _
        apply ih
        have := hash_table_remove_bucket_length hash_ssn table e'.ssn (off + i)
        simp only [hash_table_get_buckets_from, getD_drop_add] at h ⊢
        omega
      · rfl
    · rfl

theorem transfer_range_body_fuel (K : pdu_types) (hash_ssn : List Nat → Nat) (off : Nat)
    (s : hash_table × List (List Nat)) (i extra : Nat) :
    transfer_bucket K hash_ssn off i
        (((hash_table_get_buckets_from s.1 off).getD i []).length + extra) 0 s =
      transfer_range_body K hash_ssn off s i :=
  transfer_bucket_fuel K hash_ssn off i _ extra 0 s (by omega)

set_option maxRecDepth 100000 in
/-- C18. The hand-over of a range does not send every record: the sample table over
[140, 150] holds two records of the hash 149. `transfer_entry_range` with
`rangeMin = 140` (the call of Q18) sends one VAL_INSERT frame only, that of the first
record: `hash_table_remove` shortens the list the inner loop runs over, so the loop
ends before it reaches the second record, for which no frame is sent. The table is
destroyed afterwards, so the second record is lost. -/
theorem transfer_entry_range_skips_record :
    crowded_table.records = [example_entry, example_entry2] ∧
    hash_t (sum_hash example_entry.ssn) = 149 ∧
    hash_t (sum_hash example_entry2.ssn) = 149 ∧
    (transfer_entry_range sample_types sum_hash
      { sample_node with table := some crowded_table } 1 140).map (fun a => a.sent) =
      some [⟨1, none, transfer_frame sample_types example_entry⟩] ∧
    transfer_frame sample_types example_entry =
      100 :: example_ssn ++ 4 :: [82, 111, 108, 102] ++ 6 :: [114, 111, 108, 102, 64, 120] ∧
    (transfer_entry_range sample_types sum_hash
      { sample_node with table := some crowded_table } 1 140).map (fun a => a.table) =
      some none := by
  decide
/-! ## The join handlers Q12, Q5 and Q13 -/

theorem Q5_handler_eq (K : pdu_types) (hash_ssn : List Nat → Nat) (accepted : sockaddr_in)
    (args : node) (table : hash_table) (j : NET_JOIN_PDU) (htab : args.table = some table)
    (hlast : args.lastPdu = some (.net_join j)) :
    Q5_handler K hash_ssn accepted args =
      (transfer_entry_range K hash_ssn
        (send
          (connect_socket { args with successor := ⟨j.src_address, j.src_port⟩ } 1
            ⟨j.src_address, j.src_port⟩) 1
          ((serialize_net_join_response_pdu (List.replicate 9 0)
            ⟨K.NET_JOIN_RESPONSE, args.addr.s_addr, args.listeningPort % 2 ^ 16,
              (table.minHash + table.maxHash / 2) % 2 ^ 8, table.maxHash⟩).take 9))
        1 ((table.maxHash / 2 : Nat) : Int)).map
        (fun a => (states.Q6, accept_predacessor a accepted)) := by
  cases args
  simp only at htab hlast
  subst htab hlast
  unfold Q5_handler
  dsimp only [connect_socket, send, NET_JOIN_RESPONSE_BASE_LENGTH]
  split <;> rename_i h <;> rw [h] <;> rfl

theorem Q13_handler_eq (K : pdu_types) (hash_ssn : List Nat → Nat)
    (args : node) (table : hash_table) (j : NET_JOIN_PDU) (htab : args.table = some table)
    (hlast : args.lastPdu = some (.net_join j)) :
    Q13_handler K hash_ssn args =
      (transfer_entry_range K hash_ssn
        (send
          (connect_socket
            { create_socket (send args 1 [K.NET_CLOSE_CONNECTION % 256]) 1 with
              successor := ⟨j.src_address, j.src_port⟩ } 1
            ⟨j.src_address, j.src_port⟩) 1
          ((serialize_net_join_response_pdu (List.replicate 9 0)
            ⟨K.NET_JOIN_RESPONSE, args.successor.s_addr, args.successor.sin_port,
              ((Int.tdiv ((table.maxHash : Int) - (table.minHash : Int)) 2 +
                (table.minHash : Int)) % 2 ^ 8).toNat, table.maxHash⟩).take 9))
        1 (Int.tdiv ((table.maxHash : Int) - (table.minHash : Int)) 2 +
          (table.minHash : Int))).map
        (fun a => (states.Q6, a)) := by
  cases args
  simp only at htab hlast
  subst htab hlast
  unfold Q13_handler
  dsimp only [connect_socket, send, create_socket, NET_JOIN_RESPONSE_BASE_LENGTH]
  split <;> rename_i h <;> rw [h] <;> rfl

theorem Q12_solitary (args : node) (table : hash_table) (htab : args.table = some table)
    (hmin : table.minHash = 0) (hmax : table.maxHash = 255) :
    Q12_handler args = some (states.Q5, args) := by
  unfold Q12_handler
  simp only [htab]
  rw [if_pos ⟨hmin, hmax⟩]

set_option maxRecDepth 100000 in
/-- C19, as the claim states it, fails: the sample node, solitary with the table over
[0, 255], handles the NET_JOIN of the joiner 127.0.0.2:5000 through Q12 and Q5. The
NET_JOIN_RESPONSE it sends carries range_start 127 (not 128) and range_end 255, and
the table of the node afterwards is over [0, 126] (not [0, 127]). -/
theorem Q5_joiner_range_starts_at_127 :
    Q12_handler
      { sample_node with lastPdu := some (.net_join ⟨3, 0x0200007F, 5000, 0, 0, 0⟩) } =
      some (states.Q5,
        { sample_node with lastPdu := some (.net_join ⟨3, 0x0200007F, 5000, 0, 0, 0⟩) }) ∧
    (Q5_handler sample_types sum_hash ⟨0x0200007F, 6000⟩
      { sample_node with lastPdu := some (.net_join ⟨3, 0x0200007F, 5000, 0, 0, 0⟩) }).map
      (fun r => (r.1, r.2.sent, r.2.table.map (fun t => (t.minHash, t.maxHash)))) =
      some (states.Q6, [⟨1, some ⟨0x0200007F, 5000⟩, [4, 127, 0, 0, 1, 160, 15, 127, 255]⟩],
        some (0, 126)) ∧
    (parse_net_join_response 4 [4, 127, 0, 0, 1, 160, 15, 127, 255]).1.range_start = 127 ∧
    (parse_net_join_response 4 [4, 127, 0, 0, 1, 160, 15, 127, 255]).1.range_end = 255 := by
  decide

/-- C19, amended: split on the join of a solitary node: when a node whose table is
over [0, 255] handles a NET_JOIN through Q12 and Q5, Q12 returns Q5, and Q5 returns Q6
after sending to the joiner, on socket B, the NET_JOIN_RESPONSE with its own address
and listening port, range_start 127 and range_end 255, followed by the frames of the
hand-over only. The joiner so receives the range [127, 255]; the table of the node
afterwards is over [0, 126], its successor is the joiner and its predecessor the peer
that was accepted. -/
theorem Q5_split_solitary (K : pdu_types) (hash_ssn : List Nat → Nat) (accepted : sockaddr_in)
    (args : node) (table : hash_table) (j : NET_JOIN_PDU)
    (htab : args.table = some table) (hmin : table.minHash = 0) (hmax : table.maxHash = 255)
    (hlast : args.lastPdu = some (.net_join j)) (hsock : args.sockets.length = 4) :
    Q12_handler args = some (states.Q5, args) ∧
    ∃ (a : node) (t : hash_table) (frames : List (List Nat)),
      Q5_handler K hash_ssn accepted args = some (states.Q6, a) ∧
      a.successor = ⟨j.src_address, j.src_port⟩ ∧ a.predecessor = accepted ∧
      a.table = some t ∧ t.minHash = 0 ∧ t.maxHash = 126 ∧
      a.sent = args.sent ++
        ⟨1, some ⟨j.src_address, j.src_port⟩,
          [K.NET_JOIN_RESPONSE % 256,
            args.addr.s_addr % 256, (args.addr.s_addr >>> 8) % 256,
            (args.addr.s_addr >>> 16) % 256, (args.addr.s_addr >>> 24) % 256,
            (args.listeningPort % 2 ^ 16) % 256, ((args.listeningPort % 2 ^ 16) >>> 8) % 256,
            127, 255]⟩ ::
        frames.map (fun b => ⟨1, some ⟨j.src_address, j.src_port⟩, b⟩) := by
  refine ⟨Q12_solitary args table htab hmin hmax, ?_⟩
  have hc : (1 : Nat) = 1 ∧ 1 < args.sockets.length := ⟨rfl, by omega⟩
  have hdest : (args.sockets.set 1 (some (⟨j.src_address, j.src_port⟩ : sockaddr_in))).getD 1
      none = some ⟨j.src_address, j.src_port⟩ := by
    rw [getD_set_ite, if_pos hc]
  obtain ⟨a, frames, h, hs, -, -, -, hsent, htp, -⟩ := transfer_entry_range_spec K hash_ssn
    (send
      (connect_socket { args with successor := ⟨j.src_address, j.src_port⟩ } 1
        ⟨j.src_address, j.src_port⟩) 1
      ((serialize_net_join_response_pdu (List.replicate 9 0)
        ⟨K.NET_JOIN_RESPONSE, args.addr.s_addr, args.listeningPort % 2 ^ 16,
          (table.minHash + table.maxHash / 2) % 2 ^ 8, table.maxHash⟩).take 9))
    1 ((table.maxHash / 2 : Nat) : Int) table htab
  obtain ⟨t, ht, ht1, ht2⟩ := htp (by rw [hmin, hmax]; decide)
  refine ⟨accept_predacessor a accepted, t, frames, ?_, hs, rfl, ht, ht1.trans hmin, ?_, ?_⟩
  · rw [Q5_handler_eq K hash_ssn accepted args table j htab hlast, h]
    rfl
  · rw [ht2, hmax]
    rfl
  · show a.sent = _
    rw [hsent]
    simp only [send, connect_socket, hdest,
      serialize_net_join_response_pdu_take _ _ (show 9 ≤ (List.replicate 9 0).length by simp),
      hmin, hmax]
    simp

/-- Witness of the amended C19: the sample node and the joiner 127.0.0.2:5000. -/
theorem Q5_split_solitary_witness :
    ∃ (a : node) (t : hash_table) (frames : List (List Nat)),
      Q5_handler sample_types sum_hash ⟨0x0200007F, 6000⟩
        { sample_node with lastPdu := some (.net_join ⟨3, 0x0200007F, 5000, 0, 0, 0⟩) } =
        some (states.Q6, a) ∧
      a.successor = ⟨0x0200007F, 5000⟩ ∧ a.predecessor = ⟨0x0200007F, 6000⟩ ∧
      a.table = some t ∧ t.minHash = 0 ∧ t.maxHash = 126 ∧
      a.sent = [] ++
        ⟨1, some ⟨0x0200007F, 5000⟩, [4, 127, 0, 0, 1, 160, 15, 127, 255]⟩ ::
        frames.map (fun b => ⟨1, some ⟨0x0200007F, 5000⟩, b⟩) :=
  (Q5_split_solitary sample_types sum_hash ⟨0x0200007F, 6000⟩
    { sample_node with lastPdu := some (.net_join ⟨3, 0x0200007F, 5000, 0, 0, 0⟩) }
    (hash_table_create 0 255) ⟨3, 0x0200007F, 5000, 0, 0, 0⟩ rfl rfl rfl rfl rfl).2

set_option maxRecDepth 100000 in
/-- C20, as the claim states it, fails: a node with the table over [0, 127] and the
successor 127.0.0.3:7000 handles in Q13 the NET_JOIN of the joiner 127.0.0.2:5000. The
NET_JOIN_RESPONSE it sends carries range_start 63 = (0 + 127) / 2 (not 64) and
range_end 127, and the table of the node afterwards is over [0, 62] (not [0, 63]). -/
theorem Q13_joiner_range_starts_at_midpoint :
    (Q13_handler sample_types sum_hash
      { sample_node with
        successor := ⟨0x0300007F, 7000⟩
        sockets := [none, some ⟨0x0300007F, 7000⟩, none, none]
        table := some (hash_table_create 0 127)
        lastPdu := some (.net_join ⟨3, 0x0200007F, 5000, 0, 0, 0⟩) }).map
      (fun r => (r.1, r.2.sent, r.2.table.map (fun t => (t.minHash, t.maxHash)))) =
      some (states.Q6,
        [⟨1, some ⟨0x0300007F, 7000⟩, [5]⟩,
          ⟨1, some ⟨0x0200007F, 5000⟩, [4, 127, 0, 0, 3, 88, 27, 63, 127]⟩],
        some (0, 62)) ∧
    (parse_net_join_response 4 [4, 127, 0, 0, 3, 88, 27, 63, 127]).1.range_start = 63 ∧
    (parse_net_join_response 4 [4, 127, 0, 0, 3, 88, 27, 63, 127]).1.range_end = 127 := by
  decide

/-- C20, amended: split midpoint in Q13: for every table over [min, max] with
min ≤ max ≤ 255, Q13 returns Q6 after sending on socket B NET_CLOSE_CONNECTION to the
old successor and then, to the joiner, the NET_JOIN_RESPONSE with the address of the
old successor, range_start = (min + max) / 2 and range_end = max (integer division),
followed by the frames of the hand-over only; the joiner becomes the successor. When
min < (min + max) / 2 the table of the node afterwards is over
[min, (min + max) / 2 - 1]; otherwise (max - min ≤ 1) the node is left without a
table. -/
theorem Q13_split_midpoint (K : pdu_types) (hash_ssn : List Nat → Nat) (args : node)
    (table : hash_table) (j : NET_JOIN_PDU)
    (htab : args.table = some table) (hle : table.minHash ≤ table.maxHash)
    (hmax : table.maxHash ≤ 255)
    (hlast : args.lastPdu = some (.net_join j)) (hsock : args.sockets.length = 4) :
    ∃ (a : node) (frames : List (List Nat)),
      Q13_handler K hash_ssn args = some (states.Q6, a) ∧
      a.successor = ⟨j.src_address, j.src_port⟩ ∧
      a.sent = args.sent ++
        ⟨1, args.sockets.getD 1 none, [K.NET_CLOSE_CONNECTION % 256]⟩ ::
        ⟨1, some ⟨j.src_address, j.src_port⟩,
          [K.NET_JOIN_RESPONSE % 256,
            args.successor.s_addr % 256, (args.successor.s_addr >>> 8) % 256,
            (args.successor.s_addr >>> 16) % 256, (args.successor.s_addr >>> 24) % 256,
            args.successor.sin_port % 256, (args.successor.sin_port >>> 8) % 256,
            (table.minHash + table.maxHash) / 2, table.maxHash]⟩ ::
        frames.map (fun b => ⟨1, some ⟨j.src_address, j.src_port⟩, b⟩) ∧
      (table.minHash < (table.minHash + table.maxHash) / 2 →
        ∃ t, a.table = some t ∧ t.minHash = table.minHash ∧
          t.maxHash = (table.minHash + table.maxHash) / 2 - 1) ∧
      ((table.minHash + table.maxHash) / 2 ≤ table.minHash → a.table = none) := by
  have hm : Int.tdiv ((table.maxHash : Int) - (table.minHash : Int)) 2 +
      (table.minHash : Int) = (((table.minHash + table.maxHash) / 2 : Nat) : Int) := by
    rw [Int.tdiv_eq_ediv (by omega) (by decide)]
    omega
  have hstart : ((((table.minHash + table.maxHash) / 2 : Nat) : Int) % 2 ^ 8).toNat =
      (table.minHash + table.maxHash) / 2 := by
    rw [Int.emod_eq_of_lt (by omega) (by omega)]
    exact Int.toNat_ofNat _
  have hc : (1 : Nat) = 1 ∧ 1 < (args.sockets.set 1 none).length := by
    rw [List.length_set]; exact ⟨rfl, by omega⟩
  have hdest : ((args.sockets.set 1 none).set 1
      (some (⟨j.src_address, j.src_port⟩ : sockaddr_in))).getD 1 none =
      some ⟨j.src_address, j.src_port⟩ := by
    rw [getD_set_ite, if_pos hc]
  have h13 := Q13_handler_eq K hash_ssn args table j htab hlast
  rw [hm, hstart] at h13
  obtain ⟨a, frames, h, hs, -, -, -, hsent, htp, htn⟩ := transfer_entry_range_spec K hash_ssn
    (send
      (connect_socket
        { create_socket (send args 1 [K.NET_CLOSE_CONNECTION % 256]) 1 with
          successor := ⟨j.src_address, j.src_port⟩ } 1
        ⟨j.src_address, j.src_port⟩) 1
      ((serialize_net_join_response_pdu (List.replicate 9 0)
        ⟨K.NET_JOIN_RESPONSE, args.successor.s_addr, args.successor.sin_port,
          (table.minHash + table.maxHash) / 2, table.maxHash⟩).take 9))
    1 (((table.minHash + table.maxHash) / 2 : Nat) : Int) table htab
  refine ⟨a, frames, ?_, hs, ?_, ?_, ?_⟩
  · rw [h13, h]
    rfl
  · rw [hsent]
    simp only [send, connect_socket, create_socket, hdest,
      serialize_net_join_response_pdu_take _ _ (show 9 ≤ (List.replicate 9 0).length by simp)]
    have e1 : (table.minHash + table.maxHash) / 2 % 256 = (table.minHash + table.maxHash) / 2 := by
      omega
    have e2 : table.maxHash % 256 = table.maxHash := by omega
    rw [e1, e2]
    simp
  · intro hlt
    obtain ⟨t, ht, ht1, ht2⟩ := htp (by omega)
    refine ⟨t, ht, ht1, ?_⟩
    rw [ht2]
    omega
  · intro hge
    exact htn (by omega)

/-- Witness of the amended C20: the node of the sample with the table over [0, 127]. -/
theorem Q13_split_midpoint_witness :
    ∃ (a : node) (frames : List (List Nat)),
      Q13_handler sample_types sum_hash
        { sample_node with
          successor := ⟨0x0300007F, 7000⟩
          sockets := [none, some ⟨0x0300007F, 7000⟩, none, none]
          table := some (hash_table_create 0 127)
          lastPdu := some (.net_join ⟨3, 0x0200007F, 5000, 0, 0, 0⟩) } =
        some (states.Q6, a) ∧
      a.successor = ⟨0x0200007F, 5000⟩ ∧
      a.sent = [] ++
        ⟨1, some ⟨0x0300007F, 7000⟩, [5]⟩ ::
        ⟨1, some ⟨0x0200007F, 5000⟩, [4, 127, 0, 0, 3, 88, 27, 63, 127]⟩ ::
        frames.map (fun b => ⟨1, some ⟨0x0200007F, 5000⟩, b⟩) ∧
      ((0 : Nat) < (0 + 127) / 2 →
        ∃ t, a.table = some t ∧ t.minHash = 0 ∧ t.maxHash = (0 + 127) / 2 - 1) ∧
      ((0 + 127) / 2 ≤ (0 : Nat) → a.table = none) :=
  Q13_split_midpoint sample_types sum_hash
    { sample_node with
      successor := ⟨0x0300007F, 7000⟩
      sockets := [none, some ⟨0x0300007F, 7000⟩, none, none]
      table := some (hash_table_create 0 127)
      lastPdu := some (.net_join ⟨3, 0x0200007F, 5000, 0, 0, 0⟩) }
    (hash_table_create 0 127) ⟨3, 0x0200007F, 5000, 0, 0, 0⟩ rfl (by decide) (by decide) rfl rfl

/-! ## The handlers Q12, Q14 and Q15 -/

/-- C24. Join dispatch of Q12: for every node with a table and a NET_JOIN in
`lastPdu`, Q12 leaves the node as it is and returns Q5 when the range of the table is
[0, 255], otherwise Q13 when max_address is the own address and max_port the
listening port, otherwise Q14; so Q5 is returned if and only if the range is
[0, 255], Q13 if and only if the range is not [0, 255] and the two fields match, and
Q14 if and only if neither holds. -/
theorem Q12_join_dispatch (args : node) (table : hash_table) (j : NET_JOIN_PDU)
    (htab : args.table = some table) (hlast : args.lastPdu = some (.net_join j)) :
    Q12_handler args =
      some (if table.minHash = 0 ∧ table.maxHash = 255 then states.Q5
        else if j.max_address = args.addr.s_addr ∧ j.max_port = args.listeningPort then
          states.Q13
        else states.Q14, args) ∧
    (Q12_handler args = some (states.Q5, args) ↔
      (table.minHash = 0 ∧ table.maxHash = 255)) ∧
    (Q12_handler args = some (states.Q13, args) ↔
      (¬ (table.minHash = 0 ∧ table.maxHash = 255) ∧
        j.max_address = args.addr.s_addr ∧ j.max_port = args.listeningPort)) ∧
    (Q12_handler args = some (states.Q14, args) ↔
      (¬ (table.minHash = 0 ∧ table.maxHash = 255) ∧
        ¬ (j.max_address = args.addr.s_addr ∧ j.max_port = args.listeningPort))) := by
  have h : Q12_handler args =
      some (if table.minHash = 0 ∧ table.maxHash = 255 then states.Q5
        else if j.max_address = args.addr.s_addr ∧ j.max_port = args.listeningPort then
          states.Q13
        else states.Q14, args) := by
    unfold Q12_handler
    simp only [htab, hlast]
    split_ifs <;> rfl
  refine ⟨h, ?_, ?_, ?_⟩ <;> rw [h] <;>
    by_cases h1 : (table.minHash = 0 ∧ table.maxHash = 255) <;>
    by_cases h2 : (j.max_address = args.addr.s_addr ∧ j.max_port = args.listeningPort) <;>
    simp [h1, h2]

/-- Witness of C24: a node over [0, 127] whose own endpoint is named in the NET_JOIN
goes to Q13. -/
theorem Q12_join_dispatch_witness :
    Q12_handler
      { sample_node with
        table := some (hash_table_create 0 127)
        lastPdu := some (.net_join ⟨3, 0x0200007F, 5000, 128, 0x0100007F, 4000⟩) } =
      some (states.Q13,
        { sample_node with
          table := some (hash_table_create 0 127)
          lastPdu := some (.net_join ⟨3, 0x0200007F, 5000, 128, 0x0100007F, 4000⟩) }) :=
  (Q12_join_dispatch
    { sample_node with
      table := some (hash_table_create 0 127)
      lastPdu := some (.net_join ⟨3, 0x0200007F, 5000, 128, 0x0100007F, 4000⟩) }
    (hash_table_create 0 127) ⟨3, 0x0200007F, 5000, 128, 0x0100007F, 4000⟩ rfl rfl).1

/-- C25. Relay of Q14: for every node whose table is not over [0, 255] and every
well-formed NET_JOIN in `lastPdu`, Q14 returns Q6 after one `send` on socket B of the
14 bytes of a NET_JOIN frame that keeps type, src_address and src_port, and whose
(max_span, max_address, max_port) are (span, own address, listening port) when
span = max - min + 1 is strictly greater than the received max_span and the received
values otherwise. The forwarded max_span is the maximum of the received max_span and
the span, without a wrap modulo 256; the frame is well-formed and parses back to
itself. -/
theorem Q14_relay (args : node) (table : hash_table) (j : NET_JOIN_PDU)
    (htab : args.table = some table) (hlast : args.lastPdu = some (.net_join j))
    (hnot : ¬ (table.minHash = 0 ∧ table.maxHash = 255)) (hmax : table.maxHash ≤ 255)
    (hj : j.wf) (haddr : args.addr.s_addr < 2 ^ 32) (hport : args.listeningPort < 2 ^ 16) :
    ∃ f : NET_JOIN_PDU,
      Q14_handler args =
        some (states.Q6,
          send { args with lastPdu := some (.net_join f) } 1
            ((serialize_net_join_pdu (List.replicate 14 0) f).take 14)) ∧
      f.type = j.type ∧ f.src_address = j.src_address ∧ f.src_port = j.src_port ∧
      (hash_table_get_span table > (j.max_span : Int) →
        (f.max_span : Int) = hash_table_get_span table ∧
        f.max_address = args.addr.s_addr ∧ f.max_port = args.listeningPort) ∧
      (¬ hash_table_get_span table > (j.max_span : Int) → f = j) ∧
      (f.max_span : Int) = max (j.max_span : Int) (hash_table_get_span table) ∧
      hash_table_get_span table = (table.maxHash : Int) - (table.minHash : Int) + 1 ∧
      f.wf ∧
      parse_net_join
        (parse_pdu_type ((serialize_net_join_pdu (List.replicate 14 0) f).take 14))
        ((serialize_net_join_pdu (List.replicate 14 0) f).take 14) = (f, 14) := by
  obtain ⟨w1, w2, w3, w4, w5, w6⟩ := hj
  have hspan : hash_table_get_span table = (table.maxHash : Int) - (table.minHash : Int) + 1 :=
    rfl
  have hlen : 14 ≤ (List.replicate 14 0).length := by simp
  by_cases hgt : hash_table_get_span table > (j.max_span : Int)
  · have hs1 : 0 ≤ hash_table_get_span table := by omega
    have hs2 : hash_table_get_span table < 256 := by rw [hspan]; omega
    have hmod : ((hash_table_get_span table % 256).toNat : Int) = hash_table_get_span table := by
      rw [Int.emod_eq_of_lt hs1 hs2, Int.toNat_of_nonneg hs1]
    have hwf : NET_JOIN_PDU.wf
        { j with
          max_span := (hash_table_get_span table % 256).toNat
          max_address := args.addr.s_addr
          max_port := args.listeningPort % 2 ^ 16 } :=
      ⟨w1, w2, w3, by show (hash_table_get_span table % 256).toNat < 2 ^ 8; omega, haddr,
        Nat.mod_lt _ (by decide)⟩
    refine ⟨{ j with
          max_span := (hash_table_get_span table % 256).toNat
          max_address := args.addr.s_addr
          max_port := args.listeningPort % 2 ^ 16 }, ?_, rfl, rfl, rfl,
      fun _ => ⟨hmod, rfl, Nat.mod_eq_of_lt hport⟩, fun hn => absurd hgt hn, ?_, hspan, hwf,
      parse_net_join_take _ _ hlen hwf⟩
    · unfold Q14_handler
      simp only [htab, hlast, if_pos hgt, NET_JOIN_BASE_LENGTH]
    · show ((hash_table_get_span table % 256).toNat : Int) = _
      rw [hmod]
      omega
  · refine ⟨j, ?_, rfl, rfl, rfl, fun hp => absurd hp hgt, fun _ => rfl, ?_, hspan,
      ⟨w1, w2, w3, w4, w5, w6⟩, parse_net_join_take _ _ hlen ⟨w1, w2, w3, w4, w5, w6⟩⟩
    · unfold Q14_handler
      simp only [htab, hlast, if_neg hgt, NET_JOIN_BASE_LENGTH]
    · omega

/-- Witness of C25: a node over [0, 127] (span 128) relays a NET_JOIN whose max_span
is 64. -/
theorem Q14_relay_witness :
    ∃ f : NET_JOIN_PDU,
      Q14_handler
        { sample_node with
          table := some (hash_table_create 0 127)
          lastPdu := some (.net_join ⟨3, 0x0200007F, 5000, 64, 0x0300007F, 7000⟩) } =
        some (states.Q6,
          send
            { sample_node with
              table := some (hash_table_create 0 127)
              lastPdu := some (.net_join f) } 1
            ((serialize_net_join_pdu (List.replicate 14 0) f).take 14)) ∧
      (f.max_span : Int) = max ((64 : Nat) : Int) (hash_table_get_span (hash_table_create 0 127)) :=
  (Q14_relay
    { sample_node with
      table := some (hash_table_create 0 127)
      lastPdu := some (.net_join ⟨3, 0x0200007F, 5000, 64, 0x0300007F, 7000⟩) }
    (hash_table_create 0 127) ⟨3, 0x0200007F, 5000, 64, 0x0300007F, 7000⟩ rfl rfl
    (by decide) (by decide) (by decide) (by decide) (by decide)).imp
    (fun _ h => ⟨h.1, h.2.2.2.2.2.2.1⟩)

/-- C26. Merged range of Q15: for every table over [min, max] with min ≤ max ≤ 255 and
every NET_NEW_RANGE(range_start, range_end) of byte fields in `lastPdu`, Q15 returns
Q6 and the table afterwards is over [min(min, range_start), max(max, range_end)],
with as many buckets as that range has hashes; the new minimum is at most the new
maximum, and when the received range is adjacent to the range of the node
(range_start = max + 1 or range_end + 1 = min) a hash lies in the new range if and
only if it lies in one of the two ranges. -/
theorem Q15_merged_range (K : pdu_types) (args : node) (table : hash_table)
    (p : NET_NEW_RANGE_PDU)
    (htab : args.table = some table) (hlast : args.lastPdu = some (.net_new_range p))
    (hle : table.minHash ≤ table.maxHash) (hmax : table.maxHash ≤ 255)
    (hp : p.wf) :
    ∃ (a : node) (t : hash_table),
      Q15_handler K args = some (states.Q6, a) ∧ a.table = some t ∧
      t.minHash = min table.minHash p.range_start ∧
      t.maxHash = max table.maxHash p.range_end ∧
      t.allocated ∧ t.minHash ≤ t.maxHash ∧
      ((p.range_start = table.maxHash + 1 ∨ p.range_end + 1 = table.minHash) →
        ∀ h, (t.minHash ≤ h ∧ h ≤ t.maxHash) ↔
          ((table.minHash ≤ h ∧ h ≤ table.maxHash) ∨
            (p.range_start ≤ h ∧ h ≤ p.range_end))) := by
  obtain ⟨-, p1, p2⟩ := hp
  have p1' : p.range_start < 256 := p1
  have p2' : p.range_end < 256 := p2
  have e1 : (if table.minHash < p.range_start then table.minHash else p.range_start) % 256 =
      min table.minHash p.range_start := by
    split_ifs <;> omega
  have e2 : (if table.maxHash > p.range_end then table.maxHash else p.range_end) % 256 =
      max table.maxHash p.range_end := by
    split_ifs <;> omega
  obtain ⟨r1, r2, r3, -⟩ := hash_table_resize_buckets table (min table.minHash p.range_start)
    (max table.maxHash p.range_end)
  refine ⟨{ (if table.maxHash ≠ 255 ∧ p.range_start = table.maxHash + 1 then
        send args 1 [K.NET_NEW_RANGE_RESPONSE % 256]
      else send args 3 [K.NET_NEW_RANGE_RESPONSE % 256]) with
      table := some (hash_table_resize table (min table.minHash p.range_start)
        (max table.maxHash p.range_end)) },
    hash_table_resize table (min table.minHash p.range_start)
    (max table.maxHash p.range_end), ?_, rfl, r1, r2, r3, ?_, ?_⟩
  · unfold Q15_handler
    simp only [htab, hlast, e1, e2]
  · rw [r1, r2]; omega
  · intro hadj h
    rw [r1, r2]
    omega

/-- Witness of C26: a node over [0, 127] receives NET_NEW_RANGE(128, 255). -/
theorem Q15_merged_range_witness :
    ∃ (a : node) (t : hash_table),
      Q15_handler sample_types
        { sample_node with
          table := some (hash_table_create 0 127)
          lastPdu := some (.net_new_range ⟨6, 128, 255⟩) } = some (states.Q6, a) ∧
      a.table = some t ∧ t.minHash = min 0 128 ∧ t.maxHash = max 127 255 :=
  (Q15_merged_range sample_types
    { sample_node with
      table := some (hash_table_create 0 127)
      lastPdu := some (.net_new_range ⟨6, 128, 255⟩) }
    (hash_table_create 0 127) ⟨6, 128, 255⟩ rfl rfl (by decide) (by decide)
    (by decide)).imp
    (fun _ h => h.imp (fun _ h => ⟨h.1, h.2.1, h.2.2.1, h.2.2.2.1⟩))
/-! ## The frames of the hand-over and the teardown Q11, Q18 -/

theorem hash_table_remove_records (hash_ssn : List Nat → Nat) (table : hash_table)
    (ssn : List Nat) :
    ∀ e ∈ (hash_table_remove hash_ssn table ssn).2.records, e ∈ table.records := by
  by_cases h : hash_t (hash_ssn ssn) < table.minHash ∨ hash_t (hash_ssn ssn) > table.maxHash
  · rw [hash_table_remove_out _ _ _ h]
    exact fun e he => he
  · rcases lookup_index_from_cases ssn (table.bucket_of (hash_t (hash_ssn ssn))) with
      hno | ⟨pre, r, post, hb, hpre, hr⟩
    · rw [hash_table_remove_absent _ _ _ h hno]
      exact fun e he => he
    · rw [hash_table_remove_present _ _ _ h pre r post hb hpre hr]
      intro e he
      unfold hash_table.records at he ⊢
      rw [mem_flatten_iff_getD] at he ⊢
      obtain ⟨k, hk⟩ := he
      simp only [getD_set_ite] at hk
      split_ifs at hk with hc
      · refine ⟨hash_t (hash_ssn ssn) - table.minHash, ?_⟩
        have hb' : table.buckets.getD (hash_t (hash_ssn ssn) - table.minHash) [] =
            pre ++ r :: post := hb
        rw [hb']
        rcases List.mem_append.1 hk with h1 | h1
        · exact List.mem_append_left _ h1
        · exact List.mem_append_right _ (List.mem_cons_of_mem _ h1)
      · exact ⟨k, hk⟩

/-- What the loops of `transfer_entry_range` keep true: the records of the table are
records of the table `t0` the loops started with and every frame sent is the frame
of a record of `t0`. -/
theorem transfer_bucket_invariant (K : pdu_types) (hash_ssn : List Nat → Nat) (off i : Nat)
    (t0 : hash_table) (fuel j : Nat) (s : hash_table × List (List Nat))
    (h1 : ∀ e ∈ s.1.records, e ∈ t0.records)
    (h2 : ∀ f ∈ s.2, ∃ e ∈ t0.records, f = transfer_frame K e) :
    (∀ e ∈ (transfer_bucket K hash_ssn off i fuel j s).1.records, e ∈ t0.records) ∧
    (∀ f ∈ (transfer_bucket K hash_ssn off i fuel j s).2,
      ∃ e ∈ t0.records, f = transfer_frame K e) := by
  induction fuel generalizing j s with
  | zero =>
    unfold transfer_bucket
    exact ⟨h1, h2⟩
  | succ n ih =>
    obtain ⟨table, frames⟩ := s
    unfold transfer_bucket
    split_ifs with hj
    · split
      · rename_i e he
        have hmem : e ∈ table.records := by
          unfold hash_table.records
          rw [mem_flatten_iff_getD]
          refine ⟨off + i, ?_⟩
          have := List.getElem?_mem he
          simpa only [hash_table_get_buckets_from, getD_drop_add] using this
        apply ih
        · exact fun x hx => h1 x (hash_table_remove_records hash_ssn table e.ssn x hx)
        · intro f hf
          rcases List.mem_append.1 hf with hf | hf
          · exact h2 f hf
          · rw [List.mem_singleton] at hf
            exact ⟨e, h1 e hmem, hf⟩
      · exact ⟨h1, h2⟩
    · exact ⟨h1, h2⟩

theorem transfer_range_invariant (K : pdu_types) (hash_ssn : List Nat → Nat) (off : Nat)
    (t0 : hash_table) (l : List Nat) (s : hash_table × List (List Nat))
    (h1 : ∀ e ∈ s.1.records, e ∈ t0.records)
    (h2 : ∀ f ∈ s.2, ∃ e ∈ t0.records, f = transfer_frame K e) :
    (∀ e ∈ (l.foldl (transfer_range_body K hash_ssn off) s).1.records, e ∈ t0.records) ∧
    (∀ f ∈ (l.foldl (transfer_range_body K hash_ssn off) s).2,
      ∃ e ∈ t0.records, f = transfer_frame K e) := by
  induction l generalizing s with
  | nil => exact ⟨h1, h2⟩
  | cons i l ih =>
    rw [List.foldl_cons]
    obtain ⟨g1, g2⟩ := transfer_bucket_invariant K hash_ssn off i t0
      ((hash_table_get_buckets_from s.1 off).getD i []).length 0 s h1 h2
    exact ih _ g1 g2

/-- The node after `transfer_entry_range`: the frames, each the frame of a record of
the table, are sent on the socket `fd` and nothing else is; the table is resized to
[min, rangeMin - 1] when `rangeMin > min` and destroyed otherwise. -/
theorem transfer_entry_range_frames (K : pdu_types) (hash_ssn : List Nat → Nat) (args : node)
    (fd : Nat) (rangeMin : Int) (table : hash_table) (htab : args.table = some table) :
    ∃ (frames : List (List Nat)) (t : Option hash_table),
      transfer_entry_range K hash_ssn args fd rangeMin =
        some { args with
          sent := args.sent ++ frames.map (fun b => ⟨fd, args.sockets.getD fd none, b⟩)
          table := t } ∧
      (∀ f ∈ frames, ∃ e ∈ table.records, f = transfer_frame K e) ∧
      (¬ rangeMin > table.minHash → t = none) := by
  obtain ⟨h1, -⟩ := transfer_range_fold K hash_ssn
    (((rangeMin - (table.minHash : Int)) % 256).toNat)
    (List.range ((table.maxHash : Int) - rangeMin + 1).toNat) (table, [])
  obtain ⟨-, g2⟩ := transfer_range_invariant K hash_ssn
    (((rangeMin - (table.minHash : Int)) % 256).toNat) table
    (List.range ((table.maxHash : Int) - rangeMin + 1).toNat) (table, [])
    (fun e he => he) (fun f hf => absurd hf (List.not_mem_nil f))
  unfold transfer_entry_range
  simp only [htab, foldl_send, h1]
  by_cases h : rangeMin > (table.minHash : Int)
  · rw [if_pos h]
    exact ⟨_, _, rfl, g2, fun hn => absurd h hn⟩
  · rw [if_neg h]
    exact ⟨_, none, rfl, g2, fun _ => rfl⟩

/-- The function `Q18_handler` on a node with a table: the frames of the hand-over on
the socket D when the minimum of the range is not 0 and on B otherwise, then
NET_CLOSE_CONNECTION on B, then NET_LEAVING with the endpoint of the successor on
D. -/
theorem Q18_handler_spec (K : pdu_types) (hash_ssn : List Nat → Nat) (args : node)
    (table : hash_table) (htab : args.table = some table) :
    ∃ frames : List (List Nat),
      Q18_handler K hash_ssn args =
        some (states.EXIT,
          { args with
            sent := args.sent ++
              frames.map (fun b =>
                ⟨if table.minHash ≠ 0 then 3 else 1,
                  args.sockets.getD (if table.minHash ≠ 0 then 3 else 1) none, b⟩) ++
              [⟨1, args.sockets.getD 1 none, [K.NET_CLOSE_CONNECTION % 256]⟩,
                ⟨3, args.sockets.getD 3 none,
                  [K.NET_LEAVING % 256,
                    args.successor.s_addr % 256, (args.successor.s_addr >>> 8) % 256,
                    (args.successor.s_addr >>> 16) % 256,
                    (args.successor.s_addr >>> 24) % 256,
                    args.successor.sin_port % 256,
                    (args.successor.sin_port >>> 8) % 256]⟩]
            table := none }) ∧
      (∀ f ∈ frames, ∃ e ∈ table.records, f = transfer_frame K e) := by
  obtain ⟨frames, t, h, hf, ht⟩ := transfer_entry_range_frames K hash_ssn args
    (if table.minHash ≠ 0 then 3 else 1) table.minHash table htab
  have htn : t = none := ht (by omega)
  subst htn
  refine ⟨frames, ?_, hf⟩
  have hser := serialize_net_leaving_pdu_take (List.replicate 7 0)
    ⟨K.NET_LEAVING, args.successor.s_addr, args.successor.sin_port⟩ (by simp)
  unfold Q18_handler
  simp only [htab]
  by_cases hm : table.minHash ≠ 0
  · rw [if_pos hm] at h
    simp only [if_pos hm, h, send, NET_LEAVING_BASE_LENGTH, hser, List.append_assoc,
      List.singleton_append]
  · rw [if_neg hm] at h
    simp only [if_neg hm, h, send, NET_LEAVING_BASE_LENGTH, hser, List.append_assoc,
      List.singleton_append]
theorem read_pdu_first (buff : socket_buffer) (chunks : List (List Nat)) (h : 1 ≤ buff.len) :
    (read_pdu buff chunks).buffer.getD 0 0 = buff.buffer.getD 0 0 := by
  induction chunks generalizing buff with
  | nil => rfl
  | cons c rest ih =>
    unfold read_pdu
    simp only []
    split_ifs with hc
    · rfl
    · rw [ih]
      · simp only [socket_append]
        rw [getD_serialize_string, if_neg (by omega)]
      · simp only [socket_append]
        omega

theorem read_pdu_head (buff : socket_buffer) (x : Nat) (c : List Nat)
    (chunks : List (List Nat)) (h0 : buff.len = 0) (hcap : 1 ≤ buff.buffer.length) :
    parse_pdu_type (read_pdu buff ((x :: c) :: chunks)).buffer = x % 256 := by
  have hb : ((BUFF_SIZE : Int) - buff.len).toNat = 1024 := by rw [h0]; rfl
  unfold read_pdu
  simp only [hb]
  rw [if_neg (by simp)]
  unfold parse_pdu_type load_uint8
  rw [read_pdu_first]
  · simp only [socket_append, h0]
    rw [getD_serialize_string, if_pos ⟨by simp, by simp, by omega⟩]
    simp
  · simp only [socket_append, h0]
    simp

/-- The blocking read of `read_pdu_type` on an empty buffer returns after its first
call when the first byte that arrives is the expected type. -/
theorem read_pdu_type_first (expectedType : Nat) (buff : socket_buffer) (c : List Nat)
    (chunks : List (List Nat)) (rounds : List (List (List Nat)))
    (h0 : buff.len = 0) (hcap : 1 ≤ buff.buffer.length) (hx : expectedType < 256) :
    read_pdu_type expectedType buff TCP (((expectedType :: c) :: chunks) :: rounds) =
      some (expectedType, read_pdu buff ((expectedType :: c) :: chunks)) := by
  have h := read_pdu_head buff expectedType c chunks h0 hcap
  rw [Nat.mod_eq_of_lt hx] at h
  unfold read_pdu_type
  simp only [if_true, h, ne_eq, not_true_eq_false, if_false]

/-- The function `Q11_handler` when the peer answers: NET_NEW_RANGE with the range of
the table is sent on the socket D when the minimum of the range is not 0 and on B
otherwise, the buffer of that socket is emptied, and when the first byte that then
arrives on it is NET_NEW_RANGE_RESPONSE the handler returns Q18. -/
theorem Q11_handler_spec (K : pdu_types) (args : node) (table : hash_table)
    (c : List Nat) (chunks : List (List Nat)) (rounds : List (List (List Nat)))
    (hK : K.wf) (htab : args.table = some table) (hfour : args.socketBuffers.length = 4)
    (hcap1 : 1 ≤ (args.socketBuffers.getD (if table.minHash ≠ 0 then 3 else 1)
      default).buffer.length)
    (hcap : (args.socketBuffers.getD (if table.minHash ≠ 0 then 3 else 1) default).len ≤
      (args.socketBuffers.getD (if table.minHash ≠ 0 then 3 else 1) default).buffer.length)
    (hlen : 0 ≤ (args.socketBuffers.getD (if table.minHash ≠ 0 then 3 else 1) default).len) :
    ∃ b : socket_buffer,
      Q11_handler K (((K.NET_NEW_RANGE_RESPONSE :: c) :: chunks) :: rounds) args =
        some (states.Q18,
          { args with
            sent := args.sent ++
              [⟨if table.minHash ≠ 0 then 3 else 1,
                args.sockets.getD (if table.minHash ≠ 0 then 3 else 1) none,
                [K.NET_NEW_RANGE % 256, table.minHash % 256, table.maxHash % 256]⟩]
            socketBuffers := args.socketBuffers.set (if table.minHash ≠ 0 then 3 else 1) b }) := by
  have hx : K.NET_NEW_RANGE_RESPONSE < 256 :=
    hK.1 K.NET_NEW_RANGE_RESPONSE (by simp [pdu_types.all])
  have hser := serialize_net_new_range_pdu_take (List.replicate 3 0)
    ⟨K.NET_NEW_RANGE, table.minHash, table.maxHash⟩ (by simp)
  cases args
  dsimp only at htab hfour hcap1 hcap hlen ⊢
  subst htab
  rename_i sb _ _
  generalize hs : (if table.minHash ≠ 0 then 3 else 1) = s at *
  have hs4 : s < 4 := by rw [← hs]; split_ifs <;> omega
  obtain ⟨n, hn⟩ : ∃ n : Nat, (sb.getD s default).len = (n : Int) :=
    ⟨(sb.getD s default).len.toNat, (Int.toNat_of_nonneg hlen).symm⟩
  obtain ⟨c1, c2, -⟩ := clear_buffer_spec (sb.getD s default) n (by rw [hn]) hcap
  rw [← hn] at c1 c2
  have hc : True ∧ s < sb.length := ⟨trivial, by omega⟩
  have hread := read_pdu_type_first K.NET_NEW_RANGE_RESPONSE
    (clear_buffer (sb.getD s default) (sb.getD s default).len)
    c chunks rounds (by rw [c1]; omega) (by rw [c2]; exact hcap1) hx
  refine ⟨read_pdu (clear_buffer (sb.getD s default) (sb.getD s default).len)
    ((K.NET_NEW_RANGE_RESPONSE :: c) :: chunks), ?_⟩
  unfold Q11_handler
  simp only [hs, NET_NEW_RANGE_BASE_LENGTH, hser, send, set_socket_buffer,
    getD_set_ite, if_pos hc, hread, List.set_set]
/-- The function `Q11_handler` on every input: NET_NEW_RANGE with the range of the
table is sent on the socket D when the minimum of the range is not 0 and on B
otherwise, the buffer of that socket is emptied, and whenever the blocking read on
that socket returns, the handler returns Q18 with what was read in the buffer. -/
theorem Q11_handler_eq (K : pdu_types) (args : node) (table : hash_table)
    (rounds : List (List (List Nat)))
    (htab : args.table = some table) (hfour : args.socketBuffers.length = 4) :
    Q11_handler K rounds args =
      (read_pdu_type K.NET_NEW_RANGE_RESPONSE
        (clear_buffer (args.socketBuffers.getD (if table.minHash ≠ 0 then 3 else 1) default)
          (args.socketBuffers.getD (if table.minHash ≠ 0 then 3 else 1) default).len)
        TCP rounds).map
        (fun r => (states.Q18,
          { args with
            sent := args.sent ++
              [⟨if table.minHash ≠ 0 then 3 else 1,
                args.sockets.getD (if table.minHash ≠ 0 then 3 else 1) none,
                [K.NET_NEW_RANGE % 256, table.minHash % 256, table.maxHash % 256]⟩]
            socketBuffers := args.socketBuffers.set (if table.minHash ≠ 0 then 3 else 1) r.2 })) := by
  have hser := serialize_net_new_range_pdu_take (List.replicate 3 0)
    ⟨K.NET_NEW_RANGE, table.minHash, table.maxHash⟩ (by simp)
  cases args
  dsimp only at htab hfour ⊢
  subst htab
  rename_i sb _ _
  generalize hs : (if table.minHash ≠ 0 then 3 else 1) = s at *
  have hs4 : s < 4 := by rw [← hs]; split_ifs <;> omega
  have hc : True ∧ s < sb.length := ⟨trivial, by omega⟩
  unfold Q11_handler
  simp only [hs, NET_NEW_RANGE_BASE_LENGTH, hser, send, set_socket_buffer,
    getD_set_ite, if_pos hc, List.set_set]
  cases read_pdu_type K.NET_NEW_RANGE_RESPONSE
    (clear_buffer (sb.getD s default) (sb.getD s default).len) TCP rounds with
  | none => rfl
  | some r => rfl

/-- The socket of the hand-over on leave: for every node with a table over [min, max] of
byte bounds whose chosen socket buffer is within its capacity, Q11 sends the 3-byte frame
NET_NEW_RANGE(min, max) on the socket B (index 1) when min = 0 and on D (index 3)
otherwise, and returns Q18 when the first byte that then arrives on that socket is
NET_NEW_RANGE_RESPONSE; Q18, on every node with that table, sends the frames of the
records on the same socket, before NET_CLOSE_CONNECTION on B and NET_LEAVING on D. -/
theorem hand_off_peer_on_leave (K : pdu_types) (hash_ssn : List Nat → Nat) (args : node)
    (table : hash_table) (c : List Nat) (chunks : List (List Nat))
    (rounds : List (List (List Nat)))
    (hK : K.wf) (htab : args.table = some table) (hmin : table.minHash ≤ 255)
    (hmax : table.maxHash ≤ 255) (hfour : args.socketBuffers.length = 4)
    (hcap1 : 1 ≤ (args.socketBuffers.getD (if table.minHash ≠ 0 then 3 else 1)
      default).buffer.length)
    (hcap : (args.socketBuffers.getD (if table.minHash ≠ 0 then 3 else 1) default).len ≤
      (args.socketBuffers.getD (if table.minHash ≠ 0 then 3 else 1) default).buffer.length)
    (hlen : 0 ≤ (args.socketBuffers.getD (if table.minHash ≠ 0 then 3 else 1) default).len) :
    (table.minHash = 0 → (if table.minHash ≠ 0 then 3 else 1) = 1) ∧
    (table.minHash ≠ 0 → (if table.minHash ≠ 0 then 3 else 1) = 3) ∧
    (∃ b : socket_buffer,
      Q11_handler K (((K.NET_NEW_RANGE_RESPONSE :: c) :: chunks) :: rounds) args =
        some (states.Q18,
          { args with
            sent := args.sent ++
              [⟨if table.minHash ≠ 0 then 3 else 1,
                args.sockets.getD (if table.minHash ≠ 0 then 3 else 1) none,
                [K.NET_NEW_RANGE, table.minHash, table.maxHash]⟩]
            socketBuffers := args.socketBuffers.set (if table.minHash ≠ 0 then 3 else 1) b })) ∧
    (∀ a2 : node, a2.table = some table →
      ∃ frames : List (List Nat),
        Q18_handler K hash_ssn a2 =
          some (states.EXIT,
            { a2 with
              sent := a2.sent ++
                frames.map (fun b =>
                  ⟨if table.minHash ≠ 0 then 3 else 1,
                    a2.sockets.getD (if table.minHash ≠ 0 then 3 else 1) none, b⟩) ++
                [⟨1, a2.sockets.getD 1 none, [K.NET_CLOSE_CONNECTION % 256]⟩,
                  ⟨3, a2.sockets.getD 3 none,
                    [K.NET_LEAVING % 256,
                      a2.successor.s_addr % 256, (a2.successor.s_addr >>> 8) % 256,
                      (a2.successor.s_addr >>> 16) % 256,
                      (a2.successor.s_addr >>> 24) % 256,
                      a2.successor.sin_port % 256,
                      (a2.successor.sin_port >>> 8) % 256]⟩]
              table := none }) ∧
        (∀ f ∈ frames, ∃ e ∈ table.records, f = transfer_frame K e)) := by
  have hx : K.NET_NEW_RANGE < 256 := hK.1 K.NET_NEW_RANGE (by simp [pdu_types.all])
  refine ⟨fun h => by rw [if_neg (by omega)], fun h => by rw [if_pos h], ?_,
    fun a2 h2 => Q18_handler_spec K hash_ssn a2 table h2⟩
  have h := Q11_handler_spec K args table c chunks rounds hK htab hfour hcap1 hcap hlen
  rw [Nat.mod_eq_of_lt hx, Nat.mod_eq_of_lt (show table.minHash < 256 by omega),
    Nat.mod_eq_of_lt (show table.maxHash < 256 by omega)] at h
  exact h

set_option maxRecDepth 100000 in
/-- An instance of `hand_off_peer_on_leave`: a node over [128, 255] announces its range
on the socket D and the predecessor answers. -/
theorem hand_off_peer_on_leave_witness :
    ∃ b : socket_buffer,
      Q11_handler sample_types [[[8]]]
        { sample_node with table := some (hash_table_create 128 255) } =
        some (states.Q18,
          { sample_node with
            table := some (hash_table_create 128 255)
            sent := [] ++ [⟨3, none, [6, 128, 255]⟩]
            socketBuffers := sample_node.socketBuffers.set 3 b }) :=
  (hand_off_peer_on_leave sample_types sum_hash
    { sample_node with table := some (hash_table_create 128 255) }
    (hash_table_create 128 255) [] [] [] (by decide) rfl (by decide) (by decide) rfl
    (by decide) (by decide) (by decide)).2.2.1

set_option maxRecDepth 100000 in
/-- C27. The leaving node does not stream all its records to the peer it chose: the
sample node holds the table over [140, 150] with two records of the hash 149. Q11
sends NET_NEW_RANGE(140, 150) on the socket D (index 3, the minimum is not 0) and
returns Q18 when the answer arrives. Q18 then sends on the socket D the VAL_INSERT
frame of the first record only, followed by NET_CLOSE_CONNECTION on B and NET_LEAVING
on D, and is left without a table: the second record is sent on no socket. -/
theorem Q18_streams_one_of_two_records :
    crowded_table.minHash = 140 ∧ crowded_table.maxHash = 150 ∧
    crowded_table.records = [example_entry, example_entry2] ∧
    (Q11_handler sample_types [[], [[8]]]
      { sample_node with table := some crowded_table }).map (fun r => (r.1, r.2.sent)) =
      some (states.Q18, [⟨3, none, [6, 140, 150]⟩]) ∧
    (Q18_handler sample_types sum_hash
      { sample_node with table := some crowded_table }).map
      (fun r => (r.1, r.2.sent, r.2.table)) =
      some (states.EXIT,
        [⟨3, none, transfer_frame sample_types example_entry⟩, ⟨1, none, [5]⟩,
          ⟨3, none, [7, 0, 0, 0, 0, 0, 0]⟩],
        none) ∧
    transfer_frame sample_types example_entry =
      100 :: example_ssn ++ 4 :: [82, 111, 108, 102] ++ 6 :: [114, 111, 108, 102, 64, 120] ∧
    transfer_frame sample_types example_entry2 =
      100 :: example_entry2.ssn ++ 3 :: [65, 100, 97] ++ 3 :: [97, 64, 98] ∧
    transfer_frame sample_types example_entry2 ≠ transfer_frame sample_types example_entry :=
  ⟨by decide, by decide, by decide, by decide, by decide, by decide, by decide, by decide⟩

/-- C28. Teardown order and content of Q18: for every node with a table, Q18 returns
EXIT and what it sends is, in this order, the VAL_INSERT frames of the hand-over (each
the frame of a record of the table), then the byte NET_CLOSE_CONNECTION on the socket
B, then on the socket D the 7 bytes of a NET_LEAVING frame, which parses to
new_address and new_port equal to the address and port of the successor of the
node. -/
theorem Q18_teardown_order (K : pdu_types) (hash_ssn : List Nat → Nat) (args : node)
    (table : hash_table) (hK : K.wf) (htab : args.table = some table)
    (haddr : args.successor.s_addr < 2 ^ 32) (hport : args.successor.sin_port < 2 ^ 16) :
    ∃ (frames : List (List Nat)) (leaving : List Nat),
      Q18_handler K hash_ssn args =
        some (states.EXIT,
          { args with
            sent := args.sent ++
              frames.map (fun b =>
                ⟨if table.minHash ≠ 0 then 3 else 1,
                  args.sockets.getD (if table.minHash ≠ 0 then 3 else 1) none, b⟩) ++
              [⟨1, args.sockets.getD 1 none, [K.NET_CLOSE_CONNECTION]⟩,
                ⟨3, args.sockets.getD 3 none, leaving⟩]
            table := none }) ∧
      (∀ f ∈ frames, ∃ e ∈ table.records, f = transfer_frame K e) ∧
      leaving.length = 7 ∧
      parse_net_leaving (parse_pdu_type leaving) leaving =
        (⟨K.NET_LEAVING, args.successor.s_addr, args.successor.sin_port⟩, 7) := by
  have hc : K.NET_CLOSE_CONNECTION < 256 :=
    hK.1 K.NET_CLOSE_CONNECTION (by simp [pdu_types.all])
  have hl : K.NET_LEAVING < 256 := hK.1 K.NET_LEAVING (by simp [pdu_types.all])
  obtain ⟨frames, h, hf⟩ := Q18_handler_spec K hash_ssn args table htab
  have hser := serialize_net_leaving_pdu_take (List.replicate 7 0)
    ⟨K.NET_LEAVING, args.successor.s_addr, args.successor.sin_port⟩ (by simp)
  have hparse := parse_net_leaving_take (List.replicate 7 0)
    ⟨K.NET_LEAVING, args.successor.s_addr, args.successor.sin_port⟩ (by simp)
    ⟨hl, haddr, hport⟩
  rw [hser] at hparse
  rw [Nat.mod_eq_of_lt hc] at h
  exact ⟨frames, _, h, hf, rfl, hparse⟩

set_option maxRecDepth 100000 in
/-- Witness of C28: a node over [140, 150] that holds one record, with the successor
127.0.0.3:7000, tears down. -/
theorem Q18_teardown_order_witness :
    ∃ (frames : List (List Nat)) (leaving : List Nat),
      Q18_handler sample_types sum_hash
        { sample_node with
          successor := ⟨0x0300007F, 7000⟩
          table := some example_table } =
        some (states.EXIT,
          { sample_node with
            successor := ⟨0x0300007F, 7000⟩
            sent := [] ++
              frames.map (fun b => ⟨3, none, b⟩) ++ [⟨1, none, [5]⟩, ⟨3, none, leaving⟩]
            table := none }) ∧
      parse_net_leaving (parse_pdu_type leaving) leaving = (⟨7, 0x0300007F, 7000⟩, 7) :=
  (Q18_teardown_order sample_types sum_hash
    { sample_node with
      successor := ⟨0x0300007F, 7000⟩
      table := some example_table }
    example_table (by decide) rfl (by decide) (by decide)).imp
    (fun _ h => h.imp (fun _ h => ⟨h.1, h.2.2.2⟩))
/-! ## The ring links after a join -/

/-- C29. Ring insertion of a joiner, for every node with a table and a NET_JOIN in
`lastPdu`. Q5, on a table over [0, 255] and whatever the socket B was connected to
(it is not connected when Q5 runs), and Q13, on a table over [min, max] with
min ≤ max ≤ 255 of a node whose socket B is connected to its successor, return Q6 with
the successor of the node set to (src_address, src_port) of the NET_JOIN. The
NET_JOIN_RESPONSE, sent to the joiner on socket B, parses to (next_address, next_port)
equal to the own address and listening port in Q5 and to the address and port of the
previous successor in Q13; in Q13 the byte NET_CLOSE_CONNECTION is sent to the
previous successor before the response. Only the frames of the hand-over follow. -/
theorem ring_insertion (K : pdu_types) (hash_ssn : List Nat → Nat) (accepted : sockaddr_in)
    (args : node) (table : hash_table) (j : NET_JOIN_PDU)
    (hK : K.wf) (htab : args.table = some table)
    (hlast : args.lastPdu = some (.net_join j)) (hsock : args.sockets.length = 4) :
    (table.minHash = 0 → table.maxHash = 255 →
      args.addr.s_addr < 2 ^ 32 → args.listeningPort < 2 ^ 16 →
      ∃ (a : node) (resp : List Nat) (frames : List (List Nat)),
      Q5_handler K hash_ssn accepted args = some (states.Q6, a) ∧
      a.successor = ⟨j.src_address, j.src_port⟩ ∧
      a.sent = args.sent ++
        ⟨1, some ⟨j.src_address, j.src_port⟩, resp⟩ ::
        frames.map (fun b => ⟨1, some ⟨j.src_address, j.src_port⟩, b⟩) ∧
      resp.length = 9 ∧ parse_pdu_type resp = K.NET_JOIN_RESPONSE ∧
      (parse_net_join_response (parse_pdu_type resp) resp).1.next_address =
        args.addr.s_addr ∧
      (parse_net_join_response (parse_pdu_type resp) resp).1.next_port =
        args.listeningPort) ∧
    (table.minHash ≤ table.maxHash → table.maxHash ≤ 255 →
      args.sockets.getD 1 none = some args.successor →
      args.successor.s_addr < 2 ^ 32 → args.successor.sin_port < 2 ^ 16 →
      ∃ (a : node) (resp : List Nat) (frames : List (List Nat)),
      Q13_handler K hash_ssn args = some (states.Q6, a) ∧
      a.successor = ⟨j.src_address, j.src_port⟩ ∧
      a.sent = args.sent ++
        ⟨1, some args.successor, [K.NET_CLOSE_CONNECTION]⟩ ::
        ⟨1, some ⟨j.src_address, j.src_port⟩, resp⟩ ::
        frames.map (fun b => ⟨1, some ⟨j.src_address, j.src_port⟩, b⟩) ∧
      resp.length = 9 ∧ parse_pdu_type resp = K.NET_JOIN_RESPONSE ∧
      (parse_net_join_response (parse_pdu_type resp) resp).1.next_address =
        args.successor.s_addr ∧
      (parse_net_join_response (parse_pdu_type resp) resp).1.next_port =
        args.successor.sin_port) := by
  have hjr : K.NET_JOIN_RESPONSE < 2 ^ 8 :=
    hK.1 K.NET_JOIN_RESPONSE (by simp [pdu_types.all])
  have hcc : K.NET_CLOSE_CONNECTION < 256 :=
    hK.1 K.NET_CLOSE_CONNECTION (by simp [pdu_types.all])
  have hlen : 9 ≤ (List.replicate 9 0).length := by simp
  have hl9 : ∀ s : NET_JOIN_RESPONSE_PDU,
      ((serialize_net_join_response_pdu (List.replicate 9 0) s).take 9).length = 9 := by
    intro s
    rw [serialize_net_join_response_pdu_take _ _ hlen]
    rfl
  constructor
  · intro _ hmax255 haddr hport
    have hmax : table.maxHash ≤ 255 := by omega
    have hc : (1 : Nat) = 1 ∧ 1 < args.sockets.length := ⟨rfl, by omega⟩
    have hdest : (args.sockets.set 1 (some (⟨j.src_address, j.src_port⟩ : sockaddr_in))).getD 1
        none = some ⟨j.src_address, j.src_port⟩ := by
      rw [getD_set_ite, if_pos hc]
    have hwf : NET_JOIN_RESPONSE_PDU.wf
        ⟨K.NET_JOIN_RESPONSE, args.addr.s_addr, args.listeningPort % 2 ^ 16,
          (table.minHash + table.maxHash / 2) % 2 ^ 8, table.maxHash⟩ :=
      ⟨hjr, haddr, Nat.mod_lt _ (by decide), Nat.mod_lt _ (by decide),
        show table.maxHash < 2 ^ 8 by omega⟩
    have hparse := parse_net_join_response_take (List.replicate 9 0) _ hlen hwf
    obtain ⟨a, frames, h, hs, -, -, -, hsent, -, -⟩ := transfer_entry_range_spec K hash_ssn
      (send
        (connect_socket { args with successor := ⟨j.src_address, j.src_port⟩ } 1
          ⟨j.src_address, j.src_port⟩) 1
        ((serialize_net_join_response_pdu (List.replicate 9 0)
          ⟨K.NET_JOIN_RESPONSE, args.addr.s_addr, args.listeningPort % 2 ^ 16,
            (table.minHash + table.maxHash / 2) % 2 ^ 8, table.maxHash⟩).take 9))
      1 ((table.maxHash / 2 : Nat) : Int) table htab
    refine ⟨accept_predacessor a accepted,
      (serialize_net_join_response_pdu (List.replicate 9 0)
        ⟨K.NET_JOIN_RESPONSE, args.addr.s_addr, args.listeningPort % 2 ^ 16,
          (table.minHash + table.maxHash / 2) % 2 ^ 8, table.maxHash⟩).take 9,
      frames, ?_, hs, ?_, hl9 _, ?_, ?_, ?_⟩
    · rw [Q5_handler_eq K hash_ssn accepted args table j htab hlast, h]
      rfl
    · show a.sent = _
      rw [hsent]
      simp only [send, connect_socket, hdest, List.append_assoc, List.singleton_append]
    · rw [serialize_net_join_response_pdu_take _ _ hlen]
      show K.NET_JOIN_RESPONSE % 256 % 256 = _
      rw [Nat.mod_mod]
      exact Nat.mod_eq_of_lt hjr
    · rw [hparse]
    · rw [hparse]
      exact Nat.mod_eq_of_lt hport
  · intro _ hmax hB hsa hsp
    have hc : (1 : Nat) = 1 ∧ 1 < (args.sockets.set 1 none).length := by
      rw [List.length_set]; exact ⟨rfl, by omega⟩
    have hdest : ((args.sockets.set 1 none).set 1
        (some (⟨j.src_address, j.src_port⟩ : sockaddr_in))).getD 1 none =
        some ⟨j.src_address, j.src_port⟩ := by
      rw [getD_set_ite, if_pos hc]
    have hrs : ((Int.tdiv ((table.maxHash : Int) - (table.minHash : Int)) 2 +
        (table.minHash : Int)) % 2 ^ 8).toNat < 2 ^ 8 := by
      have h1 := Int.emod_nonneg (Int.tdiv ((table.maxHash : Int) - (table.minHash : Int)) 2 +
        (table.minHash : Int)) (show ((2 : Int) ^ 8) ≠ 0 by decide)
      have h2 := Int.emod_lt_of_pos (Int.tdiv ((table.maxHash : Int) - (table.minHash : Int)) 2 +
        (table.minHash : Int)) (show (0 : Int) < 2 ^ 8 by decide)
      omega
    have hwf : NET_JOIN_RESPONSE_PDU.wf
        ⟨K.NET_JOIN_RESPONSE, args.successor.s_addr, args.successor.sin_port,
          ((Int.tdiv ((table.maxHash : Int) - (table.minHash : Int)) 2 +
            (table.minHash : Int)) % 2 ^ 8).toNat, table.maxHash⟩ :=
      ⟨hjr, hsa, hsp, hrs, show table.maxHash < 2 ^ 8 by omega⟩
    have hparse := parse_net_join_response_take (List.replicate 9 0) _ hlen hwf
    obtain ⟨a, frames, h, hs, -, -, -, hsent, -, -⟩ := transfer_entry_range_spec K hash_ssn
      (send
        (connect_socket
          { create_socket (send args 1 [K.NET_CLOSE_CONNECTION % 256]) 1 with
            successor := ⟨j.src_address, j.src_port⟩ } 1
          ⟨j.src_address, j.src_port⟩) 1
        ((serialize_net_join_response_pdu (List.replicate 9 0)
          ⟨K.NET_JOIN_RESPONSE, args.successor.s_addr, args.successor.sin_port,
            ((Int.tdiv ((table.maxHash : Int) - (table.minHash : Int)) 2 +
              (table.minHash : Int)) % 2 ^ 8).toNat, table.maxHash⟩).take 9))
      1 (Int.tdiv ((table.maxHash : Int) - (table.minHash : Int)) 2 +
        (table.minHash : Int)) table htab
    refine ⟨a,
      (serialize_net_join_response_pdu (List.replicate 9 0)
        ⟨K.NET_JOIN_RESPONSE, args.successor.s_addr, args.successor.sin_port,
          ((Int.tdiv ((table.maxHash : Int) - (table.minHash : Int)) 2 +
            (table.minHash : Int)) % 2 ^ 8).toNat, table.maxHash⟩).take 9,
      frames, ?_, hs, ?_, hl9 _, ?_, ?_, ?_⟩
    · rw [Q13_handler_eq K hash_ssn args table j htab hlast, h]
      rfl
    · rw [hsent]
      simp only [send, connect_socket, create_socket, hdest, hB, Nat.mod_eq_of_lt hcc,
        List.append_assoc, List.singleton_append, List.cons_append, List.nil_append]
    · rw [serialize_net_join_response_pdu_take _ _ hlen]
      show K.NET_JOIN_RESPONSE % 256 % 256 = _
      rw [Nat.mod_mod]
      exact Nat.mod_eq_of_lt hjr
    · rw [hparse]
    · rw [hparse]

set_option maxRecDepth 100000 in
/-- Witness of C29: the solitary sample node, whose socket B is not connected, in
Q5, and a node over [0, 127] with the successor 127.0.0.3:7000 on socket B in Q13;
the joiner is 127.0.0.2:5000. -/
theorem ring_insertion_witness :
    sample_node.sockets.getD 1 none = none ∧
    (∃ (a : node) (resp : List Nat) (frames : List (List Nat)),
      Q5_handler sample_types sum_hash ⟨0x0200007F, 6000⟩
        { sample_node with lastPdu := some (.net_join ⟨3, 0x0200007F, 5000, 0, 0, 0⟩) } =
        some (states.Q6, a) ∧
      a.successor = ⟨0x0200007F, 5000⟩ ∧
      a.sent = [] ++
        ⟨1, some ⟨0x0200007F, 5000⟩, resp⟩ ::
        frames.map (fun b => ⟨1, some ⟨0x0200007F, 5000⟩, b⟩) ∧
      (parse_net_join_response (parse_pdu_type resp) resp).1.next_address = 0x0100007F ∧
      (parse_net_join_response (parse_pdu_type resp) resp).1.next_port = 4000) ∧
    (∃ (a : node) (resp : List Nat) (frames : List (List Nat)),
      Q13_handler sample_types sum_hash
        { sample_node with
          successor := ⟨0x0300007F, 7000⟩
          sockets := [none, some ⟨0x0300007F, 7000⟩, none, none]
          table := some (hash_table_create 0 127)
          lastPdu := some (.net_join ⟨3, 0x0200007F, 5000, 0, 0, 0⟩) } =
        some (states.Q6, a) ∧
      a.successor = ⟨0x0200007F, 5000⟩ ∧
      a.sent = [] ++
        ⟨1, some ⟨0x0300007F, 7000⟩, [5]⟩ ::
        ⟨1, some ⟨0x0200007F, 5000⟩, resp⟩ ::
        frames.map (fun b => ⟨1, some ⟨0x0200007F, 5000⟩, b⟩) ∧
      (parse_net_join_response (parse_pdu_type resp) resp).1.next_address = 0x0300007F) :=
  ⟨by decide,
    ((ring_insertion sample_types sum_hash ⟨0x0200007F, 6000⟩
      { sample_node with lastPdu := some (.net_join ⟨3, 0x0200007F, 5000, 0, 0, 0⟩) }
      (hash_table_create 0 255) ⟨3, 0x0200007F, 5000, 0, 0, 0⟩
      (by decide) rfl rfl rfl).1 rfl rfl (by decide) (by decide)).imp
      (fun _ h => h.imp (fun _ h => h.imp (fun _ h =>
        ⟨h.1, h.2.1, h.2.2.1, h.2.2.2.2.2.1, h.2.2.2.2.2.2⟩))),
    ((ring_insertion sample_types sum_hash ⟨0x0200007F, 6000⟩
      { sample_node with
        successor := ⟨0x0300007F, 7000⟩
        sockets := [none, some ⟨0x0300007F, 7000⟩, none, none]
        table := some (hash_table_create 0 127)
        lastPdu := some (.net_join ⟨3, 0x0200007F, 5000, 0, 0, 0⟩) }
      (hash_table_create 0 127) ⟨3, 0x0200007F, 5000, 0, 0, 0⟩
      (by decide) rfl rfl rfl).2 (by decide) (by decide) rfl (by decide) (by decide)).imp
      (fun _ h => h.imp (fun _ h => h.imp (fun _ h =>
        ⟨h.1, h.2.1, h.2.2.1, h.2.2.2.2.2.1⟩)))⟩
/-! ## The states the handlers return -/

theorem Q2_handler_state (K : pdu_types) (rounds : List (List (List Nat))) (args : node)
    (r : states × node) (h : Q2_handler K rounds args = some r) : r.1 = states.Q3 := by
  unfold Q2_handler at h
  split at h
  · cases h
  · cases h; rfl

theorem Q3_handler_state (K : pdu_types) (rounds : List (List (List Nat))) (args : node)
    (r : states × node) (h : Q3_handler K rounds args = some r) :
    r.1 = states.Q4 ∨ r.1 = states.Q7 := by
  unfold Q3_handler at h
  dsimp only at h
  split at h
  · cases h
  · split_ifs at h
    · cases h; exact Or.inl rfl
    · cases h; exact Or.inr rfl

theorem Q5_handler_state (K : pdu_types) (hash_ssn : List Nat → Nat) (accepted : sockaddr_in)
    (args : node) (r : states × node) (h : Q5_handler K hash_ssn accepted args = some r) :
    r.1 = states.Q6 := by
  unfold Q5_handler at h
  split at h
  · dsimp only at h
    split at h
    · cases h
    · split at h
      · cases h
      · cases h; rfl
  · cases h

theorem Q7_handler_state (K : pdu_types) (accepted : sockaddr_in)
    (rounds : List (List (List Nat))) (args : node) (r : states × node)
    (h : Q7_handler K accepted rounds args = some r) : r.1 = states.Q8 := by
  unfold Q7_handler at h
  split at h
  · dsimp only at h
    split at h
    · cases h
    · cases h; rfl
  · cases h

theorem Q8_handler_state (args : node) (r : states × node) (h : Q8_handler args = some r) :
    r.1 = states.Q6 := by
  unfold Q8_handler at h
  split at h
  · cases h; rfl
  · cases h

theorem Q9_handler_state (K : pdu_types) (hash_ssn : List Nat → Nat) (args : node)
    (r : states × node) (h : Q9_handler K hash_ssn args = some r) : r.1 = states.Q6 := by
  unfold Q9_handler at h
  split at h
  · cases h
  · dsimp only at h
    split_ifs at h
    · split at h
      · split_ifs at h <;> cases h <;> rfl
      · cases h
    · split at h
      · split_ifs at h <;> cases h <;> rfl
      · cases h
    · split at h
      · split_ifs at h <;> cases h <;> rfl
      · cases h
    · cases h; rfl

theorem Q10_handler_state (args : node) (r : states × node) (h : Q10_handler args = some r) :
    r.1 = states.EXIT ∨ r.1 = states.Q11 := by
  unfold Q10_handler at h
  split at h
  · cases h
  · split_ifs at h
    · cases h; exact Or.inl rfl
    · cases h; exact Or.inr rfl

theorem Q11_handler_state (K : pdu_types) (rounds : List (List (List Nat))) (args : node)
    (r : states × node) (h : Q11_handler K rounds args = some r) : r.1 = states.Q18 := by
  unfold Q11_handler at h
  split at h
  · cases h
  · dsimp only at h
    split at h
    · cases h
    · cases h; rfl

theorem Q12_handler_state (args : node) (r : states × node) (h : Q12_handler args = some r) :
    r.1 = states.Q5 ∨ r.1 = states.Q13 ∨ r.1 = states.Q14 := by
  unfold Q12_handler at h
  split at h
  · cases h
  · split_ifs at h
    · cases h; exact Or.inl rfl
    · split at h
      · split_ifs at h
        · cases h; exact Or.inr (Or.inl rfl)
        · cases h; exact Or.inr (Or.inr rfl)
      · cases h

theorem Q13_handler_state (K : pdu_types) (hash_ssn : List Nat → Nat)
    (args : node) (r : states × node) (h : Q13_handler K hash_ssn args = some r) :
    r.1 = states.Q6 := by
  unfold Q13_handler at h
  split at h
  · dsimp only at h
    split at h
    · cases h
    · split at h
      · cases h
      · cases h; rfl
  · cases h

theorem Q14_handler_state (args : node) (r : states × node) (h : Q14_handler args = some r) :
    r.1 = states.Q6 := by
  unfold Q14_handler at h
  split at h
  · cases h; rfl
  · cases h

theorem Q15_handler_state (K : pdu_types) (args : node) (r : states × node)
    (h : Q15_handler K args = some r) : r.1 = states.Q6 := by
  unfold Q15_handler at h
  split at h
  · cases h; rfl
  · cases h

theorem Q16_handler_state (args : node) (r : states × node) (h : Q16_handler args = some r) :
    r.1 = states.Q6 := by
  unfold Q16_handler at h
  split at h
  · dsimp only at h
    split_ifs at h <;> cases h <;> rfl
  · cases h

theorem Q17_handler_state (accepted : sockaddr_in) (args : node) (r : states × node)
    (h : Q17_handler accepted args = some r) : r.1 = states.Q6 := by
  unfold Q17_handler at h
  split at h
  · cases h
  · dsimp only at h
    split_ifs at h <;> cases h <;> rfl

theorem Q18_handler_state (K : pdu_types) (hash_ssn : List Nat → Nat) (args : node)
    (r : states × node) (h : Q18_handler K hash_ssn args = some r) : r.1 = states.EXIT := by
  unfold Q18_handler at h
  split at h
  · cases h
  · split at h
    · cases h
    · cases h; rfl
theorem Q6_slot_state (K : pdu_types) (args : node) (i : Nat) (s : states) (a : node)
    (h : Q6_slot K args i = (some s, a)) : s ≠ states.Q10 := by
  unfold Q6_slot at h
  dsimp only at h
  by_cases h0 : (args.socketBuffers.getD i default).len = 0
  · rw [if_pos h0] at h; cases h
  rw [if_neg h0] at h
  by_cases h1 : parse_pdu_type (args.socketBuffers.getD i default).buffer = K.VAL_INSERT
  · rw [if_pos h1] at h
    split_ifs at h <;> cases h
    all_goals decide
  rw [if_neg h1] at h
  by_cases h2 : parse_pdu_type (args.socketBuffers.getD i default).buffer = K.VAL_REMOVE
  · rw [if_pos h2] at h
    split_ifs at h <;> cases h
    all_goals decide
  rw [if_neg h2] at h
  by_cases h3 : parse_pdu_type (args.socketBuffers.getD i default).buffer = K.VAL_LOOKUP
  · rw [if_pos h3] at h
    split_ifs at h <;> cases h
    all_goals decide
  rw [if_neg h3] at h
  by_cases h4 : parse_pdu_type (args.socketBuffers.getD i default).buffer = K.NET_NEW_RANGE
  · rw [if_pos h4] at h
    split_ifs at h <;> cases h
    all_goals decide
  rw [if_neg h4] at h
  by_cases h5 : parse_pdu_type (args.socketBuffers.getD i default).buffer = K.NET_LEAVING
  · rw [if_pos h5] at h
    unfold Q6_close_connection at h
    dsimp only at h
    split_ifs at h <;> cases h
    all_goals decide
  rw [if_neg h5] at h
  by_cases h6 : parse_pdu_type (args.socketBuffers.getD i default).buffer =
      K.NET_CLOSE_CONNECTION
  · rw [if_pos h6] at h
    unfold Q6_close_connection at h
    dsimp only at h
    split_ifs at h <;> cases h
    all_goals decide
  rw [if_neg h6] at h
  by_cases h7 : parse_pdu_type (args.socketBuffers.getD i default).buffer = K.NET_JOIN
  · rw [if_pos h7] at h
    split_ifs at h <;> cases h
    all_goals decide
  rw [if_neg h7] at h
  cases h

theorem Q6_slots_state (K : pdu_types) (l : List Nat) (args : node) (s : states)
    (h : (Q6_slots K args l).1 = some s) : s ≠ states.Q10 := by
  induction l generalizing args with
  | nil => cases h
  | cons i l ih =>
    unfold Q6_slots at h
    split at h
    · rename_i s' a hs
      cases h
      exact Q6_slot_state K args i s a hs
    · exact ih _ h

theorem Q6_dispatch_cases (K : pdu_types) (shouldClose : Int) (args : node) :
    (∀ s, (Q6_slots K args [0, 1, 2, 3]).1 = some s →
      Q6_dispatch K shouldClose args = (s, (Q6_slots K args [0, 1, 2, 3]).2)) ∧
    ((Q6_slots K args [0, 1, 2, 3]).1 = none →
      Q6_dispatch K shouldClose args =
        (if shouldClose = 1 then states.Q10 else states.Q6,
          (Q6_slots K args [0, 1, 2, 3]).2)) := by
  unfold Q6_dispatch
  constructor
  · intro s h
    split
    · rename_i s' a hs
      rw [hs] at h ⊢
      cases h
      rfl
    · rename_i a hs
      rw [hs] at h
      cases h
  · intro h
    split
    · rename_i s' a hs
      rw [hs] at h
      cases h
    · rename_i a hs
      rw [hs]
      split_ifs <;> rfl

/-- C23. Cancellation is honoured only at the bottom of Q6: for every state, node and
input of the world, a handler that returns Q10 is `Q6_handler`, called with
`shouldClose = 1`, in an iteration whose loop over the four buffers dispatched no
frame; conversely such an iteration returns Q10 when `shouldClose = 1` and Q6
otherwise. For every handler other than that of Q6, and for an iteration of Q6 that
dispatches a frame, the next state and the node are the same for every two values of
`shouldClose`. Q7 returns Q8 only and Q11 returns Q18 only, so the sequences Q7, Q8
and Q11, Q18 are not interrupted. -/
theorem cancellation_only_at_bottom_of_Q6 (K : pdu_types) (hash_ssn : List Nat → Nat)
    (env : inputs) (s : states) (args : node) :
    (∀ (sc : Int) (r : states × node), handler K hash_ssn sc env s args = some r →
      r.1 = states.Q10 →
      s = states.Q6 ∧ sc = 1 ∧
        (Q6_slots K (Q6_poll K env.currentTime env.incoming args) [0, 1, 2, 3]).1 = none) ∧
    ((Q6_slots K (Q6_poll K env.currentTime env.incoming args) [0, 1, 2, 3]).1 = none →
      handler K hash_ssn 1 env states.Q6 args =
        some (states.Q10,
          (Q6_slots K (Q6_poll K env.currentTime env.incoming args) [0, 1, 2, 3]).2) ∧
      ∀ sc : Int, sc ≠ 1 →
        handler K hash_ssn sc env states.Q6 args =
          some (states.Q6,
            (Q6_slots K (Q6_poll K env.currentTime env.incoming args) [0, 1, 2, 3]).2)) ∧
    (s ≠ states.Q6 → ∀ sc sc' : Int,
      handler K hash_ssn sc env s args = handler K hash_ssn sc' env s args) ∧
    ((Q6_slots K (Q6_poll K env.currentTime env.incoming args) [0, 1, 2, 3]).1 ≠ none →
      ∀ sc sc' : Int,
        handler K hash_ssn sc env states.Q6 args =
          handler K hash_ssn sc' env states.Q6 args) ∧
    (∀ (sc : Int) (r : states × node),
      handler K hash_ssn sc env states.Q7 args = some r → r.1 = states.Q8) ∧
    (∀ (sc : Int) (r : states × node),
      handler K hash_ssn sc env states.Q11 args = some r → r.1 = states.Q18) := by
  refine ⟨?_, ?_, ?_, ?_, ?_, ?_⟩
  · intro sc r h hr
    cases s
    case Q6 =>
      have h' : Q6_dispatch K sc (Q6_poll K env.currentTime env.incoming args) = r :=
        Option.some.inj h
      obtain ⟨d1, d2⟩ := Q6_dispatch_cases K sc (Q6_poll K env.currentTime env.incoming args)
      cases hs : (Q6_slots K (Q6_poll K env.currentTime env.incoming args) [0, 1, 2, 3]).1 with
      | some s' =>
        have := d1 s' hs
        rw [h'] at this
        rw [this] at hr
        exact absurd hr (Q6_slots_state K _ _ s' hs)
      | none =>
        have := d2 hs
        rw [h'] at this
        rw [this] at hr
        refine ⟨rfl, ?_, rfl⟩
        by_contra hne
        rw [if_neg hne] at hr
        cases hr
    case Q1 => cases h; cases hr
    case Q2 => have := Q2_handler_state K _ _ r h; rw [hr] at this; cases this
    case Q3 =>
      have := Q3_handler_state K _ _ r h
      rw [hr] at this
      rcases this with h1 | h1 <;> cases h1
    case Q4 => cases h; cases hr
    case Q5 => have := Q5_handler_state K hash_ssn _ _ r h; rw [hr] at this; cases this
    case Q7 => have := Q7_handler_state K _ _ _ r h; rw [hr] at this; cases this
    case Q8 => have := Q8_handler_state _ r h; rw [hr] at this; cases this
    case Q9 => have := Q9_handler_state K hash_ssn _ r h; rw [hr] at this; cases this
    case Q10 =>
      have := Q10_handler_state _ r h
      rw [hr] at this
      rcases this with h1 | h1 <;> cases h1
    case Q11 => have := Q11_handler_state K _ _ r h; rw [hr] at this; cases this
    case Q12 =>
      have := Q12_handler_state _ r h
      rw [hr] at this
      rcases this with h1 | h1 | h1 <;> cases h1
    case Q13 => have := Q13_handler_state K hash_ssn _ r h; rw [hr] at this; cases this
    case Q14 => have := Q14_handler_state _ r h; rw [hr] at this; cases this
    case Q15 => have := Q15_handler_state K _ r h; rw [hr] at this; cases this
    case Q16 => have := Q16_handler_state _ r h; rw [hr] at this; cases this
    case Q17 => have := Q17_handler_state _ _ r h; rw [hr] at this; cases this
    case Q18 => have := Q18_handler_state K hash_ssn _ r h; rw [hr] at this; cases this
    case EXIT => cases h
  · intro hs
    obtain ⟨-, d2⟩ := Q6_dispatch_cases K 1 (Q6_poll K env.currentTime env.incoming args)
    refine ⟨?_, ?_⟩
    · show some (Q6_dispatch K 1 (Q6_poll K env.currentTime env.incoming args)) = _
      rw [d2 hs, if_pos rfl]
    · intro sc hsc
      show some (Q6_dispatch K sc (Q6_poll K env.currentTime env.incoming args)) = _
      rw [(Q6_dispatch_cases K sc (Q6_poll K env.currentTime env.incoming args)).2 hs,
        if_neg hsc]
  · intro hs sc sc'
    cases s <;> first | rfl | exact absurd rfl hs
  · intro hs sc sc'
    cases hs' : (Q6_slots K (Q6_poll K env.currentTime env.incoming args) [0, 1, 2, 3]).1 with
    | none => exact absurd hs' hs
    | some s' =>
      show some (Q6_dispatch K sc (Q6_poll K env.currentTime env.incoming args)) =
        some (Q6_dispatch K sc' (Q6_poll K env.currentTime env.incoming args))
      rw [(Q6_dispatch_cases K sc _).1 s' hs', (Q6_dispatch_cases K sc' _).1 s' hs']
  · intro sc r h
    exact Q7_handler_state K _ _ _ r h
  · intro sc r h
    exact Q11_handler_state K _ _ r h
/-! ## Records lost by a merge and by a split, and the NET_JOIN of a joiner -/

set_option maxRecDepth 100000 in
/-- C21. A merge does not keep all records when the range of the leaving neighbour
lies below: the sample table over [140, 149] holds one record, of hash 149. After
NET_NEW_RANGE(100, 139), Q15 resizes the table to the merged range [100, 149] and the
table holds no record: `hash_table_resize` does not copy the bucket of the new
maximum, which is the old maximum. After NET_NEW_RANGE(150, 255), a neighbour above,
the record is kept. -/
theorem Q15_drops_records_of_max :
    edge_table.minHash = 140 ∧ edge_table.maxHash = 149 ∧
    edge_table.records = [example_entry] ∧
    hash_t (sum_hash example_entry.ssn) = 149 ∧
    (Q15_handler sample_types
      { sample_node with
        table := some edge_table
        lastPdu := some (.net_new_range ⟨6, 100, 139⟩) }).map
      (fun r => (r.1, r.2.table.map (fun t => (t.minHash, t.maxHash, t.records)))) =
      some (states.Q6, some (100, 149, [])) ∧
    (Q15_handler sample_types
      { sample_node with
        table := some edge_table
        lastPdu := some (.net_new_range ⟨6, 150, 255⟩) }).map
      (fun r => (r.1, r.2.table.map (fun t => (t.minHash, t.maxHash, t.records)))) =
      some (states.Q6, some (140, 255, [example_entry])) :=
  ⟨by decide, by decide, by decide, by decide, by decide, by decide⟩

set_option maxRecDepth 100000 in
/-- C22. The NET_JOIN of a joiner does not carry its own address: the sample node,
whose own address is 127.0.0.1, has learned from the tracker the node 10.0.0.5:5000.
Q7 sends to that node the 14 bytes of a NET_JOIN whose src_address is 10.0.0.5, the
address of the NET_GET_NODE_RESPONSE, and not 127.0.0.1; src_port is the listening
port 4000 and max_span, max_address and max_port are 0. -/
theorem Q7_sends_address_of_the_contact :
    sample_node.addr.s_addr = 0x0100007F ∧ sample_node.listeningPort = 4000 ∧
    (Q7_handler sample_types ⟨0x0500000A, 6000⟩ [[[4, 10, 0, 0, 5, 136, 19, 128, 255]]]
      { sample_node with
        lastPdu := some (.net_get_node_response ⟨2, 0x0500000A, 5000⟩) }).map
      (fun r => (r.1, r.2.sent)) =
      some (states.Q8,
        [⟨0, some ⟨0x0500000A, 5000⟩, [3, 10, 0, 0, 5, 160, 15, 0, 0, 0, 0, 0, 0, 0]⟩]) ∧
    (parse_net_join 3 [3, 10, 0, 0, 5, 160, 15, 0, 0, 0, 0, 0, 0, 0]).1 =
      ⟨3, 0x0500000A, 4000, 0, 0, 0⟩ ∧
    (0x0500000A : Nat) ≠ 0x0100007F :=
  ⟨by decide, by decide, by decide, by decide, by decide⟩

set_option maxRecDepth 100000 in
/-- C30. A split does not keep all lower records: the sample table over [140, 150]
holds one record, of hash 149. `transfer_entry_range` with `rangeMin = 150` sends no
frame (the record is below `rangeMin`) and leaves a table over [140, 149] that holds
no record: `hash_table_resize` does not copy the bucket of the hash
`rangeMin - 1`, so the record is neither handed out nor owned. -/
theorem transfer_entry_range_loses_record_below :
    example_table.minHash = 140 ∧ example_table.maxHash = 150 ∧
    example_table.records = [example_entry] ∧
    hash_t (sum_hash example_entry.ssn) = 149 ∧
    (transfer_entry_range sample_types sum_hash
      { sample_node with table := some example_table } 1 150).map
      (fun a => (a.sent, a.table.map (fun t => (t.minHash, t.maxHash, t.records)))) =
      some ([], some (140, 149, [])) :=
  ⟨by decide, by decide, by decide, by decide, by decide⟩

/-! ## `clear_buffer`, cell by cell -/

theorem clear_buffer_getD (buf : socket_buffer) (n : Nat) :
    (clear_buffer buf n).len = buf.len - n ∧
    (clear_buffer buf n).buffer.length = buf.buffer.length ∧
    ∀ k, (clear_buffer buf n).buffer.getD k 0 =
      if k < buf.len.toNat ∧ k < buf.buffer.length then
        (if (k : Int) + n ≥ buf.len then 0 else buf.buffer.getD (k + n) 0)
      else buf.buffer.getD k 0 := by
  obtain ⟨h1, h2⟩ := clear_buffer_fold buf.len n buf.buffer buf.len.toNat (by omega)
  refine ⟨rfl, h1, fun k => ?_⟩
  have := h2 k
  simp only [Int.toNat_ofNat] at this
  exact this

/-- C34. The function `clear_buffer` shifts left: for every buffer of length `len`
within its capacity and every n with 0 ≤ n ≤ len, `clear_buffer(buffer, n)` sets the
length to len - n, makes the byte i equal to the old byte i + n for every i < len - n,
zeroes the bytes at the positions len - n .. len - 1 and changes no other cell; and
clearing a bytes and then b bytes (a + b ≤ len) gives the same buffer, cell by cell,
and the same length as clearing a + b bytes. -/
theorem clear_buffer_shifts_left (buf : socket_buffer) (n : Nat) (hn : (n : Int) ≤ buf.len)
    (hcap : buf.len ≤ buf.buffer.length) :
    (clear_buffer buf n).len = buf.len - n ∧
    (clear_buffer buf n).buffer.length = buf.buffer.length ∧
    (∀ i : Nat, (i : Int) < buf.len - n →
      (clear_buffer buf n).buffer.getD i 0 = buf.buffer.getD (i + n) 0) ∧
    (∀ i : Nat, buf.len - n ≤ (i : Int) → (i : Int) < buf.len →
      (clear_buffer buf n).buffer.getD i 0 = 0) ∧
    (∀ i : Nat, buf.len ≤ (i : Int) →
      (clear_buffer buf n).buffer.getD i 0 = buf.buffer.getD i 0) ∧
    (∀ a b : Nat, a + b = n →
      clear_buffer (clear_buffer buf a) b = clear_buffer buf n ∧
      (clear_buffer (clear_buffer buf a) b).content = (clear_buffer buf n).content) := by
  obtain ⟨h1, h2, h3⟩ := clear_buffer_getD buf n
  refine ⟨h1, h2, ?_, ?_, ?_, ?_⟩
  · intro i hi
    rw [h3, if_pos ⟨by omega, by omega⟩, if_neg (by omega)]
  · intro i hi1 hi2
    rw [h3, if_pos ⟨by omega, by omega⟩, if_pos (by omega)]
  · intro i hi
    rw [h3, if_neg (fun h => by omega)]
  · intro a b hab
    have key : clear_buffer (clear_buffer buf a) b = clear_buffer buf n := by
      obtain ⟨a1, a2, a3⟩ := clear_buffer_getD buf a
      obtain ⟨b1, b2, b3⟩ := clear_buffer_getD (clear_buffer buf a) b
      have hlen : (clear_buffer (clear_buffer buf a) b).len = (clear_buffer buf n).len := by
        rw [b1, a1, h1]; omega
      have hbuf : (clear_buffer (clear_buffer buf a) b).buffer = (clear_buffer buf n).buffer := by
        apply ext_getD
        · rw [b2, a2, h2]
        · intro k hk
          rw [b2, a2] at hk
          rw [b3, h3]
          simp only [a1, a2, a3]
          subst hab
          split_ifs <;> first | rfl | (exfalso; omega) | (congr 1; omega)
      cases hx : clear_buffer (clear_buffer buf a) b
      cases hy : clear_buffer buf n
      rw [hx] at hlen hbuf
      rw [hy] at hlen hbuf
      simp only at hlen hbuf
      rw [hlen, hbuf]
    exact ⟨key, by rw [key]⟩

set_option maxRecDepth 100000 in
/-- Witness of C34: a buffer that holds the 5 bytes 1, 2, 3, 4, 5 loses 2 of them. -/
theorem clear_buffer_shifts_left_witness :
    (clear_buffer (socket_buffer_with [1, 2, 3, 4, 5]) 2).len = 3 ∧
    (clear_buffer (socket_buffer_with [1, 2, 3, 4, 5]) 2).buffer.take 6 = [3, 4, 5, 0, 0, 0] ∧
    clear_buffer (clear_buffer (socket_buffer_with [1, 2, 3, 4, 5]) 1) 1 =
      clear_buffer (socket_buffer_with [1, 2, 3, 4, 5]) 2 :=
  ⟨(clear_buffer_shifts_left (socket_buffer_with [1, 2, 3, 4, 5]) 2 (by decide)
      (by decide)).1,
    by decide,
    ((clear_buffer_shifts_left (socket_buffer_with [1, 2, 3, 4, 5]) 2 (by decide)
      (by decide)).2.2.2.2.2 1 1 rfl).1⟩
/-! ## Insert, lookup and remove of one record -/

/-- After `hash_table_insert` of an entry whose hash is in the range of an allocated
table that holds no record with its ssn: the bucket of the hash is the old bucket
followed by the entry, `hash_table_lookup` of the ssn yields the entry, and
`hash_table_remove` of the ssn gives the table before the insert. -/
theorem hash_table_insert_laws (hash_ssn : List Nat → Nat) (table : hash_table)
    (e : hash_table_entry) (entry : Option hash_table_entry) (hal : table.allocated)
    (hin : ¬ (hash_t (hash_ssn e.ssn) < table.minHash ∨ hash_t (hash_ssn e.ssn) > table.maxHash))
    (hfresh : ∀ r ∈ table.records, ¬ same_ssn e.ssn r) :
    (hash_table_insert hash_ssn table e).1 = 0 ∧
    (hash_table_insert hash_ssn table e).2.bucket_of (hash_t (hash_ssn e.ssn)) =
      table.bucket_of (hash_t (hash_ssn e.ssn)) ++ [e] ∧
    hash_table_lookup hash_ssn (hash_table_insert hash_ssn table e).2 e.ssn entry =
      (0, some e, (hash_table_insert hash_ssn table e).2) ∧
    hash_table_remove hash_ssn (hash_table_insert hash_ssn table e).2 e.ssn = (0, table) := by
  have hidx : hash_t (hash_ssn e.ssn) - table.minHash < table.buckets.length := by
    have := hal
    unfold hash_table.allocated at this
    rw [this]
    omega
  have hc : hash_t (hash_ssn e.ssn) - table.minHash = hash_t (hash_ssn e.ssn) - table.minHash ∧
      hash_t (hash_ssn e.ssn) - table.minHash < table.buckets.length := ⟨rfl, hidx⟩
  have hpre : ∀ r ∈ table.buckets.getD (hash_t (hash_ssn e.ssn) - table.minHash) [],
      ¬ same_ssn e.ssn r := by
    intro r hr
    apply hfresh
    unfold hash_table.records
    exact List.mem_flatten.mpr ⟨_, getD_mem_of_mem _ _ _ hr, hr⟩
  have hself : same_ssn e.ssn e := fun _ _ => rfl
  rw [hash_table_insert_in _ _ _ hin]
  dsimp only
  obtain ⟨t, ht⟩ : ∃ t : hash_table, t = { table with
      buckets := table.buckets.set (hash_t (hash_ssn e.ssn) - table.minHash)
        (table.buckets.getD (hash_t (hash_ssn e.ssn) - table.minHash) [] ++ [e]) } :=
    ⟨_, rfl⟩
  rw [← ht]
  have hin' : ¬ (hash_t (hash_ssn e.ssn) < t.minHash ∨ hash_t (hash_ssn e.ssn) > t.maxHash) := by
    rw [ht]; exact hin
  have hb : t.bucket_of (hash_t (hash_ssn e.ssn)) =
      table.buckets.getD (hash_t (hash_ssn e.ssn) - table.minHash) [] ++ [e] := by
    rw [ht]
    simp only [hash_table.bucket_of]
    rw [getD_set_ite, if_pos hc]
  refine ⟨rfl, hb, ?_, ?_⟩
  · exact hash_table_lookup_present hash_ssn t e.ssn entry hin' _ e [] hb hpre hself
  · rw [hash_table_remove_present hash_ssn t e.ssn hin' _ e [] hb hpre hself, ht]
    simp only [List.append_nil, List.set_set, set_getD_self]

/-- C35. Insert, lookup and remove of one record: for every allocated table that holds
no record with the ssn of an entry e whose hash is in the range, `hash_table_insert`
returns 0, `hash_table_lookup` of that ssn then returns 0 and yields e itself (same
ssn, name and email) without changing the table, and `hash_table_remove` of the ssn
then returns 0 and gives back the table before the insert, all buckets equal; on that
table `hash_table_lookup` of the ssn returns 0 and leaves the entry untouched: it
finds no record. -/
theorem table_insert_lookup_remove (hash_ssn : List Nat → Nat) (table : hash_table)
    (e : hash_table_entry) (hal : table.allocated)
    (hin : table.minHash ≤ hash_t (hash_ssn e.ssn) ∧ hash_t (hash_ssn e.ssn) ≤ table.maxHash)
    (hfresh : ∀ r ∈ table.records, ¬ same_ssn e.ssn r) :
    (hash_table_insert hash_ssn table e).1 = 0 ∧
    hash_table_lookup hash_ssn (hash_table_insert hash_ssn table e).2 e.ssn none =
      (0, some e, (hash_table_insert hash_ssn table e).2) ∧
    hash_table_remove hash_ssn (hash_table_insert hash_ssn table e).2 e.ssn = (0, table) ∧
    (hash_table_remove hash_ssn (hash_table_insert hash_ssn table e).2 e.ssn).2.buckets =
      table.buckets ∧
    hash_table_lookup hash_ssn
      (hash_table_remove hash_ssn (hash_table_insert hash_ssn table e).2 e.ssn).2 e.ssn none =
      (0, none, table) := by
  have hin' : ¬ (hash_t (hash_ssn e.ssn) < table.minHash ∨
      hash_t (hash_ssn e.ssn) > table.maxHash) := by omega
  obtain ⟨h1, -, h3, h4⟩ := hash_table_insert_laws hash_ssn table e none hal hin' hfresh
  refine ⟨h1, h3, h4, by rw [h4], ?_⟩
  rw [h4]
  apply hash_table_lookup_absent hash_ssn table e.ssn none hin'
  intro r hr
  apply hfresh
  unfold hash_table.records
  exact List.mem_flatten.mpr ⟨_, getD_mem_of_mem _ _ _ hr, hr⟩

/-- Witness of C35: the record of "aaaaabbbbbcc" and the empty table over
[140, 150]. -/
theorem table_insert_lookup_remove_witness :
    hash_table_lookup sum_hash (hash_table_insert sum_hash (hash_table_create 140 150)
      example_entry).2 example_entry.ssn none =
      (0, some example_entry,
        (hash_table_insert sum_hash (hash_table_create 140 150) example_entry).2) ∧
    hash_table_remove sum_hash (hash_table_insert sum_hash (hash_table_create 140 150)
      example_entry).2 example_entry.ssn = (0, hash_table_create 140 150) :=
  ⟨(table_insert_lookup_remove sum_hash (hash_table_create 140 150) example_entry
      (by decide) (by decide) (by decide)).2.1,
    (table_insert_lookup_remove sum_hash (hash_table_create 140 150) example_entry
      (by decide) (by decide) (by decide)).2.2.1⟩

/-! ## Splits and hand-overs: the ranges afterwards -/

/-- The handler Q5 on a table over [0, 255]: the response sent to the joiner, the
frames of the hand-over, and the table over [0, 126] that is left. -/
theorem Q5_handler_spec (K : pdu_types) (hash_ssn : List Nat → Nat) (accepted : sockaddr_in)
    (args : node) (table : hash_table) (j : NET_JOIN_PDU)
    (htab : args.table = some table) (hmin : table.minHash = 0) (hmax : table.maxHash = 255)
    (hlast : args.lastPdu = some (.net_join j)) (hsock : args.sockets.length = 4) :
    ∃ (a : node) (t : hash_table) (frames : List (List Nat)),
      Q5_handler K hash_ssn accepted args = some (states.Q6, a) ∧
      a.table = some t ∧ t.minHash = 0 ∧ t.maxHash = 126 ∧
      a.sent = args.sent ++
        ⟨1, some ⟨j.src_address, j.src_port⟩,
          [K.NET_JOIN_RESPONSE % 256,
            args.addr.s_addr % 256, (args.addr.s_addr >>> 8) % 256,
            (args.addr.s_addr >>> 16) % 256, (args.addr.s_addr >>> 24) % 256,
            (args.listeningPort % 2 ^ 16) % 256, ((args.listeningPort % 2 ^ 16) >>> 8) % 256,
            127, 255]⟩ ::
        frames.map (fun b => ⟨1, some ⟨j.src_address, j.src_port⟩, b⟩) := by
  have hc : (1 : Nat) = 1 ∧ 1 < args.sockets.length := ⟨rfl, by omega⟩
  have hdest : (args.sockets.set 1 (some (⟨j.src_address, j.src_port⟩ : sockaddr_in))).getD 1
      none = some ⟨j.src_address, j.src_port⟩ := by
    rw [getD_set_ite, if_pos hc]
  obtain ⟨a, frames, h, hs, -, -, -, hsent, htp, -⟩ := transfer_entry_range_spec K hash_ssn
    (send
      (connect_socket { args with successor := ⟨j.src_address, j.src_port⟩ } 1
        ⟨j.src_address, j.src_port⟩) 1
      ((serialize_net_join_response_pdu (List.replicate 9 0)
        ⟨K.NET_JOIN_RESPONSE, args.addr.s_addr, args.listeningPort % 2 ^ 16,
          (table.minHash + table.maxHash / 2) % 2 ^ 8, table.maxHash⟩).take 9))
    1 ((table.maxHash / 2 : Nat) : Int) table htab
  obtain ⟨t, ht, ht1, ht2⟩ := htp (by rw [hmin, hmax]; decide)
  refine ⟨accept_predacessor a accepted, t, frames, ?_, ht, ht1.trans hmin, ?_, ?_⟩
  · rw [Q5_handler_eq K hash_ssn accepted args table j htab hlast, h]
    rfl
  · rw [ht2, hmax]
    rfl
  · show a.sent = _
    rw [hsent]
    simp only [send, connect_socket, hdest,
      serialize_net_join_response_pdu_take _ _ (show 9 ≤ (List.replicate 9 0).length by simp),
      hmin, hmax]
    simp

/-- The handler Q13 on a table over [min, max] with min ≤ max ≤ 255: the frames sent
(NET_CLOSE_CONNECTION, the response to the joiner with the range
[(min + max) / 2, max], the hand-over) and the table that is left. -/
theorem Q13_handler_spec (K : pdu_types) (hash_ssn : List Nat → Nat) (args : node)
    (table : hash_table) (j : NET_JOIN_PDU)
    (htab : args.table = some table) (hle : table.minHash ≤ table.maxHash)
    (hmax : table.maxHash ≤ 255)
    (hlast : args.lastPdu = some (.net_join j)) (hsock : args.sockets.length = 4) :
    ∃ (a : node) (frames : List (List Nat)),
      Q13_handler K hash_ssn args = some (states.Q6, a) ∧
      a.sent = args.sent ++
        ⟨1, args.sockets.getD 1 none, [K.NET_CLOSE_CONNECTION % 256]⟩ ::
        ⟨1, some ⟨j.src_address, j.src_port⟩,
          [K.NET_JOIN_RESPONSE % 256,
            args.successor.s_addr % 256, (args.successor.s_addr >>> 8) % 256,
            (args.successor.s_addr >>> 16) % 256, (args.successor.s_addr >>> 24) % 256,
            args.successor.sin_port % 256, (args.successor.sin_port >>> 8) % 256,
            (table.minHash + table.maxHash) / 2, table.maxHash]⟩ ::
        frames.map (fun b => ⟨1, some ⟨j.src_address, j.src_port⟩, b⟩) ∧
      (table.minHash < (table.minHash + table.maxHash) / 2 →
        ∃ t, a.table = some t ∧ t.minHash = table.minHash ∧
          t.maxHash = (table.minHash + table.maxHash) / 2 - 1) ∧
      ((table.minHash + table.maxHash) / 2 ≤ table.minHash → a.table = none) := by
  have hm : Int.tdiv ((table.maxHash : Int) - (table.minHash : Int)) 2 +
      (table.minHash : Int) = (((table.minHash + table.maxHash) / 2 : Nat) : Int) := by
    rw [Int.tdiv_eq_ediv (by omega) (by decide)]
    omega
  have hstart : ((((table.minHash + table.maxHash) / 2 : Nat) : Int) % 2 ^ 8).toNat =
      (table.minHash + table.maxHash) / 2 := by
    rw [Int.emod_eq_of_lt (by omega) (by omega)]
    exact Int.toNat_ofNat _
  have hc : (1 : Nat) = 1 ∧ 1 < (args.sockets.set 1 none).length := by
    rw [List.length_set]; exact ⟨rfl, by omega⟩
  have hdest : ((args.sockets.set 1 none).set 1
      (some (⟨j.src_address, j.src_port⟩ : sockaddr_in))).getD 1 none =
      some ⟨j.src_address, j.src_port⟩ := by
    rw [getD_set_ite, if_pos hc]
  have h13 := Q13_handler_eq K hash_ssn args table j htab hlast
  rw [hm, hstart] at h13
  obtain ⟨a, frames, h, -, -, -, -, hsent, htp, htn⟩ := transfer_entry_range_spec K hash_ssn
    (send
      (connect_socket
        { create_socket (send args 1 [K.NET_CLOSE_CONNECTION % 256]) 1 with
          successor := ⟨j.src_address, j.src_port⟩ } 1
        ⟨j.src_address, j.src_port⟩) 1
      ((serialize_net_join_response_pdu (List.replicate 9 0)
        ⟨K.NET_JOIN_RESPONSE, args.successor.s_addr, args.successor.sin_port,
          (table.minHash + table.maxHash) / 2, table.maxHash⟩).take 9))
    1 (((table.minHash + table.maxHash) / 2 : Nat) : Int) table htab
  refine ⟨a, frames, ?_, ?_, ?_, ?_⟩
  · rw [h13, h]
    rfl
  · rw [hsent]
    simp only [send, connect_socket, create_socket, hdest,
      serialize_net_join_response_pdu_take _ _ (show 9 ≤ (List.replicate 9 0).length by simp)]
    have e1 : (table.minHash + table.maxHash) / 2 % 256 = (table.minHash + table.maxHash) / 2 := by
      omega
    have e2 : table.maxHash % 256 = table.maxHash := by omega
    rw [e1, e2]
    simp
  · intro hlt
    obtain ⟨t, ht, ht1, ht2⟩ := htp (by omega)
    refine ⟨t, ht, ht1, ?_⟩
    rw [ht2]
    omega
  · intro hge
    exact htn (by omega)

/-- The range a NET_JOIN_RESPONSE of nine bytes carries, as `parse_net_join_response`
decodes it. -/
theorem parse_net_join_response_range (ty b0 b1 b2 b3 b4 b5 b6 s e : Nat) (hs : s < 256)
    (he : e < 256) :
    (parse_net_join_response ty [b0, b1, b2, b3, b4, b5, b6, s, e]).1.range_start = s ∧
    (parse_net_join_response ty [b0, b1, b2, b3, b4, b5, b6, s, e]).1.range_end = e := by
  constructor
  · show load_uint8 _ 7 = s
    unfold load_uint8
    simpa using Nat.mod_eq_of_lt hs
  · show load_uint8 _ 8 = e
    unfold load_uint8
    simpa using Nat.mod_eq_of_lt he

/-- C36. A split partitions the old range. Q13 on every table over [min, max] with
max - min ≥ 2 (max ≤ 255) returns Q6 with a table, after sending the joiner a
NET_JOIN_RESPONSE; with [range_start, range_end] the range that frame decodes to and
[new min, new max] the range of the table afterwards: new min = min,
range_start = new max + 1, range_end = max, both ranges are non-empty, no hash lies in
both, and a hash lies in [min, max] if and only if it lies in one of them. The same
holds for Q5 on a table over [0, 255]. -/
theorem split_partitions_range (K : pdu_types) (hash_ssn : List Nat → Nat)
    (accepted : sockaddr_in) (args : node) (table : hash_table) (j : NET_JOIN_PDU)
    (htab : args.table = some table) (hlast : args.lastPdu = some (.net_join j))
    (hsock : args.sockets.length = 4) :
    (table.minHash + 2 ≤ table.maxHash → table.maxHash ≤ 255 →
      ∃ (a : node) (t : hash_table) (resp : List Nat) (frames : List (List Nat)),
        Q13_handler K hash_ssn args = some (states.Q6, a) ∧ a.table = some t ∧
        a.sent = args.sent ++
          ⟨1, args.sockets.getD 1 none, [K.NET_CLOSE_CONNECTION % 256]⟩ ::
          ⟨1, some ⟨j.src_address, j.src_port⟩, resp⟩ ::
          frames.map (fun b => ⟨1, some ⟨j.src_address, j.src_port⟩, b⟩) ∧
        t.minHash = table.minHash ∧
        (parse_net_join_response (parse_pdu_type resp) resp).1.range_start = t.maxHash + 1 ∧
        (parse_net_join_response (parse_pdu_type resp) resp).1.range_end = table.maxHash ∧
        t.minHash ≤ t.maxHash ∧
        (parse_net_join_response (parse_pdu_type resp) resp).1.range_start ≤
          (parse_net_join_response (parse_pdu_type resp) resp).1.range_end ∧
        (∀ h : Nat, ¬ ((t.minHash ≤ h ∧ h ≤ t.maxHash) ∧
          ((parse_net_join_response (parse_pdu_type resp) resp).1.range_start ≤ h ∧
            h ≤ (parse_net_join_response (parse_pdu_type resp) resp).1.range_end))) ∧
        (∀ h : Nat, (table.minHash ≤ h ∧ h ≤ table.maxHash) ↔
          ((t.minHash ≤ h ∧ h ≤ t.maxHash) ∨
            ((parse_net_join_response (parse_pdu_type resp) resp).1.range_start ≤ h ∧
              h ≤ (parse_net_join_response (parse_pdu_type resp) resp).1.range_end)))) ∧
    (table.minHash = 0 → table.maxHash = 255 →
      ∃ (a : node) (t : hash_table) (resp : List Nat) (frames : List (List Nat)),
        Q5_handler K hash_ssn accepted args = some (states.Q6, a) ∧ a.table = some t ∧
        a.sent = args.sent ++
          ⟨1, some ⟨j.src_address, j.src_port⟩, resp⟩ ::
          frames.map (fun b => ⟨1, some ⟨j.src_address, j.src_port⟩, b⟩) ∧
        t.minHash = table.minHash ∧
        (parse_net_join_response (parse_pdu_type resp) resp).1.range_start = t.maxHash + 1 ∧
        (parse_net_join_response (parse_pdu_type resp) resp).1.range_end = table.maxHash ∧
        t.minHash ≤ t.maxHash ∧
        (parse_net_join_response (parse_pdu_type resp) resp).1.range_start ≤
          (parse_net_join_response (parse_pdu_type resp) resp).1.range_end ∧
        (∀ h : Nat, ¬ ((t.minHash ≤ h ∧ h ≤ t.maxHash) ∧
          ((parse_net_join_response (parse_pdu_type resp) resp).1.range_start ≤ h ∧
            h ≤ (parse_net_join_response (parse_pdu_type resp) resp).1.range_end))) ∧
        (∀ h : Nat, (table.minHash ≤ h ∧ h ≤ table.maxHash) ↔
          ((t.minHash ≤ h ∧ h ≤ t.maxHash) ∨
            ((parse_net_join_response (parse_pdu_type resp) resp).1.range_start ≤ h ∧
              h ≤ (parse_net_join_response (parse_pdu_type resp) resp).1.range_end)))) := by
  constructor
  · intro h2 hmax
    obtain ⟨a, frames, h, hsent, htp, -⟩ := Q13_handler_spec K hash_ssn args table j htab
      (by omega) hmax hlast hsock
    obtain ⟨t, ht, ht1, ht2⟩ := htp (by omega)
    obtain ⟨hrs, hre⟩ := parse_net_join_response_range
      (parse_pdu_type [K.NET_JOIN_RESPONSE % 256,
        args.successor.s_addr % 256, (args.successor.s_addr >>> 8) % 256,
        (args.successor.s_addr >>> 16) % 256, (args.successor.s_addr >>> 24) % 256,
        args.successor.sin_port % 256, (args.successor.sin_port >>> 8) % 256,
        (table.minHash + table.maxHash) / 2, table.maxHash])
      (K.NET_JOIN_RESPONSE % 256)
      (args.successor.s_addr % 256) ((args.successor.s_addr >>> 8) % 256)
      ((args.successor.s_addr >>> 16) % 256) ((args.successor.s_addr >>> 24) % 256)
      (args.successor.sin_port % 256) ((args.successor.sin_port >>> 8) % 256)
      ((table.minHash + table.maxHash) / 2) table.maxHash (by omega) (by omega)
    refine ⟨a, t, _, frames, h, ht, hsent, ht1, ?_, ?_, ?_, ?_, ?_, ?_⟩
    · rw [hrs, ht2]; omega
    · rw [hre]
    · rw [ht1, ht2]; omega
    · rw [hrs, hre]; omega
    · intro x
      rw [hrs, hre, ht1, ht2]; omega
    · intro x
      rw [hrs, hre, ht1, ht2]; omega
  · intro hmin hmax
    obtain ⟨a, t, frames, h, ht, ht1, ht2, hsent⟩ := Q5_handler_spec K hash_ssn accepted args
      table j htab hmin hmax hlast hsock
    obtain ⟨hrs, hre⟩ := parse_net_join_response_range
      (parse_pdu_type [K.NET_JOIN_RESPONSE % 256,
        args.addr.s_addr % 256, (args.addr.s_addr >>> 8) % 256,
        (args.addr.s_addr >>> 16) % 256, (args.addr.s_addr >>> 24) % 256,
        (args.listeningPort % 2 ^ 16) % 256, ((args.listeningPort % 2 ^ 16) >>> 8) % 256,
        127, 255])
      (K.NET_JOIN_RESPONSE % 256)
      (args.addr.s_addr % 256) ((args.addr.s_addr >>> 8) % 256)
      ((args.addr.s_addr >>> 16) % 256) ((args.addr.s_addr >>> 24) % 256)
      ((args.listeningPort % 2 ^ 16) % 256) (((args.listeningPort % 2 ^ 16) >>> 8) % 256)
      127 255 (by omega) (by omega)
    refine ⟨a, t, _, frames, h, ht, hsent, ht1.trans hmin.symm, ?_, ?_, ?_, ?_, ?_, ?_⟩
    · rw [hrs, ht2]
    · rw [hre, hmax]
    · rw [ht1, ht2]; omega
    · rw [hrs, hre]; omega
    · intro x
      rw [hrs, hre, ht1, ht2]; omega
    · intro x
      rw [hrs, hre, ht1, ht2, hmin, hmax]; omega

/-- Witness of C36: the sample node with the table over [0, 255] and the joiner
127.0.0.2:5000, for Q13 and for Q5. -/
theorem split_partitions_range_witness :
    (∃ (a : node) (t : hash_table),
      Q13_handler sample_types sum_hash
        { sample_node with
          table := some (hash_table_create 0 255)
          lastPdu := some (.net_join ⟨3, 0x0200007F, 5000, 0, 0, 0⟩) } = some (states.Q6, a) ∧
      a.table = some t ∧ t.minHash = 0) ∧
    (∃ (a : node) (t : hash_table),
      Q5_handler sample_types sum_hash ⟨0x0200007F, 6000⟩
        { sample_node with
          table := some (hash_table_create 0 255)
          lastPdu := some (.net_join ⟨3, 0x0200007F, 5000, 0, 0, 0⟩) } = some (states.Q6, a) ∧
      a.table = some t ∧ t.minHash = 0) :=
  have h := split_partitions_range sample_types sum_hash ⟨0x0200007F, 6000⟩
    { sample_node with
      table := some (hash_table_create 0 255)
      lastPdu := some (.net_join ⟨3, 0x0200007F, 5000, 0, 0, 0⟩) }
    (hash_table_create 0 255) ⟨3, 0x0200007F, 5000, 0, 0, 0⟩ rfl rfl rfl
  ⟨(h.1 (by decide) (by decide)).imp
      (fun _ h1 => h1.imp (fun _ h2 => h2.elim (fun _ h3 => h3.elim (fun _ h4 =>
        ⟨h4.1, h4.2.1, h4.2.2.2.1⟩)))),
    (h.2 rfl rfl).imp
      (fun _ h1 => h1.imp (fun _ h2 => h2.elim (fun _ h3 => h3.elim (fun _ h4 =>
        ⟨h4.1, h4.2.1, h4.2.2.2.1⟩))))⟩

/-- C37. When a hand-over leaves no table. For every node with a table and every
rangeMin ≥ table.min (a bucket offset inside the array), `transfer_entry_range`
returns, and the node it leaves has no table if and only if rangeMin ≤ table.min,
that is when the hand-over starts at the minimum. Consequently Q13 on a table over
[min, max] with
min ≤ max ≤ 255 and max - min ≤ 1 sends the joiner a NET_JOIN_RESPONSE that decodes to
the whole range [min, max] and leaves the node without a table, while Q13 on a table
with max - min ≥ 2 leaves a table; and Q18 always returns EXIT with no table. -/
theorem hand_over_leaves_no_table (K : pdu_types) (hash_ssn : List Nat → Nat) (args : node)
    (table : hash_table) (htab : args.table = some table) :
    (∀ (fd : Nat) (rangeMin : Int), (table.minHash : Int) ≤ rangeMin →
      ∃ a : node, transfer_entry_range K hash_ssn args fd rangeMin = some a ∧
        (a.table = none ↔ rangeMin ≤ table.minHash)) ∧
    (∀ j : NET_JOIN_PDU, args.lastPdu = some (.net_join j) → args.sockets.length = 4 →
      table.minHash ≤ table.maxHash → table.maxHash ≤ 255 →
      (table.maxHash ≤ table.minHash + 1 →
        ∃ (a : node) (resp : List Nat) (frames : List (List Nat)),
          Q13_handler K hash_ssn args = some (states.Q6, a) ∧ a.table = none ∧
          a.sent = args.sent ++
            ⟨1, args.sockets.getD 1 none, [K.NET_CLOSE_CONNECTION % 256]⟩ ::
            ⟨1, some ⟨j.src_address, j.src_port⟩, resp⟩ ::
            frames.map (fun b => ⟨1, some ⟨j.src_address, j.src_port⟩, b⟩) ∧
          (parse_net_join_response (parse_pdu_type resp) resp).1.range_start =
            table.minHash ∧
          (parse_net_join_response (parse_pdu_type resp) resp).1.range_end =
            table.maxHash) ∧
      (table.minHash + 2 ≤ table.maxHash →
        ∃ (a : node) (t : hash_table),
          Q13_handler K hash_ssn args = some (states.Q6, a) ∧ a.table = some t)) ∧
    (∃ a : node, Q18_handler K hash_ssn args = some (states.EXIT, a) ∧ a.table = none) := by
  refine ⟨?_, ?_, ?_⟩
  · intro fd rangeMin _
    obtain ⟨a, frames, h, -, -, -, -, -, htp, htn⟩ := transfer_entry_range_spec K hash_ssn args
      fd rangeMin table htab
    refine ⟨a, h, ?_, fun hle => htn (by omega)⟩
    intro hnone
    by_contra hgt
    obtain ⟨t, ht, -⟩ := htp (by omega)
    rw [hnone] at ht
    cases ht
  · intro j hlast hsock hle hmax
    obtain ⟨a, frames, h, hsent, htp, htn⟩ := Q13_handler_spec K hash_ssn args table j htab
      hle hmax hlast hsock
    constructor
    · intro h1
      obtain ⟨hrs, hre⟩ := parse_net_join_response_range
        (parse_pdu_type [K.NET_JOIN_RESPONSE % 256,
          args.successor.s_addr % 256, (args.successor.s_addr >>> 8) % 256,
          (args.successor.s_addr >>> 16) % 256, (args.successor.s_addr >>> 24) % 256,
          args.successor.sin_port % 256, (args.successor.sin_port >>> 8) % 256,
          (table.minHash + table.maxHash) / 2, table.maxHash])
        (K.NET_JOIN_RESPONSE % 256)
        (args.successor.s_addr % 256) ((args.successor.s_addr >>> 8) % 256)
        ((args.successor.s_addr >>> 16) % 256) ((args.successor.s_addr >>> 24) % 256)
        (args.successor.sin_port % 256) ((args.successor.sin_port >>> 8) % 256)
        ((table.minHash + table.maxHash) / 2) table.maxHash (by omega) (by omega)
      refine ⟨a, _, frames, h, htn (by omega), hsent, ?_, hre⟩
      rw [hrs]; omega
    · intro h2
      obtain ⟨t, ht, -⟩ := htp (by omega)
      exact ⟨a, t, h, ht⟩
  · obtain ⟨frames, h, -⟩ := Q18_handler_spec K hash_ssn args table htab
    exact ⟨_, h, rfl⟩

/-- Witness of C37: the sample node with the table over [140, 141] and the joiner
127.0.0.2:5000: a hand-over from 140 on, Q13 and Q18 all leave it without a table, and
the joiner is sent the range [140, 141]; a hand-over from 141 on leaves a table. -/
theorem hand_over_leaves_no_table_witness :
    (∃ a : node,
      transfer_entry_range sample_types sum_hash
        { sample_node with
          table := some (hash_table_create 140 141)
          lastPdu := some (.net_join ⟨3, 0x0200007F, 5000, 0, 0, 0⟩) } 1 140 = some a ∧
      (a.table = none ↔ (140 : Int) ≤ (hash_table_create 140 141).minHash)) ∧
    (∃ a : node,
      transfer_entry_range sample_types sum_hash
        { sample_node with
          table := some (hash_table_create 140 141)
          lastPdu := some (.net_join ⟨3, 0x0200007F, 5000, 0, 0, 0⟩) } 1 141 = some a ∧
      (a.table = none ↔ (141 : Int) ≤ (hash_table_create 140 141).minHash)) ∧
    (∃ (a : node) (resp : List Nat),
      Q13_handler sample_types sum_hash
        { sample_node with
          table := some (hash_table_create 140 141)
          lastPdu := some (.net_join ⟨3, 0x0200007F, 5000, 0, 0, 0⟩) } = some (states.Q6, a) ∧
      a.table = none ∧
      (parse_net_join_response (parse_pdu_type resp) resp).1.range_start = 140 ∧
      (parse_net_join_response (parse_pdu_type resp) resp).1.range_end = 141) ∧
    (∃ a : node,
      Q18_handler sample_types sum_hash
        { sample_node with
          table := some (hash_table_create 140 141)
          lastPdu := some (.net_join ⟨3, 0x0200007F, 5000, 0, 0, 0⟩) } = some (states.EXIT, a) ∧
      a.table = none) :=
  have h := hand_over_leaves_no_table sample_types sum_hash
    { sample_node with
      table := some (hash_table_create 140 141)
      lastPdu := some (.net_join ⟨3, 0x0200007F, 5000, 0, 0, 0⟩) }
    (hash_table_create 140 141) rfl
  ⟨h.1 1 140 (by decide), h.1 1 141 (by decide),
    ((h.2.1 ⟨3, 0x0200007F, 5000, 0, 0, 0⟩ rfl rfl (by decide) (by decide)).1
      (by decide)).imp
      (fun _ h1 => h1.imp (fun _ h2 => h2.elim (fun _ h3 =>
        ⟨h3.1, h3.2.1, h3.2.2.2.1, h3.2.2.2.2⟩))),
    h.2.2⟩

/-! ## The blocking reads of Q2, Q3 and Q7 -/

theorem read_pdu_keeps (buff : socket_buffer) (chunks : List (List Nat)) (h : 1 ≤ buff.len) :
    1 ≤ (read_pdu buff chunks).len ∧
    (read_pdu buff chunks).buffer.getD 0 0 = buff.buffer.getD 0 0 := by
  induction chunks generalizing buff with
  | nil => exact ⟨h, rfl⟩
  | cons c rest ih =>
    unfold read_pdu
    simp only []
    split_ifs with hc
    · exact ⟨h, rfl⟩
    · have h2 : 1 ≤ (socket_append buff
          (c.take ((BUFF_SIZE : Int) - buff.len).toNat)).len := by
        simp only [socket_append]
        omega
      refine ⟨(ih _ h2).1, (ih _ h2).2.trans ?_⟩
      simp only [socket_append]
      rw [getD_serialize_string, if_neg (by omega)]

theorem read_udp_pdu_keeps (buff : socket_buffer) (chunks : List (List Nat))
    (h : 1 ≤ buff.len) :
    1 ≤ (read_udp_pdu buff chunks).len ∧
    (read_udp_pdu buff chunks).buffer.getD 0 0 = buff.buffer.getD 0 0 := by
  induction chunks generalizing buff with
  | nil => exact ⟨h, rfl⟩
  | cons c rest ih =>
    unfold read_udp_pdu
    simp only []
    split_ifs with hc hd
    · refine ⟨h, ?_⟩
      simp only [socket_append]
      rw [getD_serialize_string, if_neg (by omega)]
    · exact ⟨h, rfl⟩
    · have h2 : 1 ≤ (socket_append buff
          (c.take (min (c.length : Int) ((BUFF_SIZE : Int) - buff.len)).toNat)).len := by
        simp only [socket_append]
        omega
      refine ⟨(ih _ h2).1, (ih _ h2).2.trans ?_⟩
      simp only [socket_append]
      rw [getD_serialize_string, if_neg (by omega)]

/-- The loop of `read_pdu_type` never ends once the buffer holds a first byte that is
not the expected type: no read changes that byte, whatever arrives. -/
theorem read_pdu_type_blocks (expectedType : Nat) (buff : socket_buffer) (protocol : Nat)
    (rounds : List (List (List Nat))) (h : 1 ≤ buff.len)
    (hne : parse_pdu_type buff.buffer ≠ expectedType) :
    read_pdu_type expectedType buff protocol rounds = none := by
  induction rounds generalizing buff with
  | nil => rfl
  | cons r rest ih =>
    unfold read_pdu_type
    simp only []
    have hk : 1 ≤ (if protocol = TCP then read_pdu buff r else read_udp_pdu buff r).len ∧
        parse_pdu_type (if protocol = TCP then read_pdu buff r
          else read_udp_pdu buff r).buffer = parse_pdu_type buff.buffer := by
      unfold parse_pdu_type load_uint8
      split_ifs
      · exact ⟨(read_pdu_keeps buff r h).1, by rw [(read_pdu_keeps buff r h).2]⟩
      · exact ⟨(read_udp_pdu_keeps buff r h).1, by rw [(read_udp_pdu_keeps buff r h).2]⟩
    rw [if_pos (by rw [hk.2]; exact hne)]
    exact ih _ hk.1 (by rw [hk.2]; exact hne)

set_option maxRecDepth 100000 in
/-- C31. A frame is parsed before it is complete: the sample node is in Q7 and the
NET_JOIN_RESPONSE of nine bytes arrives on socket D in two pieces, first the three
bytes [4, 127, 0]. `read_pdu_type` returns after the first piece, when the buffer
holds three bytes; Q7 parses a NET_JOIN_RESPONSE out of it (next_address 127, port 0,
range [0, 0], from the cells beyond the three bytes), consumes nine bytes and returns
Q8 with the length of the buffer at -6. -/
theorem Q7_parses_incomplete_frame :
    NET_JOIN_RESPONSE_BASE_LENGTH = 9 ∧
    (read_pdu_type 4 empty_socket_buffer TCP
      [[[4, 127, 0]], [[0, 1, 160, 15, 128, 255]]]).map (fun r => (r.1, r.2.len)) =
      some (4, 3) ∧
    (Q7_handler sample_types ⟨0x0500000A, 6000⟩ [[[4, 127, 0]], [[0, 1, 160, 15, 128, 255]]]
      { sample_node with
        lastPdu := some (.net_get_node_response ⟨2, 0x0500000A, 5000⟩) }).map
      (fun r => (r.1, r.2.lastPdu, (r.2.socketBuffers.getD 3 default).len)) =
      some (states.Q8, some (.net_join_response ⟨4, 127, 0, 0, 0⟩), -6) ∧
    ¬ ((0 : Int) ≤ -6) :=
  ⟨by decide, by decide, by decide, by decide⟩

set_option maxRecDepth 100000 in
/-- C33. A frame of another type is never skipped: on an empty buffer of socket D the
byte of NET_CLOSE_CONNECTION (5) arrives first and the nine bytes of a
NET_JOIN_RESPONSE (4) after it. `read_pdu_type` with the expected type 4 does not
return, whatever arrives later: the first byte of the buffer stays 5. The same holds
on the UDP socket A for a NET_ALIVE byte (0) followed by a STUN_RESPONSE (201). When
the NET_JOIN_RESPONSE arrives alone, the function returns. -/
theorem read_pdu_type_never_skips :
    (∀ rest : List (List (List Nat)),
      read_pdu_type 4 empty_socket_buffer TCP
        ([[5]] :: [[4, 127, 0, 0, 1, 160, 15, 128, 255]] :: rest) = none) ∧
    (∀ rest : List (List (List Nat)),
      read_pdu_type 201 empty_socket_buffer UDP
        ([[0]] :: [[201, 127, 0, 0, 1]] :: rest) = none) ∧
    (read_pdu_type 4 empty_socket_buffer TCP
      [[[4, 127, 0, 0, 1, 160, 15, 128, 255]]]).map (fun r => (r.1, r.2.len)) =
      some (4, 9) := by
  refine ⟨fun rest => ?_, fun rest => ?_, by decide⟩
  · have e : read_pdu_type 4 empty_socket_buffer TCP
        ([[5]] :: [[4, 127, 0, 0, 1, 160, 15, 128, 255]] :: rest) =
        read_pdu_type 4 (read_pdu empty_socket_buffer [[5]]) TCP
          ([[4, 127, 0, 0, 1, 160, 15, 128, 255]] :: rest) := by
      rw [read_pdu_type]
      have hp : parse_pdu_type (read_pdu empty_socket_buffer [[5]]).buffer ≠ 4 := by decide
      simp only [if_true, if_pos hp]
    rw [e]
    exact read_pdu_type_blocks 4 _ TCP _ (by decide) (by decide)
  · have e : read_pdu_type 201 empty_socket_buffer UDP
        ([[0]] :: [[201, 127, 0, 0, 1]] :: rest) =
        read_pdu_type 201 (read_udp_pdu empty_socket_buffer [[0]]) UDP
          ([[201, 127, 0, 0, 1]] :: rest) := by
      rw [read_pdu_type]
      have hu : ¬ UDP = TCP := by decide
      have hp : parse_pdu_type (read_udp_pdu empty_socket_buffer [[0]]).buffer ≠ 201 := by
        decide
      simp only [if_neg hu, if_pos hp]
    rw [e]
    exact read_pdu_type_blocks 201 _ UDP _ (by decide) (by decide)

/-! ## The framing of VAL_INSERT in Q6 -/

theorem load_bytes_congr (p q : List Nat) (off m : Nat)
    (h : ∀ k, k < m → p.getD (off + k) 0 = q.getD (off + k) 0) :
    load_bytes p off m = load_bytes q off m := by
  unfold load_bytes
  apply List.map_congr_left
  intro k hk
  simp only [List.mem_range] at hk
  unfold load_uint8
  rw [h k hk]

/-- The two length bytes of a VAL_INSERT frame and the frame `parse_val_insert_pdu`
decodes depend on the cells of the frame only. -/
theorem parse_val_insert_pdu_congr (T : Nat) (p q : List Nat) (L : Nat)
    (h : ∀ k, k < L → p.getD k 0 = q.getD k 0)
    (hL : 15 + load_uint8 p 13 + load_uint8 p (14 + load_uint8 p 13) ≤ L) :
    load_uint8 q 13 = load_uint8 p 13 ∧
    load_uint8 q (14 + load_uint8 q 13) = load_uint8 p (14 + load_uint8 p 13) ∧
    parse_val_insert_pdu T q = parse_val_insert_pdu T p := by
  have h13 : load_uint8 q 13 = load_uint8 p 13 := by
    unfold load_uint8
    rw [h 13 (by omega)]
  have he : load_uint8 q (14 + load_uint8 q 13) = load_uint8 p (14 + load_uint8 p 13) := by
    rw [h13]
    generalize load_uint8 p 13 = n at hL ⊢
    unfold load_uint8 at hL ⊢
    rw [h (14 + n) (by omega)]
  refine ⟨h13, he, ?_⟩
  unfold parse_val_insert_pdu
  simp only [SSN_LENGTH]
  have he2 : load_uint8 q (1 + 12 + 1 + load_uint8 q (1 + 12)) =
      load_uint8 p (1 + 12 + 1 + load_uint8 p (1 + 12)) := he
  have h132 : load_uint8 q (1 + 12) = load_uint8 p (1 + 12) := h13
  have hL2 : 15 + load_uint8 p (1 + 12) +
      load_uint8 p (1 + 12 + 1 + load_uint8 p (1 + 12)) ≤ L := hL
  rw [he2, h132]
  generalize load_uint8 p (1 + 12) = n at hL2 ⊢
  generalize load_uint8 p (1 + 12 + 1 + n) = e at hL2 ⊢
  rw [load_bytes_congr q p 1 12 (fun k hk => (h _ (by omega)).symm),
    load_bytes_congr q p (1 + 12 + 1) n (fun k hk => (h _ (by omega)).symm),
    load_bytes_congr q p (1 + 12 + 1 + n + 1) e (fun k hk => (h _ (by omega)).symm)]

/-- The iteration of Q6 for a slot whose first byte is VAL_INSERT: the frame is
decoded and consumed when the buffer holds all of it, and nothing happens
otherwise. -/
theorem Q6_slot_val_insert_cases (K : pdu_types) (hK : K.wf) (args : node) (i : Nat)
    (b : socket_buffer) (hb : args.socketBuffers.getD i default = b)
    (ht : parse_pdu_type b.buffer = K.VAL_INSERT) :
    (((15 + load_uint8 b.buffer 13 +
        load_uint8 b.buffer (14 + load_uint8 b.buffer 13) : Nat) : Int) ≤ b.len →
      Q6_slot K args i =
        (some states.Q9,
          save_last_pdu
            (consume_frame args i
              ((15 + load_uint8 b.buffer 13 +
                load_uint8 b.buffer (14 + load_uint8 b.buffer 13) : Nat) : Int))
            (.val_insert (parse_val_insert_pdu K.VAL_INSERT b.buffer).1))) ∧
    (b.len < ((15 + load_uint8 b.buffer 13 +
        load_uint8 b.buffer (14 + load_uint8 b.buffer 13) : Nat) : Int) →
      Q6_slot K args i = (none, args)) := by
  subst hb
  exact ⟨fun h => Q6_slot_val_insert K args i ht h,
    fun h => (Q6_slot_short_kept K hK args i).1 ht (Or.inr (Or.inr h))⟩

/-- C32. VAL_INSERT framing in Q6 is in bounds. For every slot whose buffer holds
len ≥ 1 bytes of which the first is VAL_INSERT, with n the byte at index 13 and e the
byte at index 14 + n: the iteration of Q6 for the slot does nothing when len < 15,
when 15 ≤ len < 15 + n and when 15 + n ≤ len < 15 + n + e, and returns Q9 if and only
if len ≥ 15 + n + e; it then stores the decoded frame and consumes
15 + n + e bytes, the length `parse_val_insert_pdu` returns. No cell at an index
≥ len is read: a buffer with the same len bytes and any other cells behind them gives
the same returned state, the same `lastPdu` and the same bytes left in the slot. -/
theorem Q6_val_insert_in_bounds (K : pdu_types) (hK : K.wf) (args : node) (i : Nat)
    (b : socket_buffer) (hi : i < args.socketBuffers.length)
    (hb : args.socketBuffers.getD i default = b)
    (hcap : b.len ≤ b.buffer.length) (hlen : 1 ≤ b.len)
    (ht : parse_pdu_type b.buffer = K.VAL_INSERT) :
    (b.len < 15 → Q6_slot K args i = (none, args)) ∧
    (15 ≤ b.len → b.len < ((15 + load_uint8 b.buffer 13 : Nat) : Int) →
      Q6_slot K args i = (none, args)) ∧
    (((15 + load_uint8 b.buffer 13 : Nat) : Int) ≤ b.len →
      b.len < ((15 + load_uint8 b.buffer 13 +
        load_uint8 b.buffer (14 + load_uint8 b.buffer 13) : Nat) : Int) →
      Q6_slot K args i = (none, args)) ∧
    ((Q6_slot K args i).1 = some states.Q9 ↔
      ((15 + load_uint8 b.buffer 13 +
        load_uint8 b.buffer (14 + load_uint8 b.buffer 13) : Nat) : Int) ≤ b.len) ∧
    (((15 + load_uint8 b.buffer 13 +
        load_uint8 b.buffer (14 + load_uint8 b.buffer 13) : Nat) : Int) ≤ b.len →
      (Q6_slot K args i).2.lastPdu =
        some (.val_insert (parse_val_insert_pdu K.VAL_INSERT b.buffer).1) ∧
      (parse_val_insert_pdu K.VAL_INSERT b.buffer).2 =
        15 + load_uint8 b.buffer 13 + load_uint8 b.buffer (14 + load_uint8 b.buffer 13) ∧
      ((Q6_slot K args i).2.socketBuffers.getD i default).len =
        b.len - (parse_val_insert_pdu K.VAL_INSERT b.buffer).2 ∧
      ((Q6_slot K args i).2.socketBuffers.getD i default).content =
        b.content.drop (parse_val_insert_pdu K.VAL_INSERT b.buffer).2) ∧
    (∀ b2 : socket_buffer, b2.len = b.len → b2.content = b.content →
      (Q6_slot K (set_socket_buffer args i b2) i).1 = (Q6_slot K args i).1 ∧
      (Q6_slot K (set_socket_buffer args i b2) i).2.lastPdu = (Q6_slot K args i).2.lastPdu ∧
      ((Q6_slot K (set_socket_buffer args i b2) i).2.socketBuffers.getD i default).len =
        ((Q6_slot K args i).2.socketBuffers.getD i default).len ∧
      ((Q6_slot K (set_socket_buffer args i b2) i).2.socketBuffers.getD i default).content =
        ((Q6_slot K args i).2.socketBuffers.getD i default).content) := by
  obtain ⟨hfull, hshort⟩ := Q6_slot_val_insert_cases K hK args i b hb ht
  have hshort3 := (Q6_slot_short_kept K hK args i).1 (by rw [hb]; exact ht)
  rw [hb] at hshort3
  have hplen : (parse_val_insert_pdu K.VAL_INSERT b.buffer).2 =
      15 + load_uint8 b.buffer 13 + load_uint8 b.buffer (14 + load_uint8 b.buffer 13) := by
    have e : (parse_val_insert_pdu K.VAL_INSERT b.buffer).2 =
        1 + 12 + 1 + load_uint8 b.buffer 13 + 1 +
          load_uint8 b.buffer (14 + load_uint8 b.buffer 13) := rfl
    rw [e]
    omega
  have hslot : ∀ (a : node) (c : socket_buffer) (N : Nat),
      a.socketBuffers.getD i default = c → i < a.socketBuffers.length →
      (N : Int) ≤ c.len → c.len ≤ c.buffer.length →
      ∀ p, ((save_last_pdu (consume_frame a i (N : Int)) p).socketBuffers.getD i default).len =
          c.len - N ∧
        ((save_last_pdu (consume_frame a i (N : Int)) p).socketBuffers.getD i default).content =
          c.content.drop N := by
    intro a c N hc hia hN hcapc p
    have h1 := (consume_frame_buffers a i (N : Int) hia).1
    rw [hc] at h1
    obtain ⟨g1, -, g3⟩ := clear_buffer_spec c N hN hcapc
    have e : (save_last_pdu (consume_frame a i (N : Int)) p).socketBuffers =
        (consume_frame a i (N : Int)).socketBuffers := rfl
    rw [e, h1]
    exact ⟨g1, g3⟩
  refine ⟨fun h => hshort3 (Or.inl h), fun _ h => hshort3 (Or.inr (Or.inl h)),
    fun _ h => hshort h, ?_, ?_, ?_⟩
  · constructor
    · intro h
      by_contra hn
      rw [hshort (by omega)] at h
      cases h
    · intro h
      rw [hfull h]
  · intro h
    rw [hfull h, hplen]
    exact ⟨rfl, rfl, hslot args b _ hb hi h hcap _⟩
  · intro b2 hl2 hc2
    have hb2 : (set_socket_buffer args i b2).socketBuffers.getD i default = b2 := by
      have hc : True ∧ i < args.socketBuffers.length := ⟨trivial, hi⟩
      simp only [set_socket_buffer, getD_set_ite]
      rw [if_pos hc]
    have hi2 : i < (set_socket_buffer args i b2).socketBuffers.length := by
      simp only [set_socket_buffer, List.length_set]
      exact hi
    have hcells : ∀ k, k < b.len.toNat → b2.buffer.getD k 0 = b.buffer.getD k 0 := by
      intro k hk
      rw [content_getD b2 k (by omega), content_getD b k (by omega), hc2]
    have hcap2 : b2.len ≤ b2.buffer.length := by
      have e1 : b2.content.length = b.content.length := by rw [hc2]
      simp only [socket_buffer.content, List.length_take] at e1
      omega
    have ht2 : parse_pdu_type b2.buffer = K.VAL_INSERT := by
      rw [← ht]
      unfold parse_pdu_type load_uint8
      rw [hcells 0 (by omega)]
    obtain ⟨hfull2, hshort2⟩ := Q6_slot_val_insert_cases K hK (set_socket_buffer args i b2) i
      b2 hb2 ht2
    by_cases hf : ((15 + load_uint8 b.buffer 13 +
        load_uint8 b.buffer (14 + load_uint8 b.buffer 13) : Nat) : Int) ≤ b.len
    · obtain ⟨c1, c2, c3⟩ := parse_val_insert_pdu_congr K.VAL_INSERT b.buffer b2.buffer
        b.len.toNat (fun k hk => (hcells k hk).symm) (by omega)
      have hf2 : ((15 + load_uint8 b2.buffer 13 +
          load_uint8 b2.buffer (14 + load_uint8 b2.buffer 13) : Nat) : Int) ≤ b2.len := by
        rw [c2, c1, hl2]; exact hf
      rw [hfull2 hf2, hfull hf, c3, c2, c1]
      obtain ⟨s1, s2⟩ := hslot args b _ hb hi hf hcap
        (.val_insert (parse_val_insert_pdu K.VAL_INSERT b.buffer).1)
      obtain ⟨r1, r2⟩ := hslot (set_socket_buffer args i b2) b2
        (15 + load_uint8 b.buffer 13 + load_uint8 b.buffer (14 + load_uint8 b.buffer 13))
        hb2 hi2 (by rw [hl2]; exact hf) hcap2
        (.val_insert (parse_val_insert_pdu K.VAL_INSERT b.buffer).1)
      refine ⟨rfl, rfl, ?_, ?_⟩
      · rw [s1, r1, hl2]
      · rw [s2, r2, hc2]
    · have hf2 : ¬ ((15 + load_uint8 b2.buffer 13 +
          load_uint8 b2.buffer (14 + load_uint8 b2.buffer 13) : Nat) : Int) ≤ b2.len := by
        intro hf2
        obtain ⟨c1, c2, -⟩ := parse_val_insert_pdu_congr K.VAL_INSERT b2.buffer b.buffer
          b.len.toNat hcells (by omega)
        rw [c2, c1] at hf
        exact hf (by rw [← hl2]; exact hf2)
      rw [hshort2 (by omega), hshort (by omega)]
      refine ⟨rfl, rfl, ?_, ?_⟩
      · rw [hb2, hb, hl2]
      · rw [hb2, hb, hc2]

set_option maxRecDepth 100000 in
/-- Witness of C32: the sample node holds in the buffer of socket B a VAL_INSERT frame
of 18 bytes (name "AB", email "C") followed by the byte 9; the iteration of Q6 for the
slot returns Q9, stores the frame and leaves the byte 9. -/
theorem Q6_val_insert_in_bounds_witness :
    (Q6_slot sample_types
      (set_socket_buffer sample_node 1
        (socket_buffer_with (100 :: example_ssn ++ [2, 65, 66, 1, 67, 9]))) 1).1 =
      some states.Q9 ∧
    (Q6_slot sample_types
      (set_socket_buffer sample_node 1
        (socket_buffer_with (100 :: example_ssn ++ [2, 65, 66, 1, 67, 9]))) 1).2.lastPdu =
      some (.val_insert ⟨100, example_ssn, 2, [65, 66], 1, [67]⟩) ∧
    ((Q6_slot sample_types
      (set_socket_buffer sample_node 1
        (socket_buffer_with (100 :: example_ssn ++ [2, 65, 66, 1, 67, 9]))) 1).2.socketBuffers.getD
      1 default).content = [9] :=
  have h := Q6_val_insert_in_bounds sample_types (by decide)
    (set_socket_buffer sample_node 1
      (socket_buffer_with (100 :: example_ssn ++ [2, 65, 66, 1, 67, 9]))) 1
    (socket_buffer_with (100 :: example_ssn ++ [2, 65, 66, 1, 67, 9]))
    (by decide) rfl (by decide) (by decide) (by decide)
  have h5 := h.2.2.2.2.1 (by decide)
  ⟨h.2.2.2.1.2 (by decide), h5.1.trans (by decide), h5.2.2.2.trans (by decide)⟩

/-! ## The strings of the stored records -/

/-- The C string held by a buffer is its longest prefix without a zero byte: it has
no zero byte, and it is the whole buffer or is followed in it by a zero byte. -/
theorem c_string_spec (l : List Nat) :
    (∀ x ∈ c_string l, x ≠ 0) ∧ (c_string l).length ≤ l.length ∧
    (is_bytes l → is_bytes (c_string l)) ∧
    (c_string l = l ∨ ∃ rest, l = c_string l ++ 0 :: rest) := by
  refine ⟨?_, ?_, ?_, ?_⟩
  · intro x hx
    have := List.mem_takeWhile_imp hx
    simpa using this
  · exact (List.takeWhile_sublist _).length_le
  · intro hb x hx
    exact hb x ((List.takeWhile_sublist _).subset hx)
  · induction l with
    | nil => left; rfl
    | cons a t ih =>
      by_cases ha : a = 0
      · right
        subst ha
        exact ⟨t, by simp [c_string]⟩
      · have e : c_string (a :: t) = a :: c_string t := by
          simp [c_string, ha]
        rcases ih with h | ⟨rest, h⟩
        · left
          rw [e, h]
        · right
          refine ⟨rest, ?_⟩
          rw [e]
          exact congrArg (List.cons a) h

/-- Every frame `parse_val_insert_pdu` decodes has fields of the declared widths. -/
theorem parse_val_insert_pdu_wf (T : Nat) (pdu : List Nat) :
    (parse_val_insert_pdu T pdu).1.wf :=
  ⟨Nat.mod_lt _ (by decide), length_load_bytes _ _ _, is_bytes_load_bytes _ _ _,
    load_uint8_lt _ _, length_load_bytes _ _ _, is_bytes_load_bytes _ _ _,
    load_uint8_lt _ _, length_load_bytes _ _ _, is_bytes_load_bytes _ _ _⟩

/-- The record made of a decoded VAL_INSERT frame is a stored record. -/
theorem create_entry_stored (pdu : VAL_INSERT_PDU) (hs : pdu.wf) :
    (hash_table_create_entry pdu.ssn pdu.name pdu.email).stored := by
  obtain ⟨-, hl, hb, hn, hnl, hnb, he, hel, heb⟩ := hs
  obtain ⟨n1, n2, n3, -⟩ := c_string_spec pdu.name
  obtain ⟨e1, e2, e3, -⟩ := c_string_spec pdu.email
  refine ⟨create_entry_ssn_length _ _ _, ?_, ?_, n3 hnb, n1, ?_, e3 heb, e1⟩
  · rw [create_entry_ssn_copy _ _ _ hl]
    exact hb
  · show (c_string pdu.name).length ≤ 255
    omega
  · show (c_string pdu.email).length ≤ 255
    omega

/-- The copy `hash_table_create_entry` makes of a stored record is the record. -/
theorem create_entry_of_stored (e : hash_table_entry) (h : e.stored) :
    hash_table_create_entry e.ssn e.name e.email = e := by
  obtain ⟨h1, -, -, -, h5, -, -, h8⟩ := h
  have e1 := create_entry_ssn_copy e.ssn e.name e.email h1
  cases e
  simp only [hash_table_create_entry] at e1 ⊢
  simp only at h5 h8
  rw [e1, c_string_of_no_zero _ h5, c_string_of_no_zero _ h8]

/-- The records of a resized table are copies of records of the table. -/
theorem hash_table_resize_records (table : hash_table) (newMin newMax : Nat) :
    ∀ r ∈ (hash_table_resize table newMin newMax).records,
      ∃ e ∈ table.records, r = hash_table_create_entry e.ssn e.name e.email := by
  intro r hr
  unfold hash_table.records at hr ⊢
  rw [mem_flatten_iff_getD] at hr
  obtain ⟨j, hj⟩ := hr
  rw [(hash_table_resize_buckets table newMin newMax).2.2.2 j] at hj
  split_ifs at hj with hc
  · obtain ⟨e, he, rfl⟩ := List.mem_map.1 hj
    exact ⟨e, (mem_flatten_iff_getD _ _).2 ⟨_, he⟩, rfl⟩
  · cases hj

/-- The records of a table after `hash_table_insert` are its records and the entry. -/
theorem hash_table_insert_records (hash_ssn : List Nat → Nat) (table : hash_table)
    (e : hash_table_entry) :
    ∀ r ∈ (hash_table_insert hash_ssn table e).2.records, r ∈ table.records ∨ r = e := by
  intro r hr
  by_cases h : hash_t (hash_ssn e.ssn) < table.minHash ∨ hash_t (hash_ssn e.ssn) > table.maxHash
  · rw [hash_table_insert_out _ _ _ h] at hr
    exact Or.inl hr
  · rw [hash_table_insert_in _ _ _ h] at hr
    unfold hash_table.records at hr ⊢
    rw [mem_flatten_iff_getD] at hr
    obtain ⟨k, hk⟩ := hr
    simp only [getD_set_ite] at hk
    split_ifs at hk with hc
    · rcases List.mem_append.1 hk with h1 | h1
      · exact Or.inl ((mem_flatten_iff_getD _ _).2 ⟨_, h1⟩)
      · exact Or.inr (by simpa using h1)
    · exact Or.inl ((mem_flatten_iff_getD _ _).2 ⟨_, hk⟩)

/-- The record `hash_table_lookup` yields is a record of the table. -/
theorem hash_table_lookup_mem (hash_ssn : List Nat → Nat) (table : hash_table)
    (ssn : List Nat) (entry : hash_table_entry) (s : Int) (t : hash_table)
    (h : hash_table_lookup hash_ssn table ssn none = (s, some entry, t)) :
    entry ∈ table.records ∧ same_ssn ssn entry := by
  by_cases ho : hash_t (hash_ssn ssn) < table.minHash ∨ hash_t (hash_ssn ssn) > table.maxHash
  · rw [hash_table_lookup_out _ _ _ _ ho] at h
    cases h
  · rcases lookup_index_from_cases ssn (table.bucket_of (hash_t (hash_ssn ssn))) with
      hno | ⟨pre, r, post, hb, hpre, hr⟩
    · rw [hash_table_lookup_absent _ _ _ _ ho hno] at h
      cases h
    · rw [hash_table_lookup_present _ _ _ _ ho pre r post hb hpre hr] at h
      cases h
      refine ⟨?_, hr⟩
      unfold hash_table.records
      rw [mem_flatten_iff_getD]
      refine ⟨hash_t (hash_ssn ssn) - table.minHash, ?_⟩
      have hb' : table.buckets.getD (hash_t (hash_ssn ssn) - table.minHash) [] =
          pre ++ entry :: post := hb
      rw [hb']
      simp

/-- The frame `transfer_entry_range` sends for a stored record: the type, the ssn,
the length of the name, the name, the length of the email, the email. -/
theorem transfer_frame_stored (K : pdu_types) (hK : K.wf) (e : hash_table_entry)
    (h : e.stored) :
    transfer_frame K e =
      K.VAL_INSERT :: e.ssn ++ e.name.length :: e.name ++ e.email.length :: e.email ∧
    (transfer_frame K e).length = 15 + e.name.length + e.email.length := by
  obtain ⟨h1, h2, h3, h4, h5, h6, h7, h8⟩ := h
  have hlt : K.VAL_INSERT < 2 ^ 8 := hK.1 K.VAL_INSERT (by simp [pdu_types.all])
  have hn : strlen e.name % 256 = e.name.length := by
    unfold strlen
    rw [c_string_of_no_zero _ h5]
    omega
  have he : strlen e.email % 256 = e.email.length := by
    unfold strlen
    rw [c_string_of_no_zero _ h8]
    omega
  have hmap : ∀ l : List Nat, (List.range l.length).map (fun k => l.getD k 0) = l := by
    intro l
    apply ext_getD
    · simp
    · intro k hk
      simp only [List.length_map, List.length_range] at hk
      simp [List.getD_eq_getElem?_getD, List.getElem?_map, List.getElem?_range hk]
  have hssn : (List.range SSN_LENGTH).map (fun k => e.ssn.getD k 0) = e.ssn := by
    have := hmap e.ssn
    rw [h1] at this
    exact this
  have hfr : transfer_frame K e =
      K.VAL_INSERT :: e.ssn ++ e.name.length :: e.name ++ e.email.length :: e.email := by
    unfold transfer_frame
    simp only [hn, he, hssn, hmap]
    have e2 : (serialize_val_insert_pdu
        (List.replicate (VAL_INSERT_BASE_LENGTH + e.name.length + e.email.length) 0)
        ⟨K.VAL_INSERT, e.ssn, e.name.length, e.name, e.email.length, e.email⟩).2 =
        15 + e.name.length + e.email.length := by
      simp only [serialize_val_insert_pdu, SSN_LENGTH]
      omega
    rw [e2]
    exact serialize_val_insert_pdu_take _
      ⟨K.VAL_INSERT, e.ssn, e.name.length, e.name, e.email.length, e.email⟩
      (by simp [VAL_INSERT_BASE_LENGTH])
      ⟨hlt, h1, h2, by show e.name.length < 2 ^ 8; omega, rfl, h4,
        by show e.email.length < 2 ^ 8; omega, rfl, h7⟩
  refine ⟨hfr, ?_⟩
  rw [hfr]
  simp only [List.length_cons, List.length_append, h1]
  omega

/-- C38. Stored string lengths fit in one byte. Every frame `parse_val_insert_pdu`
decodes has a name and an email of the declared lengths, below 256; the record Q9
stores from such a frame in range has a name and an email of at most 255 bytes, and
when all records of the table are stored records (12 ssn bytes, strings of at most 255
non-zero bytes) they still are after that insert and after `hash_table_resize`. Hence
every frame `transfer_entry_range` sends is, for a record of the table, the type, the
ssn, the length of the name, the name, the length of the email and the email, with
both lengths below 256, and is 15 + |name| + |email| bytes long; and so is the
VAL_LOOKUP_RESPONSE Q9 sends for a record that `hash_table_lookup` finds. -/
theorem stored_lengths_fit_one_byte (K : pdu_types) (hash_ssn : List Nat → Nat)
    (args : node) (table : hash_table) (hK : K.wf) (htab : args.table = some table)
    (hst : ∀ r ∈ table.records, r.stored) :
    (∀ (T : Nat) (buf : List Nat), (parse_val_insert_pdu T buf).1.wf) ∧
    (∀ pdu : VAL_INSERT_PDU, pdu.wf → pdu.type = K.VAL_INSERT →
      args.lastPdu = some (.val_insert pdu) →
      ¬ (hash_t (hash_ssn pdu.ssn) < table.minHash ∨
        hash_t (hash_ssn pdu.ssn) > table.maxHash) →
      Q9_handler K hash_ssn args =
        some (states.Q6,
          { args with
            table := some (hash_table_insert hash_ssn table
              (hash_table_create_entry pdu.ssn pdu.name pdu.email)).2 }) ∧
      (hash_table_create_entry pdu.ssn pdu.name pdu.email).name.length ≤ 255 ∧
      (hash_table_create_entry pdu.ssn pdu.name pdu.email).email.length ≤ 255 ∧
      ∀ r ∈ (hash_table_insert hash_ssn table
        (hash_table_create_entry pdu.ssn pdu.name pdu.email)).2.records, r.stored) ∧
    (∀ (newMin newMax : Nat), ∀ r ∈ (hash_table_resize table newMin newMax).records,
      r ∈ table.records ∧ r.stored) ∧
    (∀ (fd : Nat) (rangeMin : Int),
      ∃ (frames : List (List Nat)) (t : Option hash_table),
        transfer_entry_range K hash_ssn args fd rangeMin =
          some { args with
            sent := args.sent ++ frames.map (fun b => ⟨fd, args.sockets.getD fd none, b⟩)
            table := t } ∧
        ∀ f ∈ frames, ∃ e ∈ table.records,
          f = K.VAL_INSERT :: e.ssn ++ e.name.length :: e.name ++
            e.email.length :: e.email ∧
          e.name.length < 256 ∧ e.email.length < 256 ∧
          f.length = 15 + e.name.length + e.email.length) ∧
    (∀ (q : VAL_LOOKUP_PDU) (entry : hash_table_entry),
      args.lastPdu = some (.val_lookup q) → q.type = K.VAL_LOOKUP →
      hash_table_lookup hash_ssn table q.ssn none = (0, some entry, table) →
      Q9_handler K hash_ssn args =
        some (states.Q6, sendto args 0 ⟨q.sender_address, q.sender_port⟩
          (K.VAL_LOOKUP_RESPONSE :: entry.ssn ++ entry.name.length :: entry.name ++
            entry.email.length :: entry.email)) ∧
      entry.name.length < 256 ∧ entry.email.length < 256 ∧
      (K.VAL_LOOKUP_RESPONSE :: entry.ssn ++ entry.name.length :: entry.name ++
        entry.email.length :: entry.email).length =
        15 + entry.name.length + entry.email.length) := by
  refine ⟨fun T buf => parse_val_insert_pdu_wf T buf, ?_, ?_, ?_, ?_⟩
  · intro pdu hs ht hlast hin
    have hstored := create_entry_stored pdu hs
    refine ⟨Q9_insert_local K hash_ssn args pdu table hlast ht htab hs.2.1 hin,
      hstored.2.2.1, hstored.2.2.2.2.2.1, ?_⟩
    intro r hr
    rcases hash_table_insert_records hash_ssn table _ r hr with h | h
    · exact hst r h
    · rw [h]; exact hstored
  · intro newMin newMax r hr
    obtain ⟨e, he, rfl⟩ := hash_table_resize_records table newMin newMax r hr
    rw [create_entry_of_stored e (hst e he)]
    exact ⟨he, hst e he⟩
  · intro fd rangeMin
    obtain ⟨frames, t, h, hf, -⟩ := transfer_entry_range_frames K hash_ssn args fd rangeMin
      table htab
    refine ⟨frames, t, h, ?_⟩
    intro f hfm
    obtain ⟨e, he, rfl⟩ := hf f hfm
    obtain ⟨g1, g2⟩ := transfer_frame_stored K hK e (hst e he)
    have hs := hst e he
    exact ⟨e, he, g1, by have := hs.2.2.1; omega, by have := hs.2.2.2.2.2.1; omega, g2⟩
  · intro q entry hlast ht hlook
    obtain ⟨hmem, -⟩ := hash_table_lookup_mem hash_ssn table q.ssn entry 0 table hlook
    obtain ⟨h1, h2, h3, h4, h5, h6, h7, h8⟩ := hst entry hmem
    have hn : strlen entry.name = entry.name.length := by
      unfold strlen
      rw [c_string_of_no_zero _ h5]
    have he : strlen entry.email = entry.email.length := by
      unfold strlen
      rw [c_string_of_no_zero _ h8]
    have hq := Q9_lookup_hit K hash_ssn args q table hK hlast ht htab entry hlook h1 h2
      (by rw [hn]; omega) h4 (by rw [he]; omega) h7
    rw [hn, he, c_string_of_no_zero _ h5, c_string_of_no_zero _ h8] at hq
    refine ⟨hq, by omega, by omega, ?_⟩
    simp only [List.length_cons, List.length_append, h1]
    omega

set_option maxRecDepth 100000 in
/-- Witness of C38: the sample node with the sample table over [140, 150], which
holds the record "Rolf": the records of the table resized to [140, 150] are stored
records, and the frames of the hand-over from 140 on carry the true lengths. -/
theorem stored_lengths_fit_one_byte_witness :
    (∀ r ∈ (hash_table_resize example_table 140 150).records,
      r ∈ example_table.records ∧ r.stored) ∧
    (∃ (frames : List (List Nat)) (t : Option hash_table),
      transfer_entry_range sample_types sum_hash
          { sample_node with table := some example_table } 1 140 =
        some { sample_node with
          sent := [] ++ frames.map (fun b => ⟨1, none, b⟩)
          table := t } ∧
      ∀ f ∈ frames, ∃ e ∈ example_table.records,
        f = 100 :: e.ssn ++ e.name.length :: e.name ++ e.email.length :: e.email ∧
        e.name.length < 256 ∧ e.email.length < 256 ∧
        f.length = 15 + e.name.length + e.email.length) :=
  have h := stored_lengths_fit_one_byte sample_types sum_hash
    { sample_node with table := some example_table } example_table (by decide) rfl
    (by decide)
  ⟨h.2.2.1 140 150, h.2.2.2.1 1 140⟩

/-- C39. Zero bytes cut stored strings. For every decoded VAL_INSERT frame in
`lastPdu` and every node with a table: when the ssn hashes into the range, Q9 appends
to the bucket of that hash the record e whose name (email) is the longest prefix of
the name (email) of the frame without a zero byte: it has no zero byte, and it is the
whole string or is followed in it by a zero byte; and, when the table is allocated
and held no record of that ssn, Q9 on a VAL_LOOKUP of the ssn then answers with the
VAL_LOOKUP_RESPONSE that carries that prefix and its length. When the ssn hashes out
of the range, Q9 sends on socket B the frame with all name_length and email_length
bytes of the two strings. -/
theorem zero_bytes_cut_stored_strings (K : pdu_types) (hash_ssn : List Nat → Nat)
    (a : node) (pdu : VAL_INSERT_PDU) (table : hash_table) (hK : K.wf) (hs : pdu.wf)
    (ht : pdu.type = K.VAL_INSERT) (hlast : a.lastPdu = some (.val_insert pdu))
    (htab : a.table = some table) :
    (¬ (hash_t (hash_ssn pdu.ssn) < table.minHash ∨
        hash_t (hash_ssn pdu.ssn) > table.maxHash) →
      ∃ (e : hash_table_entry) (t2 : hash_table),
        Q9_handler K hash_ssn a = some (states.Q6, { a with table := some t2 }) ∧
        t2 = (hash_table_insert hash_ssn table e).2 ∧
        e.ssn = pdu.ssn ∧ e.name = c_string pdu.name ∧ e.email = c_string pdu.email ∧
        (∀ x ∈ e.name, x ≠ 0) ∧
        (e.name = pdu.name ∨ ∃ rest, pdu.name = e.name ++ 0 :: rest) ∧
        (∀ x ∈ e.email, x ≠ 0) ∧
        (e.email = pdu.email ∨ ∃ rest, pdu.email = e.email ++ 0 :: rest) ∧
        (table.allocated → (∀ r ∈ table.records, ¬ same_ssn pdu.ssn r) →
          t2.bucket_of (hash_t (hash_ssn pdu.ssn)) =
            table.bucket_of (hash_t (hash_ssn pdu.ssn)) ++ [e] ∧
          ∀ (a2 : node) (q : VAL_LOOKUP_PDU), a2.table = some t2 →
            a2.lastPdu = some (.val_lookup q) → q.type = K.VAL_LOOKUP → q.ssn = pdu.ssn →
            Q9_handler K hash_ssn a2 =
              some (states.Q6, sendto a2 0 ⟨q.sender_address, q.sender_port⟩
                (K.VAL_LOOKUP_RESPONSE :: pdu.ssn ++ e.name.length :: e.name ++
                  e.email.length :: e.email)))) ∧
    ((hash_t (hash_ssn pdu.ssn) < table.minHash ∨
        hash_t (hash_ssn pdu.ssn) > table.maxHash) →
      Q9_handler K hash_ssn a =
        some (states.Q6, send a 1
          (K.VAL_INSERT :: pdu.ssn ++ pdu.name_length :: pdu.name ++
            pdu.email_length :: pdu.email)) ∧
      pdu.name.length = pdu.name_length ∧ pdu.email.length = pdu.email_length) := by
  constructor
  · intro hin
    obtain ⟨n1, -, -, n4⟩ := c_string_spec pdu.name
    obtain ⟨e1, -, -, e4⟩ := c_string_spec pdu.email
    have hstored := create_entry_stored pdu hs
    have hssn := create_entry_ssn_copy pdu.ssn pdu.name pdu.email hs.2.1
    refine ⟨hash_table_create_entry pdu.ssn pdu.name pdu.email, _,
      Q9_insert_local K hash_ssn a pdu table hlast ht htab hs.2.1 hin, rfl, hssn, rfl, rfl,
      n1, n4, e1, e4, ?_⟩
    intro hal hfresh
    have hin2 : ¬ (hash_t (hash_ssn (hash_table_create_entry pdu.ssn pdu.name pdu.email).ssn) <
        table.minHash ∨
        hash_t (hash_ssn (hash_table_create_entry pdu.ssn pdu.name pdu.email).ssn) >
          table.maxHash) := by
      rw [hssn]; exact hin
    obtain ⟨-, l2, l3, -⟩ := hash_table_insert_laws hash_ssn table
      (hash_table_create_entry pdu.ssn pdu.name pdu.email) none hal hin2
      (by rw [hssn]; exact hfresh)
    rw [hssn] at l2 l3
    refine ⟨l2, ?_⟩
    intro a2 q htab2 hlast2 htq hq
    obtain ⟨h1, h2, h3, h4, h5, h6, h7, h8⟩ := hstored
    have hn : strlen (hash_table_create_entry pdu.ssn pdu.name pdu.email).name =
        (hash_table_create_entry pdu.ssn pdu.name pdu.email).name.length := by
      unfold strlen
      rw [c_string_of_no_zero _ h5]
    have he : strlen (hash_table_create_entry pdu.ssn pdu.name pdu.email).email =
        (hash_table_create_entry pdu.ssn pdu.name pdu.email).email.length := by
      unfold strlen
      rw [c_string_of_no_zero _ h8]
    have hq2 := Q9_lookup_hit K hash_ssn a2 q _ hK hlast2 htq htab2
      (hash_table_create_entry pdu.ssn pdu.name pdu.email) (by rw [hq]; exact l3) h1 h2
      (by rw [hn]; omega) h4 (by rw [he]; omega) h7
    rw [hn, he, c_string_of_no_zero _ h5, c_string_of_no_zero _ h8, hssn] at hq2
    exact hq2
  · intro hout
    obtain ⟨-, hl, hb, hn, hnl, hnb, he, hel, heb⟩ := hs
    refine ⟨?_, hnl, hel⟩
    rw [Q9_forward_val_insert K hash_ssn a pdu table hlast ht htab hl hout,
      serialize_val_insert_pdu_take _ pdu (by simp)
        ⟨by rw [ht]; exact hK.1 K.VAL_INSERT (by simp [pdu_types.all]), hl, hb, hn, hnl, hnb,
          he, hel, heb⟩, ht]

set_option maxRecDepth 100000 in
/-- Witness of C39: the sample node with an empty table over [140, 150] handles the
VAL_INSERT of the sample ssn with the name bytes [82, 0, 108, 102] and the email
[7]: the record stored has the name [82]. -/
theorem zero_bytes_cut_stored_strings_witness :
    ∃ (e : hash_table_entry) (t2 : hash_table),
      Q9_handler sample_types sum_hash
        { sample_node with
          table := some (hash_table_create 140 150)
          lastPdu := some (.val_insert ⟨100, example_ssn, 4, [82, 0, 108, 102], 1, [7]⟩) } =
        some (states.Q6,
          { sample_node with
            table := some t2
            lastPdu := some (.val_insert ⟨100, example_ssn, 4, [82, 0, 108, 102], 1, [7]⟩) }) ∧
      t2.bucket_of 149 = [e] ∧ e.name = [82] ∧ e.email = [7] :=
  ((zero_bytes_cut_stored_strings sample_types sum_hash
    { sample_node with
      table := some (hash_table_create 140 150)
      lastPdu := some (.val_insert ⟨100, example_ssn, 4, [82, 0, 108, 102], 1, [7]⟩) }
    ⟨100, example_ssn, 4, [82, 0, 108, 102], 1, [7]⟩ (hash_table_create 140 150)
    (by decide) (by decide) rfl rfl rfl).1 (by decide)).elim
    (fun e h1 => h1.elim (fun t2 h2 =>
      ⟨e, t2, h2.1,
        ((h2.2.2.2.2.2.2.2.2.2 (by decide) (by decide)).1).trans
          (show (hash_table_create 140 150).bucket_of 149 ++ [e] = [e] from rfl),
        h2.2.2.2.1.trans (by decide), h2.2.2.2.2.1.trans (by decide)⟩))

end P2P
